import Mathlib

/-!
# The AMQP 1.0 connection driver of qpid (`ConnectionContext.cpp`)

A shallow embedding of `qpid::messaging::amqp::ConnectionContext`.

* The driver's members are the fields of the record `ConnectionContext`.
* A member function is a state transformer `M α`: from the state before the
  call to the outcome of the call (a returned value, a raised exception, or
  `stuck` when the fuel of a loop ran out while the thread was still blocked)
  and the state after it.
* The protocol engine (proton), the transport and the peer are external.  The
  engine's objects are tables of records (`Engine`); what the I/O thread and the
  peer do while the calling thread is parked in `lock.wait()` is given by an
  environment `Env`, whose `wake k` is the change they make to the shared part
  of the state (`World`) during the `k`-th wait.
* Calls to external collaborators that the properties talk about
  (`transport->connect`, `usleep`, ...) are recorded in the log `calls`.
-/

set_option autoImplicit false

namespace qpid

/-! ## Exceptions -/

/-- The exception classes thrown or caught in `ConnectionContext.cpp`, each with the
text it carries.  `qpid::TransportFailure` (caught in `restartSessions`) and
`qpid::messaging::TransportFailure` (thrown by `check` and `throwConnectFail`)
are two classes. -/
inductive Exc where
  | MessagingException (text : String)
  | KeyError (text : String)
  | ConnectionError (text : String)
  | TransportFailure (text : String)
  | SessionError (text : String)
  | SessionClosed
  | LinkError (text : String)
  | NotFound (text : String)
  | UnauthorizedAccess (text : String)
  | MessageRejected (text : String)
  | AuthenticationFailure (text : String)
  | QpidTransportFailure (text : String)
  | StdException (text : String)
  deriving DecidableEq, Repr

/-- How a call ends: it returns `a`, it throws `e`, or (`stuck`) the fuel given to
its loops is used up while it is still waiting. -/
inductive Outcome (α : Type) where
  | ret (a : α)
  | raise (e : Exc)
  | stuck
  deriving DecidableEq, Repr

/-! ## The protocol engine (proton), at its boundary -/

/-- One half of `pn_state_t`: an endpoint is uninitialised, active or closed. -/
inductive EpState where
  | UNINIT
  | ACTIVE
  | CLOSED
  deriving DecidableEq, Repr

/-- The bit of `pn_state_t` for the local half. -/
def EpState.localBit : EpState → Nat
  | .UNINIT => 1
  | .ACTIVE => 2
  | .CLOSED => 4

/-- The bit of `pn_state_t` for the remote half. -/
def EpState.remoteBit : EpState → Nat
  | .UNINIT => 8
  | .ACTIVE => 16
  | .CLOSED => 32

def PN_LOCAL_UNINIT : Nat := 1
def PN_LOCAL_ACTIVE : Nat := 2
def PN_LOCAL_CLOSED : Nat := 4
def PN_REMOTE_UNINIT : Nat := 8
def PN_REMOTE_ACTIVE : Nat := 16
def PN_REMOTE_CLOSED : Nat := 32

/-- `REQUIRES_CLOSE = PN_LOCAL_ACTIVE | PN_REMOTE_CLOSED`. -/
def REQUIRES_CLOSE : Nat := PN_LOCAL_ACTIVE ||| PN_REMOTE_CLOSED

/-- `IS_CLOSED = PN_LOCAL_CLOSED | PN_REMOTE_CLOSED`. -/
def IS_CLOSED : Nat := PN_LOCAL_CLOSED ||| PN_REMOTE_CLOSED

/-- A `pn_condition_t` that is set: a name and a description. -/
structure Condition where
  name : String
  description : String
  deriving DecidableEq, Repr

/-- The endpoint part of a proton connection, session or link: the local and the
remote state and the remote condition (`none` when `pn_condition_is_set` is
false). -/
structure Endpoint where
  loc : EpState
  rem : EpState
  cond : Option Condition
  deriving DecidableEq, Repr

/-- A new endpoint: both halves uninitialised. -/
def Endpoint.fresh : Endpoint := ⟨.UNINIT, .UNINIT, none⟩

/-- The value of `pn_connection_state`, `pn_session_state`, `pn_link_state`. -/
def Endpoint.pn_state (e : Endpoint) : Nat := e.loc.localBit ||| e.rem.remoteBit

/-- The calls `pn_connection_open`, `pn_session_open`, `pn_link_open`. -/
def Endpoint.open (e : Endpoint) : Endpoint := { e with loc := .ACTIVE }

/-- The calls `pn_connection_close`, `pn_session_close`, `pn_link_close`. -/
def Endpoint.close (e : Endpoint) : Endpoint := { e with loc := .CLOSED }

/-- An incoming delivery on a receiving link: its payload. -/
structure Incoming where
  payload : String
  deriving DecidableEq, Repr

/-- A proton link.  `credit` is `pn_link_credit`; `incoming` are the deliveries
that have arrived and that the link has not advanced past, oldest first, so
`pn_link_queued` is its length and `pn_link_current` its head; `released`
are the deliveries updated to `PN_RELEASED` and settled by the driver. -/
structure PnLink where
  ep : Endpoint
  name : String
  session : Nat
  credit : Int
  drain : Bool
  incoming : List Incoming
  released : List Incoming
  deriving DecidableEq, Repr

/-- A proton session. -/
structure PnSession where
  ep : Endpoint
  deriving DecidableEq, Repr

/-- An outgoing delivery as the engine sees it: whether the peer has reported an
outcome, whether that outcome is a rejection, and whether it is settled. -/
structure PnDelivery where
  delivered : Bool
  rejected : Bool
  settled : Bool
  deriving DecidableEq, Repr

/-- The pair `engine` (`pn_transport_t`) and `connection` (`pn_connection_t`)
with the objects created on them.  Sessions, links and deliveries are referred
to by their index in these tables. -/
structure Engine where
  conn : Endpoint
  sessions : List PnSession
  links : List PnLink
  deliveries : List PnDelivery
  pending : Nat
  idleTimeout : Nat
  remoteIdleTimeout : Nat
  deriving DecidableEq, Repr

/-- The result of `pn_transport()` and `pn_connection()`: nothing created yet. -/
def Engine.fresh : Engine := ⟨Endpoint.fresh, [], [], [], 0, 0, 0⟩

instance : Inhabited Endpoint := ⟨Endpoint.fresh⟩
instance : Inhabited PnSession := ⟨⟨Endpoint.fresh⟩⟩
instance : Inhabited PnLink := ⟨⟨Endpoint.fresh, "", 0, 0, false, [], []⟩⟩
instance : Inhabited PnDelivery := ⟨⟨false, false, false⟩⟩

/-- Replace the element at index `i` of a table by `f` of it. -/
def modifyAt {α : Type} (f : α → α) : Nat → List α → List α
  | _, [] => []
  | 0, a :: as => f a :: as
  | i + 1, a :: as => a :: modifyAt f i as

def Engine.session (g : Engine) (h : Nat) : PnSession := g.sessions.getD h default
def Engine.link (g : Engine) (h : Nat) : PnLink := g.links.getD h default
def Engine.delivery (g : Engine) (h : Nat) : PnDelivery := g.deliveries.getD h default

/-- The call `pn_session_state(s)`. -/
def Engine.pn_session_state (g : Engine) (h : Nat) : Nat := (g.session h).ep.pn_state
/-- The call `pn_link_state(l)`. -/
def Engine.pn_link_state (g : Engine) (h : Nat) : Nat := (g.link h).ep.pn_state
/-- The call `pn_connection_state(connection)`. -/
def Engine.pn_connection_state (g : Engine) : Nat := g.conn.pn_state
/-- The call `pn_link_credit(l)`. -/
def Engine.pn_link_credit (g : Engine) (h : Nat) : Int := (g.link h).credit
/-- The call `pn_link_queued(l)`. -/
def Engine.pn_link_queued (g : Engine) (h : Nat) : Nat := (g.link h).incoming.length
/-- The call `pn_link_current(l)`. -/
def Engine.pn_link_current (g : Engine) (h : Nat) : Option Incoming := (g.link h).incoming.head?

/-- The call `pn_session(connection)`: a new session; returns its handle. -/
def Engine.pn_session (g : Engine) : Nat × Engine :=
  (g.sessions.length, { g with sessions := g.sessions ++ [⟨Endpoint.fresh⟩] })

/-- The calls `pn_sender(session, name)` and `pn_receiver(session, name)`: a new
link on the session; returns its handle. -/
def Engine.pn_link (g : Engine) (session : Nat) (name : String) : Nat × Engine :=
  (g.links.length,
   { g with links := g.links ++ [⟨Endpoint.fresh, name, session, 0, false, [], []⟩] })

def Engine.modifySession (g : Engine) (h : Nat) (f : PnSession → PnSession) : Engine :=
  { g with sessions := modifyAt f h g.sessions }

def Engine.modifyLink (g : Engine) (h : Nat) (f : PnLink → PnLink) : Engine :=
  { g with links := modifyAt f h g.links }

/-- The call `pn_session_open(s)`. -/
def Engine.pn_session_open (g : Engine) (h : Nat) : Engine :=
  g.modifySession h fun s => { s with ep := s.ep.open }
/-- The call `pn_session_close(s)`. -/
def Engine.pn_session_close (g : Engine) (h : Nat) : Engine :=
  g.modifySession h fun s => { s with ep := s.ep.close }
/-- The call `pn_link_open(l)`. -/
def Engine.pn_link_open (g : Engine) (h : Nat) : Engine :=
  g.modifyLink h fun l => { l with ep := l.ep.open }
/-- The call `pn_link_close(l)`. -/
def Engine.pn_link_close (g : Engine) (h : Nat) : Engine :=
  g.modifyLink h fun l => { l with ep := l.ep.close }
/-- The call `pn_connection_open(connection)`. -/
def Engine.pn_connection_open (g : Engine) : Engine := { g with conn := g.conn.open }
/-- The call `pn_connection_close(connection)`. -/
def Engine.pn_connection_close (g : Engine) : Engine := { g with conn := g.conn.close }
/-- The call `pn_link_flow(l, n)`: `n` more units of credit. -/
def Engine.pn_link_flow (g : Engine) (h : Nat) (n : Int) : Engine :=
  g.modifyLink h fun l => { l with credit := l.credit + n }
/-- The call `pn_link_drain(l, n)`: drain mode, and `n` more units of credit. -/
def Engine.pn_link_drain (g : Engine) (h : Nat) (n : Int) : Engine :=
  g.modifyLink h fun l => { l with drain := true, credit := l.credit + n }
/-- The call `pn_link_advance(l)` on a receiver: past the current delivery, which
used one unit of credit. -/
def Engine.pn_link_advance (g : Engine) (h : Nat) : Engine :=
  g.modifyLink h fun l =>
    match l.incoming with
    | [] => l
    | _ :: rest => { l with incoming := rest, credit := l.credit - 1 }
/-- The calls `pn_delivery_update(d, PN_RELEASED); pn_delivery_settle(d)`. -/
def Engine.releaseAndSettle (g : Engine) (h : Nat) (d : Incoming) : Engine :=
  g.modifyLink h fun l => { l with released := l.released ++ [d] }

/-! ## The driver's objects -/

/-- An address of a URL. -/
structure Address where
  protocol : String
  host : String
  port : Nat
  deriving DecidableEq, Repr

/-- A URL: candidate addresses in order, and optional credentials. -/
structure Url where
  addrs : List Address
  user : String
  pass : String
  deriving DecidableEq, Repr

/-- A message handed to or returned by the driver. -/
structure Message where
  payload : String
  internalId : Nat
  deriving DecidableEq, Repr

/-- Modelled from the spec: the class `SenderContext::Delivery` (its file is not
among the sources), a record of an in-flight delivery, "created when a send is
accepted into the engine; mutated to delivered/rejected by an engine-driven
event".  `token` is the engine's delivery, `none` between a reset of the engine
and the resending of the delivery. -/
structure Delivery where
  id : Nat
  token : Option Nat
  deriving DecidableEq, Repr

/-- Modelled from the spec: the members of `SenderContext` (its file is not among
the sources): "target address, capacity (window size, ≥0), ordered queue of
in-flight Delivery records, underlying engine link handle". -/
structure SenderContext where
  name : String
  target : String
  capacity : Nat
  deliveries : List Delivery
  nextId : Nat
  sender : Nat
  deriving DecidableEq, Repr

/-- Modelled from the spec: the members of `ReceiverContext` (its file is not among
the sources): "source address, capacity (credit window, ≥0), count of fetch
calls currently in progress, underlying engine link handle". -/
structure ReceiverContext where
  name : String
  source : String
  capacity : Nat
  fetching : Nat
  receiver : Nat
  deriving DecidableEq, Repr

/-- A `std::map` keyed by name, kept in key order; the values are handles of the
objects the `shared_ptr`s point to. -/
abbrev NameMap := List (String × Nat)

/-- The call `m.find(k)`: `none` stands for `m.end()`. -/
def NameMap.find (m : NameMap) (k : String) : Option Nat := m.lookup k

/-- The assignment `m[k] = v`: replaces the value at `k` or inserts in key order. -/
def NameMap.insert (k : String) (v : Nat) : NameMap → NameMap
  | [] => [(k, v)]
  | (k1, v1) :: t =>
    if k < k1 then (k, v) :: (k1, v1) :: t
    else if k = k1 then (k, v) :: t
    else (k1, v1) :: NameMap.insert k v t

/-- The call `m.erase(k)`. -/
def NameMap.erase (m : NameMap) (k : String) : NameMap := m.filter fun p => p.1 != k

/-- Modelled from the spec: the members of `SessionContext` (its file is not among
the sources): "unique name, underlying engine session handle, mapping from link
name to Sender, mapping from link name to Receiver"; `unacked` and `nextId`
are the deliveries recorded by `record` and the next id it gives. -/
structure SessionContext where
  name : String
  session : Nat
  senders : NameMap
  receivers : NameMap
  unacked : List (Nat × Incoming)
  nextId : Nat
  deriving DecidableEq, Repr

instance : Inhabited SessionContext := ⟨⟨"", 0, [], [], [], 0⟩⟩
instance : Inhabited SenderContext := ⟨⟨"", "", 0, [], 0, 0⟩⟩
instance : Inhabited ReceiverContext := ⟨⟨"", "", 0, 0, 0⟩⟩

/-- The member `state`. -/
inductive ConnectionState where
  | DISCONNECTED
  | CONNECTING
  | CONNECTED
  deriving DecidableEq, Repr

/-- The part of the driver's state that the I/O thread (through `opened`,
`closed`, `decode`, `encode`) and, through it, the peer change while the calling
thread has released the monitor: the member `state`, the engine and the
connection with all their objects, `haveOutput`, and whether the authenticator
reports `authenticated()`. -/
structure World where
  state : ConnectionState
  engine : Engine
  haveOutput : Bool
  authenticated : Bool
  deriving DecidableEq, Repr

/-- A call to an external collaborator, or the entry of a round of connection
attempts, recorded in the order made. -/
inductive Call where
  | tryConnectUrl (url : Url)
  | connect (a : Address)
  | usleep (seconds : ℚ)
  | reset
  | activateOutput
  | transportClose
  | tickerStart (interval : Nat)
  | tickerCancel
  | resend (sender : Nat)
  deriving DecidableEq, Repr

/-- The members of `ConnectionContext` and of its base `ConnectionOptions` that
the driver's operations use.  `ssnObjs`, `sndObjs` and `rcvObjs` hold the
objects that the `shared_ptr`s point to, a pointer being an index.  The last
six fields are bookkeeping: the calls made so far, the number of waits,
connects, clock readings and generated names so far (the index of the
environment's next answer) and the last clock reading. -/
structure ConnectionContext where
  reconnect : Bool
  timeout : ℚ
  limit : Int
  minReconnectInterval : ℚ
  maxReconnectInterval : ℚ
  retries : Int
  heartbeat : Nat
  mechanism : String
  username : String
  password : String
  fullUrl : Url
  currentUrl : Url
  io : World
  notifyOnWrite : Bool
  sessions : NameMap
  ssnObjs : List SessionContext
  sndObjs : List SenderContext
  rcvObjs : List ReceiverContext
  transport : Option Address
  driver : Bool
  sasl : Bool
  ticker : Option Nat
  id : String
  calls : List Call
  waits : Nat
  connects : Nat
  reads : Nat
  uuids : Nat
  clock : Nat
  deriving DecidableEq, Repr

/-- What is outside the calling thread.  `wake k` is the change the I/O thread
and the peer make to the shared state during the `k`-th `lock.wait()`;
`connectThrows k a` is the exception text when the `k`-th `transport->connect`
(to `a`) throws; `elapse k` is the time (ns) that passes before the `k`-th
reading of the clock; `uuid k` is the `k`-th generated name; `verifyFails` is
the exception `SenderContext::verify` or `ReceiverContext::verify` raises for a
link, `recvFails` whether `pn_link_recv` fails on it, and
`wakeupToIssueCredit` the answer of `ReceiverContext::wakeupToIssueCredit`
(these three are members of classes whose files are not among the sources). -/
structure Env where
  wake : Nat → World → World
  connectThrows : Nat → Address → Option String
  elapse : Nat → Nat
  uuid : Nat → String
  verifyFails : Engine → Nat → Option Exc
  recvFails : Engine → Nat → Bool
  wakeupToIssueCredit : ReceiverContext → Bool

/-! ## Operations as state transformers -/

/-- A member function returning `α`. -/
def M (α : Type) : Type := ConnectionContext → Outcome α × ConnectionContext

namespace M

/-- Return normally. -/
def pure {α : Type} (a : α) : M α := fun s => (.ret a, s)

/-- Sequencing: an exception or a stuck wait ends the call. -/
def bind {α β : Type} (m : M α) (f : α → M β) : M β := fun s =>
  match m s with
  | (.ret a, s1) => f a s1
  | (.raise e, s1) => (.raise e, s1)
  | (.stuck, s1) => (.stuck, s1)

instance : Monad M where
  pure := M.pure
  bind := M.bind

/-- The statement `throw e`. -/
def raise {α : Type} (e : Exc) : M α := fun s => (.raise e, s)

/-- The fuel of a loop is used up while the thread is still waiting. -/
def stuck {α : Type} : M α := fun s => (.stuck, s)

/-- Read the members. -/
def get : M ConnectionContext := fun s => (.ret s, s)

/-- Change the members. -/
def modify (f : ConnectionContext → ConnectionContext) : M Unit := fun s => (.ret (), f s)

/-- A block `try m catch (e) handler` for the exceptions `catches` accepts. -/
def tryCatch {α : Type} (m : M α) (catches : Exc → Bool) (handler : Exc → M α) : M α := fun s =>
  match m s with
  | (.raise e, s1) => if catches e then handler e s1 else (.raise e, s1)
  | r => r

/-- The statement `if (c) body` (without `else`). -/
def when (c : Prop) [Decidable c] (body : M Unit) : M Unit := if c then body else M.pure ()

/-- A condition that only reads the state. -/
def test (c : ConnectionContext → Bool) : M Bool := fun s => (.ret (c s), s)

/-- The statement `for (i in xs) body(i)`. -/
def forEach {α : Type} (body : α → M Unit) : List α → M Unit
  | [] => M.pure ()
  | a :: as => M.bind (body a) fun _ => forEach body as

/-- The statement `while (cond) body`, for at most `fuel` rounds of `body`; it is
`stuck` when `cond` still holds after them. -/
def loop (cond : M Bool) (body : M Unit) : Nat → M Unit
  | 0 => M.bind cond fun c => if c then M.stuck else M.pure ()
  | fuel + 1 => M.bind cond fun c =>
      if c then M.bind body fun _ => loop cond body fuel else M.pure ()

end M

namespace ConnectionContext

/-! ### Reading the objects behind the pointers -/

def ssn (s : ConnectionContext) (p : Nat) : SessionContext := s.ssnObjs.getD p default
def snd (s : ConnectionContext) (p : Nat) : SenderContext := s.sndObjs.getD p default
def rcv (s : ConnectionContext) (p : Nat) : ReceiverContext := s.rcvObjs.getD p default

/-- Apply an engine call. -/
def onEngine (f : Engine → Engine) : M Unit :=
  M.modify fun s => { s with io := { s.io with engine := f s.io.engine } }

/-- Record a call to a collaborator. -/
def call (c : Call) : M Unit := M.modify fun s => { s with calls := s.calls ++ [c] }

/-- The call `lock.wait()` (also with a deadline): the monitor is released and the
I/O thread makes its `waits`-th change to the shared state. -/
def lockWait (E : Env) : M Unit :=
  M.modify fun s => { s with io := E.wake s.waits s.io, waits := s.waits + 1 }

/-- The call `qpid::sys::now()`: the clock never goes back. -/
def now (E : Env) : M Nat := fun s =>
  (.ret (s.clock + E.elapse s.reads),
   { s with clock := s.clock + E.elapse s.reads, reads := s.reads + 1 })

/-- The member function `wakeupDriver`. -/
def wakeupDriver : M Unit := do
  let s ← M.get
  match s.io.state with
  | .CONNECTED =>
    M.modify fun s => { s with io := { s.io with haveOutput := true } }
    call .activateOutput
  | .DISCONNECTED => pure ()
  | .CONNECTING => pure ()

/-- The member function `configureConnection`: of what it sets, the idle timeout
(twice the heartbeat, in ms) is kept. -/
def configureConnection : M Unit := do
  let s ← M.get
  M.when (s.heartbeat ≠ 0) (onEngine fun g => { g with idleTimeout := s.heartbeat * 2 * 1000 })

/-- Modelled from the spec: `SenderContext::reset` (its file is not among the
sources): the sender gets a link of the new engine session, and its in-flight
deliveries lose their engine delivery. -/
def SenderContext.reset (session : Nat) (p : Nat) : M Unit :=
  M.modify fun s =>
    let r := s.io.engine.pn_link session (s.snd p).name
    let renew : SenderContext → SenderContext := fun o =>
      { o with sender := r.1, deliveries := o.deliveries.map fun d => { d with token := none } }
    { s with io := { s.io with engine := r.2 }, sndObjs := modifyAt renew p s.sndObjs }

/-- Modelled from the spec: `ReceiverContext::reset` (its file is not among the
sources): the receiver gets a link of the new engine session. -/
def ReceiverContext.reset (session : Nat) (p : Nat) : M Unit :=
  M.modify fun s =>
    let r := s.io.engine.pn_link session (s.rcv p).name
    { s with io := { s.io with engine := r.2 },
             rcvObjs := modifyAt (fun o => { o with receiver := r.1 }) p s.rcvObjs }

/-- Modelled from the spec: `SessionContext::reset(connection)` (its file is not
among the sources): after the engine and the connection are "replaced
wholesale", the session gets a session of the new connection and each of its
senders and receivers a link on it. -/
def SessionContext.reset (p : Nat) : M Unit := do
  M.modify fun s =>
    let r := s.io.engine.pn_session
    { s with io := { s.io with engine := r.2 },
             ssnObjs := modifyAt (fun o => { o with session := r.1, unacked := [] }) p s.ssnObjs }
  let s ← M.get
  M.forEach (fun i => SenderContext.reset (s.ssn p).session i.2) (s.ssn p).senders
  M.forEach (fun i => ReceiverContext.reset (s.ssn p).session i.2) (s.ssn p).receivers

/-- The member function `reset`. -/
def reset : M Unit := do
  call .reset
  onEngine fun _ => Engine.fresh
  configureConnection
  let s ← M.get
  M.forEach (fun i => SessionContext.reset i.2) s.sessions

/-- The text of the exception for a close by the peer: `what`, with the name and
the description of the peer's condition when it is set. -/
def closedText (what : String) (cond : Option Condition) : String :=
  match cond with
  | some c => what ++ " with " ++ c.name ++ ": " ++ c.description
  | none => what

/-- The branch of `checkDisconnected` for a state other than `DISCONNECTED`. -/
def checkConnectionClosed : M Unit := do
  let s ← M.get
  M.when (s.io.engine.pn_connection_state &&& REQUIRES_CLOSE = REQUIRES_CLOSE) do
    onEngine Engine.pn_connection_close
    M.raise (.ConnectionError (closedText "Connection closed by peer" s.io.engine.conn.cond))

/-- The member function `checkDisconnected`. -/
def checkDisconnected : M Bool := do
  let s ← M.get
  (if s.io.state = .DISCONNECTED then reset else checkConnectionClosed : M Unit)
  let s ← M.get
  pure (decide (s.io.state = .DISCONNECTED))

/-- The member function `check`; `autoconnect` is the member function of that
name (defined below, with the fuel left for it). -/
def check (autoconnect : M Unit) : M Unit := do
  let disconnected ← checkDisconnected
  let s ← M.get
  if disconnected then
    if s.reconnect then
      autoconnect
    else
      M.raise (.TransportFailure "Disconnected (reconnect disabled)")
  else
    pure ()

/-- The member function `wait()`. -/
def wait (E : Env) (autoconnect : M Unit) : M Unit := do
  check autoconnect
  lockWait E
  check autoconnect

/-- The member function `waitUntil(until)`. -/
def waitUntil (E : Env) (autoconnect : M Unit) : M Unit := do
  lockWait E
  check autoconnect

/-- The member function `checkClosed(ssn)`. -/
def checkClosedSsn (autoconnect : M Unit) (ssn : Nat) : M Unit := do
  check autoconnect
  let s ← M.get
  let h := (s.ssn ssn).session
  if s.io.engine.pn_session_state h &&& REQUIRES_CLOSE = REQUIRES_CLOSE then
    onEngine fun g => g.pn_session_close h
    M.raise (.SessionError (closedText "Session ended by peer" (s.io.engine.session h).ep.cond))
  else if s.io.engine.pn_session_state h &&& IS_CLOSED = IS_CLOSED then
    M.raise .SessionClosed
  else
    pure ()

/-- The constant `qpid::amqp::error_conditions::NOT_FOUND`. -/
def NOT_FOUND : String := "amqp:not-found"
/-- The constant `qpid::amqp::error_conditions::UNAUTHORIZED_ACCESS`. -/
def UNAUTHORIZED_ACCESS : String := "amqp:unauthorized-access"

/-- The name of the peer's condition, empty when it is not set (the variable
`name` of `checkClosed(ssn, lnk)`). -/
def conditionName (cond : Option Condition) : String :=
  match cond with
  | some c => c.name
  | none => ""

/-- The member function `checkClosed(ssn, pn_link_t* lnk)`. -/
def checkClosedLink (autoconnect : M Unit) (ssn : Nat) (lnk : Nat) : M Unit := do
  checkClosedSsn autoconnect ssn
  let s ← M.get
  if s.io.engine.pn_link_state lnk &&& REQUIRES_CLOSE = REQUIRES_CLOSE then
    let cond := (s.io.engine.link lnk).ep.cond
    onEngine fun g => g.pn_link_close lnk
    if conditionName cond = NOT_FOUND then
      M.raise (.NotFound (closedText "Link detached by peer" cond))
    else if conditionName cond = UNAUTHORIZED_ACCESS then
      M.raise (.UnauthorizedAccess (closedText "Link detached by peer" cond))
    else
      M.raise (.LinkError (closedText "Link detached by peer" cond))
  else if s.io.engine.pn_link_state lnk &&& IS_CLOSED = IS_CLOSED then
    M.raise (.LinkError "Link is not attached")
  else
    pure ()

/-- The member function `checkClosed(ssn, receiver)`. -/
def checkClosedRcv (autoconnect : M Unit) (ssn : Nat) (lnk : Nat) : M Unit := do
  let s ← M.get
  checkClosedLink autoconnect ssn (s.rcv lnk).receiver

/-- The member function `checkClosed(ssn, sender)`. -/
def checkClosedSnd (autoconnect : M Unit) (ssn : Nat) (lnk : Nat) : M Unit := do
  let s ← M.get
  checkClosedLink autoconnect ssn (s.snd lnk).sender

/-- The member function `wait(ssn)`. -/
def waitSsn (E : Env) (autoconnect : M Unit) (ssn : Nat) : M Unit := do
  wait E autoconnect
  checkClosedSsn autoconnect ssn

/-- The member function `wait(ssn, receiver)`. -/
def waitRcv (E : Env) (autoconnect : M Unit) (ssn : Nat) (lnk : Nat) : M Unit := do
  wait E autoconnect
  checkClosedRcv autoconnect ssn lnk

/-- The member function `wait(ssn, sender)`. -/
def waitSnd (E : Env) (autoconnect : M Unit) (ssn : Nat) (lnk : Nat) : M Unit := do
  wait E autoconnect
  checkClosedSnd autoconnect ssn lnk

/-- The member function `waitUntil(ssn, receiver, until)`. -/
def waitUntilRcv (E : Env) (autoconnect : M Unit) (ssn : Nat) (lnk : Nat) : M Unit := do
  waitUntil E autoconnect
  checkClosedRcv autoconnect ssn lnk

/-! ### The callbacks of the transport -/

/-- The member function `opened()`, which the transport calls on the I/O thread
when the connection is established: `state = CONNECTED`. -/
def opened (w : World) : World := { w with state := .CONNECTED }

/-- The member function `closed()`, which the transport calls on the I/O thread
when the connection is closed or has failed: `state = DISCONNECTED`. -/
def closed (w : World) : World := { w with state := .DISCONNECTED }

/-! ### Sessions -/

/-- The test `pn_session_state(s->session) & PN_REMOTE_UNINIT` for the session
object `p`. -/
def sessionRemoteUninit (p : Nat) : M Bool :=
  M.test fun s => decide (s.io.engine.pn_session_state (s.ssn p).session &&& PN_REMOTE_UNINIT ≠ 0)

/-- The constructor `new SessionContext(connection)` followed by `setName(name)`:
a new object; returns the pointer to it. -/
def newSessionContext (name : String) : M Nat := fun s =>
  (.ret s.ssnObjs.length, { s with ssnObjs := s.ssnObjs ++ [⟨name, 0, [], [], [], 0⟩] })

/-- The expression `n.empty() ? qpid::framing::Uuid(true).str() : n`. -/
def sessionName (E : Env) (n : String) : M String := fun s =>
  if n.isEmpty then (.ret (E.uuid s.uuids), { s with uuids := s.uuids + 1 }) else (.ret n, s)

/-- The statements `s->session = pn_session(connection); pn_session_open(s->session);`
for the session object `p`. -/
def openEngineSession (p : Nat) : M Unit :=
  M.modify fun s =>
    let r := s.io.engine.pn_session
    { s with io := { s.io with engine := r.2.pn_session_open r.1 },
             ssnObjs := modifyAt (fun o => { o with session := r.1 }) p s.ssnObjs }

/-- The member function `newSession(transactional, n)`. -/
def newSessionWith (E : Env) (autoconnect : M Unit) (fuel : Nat)
    (transactional : Bool) (n : String) : M Nat := do
  M.when transactional (M.raise (.MessagingException "Transactions not yet supported"))
  let name ← sessionName E n
  let s ← M.get
  match s.sessions.find name with
  | none =>
    let p ← newSessionContext name
    openEngineSession p
    wakeupDriver
    M.loop (sessionRemoteUninit p) (wait E autoconnect) fuel
    M.modify fun s => { s with sessions := NameMap.insert name p s.sessions }
    pure p
  | some _ =>
    M.raise (.KeyError ("Session already exists: " ++ name))

/-- The member function `getSession(name)`. -/
def getSession (name : String) : M Nat := do
  let s ← M.get
  match s.sessions.find name with
  | none => M.raise (.KeyError ("No such session" ++ name))
  | some p => pure p

/-- Whether the engine reports the in-flight delivery `d` settled. -/
def Delivery.settled (g : Engine) (d : Delivery) : Bool :=
  match d.token with
  | some t => (g.delivery t).settled
  | none => false

/-- Modelled from the spec: `SessionContext::settled` (its file is not among the
sources): no in-flight delivery of a sender of the session is unsettled
("waits for all sends to settle"). -/
def SessionContext.settled (s : ConnectionContext) (p : Nat) : Bool :=
  (s.ssn p).senders.all fun i => (s.snd i.2).deliveries.all fun d => Delivery.settled s.io.engine d

/-- The constant `qpid::sys::TIME_MSEC` (ns). -/
def TIME_MSEC : Nat := 1000 * 1000
/-- The constant `qpid::sys::TIME_SEC` (ns). -/
def TIME_SEC : Nat := 1000 * 1000 * 1000
/-- The constant `qpid::sys::TIME_INFINITE`, also the time `FAR_FUTURE`. -/
def TIME_INFINITE : Nat := 2 ^ 63 - 1

/-- The loop of `drain_and_release_messages` that releases the deliveries not
yet fetched: `for (d = pn_link_current(l); d; d = pn_link_current(l))`. -/
def releaseUnfetched (lnk : Nat) : Nat → M Unit
  | 0 => do
    match (← M.get).io.engine.pn_link_current lnk with
    | none => pure ()
    | some _ => M.stuck
  | fuel + 1 => do
    match (← M.get).io.engine.pn_link_current lnk with
    | none => pure ()
    | some d =>
      onEngine fun g => g.pn_link_advance lnk
      onEngine fun g => g.releaseAndSettle lnk d
      releaseUnfetched lnk fuel

/-- The condition `pn_link_credit(l) > pn_link_queued(l) && until > now()` of the
loop of `drain_and_release_messages`. -/
def drainPending (E : Env) (lnk : Nat) (deadline : Nat) : M Bool := do
  let s ← M.get
  if s.io.engine.pn_link_credit (s.rcv lnk).receiver
      > s.io.engine.pn_link_queued (s.rcv lnk).receiver then
    let t ← now E
    pure (decide (deadline > t))
  else
    pure false

/-- The member function `drain_and_release_messages(ssn, lnk)`. -/
def drain_and_release_messages (E : Env) (autoconnect : M Unit) (fuel : Nat)
    (ssn : Nat) (lnk : Nat) : M Unit := do
  let s ← M.get
  onEngine fun g => g.pn_link_drain (s.rcv lnk).receiver 0
  wakeupDriver
  let t ← now E
  M.loop (drainPending E lnk (t + TIME_SEC * 2)) (waitUntilRcv E autoconnect ssn lnk) fuel
  let s ← M.get
  releaseUnfetched (s.rcv lnk).receiver (s.io.engine.pn_link_queued (s.rcv lnk).receiver)

/-- The loop `while (!ssn->settled()) { wait(ssn); wakeupDriver(); }` of
`endSession` and `sync`. -/
def waitSettled (E : Env) (autoconnect : M Unit) (fuel : Nat) (ssn : Nat) : M Unit :=
  M.loop (M.test fun s => !SessionContext.settled s ssn)
    (do waitSsn E autoconnect ssn; wakeupDriver) fuel

/-- The first block of `endSession`, for a session the peer has active: the
unfetched messages are released and the sends settle. -/
def endSessionDrain (E : Env) (autoconnect : M Unit) (fuel : Nat) (ssn : Nat) : M Unit := do
  let s ← M.get
  M.when (s.io.engine.pn_session_state (s.ssn ssn).session &&& PN_REMOTE_ACTIVE ≠ 0) do
    M.forEach (fun i => drain_and_release_messages E autoconnect fuel ssn i.2) (s.ssn ssn).receivers
    waitSettled E autoconnect fuel ssn

/-- The rest of `endSession`: the session is closed, if the peer has it active,
and erased from the registry. -/
def endSessionErase (ssn : Nat) : M Unit := do
  let s ← M.get
  M.when (s.io.engine.pn_session_state (s.ssn ssn).session &&& PN_REMOTE_ACTIVE ≠ 0)
    (onEngine fun g => g.pn_session_close (s.ssn ssn).session)
  M.modify fun s => { s with sessions := s.sessions.erase (s.ssn ssn).name }
  wakeupDriver

/-- The member function `endSession(ssn)`. -/
def endSessionWith (E : Env) (autoconnect : M Unit) (fuel : Nat) (ssn : Nat) : M Unit := do
  endSessionDrain E autoconnect fuel ssn
  endSessionErase ssn

/-- The member function `sync(ssn)`. -/
def syncWith (E : Env) (autoconnect : M Unit) (fuel : Nat) (ssn : Nat) : M Unit := do
  waitSettled E autoconnect fuel ssn
  checkClosedSsn autoconnect ssn

/-! ### Closing -/

/-- The body of the loop of `close` over the sessions. -/
def closeSession (E : Env) (autoconnect : M Unit) (fuel : Nat) (ssn : Nat) : M Unit := do
  M.loop (M.test fun s => !SessionContext.settled s ssn) (waitSsn E autoconnect ssn) fuel
  let s ← M.get
  M.when (¬ (s.io.engine.pn_session_state (s.ssn ssn).session &&& PN_LOCAL_CLOSED ≠ 0))
    (onEngine fun g => g.pn_session_close (s.ssn ssn).session)

/-- The block of `close` for a connection not yet closed locally.  The loop that
waits for the peer's close,
`while (!(state & PN_REMOTE_CLOSED)) { if (state == DISCONNECTED) break; lock.wait(); }`,
is written with the `break` in its condition. -/
def closeConnection (E : Env) (autoconnect : M Unit) (fuel : Nat) : M Unit := do
  let s ← M.get
  M.when (¬ (s.io.engine.pn_connection_state &&& PN_LOCAL_CLOSED ≠ 0)) do
    M.forEach (fun i => closeSession E autoconnect fuel i.2) s.sessions
    onEngine Engine.pn_connection_close
    wakeupDriver
    M.loop
      (M.test fun s => decide (¬ (s.io.engine.pn_connection_state &&& PN_REMOTE_CLOSED ≠ 0)
        ∧ s.io.state ≠ .DISCONNECTED))
      (lockWait E) fuel
    M.modify fun s => { s with sessions := [] }

/-- The block of `close` that closes the transport and waits for `DISCONNECTED`. -/
def closeTransport (E : Env) (fuel : Nat) : M Unit := do
  let s ← M.get
  M.when (s.io.state ≠ .DISCONNECTED) do
    call .transportClose
    M.loop (M.test fun s => decide (s.io.state ≠ .DISCONNECTED)) (lockWait E) fuel

/-- The block of `close` that cancels the keep-alive ticker. -/
def cancelTicker : M Unit := do
  let s ← M.get
  M.when (s.ticker.isSome) do
    call .tickerCancel
    M.modify fun s => { s with ticker := none }

/-- The member function `close`. -/
def closeWith (E : Env) (autoconnect : M Unit) (fuel : Nat) : M Unit := do
  let s ← M.get
  if s.io.state ≠ .CONNECTED then
    pure ()
  else
    closeConnection E autoconnect fuel
    closeTransport E fuel
    cancelTicker

/-! ### Receiving -/

/-- The function `convert(timeout)`, the timeout in ms. -/
def convert (E : Env) (timeout : Nat) : M Nat := do
  if timeout < TIME_INFINITE / TIME_MSEC then
    let t ← now E
    pure (t + timeout * TIME_MSEC)
  else
    pure TIME_INFINITE

/-- Modelled from the spec: `SessionContext::record(delivery)` (its file is not
among the sources): the delivery is kept for settlement under a new id, which
is returned. -/
def SessionContext.record (p : Nat) (d : Incoming) : M Nat := fun s =>
  let keep : SessionContext → SessionContext := fun o =>
    { o with unacked := o.unacked ++ [(o.nextId, d)], nextId := o.nextId + 1 }
  (.ret (s.ssn p).nextId, { s with ssnObjs := modifyAt keep p s.ssnObjs })

/-- The block `if (lnk->capacity) { pn_link_flow(lnk->receiver, 1); ... }` of
`get`. -/
def replenish (E : Env) (lnk : Nat) : M Unit := do
  let s ← M.get
  M.when ((s.rcv lnk).capacity ≠ 0) do
    onEngine fun g => g.pn_link_flow (s.rcv lnk).receiver 1
    if E.wakeupToIssueCredit (s.rcv lnk) then
      wakeupDriver
    else
      M.modify fun s => { s with io := { s.io with haveOutput := true } }

/-- The branch `if (current)` of `get`: the message is read, recorded, and the
link advanced; the result is the message. -/
def receive (E : Env) (ssn : Nat) (lnk : Nat) (current : Incoming) : M Message := do
  let s ← M.get
  M.when (E.recvFails s.io.engine (s.rcv lnk).receiver)
    (M.raise (.MessagingException "Failed to read message"))
  let id ← SessionContext.record ssn current
  onEngine fun g => g.pn_link_advance (s.rcv lnk).receiver
  replenish E lnk
  pure ⟨current.payload, id⟩

/-- The loop `while (true)` of `get`, with the deadline `deadline` (the variable
`until`); `some m` stands for `true` with the message `m`, `none` for `false`. -/
def getLoop (E : Env) (autoconnect : M Unit) (ssn : Nat) (lnk : Nat) (deadline : Nat) :
    Nat → M (Option Message)
  | 0 => M.stuck
  | fuel + 1 => do
    checkClosedRcv autoconnect ssn lnk
    let s ← M.get
    match s.io.engine.pn_link_current (s.rcv lnk).receiver with
    | some current =>
      let m ← receive E ssn lnk current
      pure (some m)
    | none =>
      let t ← now E
      if deadline > t then
        waitUntilRcv E autoconnect ssn lnk
        getLoop E autoconnect ssn lnk deadline fuel
      else
        pure none

/-- The member function `get(ssn, lnk, message, timeout)`. -/
def get (E : Env) (autoconnect : M Unit) (fuel : Nat) (ssn : Nat) (lnk : Nat)
    (timeout : Nat) : M (Option Message) := do
  let deadline ← convert E timeout
  getLoop E autoconnect ssn lnk deadline (fuel + 1)

/-- The guard `qpid::sys::AtomicCount::ScopedIncrement track(lnk->fetching)`
around `body`: the counter is one higher during `body` and is put back when
`body` returns or throws. -/
def scopedIncrement {α : Type} (lnk : Nat) (body : M α) : M α := fun s =>
  let up : ConnectionContext → ConnectionContext := fun s =>
    { s with rcvObjs := modifyAt (fun o => { o with fetching := o.fetching + 1 }) lnk s.rcvObjs }
  let down : ConnectionContext → ConnectionContext := fun s =>
    { s with rcvObjs := modifyAt (fun o => { o with fetching := o.fetching - 1 }) lnk s.rcvObjs }
  match body (up s) with
  | (.ret a, s1) => (.ret a, down s1)
  | (.raise e, s1) => (.raise e, down s1)
  | (.stuck, s1) => (.stuck, s1)

/-- The constant `qpid::messaging::Duration::IMMEDIATE` (ms). -/
def IMMEDIATE : Nat := 0

/-- The first block of `fetch`: the checks, and one unit of credit for a receiver
without capacity. -/
def fetchCredit (autoconnect : M Unit) (ssn : Nat) (lnk : Nat) : M Unit := do
  checkClosedRcv autoconnect ssn lnk
  let s ← M.get
  M.when ((s.rcv lnk).capacity = 0) do
    onEngine fun g => g.pn_link_flow (s.rcv lnk).receiver 1
    wakeupDriver

/-- The block of `fetch` after a `get` without message: the drain request, the
wait `while (pn_link_credit(l) && !pn_link_queued(l))`, and the new credit for
a receiver with capacity. -/
def fetchDrain (E : Env) (autoconnect : M Unit) (fuel : Nat) (ssn : Nat) (lnk : Nat) :
    M Unit := do
  let s ← M.get
  onEngine fun g => g.pn_link_drain (s.rcv lnk).receiver 0
  wakeupDriver
  M.loop
    (M.test fun s => decide (s.io.engine.pn_link_credit (s.rcv lnk).receiver ≠ 0
      ∧ s.io.engine.pn_link_queued (s.rcv lnk).receiver = 0))
    (waitRcv E autoconnect ssn lnk) fuel
  let s ← M.get
  M.when ((s.rcv lnk).capacity ≠ 0 ∧ s.io.engine.pn_link_queued (s.rcv lnk).receiver = 0)
    (onEngine fun g => g.pn_link_flow (s.rcv lnk).receiver (s.rcv lnk).capacity)

/-- The end of `fetch`: the second `get`, without waiting, and one more unit of
credit for a receiver with capacity when it finds a message. -/
def fetchAgain (E : Env) (autoconnect : M Unit) (fuel : Nat) (ssn : Nat) (lnk : Nat) :
    M (Option Message) := do
  match (← get E autoconnect fuel ssn lnk IMMEDIATE) with
  | some m =>
    let s ← M.get
    M.when ((s.rcv lnk).capacity ≠ 0) do
      onEngine fun g => g.pn_link_flow (s.rcv lnk).receiver 1
      wakeupDriver
    pure (some m)
  | none => pure none

/-- The member function `fetch(ssn, lnk, message, timeout)`; `some m` stands for
`true` with the message `m`, `none` for `false`. -/
def fetchWith (E : Env) (autoconnect : M Unit) (fuel : Nat) (ssn : Nat) (lnk : Nat)
    (timeout : Nat) : M (Option Message) :=
  scopedIncrement lnk do
    fetchCredit autoconnect ssn lnk
    match (← get E autoconnect fuel ssn lnk timeout) with
    | some m => pure (some m)
    | none =>
      fetchDrain E autoconnect fuel ssn lnk
      fetchAgain E autoconnect fuel ssn lnk

/-! ### Sending -/

/-- Modelled from the spec: `SenderContext::send(message, &delivery)` (its file is
not among the sources): "a per-link capacity window is decremented on send and
incremented on settlement".  Settled deliveries leave the in-flight queue; if
the queue then has room, the message is handed to the engine as a new delivery
(not yet delivered), which joins the queue, and the result is `true` with the
id of the delivery; otherwise the result is `false` with no delivery. -/
def SenderContext.send (p : Nat) (msg : Message) : M (Bool × Option Nat) := fun s =>
  let o := s.snd p
  let inflight := o.deliveries.filter fun d => !Delivery.settled s.io.engine d
  if inflight.length < o.capacity then
    let g : Engine :=
      { s.io.engine with
        deliveries := s.io.engine.deliveries ++ [⟨false, false, false⟩],
        pending := s.io.engine.pending + msg.payload.length }
    let sent : SenderContext :=
      { o with deliveries := inflight ++ [⟨o.nextId, some s.io.engine.deliveries.length⟩],
               nextId := o.nextId + 1 }
    (.ret (true, some o.nextId),
     { s with io := { s.io with engine := g }, sndObjs := modifyAt (fun _ => sent) p s.sndObjs })
  else
    (.ret (false, none),
     { s with sndObjs := modifyAt (fun _ => { o with deliveries := inflight }) p s.sndObjs })

/-- The engine's record of the in-flight delivery `id` of the sender `p`. -/
def engineDelivery (s : ConnectionContext) (p : Nat) (id : Nat) : Option PnDelivery :=
  match (s.snd p).deliveries.find? fun d => d.id == id with
  | some d => d.token.map s.io.engine.delivery
  | none => none

/-- Modelled from the spec: `SenderContext::Delivery::delivered` (its file is not
among the sources): the engine has reported an outcome for the delivery. -/
def delivered (s : ConnectionContext) (p : Nat) (id : Nat) : Bool :=
  match engineDelivery s p id with
  | some d => d.delivered
  | none => false

/-- Modelled from the spec: `SenderContext::Delivery::rejected` (its file is not
among the sources): the outcome reported for the delivery is a rejection. -/
def rejected (s : ConnectionContext) (p : Nat) (id : Nat) : Bool :=
  match engineDelivery s p id with
  | some d => d.rejected
  | none => false

/-- The loop `while (!snd->send(message, &delivery)) wait(ssn, snd);` of `send`;
the result is the pointer `delivery` (`none` for null). -/
def sendLoop (E : Env) (autoconnect : M Unit) (ssn : Nat) (snd : Nat) (msg : Message) :
    Nat → M (Option Nat)
  | 0 => do
    let r ← SenderContext.send snd msg
    if r.1 then pure r.2 else M.stuck
  | fuel + 1 => do
    let r ← SenderContext.send snd msg
    if r.1 then
      pure r.2
    else
      waitSnd E autoconnect ssn snd
      sendLoop E autoconnect ssn snd msg fuel

/-- The body of the loop `while (pn_transport_pending(engine) > 65536)` of
`send`. -/
def awaitOutput (E : Env) (autoconnect : M Unit) (ssn : Nat) (snd : Nat) : M Unit := do
  M.modify fun s => { s with notifyOnWrite := true }
  wakeupDriver
  waitSnd E autoconnect ssn snd
  M.modify fun s => { s with notifyOnWrite := false }

/-- The part of `send` up to the block `if (sync && delivery)`: the checks, the
wait for the pending output to go down, and the hand-over of the message to the
sender; the result is the pointer `delivery` (`none` for null). -/
def sendStart (E : Env) (autoconnect : M Unit) (fuel : Nat) (ssn : Nat) (snd : Nat)
    (msg : Message) : M (Option Nat) := do
  checkClosedSsn autoconnect ssn
  M.loop (M.test fun s => decide (s.io.engine.pending > 65536)) (awaitOutput E autoconnect ssn snd)
    fuel
  let delivery ← sendLoop E autoconnect ssn snd msg fuel
  wakeupDriver
  pure delivery

/-- The block of `send` under `if (sync && delivery)`: the wait for the
confirmation of the delivery `d`, and the test for a rejection. -/
def sendConfirm (E : Env) (autoconnect : M Unit) (fuel : Nat) (ssn : Nat) (snd : Nat)
    (d : Nat) : M Unit := do
  M.loop (M.test fun s => !delivered s snd d) (waitSnd E autoconnect ssn snd) fuel
  let s ← M.get
  M.when (rejected s snd d) (M.raise (.MessageRejected "Message was rejected by peer"))

/-- The member function `send(ssn, snd, message, sync)`. -/
def sendWith (E : Env) (autoconnect : M Unit) (fuel : Nat) (ssn : Nat) (snd : Nat)
    (msg : Message) (sync : Bool) : M Unit := do
  let delivery ← sendStart E autoconnect fuel ssn snd msg
  match sync, delivery with
  | true, some d => sendConfirm E autoconnect fuel ssn snd d
  | _, _ => pure ()

/-! ### Links -/

/-- The member functions `SenderContext::verify` and `ReceiverContext::verify`
(their files are not among the sources): the environment says whether they
throw. -/
def verify (E : Env) (lnk : Nat) : M Unit := do
  match E.verifyFails (← M.get).io.engine lnk with
  | some e => M.raise e
  | none => pure ()

/-- The member function `attach(ssn, pn_link_t* link, credit)`. -/
def attachLink (E : Env) (autoconnect : M Unit) (fuel : Nat) (ssn : Nat) (link : Nat)
    (credit : Nat) : M Unit := do
  onEngine fun g => g.pn_link_open link
  M.when (credit ≠ 0) (onEngine fun g => g.pn_link_flow link credit)
  wakeupDriver
  M.loop (M.test fun s => decide (s.io.engine.pn_link_state link &&& PN_REMOTE_UNINIT ≠ 0))
    (waitSsn E autoconnect ssn) fuel

/-- The member function `attach(ssn, sender)`; `configure` changes nothing that is
kept here. -/
def attachSenderWith (E : Env) (autoconnect : M Unit) (fuel : Nat) (ssn : Nat) (lnk : Nat) :
    M Unit := do
  let s ← M.get
  attachLink E autoconnect fuel ssn (s.snd lnk).sender 0
  checkClosedSnd autoconnect ssn lnk
  let s ← M.get
  verify E (s.snd lnk).sender

/-- The member function `attach(ssn, receiver)`; `configure` changes nothing that
is kept here. -/
def attachReceiverWith (E : Env) (autoconnect : M Unit) (fuel : Nat) (ssn : Nat) (lnk : Nat) :
    M Unit := do
  let s ← M.get
  attachLink E autoconnect fuel ssn (s.rcv lnk).receiver (s.rcv lnk).capacity
  checkClosedRcv autoconnect ssn lnk
  let s ← M.get
  verify E (s.rcv lnk).receiver

/-- The statements of `detach` after `drain_and_release_messages`, for the link
`link` of the session `ssn`: `lnk->close()` (that is `pn_link_close`) if the
link is locally active, and the wait for the peer's detach. -/
def detachLink (E : Env) (autoconnect : M Unit) (fuel : Nat) (ssn : Nat) (link : M Nat) :
    M Unit := do
  let l ← link
  let s ← M.get
  M.when (s.io.engine.pn_link_state l &&& PN_LOCAL_ACTIVE ≠ 0) (onEngine fun g => g.pn_link_close l)
  wakeupDriver
  M.loop
    (do
      let l ← link
      M.test fun s => decide (s.io.engine.pn_link_state l &&& PN_REMOTE_ACTIVE ≠ 0))
    (waitSsn E autoconnect ssn) fuel

/-- The member function `detach(ssn, sender)`; `removeSender` erases the name from
the session's senders. -/
def detachSenderWith (E : Env) (autoconnect : M Unit) (fuel : Nat) (ssn : Nat) (lnk : Nat) :
    M Unit := do
  detachLink E autoconnect fuel ssn (do pure ((← M.get).snd lnk).sender)
  M.modify fun s =>
    let remove : SessionContext → SessionContext := fun o =>
      { o with senders := o.senders.erase (s.snd lnk).name }
    { s with ssnObjs := modifyAt remove ssn s.ssnObjs }

/-- The member function `detach(ssn, receiver)`; `removeReceiver` erases the name
from the session's receivers. -/
def detachReceiverWith (E : Env) (autoconnect : M Unit) (fuel : Nat) (ssn : Nat) (lnk : Nat) :
    M Unit := do
  drain_and_release_messages E autoconnect fuel ssn lnk
  detachLink E autoconnect fuel ssn (do pure ((← M.get).rcv lnk).receiver)
  M.modify fun s =>
    let remove : SessionContext → SessionContext := fun o =>
      { o with receivers := o.receivers.erase (s.rcv lnk).name }
    { s with ssnObjs := modifyAt remove ssn s.ssnObjs }

/-! ### Connecting -/

/-- The step of `SenderContext::resend` for the in-flight delivery `d` of the
sender `p`: if it has no engine delivery, it gets a new one. -/
def resendDelivery (p : Nat) (d : Delivery) : M Unit :=
  M.when (d.token = none) <| M.modify fun s =>
    let again : Delivery → Delivery := fun x =>
      if x.id = d.id then { x with token := some s.io.engine.deliveries.length } else x
    { s with
      io := { s.io with engine :=
        { s.io.engine with deliveries := s.io.engine.deliveries ++ [⟨false, false, false⟩] } },
      sndObjs := modifyAt (fun o => { o with deliveries := o.deliveries.map again }) p s.sndObjs }

/-- Modelled from the spec: `SenderContext::resend` (its file is not among the
sources): "senders with queued unsettled deliveries resend them": each
in-flight delivery without an engine delivery is handed to the engine
again. -/
def SenderContext.resend (p : Nat) : M Unit := do
  call (.resend p)
  let s ← M.get
  M.forEach (resendDelivery p) (s.snd p).deliveries

/-- The body of the loop of `restartSession` over the senders. -/
def reattachSender (E : Env) (autoconnect : M Unit) (fuel : Nat) (p : Nat) (snd : Nat) :
    M Unit := do
  let s ← M.get
  attachLink E autoconnect fuel p (s.snd snd).sender 0
  let s ← M.get
  verify E (s.snd snd).sender
  SenderContext.resend snd

/-- The body of the loop of `restartSession` over the receivers. -/
def reattachReceiver (E : Env) (autoconnect : M Unit) (fuel : Nat) (p : Nat) (rcv : Nat) :
    M Unit := do
  let s ← M.get
  (if (s.rcv rcv).capacity ≠ 0 then
    attachLink E autoconnect fuel p (s.rcv rcv).receiver (s.rcv rcv).capacity
  else
    attachLink E autoconnect fuel p (s.rcv rcv).receiver (s.rcv rcv).fetching : M Unit)
  let s ← M.get
  verify E (s.rcv rcv).receiver

/-- The member function `restartSession(s)`. -/
def restartSession (E : Env) (autoconnect : M Unit) (fuel : Nat) (p : Nat) : M Unit := do
  let s ← M.get
  onEngine fun g => g.pn_session_open (s.ssn p).session
  wakeupDriver
  M.loop (sessionRemoteUninit p) (wait E autoconnect) fuel
  let s ← M.get
  M.forEach (fun i => reattachSender E autoconnect fuel p i.2) (s.ssn p).senders
  let s ← M.get
  M.forEach (fun i => reattachReceiver E autoconnect fuel p i.2) (s.ssn p).receivers
  wakeupDriver

/-- The handler `catch (const qpid::TransportFailure&)`: only that class is
caught. -/
def isQpidTransportFailure : Exc → Bool
  | .QpidTransportFailure _ => true
  | _ => false

/-- The member function `restartSessions`. -/
def restartSessions (E : Env) (autoconnect : M Unit) (fuel : Nat) : M Bool :=
  M.tryCatch
    (do
      let s ← M.get
      M.forEach (fun i => restartSession E autoconnect fuel i.2) s.sessions
      pure true)
    isQpidTransportFailure
    (fun _ => pure false)

/-- The member function `useSasl`. -/
def useSasl (s : ConnectionContext) : Bool :=
  !(s.mechanism == "none" || s.mechanism == "NONE" || s.mechanism == "None")

/-- The text of an address, the value of the member `id`. -/
def Address.str (a : Address) : String := a.host ++ ":" ++ toString a.port

/-- The loop `while (waiting) switch (state)` of `tryConnectAddr`: `true` when it
ends by `return true` (`CONNECTED`), `false` when it ends with `waiting` false. -/
def waitConnected (E : Env) : Nat → M Bool
  | 0 => do
    match (← M.get).io.state with
    | .CONNECTED => pure true
    | .CONNECTING => M.stuck
    | .DISCONNECTED => pure false
  | fuel + 1 => do
    match (← M.get).io.state with
    | .CONNECTED => pure true
    | .CONNECTING =>
      lockWait E
      waitConnected E fuel
    | .DISCONNECTED => pure false

/-- The statements of `tryConnectAddr` before `try`: the transport, the `id`, the
authenticator (not yet authenticated) when `useSasl()`, and `state = CONNECTING`. -/
def prepareConnect (address : Address) : M Unit := do
  M.modify fun s => { s with transport := some address, id := Address.str address }
  let s ← M.get
  M.when (useSasl s)
    (M.modify fun s => { s with sasl := true, io := { s.io with authenticated := false } })
  M.modify fun s => { s with io := { s.io with state := .CONNECTING } }

/-- The body of the `try` of `tryConnectAddr`: `transport->connect`, which the
environment may have throw, and the wait for the outcome. -/
def connectAndWait (E : Env) (fuel : Nat) (address : Address) : M Bool := do
  let s ← M.get
  M.modify fun s => { s with connects := s.connects + 1 }
  call (.connect address)
  match E.connectThrows s.connects address with
  | some what => M.raise (.StdException what)
  | none => waitConnected E fuel

/-- The member function `tryConnectAddr(address)`.  Every exception class is a
`std::exception`, so `catch (const std::exception&)` catches all. -/
def tryConnectAddr (E : Env) (fuel : Nat) (address : Address) : M Bool := do
  prepareConnect address
  let connected ← M.tryCatch (connectAndWait E fuel address) (fun _ => true)
    (fun _ => do
      M.modify fun s => { s with io := { s.io with state := .DISCONNECTED } }
      pure false)
  if connected then
    pure true
  else
    M.modify fun s => { s with transport := none }
    pure false

/-- The member function `waitNoReconnect`. -/
def waitNoReconnect (E : Env) : M Unit := do
  let disconnected ← checkDisconnected
  if disconnected then
    pure ()
  else
    lockWait E
    let _ ← checkDisconnected
    pure ()

/-- The block of `tryOpenAddr` that starts the keep-alive ticker: the interval is
`(shortest + 1) / 2` ms for the shortest non-zero idle timeout. -/
def startTicker : M Unit := do
  let s ← M.get
  let remote := s.io.engine.remoteIdleTimeout
  let loc := s.io.engine.idleTimeout
  let shortest := if remote ≠ 0 ∧ loc ≠ 0 then min remote loc else if remote ≠ 0 then remote else loc
  M.when (shortest ≠ 0) do
    M.modify fun s => { s with ticker := some ((shortest + 1) / 2) }
    call (.tickerStart ((shortest + 1) / 2))

/-- The block `if (sasl.get()) { ... }` of `tryOpenAddr`, up to its test of the
state: the wait for the authentication. -/
def awaitAuthenticated (E : Env) (fuel : Nat) : M Unit := do
  let s ← M.get
  M.when s.sasl do
    wakeupDriver
    M.loop (M.test fun s => !s.io.authenticated && decide (s.io.state ≠ .DISCONNECTED))
      (waitNoReconnect E) fuel

/-- The part of `tryOpenAddr` from `pn_connection_open` on. -/
def openConnection (E : Env) (autoconnect : M Unit) (fuel : Nat) : M Bool := do
  onEngine Engine.pn_connection_open
  wakeupDriver
  M.loop
    (M.test fun s => decide (s.io.engine.pn_connection_state &&& PN_REMOTE_UNINIT ≠ 0
      ∧ s.io.state ≠ .DISCONNECTED))
    (waitNoReconnect E) fuel
  let s ← M.get
  if s.io.state = .DISCONNECTED then
    pure false
  else if ¬ (s.io.engine.pn_connection_state &&& PN_REMOTE_ACTIVE ≠ 0) then
    M.raise (.ConnectionError "Failed to open connection")
  else
    startTicker
    restartSessions E autoconnect fuel

/-- The member function `tryOpenAddr(addr)`. -/
def tryOpenAddr (E : Env) (autoconnect : M Unit) (fuel : Nat) (addr : Address) : M Bool := do
  M.modify fun s => { s with currentUrl := ⟨[addr], "", ""⟩ }
  awaitAuthenticated E fuel
  let s ← M.get
  if s.sasl ∧ s.io.state = .DISCONNECTED then
    pure false
  else
    openConnection E autoconnect fuel

/-- The loop of `tryConnectUrl` over the addresses of the URL. -/
def tryAddrs (E : Env) (autoconnect : M Unit) (fuel : Nat) : List Address → M Bool
  | [] => pure false
  | a :: rest => do
    let connected ← tryConnectAddr E fuel a
    if connected then
      let opened ← tryOpenAddr E autoconnect fuel a
      if opened then
        pure true
      else
        tryAddrs E autoconnect fuel rest
    else
      tryAddrs E autoconnect fuel rest

/-- The member function `tryConnectUrl(url)`. -/
def tryConnectUrl (E : Env) (autoconnect : M Unit) (fuel : Nat) (url : Url) : M Bool := do
  call (.tryConnectUrl url)
  M.when (url.user.length ≠ 0) (M.modify fun s => { s with username := url.user })
  M.when (url.pass.length ≠ 0) (M.modify fun s => { s with password := url.pass })
  tryAddrs E autoconnect fuel url.addrs

/-- The constant `FOREVER`, the largest `double`. -/
def FOREVER : ℚ := 2 ^ 1024 - 2 ^ 971

/-- The conversion of a `double` to `int64_t`: towards zero. -/
def toInt64 (q : ℚ) : Int := if 0 ≤ q then q.floor else -((-q).floor)

/-- The function `expired(start, timeout)`. -/
def expired (E : Env) (start : Nat) (timeout : ℚ) : M Bool := do
  if timeout = 0 then
    pure true
  else if timeout = FOREVER then
    pure false
  else
    let t ← now E
    pure (decide (toInt64 (timeout * TIME_SEC) < (t : Int) - (start : Int)))

/-- The text of a URL. -/
def Url.str (url : Url) : String := ",".intercalate (url.addrs.map Address.str)

/-- The function `throwConnectFail(url, msg)`. -/
def throwConnectFail {α : Type} (url : Url) (msg : String) : M α :=
  M.raise (.TransportFailure ("Connect failed to " ++ Url.str url ++ ": " ++ msg))

/-- The test `limit >= 0 && retries++ >= limit` of `autoconnect`, which counts the
retry, and the `throwConnectFail` under it. -/
def countRetry : M Unit := do
  let s ← M.get
  M.when (s.limit ≥ 0) do
    M.modify fun s => { s with retries := s.retries + 1 }
    M.when (s.retries ≥ s.limit) (throwConnectFail s.fullUrl "Exceeded retries")

/-- The body of the loop of `autoconnect`, with the interval `i`. -/
def autoconnectBody (E : Env) (started : Nat) (i : ℚ) : M Unit := do
  let s ← M.get
  M.when (s.reconnect = false) (throwConnectFail s.fullUrl "Reconnect disabled")
  countRetry
  let late ← expired E started s.timeout
  M.when late (throwConnectFail s.fullUrl "Exceeded timeout")
  call (.usleep i)

/-- The loop of `autoconnect`,
`for (double i = minReconnectInterval; !tryConnectUrl(fullUrl); i = std::min(i*2, maxReconnectInterval))`,
from the test of its condition on; `round` is `tryConnectUrl(fullUrl)` and `i`
the interval.  The intervals are rationals: the doubling and the minimum of
two finite `double`s are exact unless the doubling overflows. -/
def autoconnectLoop (E : Env) (round : M Bool) (started : Nat) : Nat → ℚ → M Unit
  | 0, _ => do
    let connected ← round
    if connected then pure () else M.stuck
  | fuel + 1, i => do
    let connected ← round
    if connected then
      pure ()
    else
      autoconnectBody E started i
      let s ← M.get
      autoconnectLoop E round started fuel (min (i * 2) s.maxReconnectInterval)

/-- The member function `autoconnect`.  It calls itself through `check` when a
wait inside `restartSession` finds the connection lost again; `fuel` bounds
that nesting and each loop. -/
def autoconnect (E : Env) : Nat → M Unit
  | 0 => M.stuck
  | fuel + 1 => do
    let started ← now E
    let s ← M.get
    autoconnectLoop E (tryConnectUrl E (autoconnect E fuel) (fuel + 1) s.fullUrl) started
      (fuel + 1) s.minReconnectInterval
    M.modify fun s => { s with retries := 0 }

/-- The statements `if (state != DISCONNECTED) throw ...; if (!driver) driver = ...`
at the start of `open` and `reconnect`. -/
def requireDisconnected : M Unit := do
  let s ← M.get
  M.when (s.io.state ≠ .DISCONNECTED) (M.raise (.ConnectionError "Connection was already opened!"))
  M.when (s.driver = false) (M.modify fun s => { s with driver := true })

/-- The member function `reconnect(url)` (the name `reconnect` is taken by the
option `ConnectionOptions::reconnect`). -/
def reconnectUrl (E : Env) (fuel : Nat) (url : Url) : M Unit := do
  requireDisconnected
  reset
  let connected ← tryConnectUrl E (autoconnect E fuel) fuel url
  M.when (connected = false) (throwConnectFail url "Failed to reconnect")

/-! ### The operations, with the fuel for their waits -/

/-- The member function `newSession(transactional, n)`. -/
def newSession (E : Env) (fuel : Nat) (transactional : Bool) (n : String) : M Nat :=
  newSessionWith E (autoconnect E fuel) fuel transactional n

/-- The member function `endSession(ssn)`. -/
def endSession (E : Env) (fuel : Nat) (ssn : Nat) : M Unit :=
  endSessionWith E (autoconnect E fuel) fuel ssn

/-- The member function `close()`. -/
def close (E : Env) (fuel : Nat) : M Unit :=
  closeWith E (autoconnect E fuel) fuel

/-- The member function `fetch(ssn, lnk, message, timeout)`. -/
def fetch (E : Env) (fuel : Nat) (ssn : Nat) (lnk : Nat) (timeout : Nat) : M (Option Message) :=
  fetchWith E (autoconnect E fuel) fuel ssn lnk timeout

/-- The member function `send(ssn, snd, message, sync)`. -/
def send (E : Env) (fuel : Nat) (ssn : Nat) (snd : Nat) (msg : Message) (sync : Bool) : M Unit :=
  sendWith E (autoconnect E fuel) fuel ssn snd msg sync

/-- The member function `attach(ssn, sender)`. -/
def attachSender (E : Env) (fuel : Nat) (ssn : Nat) (lnk : Nat) : M Unit :=
  attachSenderWith E (autoconnect E fuel) fuel ssn lnk

/-- The member function `attach(ssn, receiver)`. -/
def attachReceiver (E : Env) (fuel : Nat) (ssn : Nat) (lnk : Nat) : M Unit :=
  attachReceiverWith E (autoconnect E fuel) fuel ssn lnk

/-- The member function `detach(ssn, sender)`. -/
def detachSender (E : Env) (fuel : Nat) (ssn : Nat) (lnk : Nat) : M Unit :=
  detachSenderWith E (autoconnect E fuel) fuel ssn lnk

/-- The member function `detach(ssn, receiver)`. -/
def detachReceiver (E : Env) (fuel : Nat) (ssn : Nat) (lnk : Nat) : M Unit :=
  detachReceiverWith E (autoconnect E fuel) fuel ssn lnk

end ConnectionContext

/-- The member function `open()`. -/
def ConnectionContext.open (E : Env) (fuel : Nat) : M Unit := do
  ConnectionContext.requireDisconnected
  ConnectionContext.autoconnect E fuel

/-! ## The codec of the connection (`decode`, `encode`, `canEncode`) -/

/-- A call the codec functions make to a collaborator (the protocol engine, the
transport, the monitor, the authenticator `sasl`, its security layer), or the
reading or writing of the protocol header, recorded in the order made. -/
inductive CodecCall where
  | pn_transport_input (size : Nat)
  | pn_transport_output (size : Nat)
  | pn_transport_tick
  | notifyAll
  | abort
  | close
  | readProtocolHeader
  | writeProtocolHeader
  | saslDecode (size : Nat)
  | saslEncode (size : Nat)
  | saslCanEncode
  | layerDecode (size : Nat)
  | layerEncode (size : Nat)
  | layerCanEncode
  deriving DecidableEq, Repr

/-- The members of `ConnectionContext` that the functions of its codec interface
use, which the I/O thread calls: the flags `writeHeader`, `readHeader`,
`haveOutput` and `notifyOnWrite`, the member `state`, and the authenticator
`sasl` (`none` when the pointer is null; an authenticator is known by a
number that stands for all it has seen).  `calls` records the calls made;
`engineCalls` counts the calls to the engine (the index of the environment's
next answer). -/
structure Codec where
  writeHeader : Bool
  readHeader : Bool
  haveOutput : Bool
  state : ConnectionState
  notifyOnWrite : Bool
  sasl : Option Nat
  calls : List CodecCall
  engineCalls : Nat
  deriving DecidableEq, Repr

/-- What is outside the codec functions.  `encodedSize` is
`framing::ProtocolInitiation::encodedSize()`.  `input k size` and
`output k size` are the results of the `k`-th call to the engine when it is
`pn_transport_input` or `pn_transport_output` with `size` bytes, and
`transportError k` is whether `checkTransportError` then finds an error.  Of
the authenticator `a`: `authenticated a`, whether it has a security layer, and
the results of its `canEncode`, `decode` and `encode` (an exception, or the
value and the authenticator after the call).  Of its security layer: the sizes
of the buffers it passes to the codec it was given (`codecAdapter`, that is
`decodePlain` and `encodePlain`) and the result of its `decode` and `encode`;
whether its `canEncode` asks `codecAdapter`, and its result.  (The classes
`Sasl` and `SecurityLayer` are not among the sources.) -/
structure Wire where
  encodedSize : Nat
  input : Nat → Nat → Int
  output : Nat → Nat → Int
  transportError : Nat → Bool
  authenticated : Nat → Bool
  securityLayer : Nat → Bool
  saslCanEncode : Nat → Except Exc Bool
  saslDecode : Nat → Nat → Except Exc (Nat × Nat)
  saslEncode : Nat → Nat → Except Exc (Nat × Nat)
  layerDecode : Nat → Nat → List Nat × Except Exc (Nat × Nat)
  layerEncode : Nat → Nat → List Nat × Except Exc (Nat × Nat)
  layerCanEncode : Nat → Bool × Except Exc Bool

/-- A codec function: from the members before the call to how the call ends and
the members after it. -/
def CodecM (α : Type) : Type := Codec → Outcome α × Codec

namespace CodecM

/-- A `return`. -/
def pure {α : Type} (a : α) : CodecM α := fun c => (.ret a, c)

/-- One statement after the other. -/
def bind {α β : Type} (m : CodecM α) (f : α → CodecM β) : CodecM β := fun c =>
  match m c with
  | (.ret a, c1) => f a c1
  | (.raise e, c1) => (.raise e, c1)
  | (.stuck, c1) => (.stuck, c1)

instance : Monad CodecM where
  pure := CodecM.pure
  bind := CodecM.bind

/-- A `throw`. -/
def raise {α : Type} (e : Exc) : CodecM α := fun c => (.raise e, c)

/-- The fuel of the calls of the codec functions to each other is used up. -/
def stuck {α : Type} : CodecM α := fun c => (.stuck, c)

/-- The members. -/
def get : CodecM Codec := fun c => (.ret c, c)

/-- A change of members. -/
def modify (f : Codec → Codec) : CodecM Unit := fun c => (.ret (), f c)

/-- A block `try m catch (e) handler` for the exceptions `catches` accepts. -/
def tryCatch {α : Type} (m : CodecM α) (catches : Exc → Bool) (handler : Exc → CodecM α) :
    CodecM α := fun c =>
  match m c with
  | (.raise e, c1) => if catches e then handler e c1 else (.raise e, c1)
  | r => r

/-- The statement `for (i in xs) body(i)`. -/
def forEach {α : Type} (body : α → CodecM Unit) : List α → CodecM Unit
  | [] => CodecM.pure ()
  | a :: as => CodecM.bind (body a) fun _ => forEach body as

end CodecM

namespace Codec

/-- The constants `PN_EOS` and `PN_ERR` of proton's `error.h` (not among the
sources). -/
def PN_EOS : Int := -1
def PN_ERR : Int := -2

/-- The members as the constructor sets them ("disabled read/write of header as
now handled by engine"): `writeHeader(false), readHeader(false),
haveOutput(false), state(DISCONNECTED), notifyOnWrite(false)`, without an
authenticator. -/
def constructed : Codec :=
  { writeHeader := false, readHeader := false, haveOutput := false, state := .DISCONNECTED,
    notifyOnWrite := false, sasl := none, calls := [], engineCalls := 0 }

/-- Record a call. -/
def call (x : CodecCall) : CodecM Unit := CodecM.modify fun c => { c with calls := c.calls ++ [x] }

/-- The catch clause `catch (const AuthenticationFailure&)`. -/
def isAuthenticationFailure : Exc → Bool
  | .AuthenticationFailure _ => true
  | _ => false

/-- The member function `checkTransportError(text)`, after the `k`-th call to the
engine. -/
def checkTransportError (E : Wire) : CodecM Bool := fun c =>
  (.ret (E.transportError c.engineCalls), c)

/-- The member function `readProtocolHeader(buffer, size)`. -/
def readProtocolHeader (E : Wire) (size : Nat) : CodecM Nat := do
  if size ≥ E.encodedSize then
    CodecM.modify fun c => { c with readHeader := false }
    call .readProtocolHeader
    pure E.encodedSize
  else
    pure 0

/-- The member function `writeProtocolHeader(buffer, size)`. -/
def writeProtocolHeader (E : Wire) (size : Nat) : CodecM Nat := do
  if size ≥ E.encodedSize then
    CodecM.modify fun c => { c with writeHeader := false }
    call .writeProtocolHeader
    pure E.encodedSize
  else
    pure 0

/-- The call `pn_transport_input(engine, buffer, size)`. -/
def pn_transport_input (E : Wire) (size : Nat) : CodecM Int := fun c =>
  (.ret (E.input c.engineCalls size),
   { c with calls := c.calls ++ [.pn_transport_input size], engineCalls := c.engineCalls + 1 })

/-- The call `pn_transport_output(engine, buffer, size)`. -/
def pn_transport_output (E : Wire) (size : Nat) : CodecM Int := fun c =>
  (.ret (E.output c.engineCalls size),
   { c with calls := c.calls ++ [.pn_transport_output size], engineCalls := c.engineCalls + 1 })

/-- The statements of `decodePlain` after `if (readHeader) { ... }`: the bytes go
to the engine. -/
def decodeEngine (E : Wire) (size : Nat) : CodecM Nat := do
  let n ← pn_transport_input E size
  if n > 0 ∨ n = PN_EOS then
    let failed ← (if n = PN_EOS then checkTransportError E else pure false : CodecM Bool)
    if failed then
      call .abort
      pure 0
    else
      call .pn_transport_tick
      call .notifyAll
      pure (if n = PN_EOS then size else n.toNat)
  else if n = PN_ERR then
    let _ ← checkTransportError E
    call .abort
    pure 0
  else
    pure 0

/-- The member function `decodePlain(buffer, size)`; `decode` is the member
function of that name, which it calls for what is left after the header. -/
def decodePlainWith (E : Wire) (decode : Nat → CodecM Nat) (size : Nat) : CodecM Nat := do
  let c ← CodecM.get
  if c.readHeader then
    let decoded ← readProtocolHeader E size
    if decoded < size then
      let more ← decode (size - decoded)
      pure (decoded + more)
    else
      pure decoded
  else
    decodeEngine E size

/-- The statements of `encodePlain` after `if (writeHeader) { ... }`: the bytes
come from the engine. -/
def encodeEngine (E : Wire) (size : Nat) : CodecM Nat := do
  let n ← pn_transport_output E size
  if n > 0 then
    CodecM.modify fun c => { c with haveOutput := true }
    let c ← CodecM.get
    (if c.notifyOnWrite then call .notifyAll else pure () : CodecM Unit)
    pure n.toNat
  else if n = PN_ERR then
    let _ ← checkTransportError E
    call .abort
    pure 0
  else if n = PN_EOS then
    CodecM.modify fun c => { c with haveOutput := false }
    let failed ← checkTransportError E
    (if failed then call .abort else pure () : CodecM Unit)
    pure 0
  else
    CodecM.modify fun c => { c with haveOutput := false }
    pure 0

/-- The member function `encodePlain(buffer, size)`; `encode` is the member
function of that name, which it calls for what is left after the header. -/
def encodePlainWith (E : Wire) (encode : Nat → CodecM Nat) (size : Nat) : CodecM Nat := do
  let c ← CodecM.get
  if c.writeHeader then
    let encoded ← writeProtocolHeader E size
    if encoded < size then
      let more ← encode (size - encoded)
      pure (encoded + more)
    else
      pure encoded
  else
    encodeEngine E size

/-- The member function `canEncodePlain()`. -/
def canEncodePlain : CodecM Bool := do
  call .pn_transport_tick
  let c ← CodecM.get
  pure (c.haveOutput && decide (c.state = .CONNECTED))

end Codec

namespace Codec

/-- The call `transport->close()`. -/
def transportClose : CodecM Unit := call .close

/-- The statement `if (sasl.get() && !sasl->authenticated()) { decoded =
sasl->decode(buffer, size); if (!sasl->authenticated()) return decoded; }` of
`decode`.  The result is `decoded` and whether the function returns at once. -/
def decodeSasl (E : Wire) (size : Nat) : CodecM (Nat × Bool) := fun c =>
  match c.sasl with
  | none => (.ret (0, false), c)
  | some a =>
    if E.authenticated a then
      (.ret (0, false), c)
    else
      match E.saslDecode a size with
      | .error e => (.raise e, { c with calls := c.calls ++ [.saslDecode size] })
      | .ok (n, a1) =>
        (.ret (n, !E.authenticated a1),
         { c with calls := c.calls ++ [.saslDecode size], sasl := some a1 })

/-- The call `sasl->getSecurityLayer()->decode(buffer, size)`: the layer passes
what it has decoded to `codecAdapter`, that is to `decodePlain`, and returns
or throws. -/
def layerDecode (E : Wire) (decodePlain : Nat → CodecM Nat) (a : Nat) (size : Nat) :
    CodecM Nat := do
  call (.layerDecode size)
  CodecM.forEach (fun chunk => do let _ ← decodePlain chunk; pure ()) (E.layerDecode a size).1
  match (E.layerDecode a size).2 with
  | .error e => CodecM.raise e
  | .ok (n, a1) =>
    CodecM.modify fun c => { c with sasl := some a1 }
    pure n

/-- The right-hand sides of the statement `if (sasl.get() &&
sasl->getSecurityLayer()) decoded += sasl->getSecurityLayer()->decode(...);
else decoded += decodePlain(...);` of `decode`. -/
def decodeRest (E : Wire) (decodePlain : Nat → CodecM Nat) (size : Nat) : CodecM Nat := do
  let c ← CodecM.get
  match c.sasl with
  | some a => if E.securityLayer a then layerDecode E decodePlain a size else decodePlain size
  | none => decodePlain size

/-- The member function `decode(buffer, size)`; `decodePlain` is the member
function of that name.  The `try` block is in two parts, one for each value
that `decoded` has when an exception is caught. -/
def decodeWith (E : Wire) (decodePlain : Nat → CodecM Nat) (size : Nat) : CodecM Nat := do
  let first ← CodecM.tryCatch (decodeSasl E size) isAuthenticationFailure
    (fun _ => do transportClose; pure (0, true))
  if first.2 then
    pure first.1
  else if first.1 < size then
    CodecM.tryCatch
      (do let more ← decodeRest E decodePlain (size - first.1); pure (first.1 + more))
      isAuthenticationFailure
      (fun _ => do transportClose; pure first.1)
  else
    pure first.1

/-- The member function `decodePlain(buffer, size)`, with the fuel for the calls
of `decodePlain` and `decode` to each other. -/
def decodePlain (E : Wire) : Nat → Nat → CodecM Nat
  | 0 => decodePlainWith E (fun _ => CodecM.stuck)
  | fuel + 1 => decodePlainWith E (decodeWith E (decodePlain E fuel))

/-- The member function `decode(buffer, size)`, with the fuel for the calls of
`decodePlain` and `decode` to each other. -/
def decode (E : Wire) (fuel : Nat) (size : Nat) : CodecM Nat :=
  decodeWith E (decodePlain E fuel) size

/-- The statement `if (sasl.get() && sasl->canEncode()) { encoded +=
sasl->encode(buffer, size); if (!sasl->authenticated()) return encoded; }` of
`encode`, in two parts: up to the call `sasl->encode`, and from it on.  The
result of the first part is whether `sasl->encode` is to be called. -/
def encodeSaslCan (E : Wire) : CodecM Bool := fun c =>
  match c.sasl with
  | none => (.ret false, c)
  | some a =>
    match E.saslCanEncode a with
    | .error e => (.raise e, { c with calls := c.calls ++ [.saslCanEncode] })
    | .ok can => (.ret can, { c with calls := c.calls ++ [.saslCanEncode] })

/-- The second part: `encoded += sasl->encode(buffer, size); if
(!sasl->authenticated()) return encoded;`.  The result is `encoded` and
whether the function returns at once. -/
def encodeSasl (E : Wire) (size : Nat) : CodecM (Nat × Bool) := fun c =>
  match c.sasl with
  | none => (.ret (0, false), c)
  | some a =>
    match E.saslEncode a size with
    | .error e => (.raise e, { c with calls := c.calls ++ [.saslEncode size] })
    | .ok (n, a1) =>
      (.ret (n, !E.authenticated a1),
       { c with calls := c.calls ++ [.saslEncode size], sasl := some a1 })

/-- The call `sasl->getSecurityLayer()->encode(buffer, size)`: the layer has
`codecAdapter`, that is `encodePlain`, fill its buffers, and returns or
throws. -/
def layerEncode (E : Wire) (encodePlain : Nat → CodecM Nat) (a : Nat) (size : Nat) :
    CodecM Nat := do
  call (.layerEncode size)
  CodecM.forEach (fun chunk => do let _ ← encodePlain chunk; pure ()) (E.layerEncode a size).1
  match (E.layerEncode a size).2 with
  | .error e => CodecM.raise e
  | .ok (n, a1) =>
    CodecM.modify fun c => { c with sasl := some a1 }
    pure n

/-- The right-hand sides of the statement `if (sasl.get() &&
sasl->getSecurityLayer()) encoded += sasl->getSecurityLayer()->encode(...);
else encoded += encodePlain(...);` of `encode`. -/
def encodeRest (E : Wire) (encodePlain : Nat → CodecM Nat) (size : Nat) : CodecM Nat := do
  let c ← CodecM.get
  match c.sasl with
  | some a => if E.securityLayer a then layerEncode E encodePlain a size else encodePlain size
  | none => encodePlain size

/-- The member function `encode(buffer, size)`; `encodePlain` is the member
function of that name.  The `try` block is in two parts, one for each value
that `encoded` has when an exception is caught. -/
def encodeWith (E : Wire) (encodePlain : Nat → CodecM Nat) (size : Nat) : CodecM Nat := do
  let first ← CodecM.tryCatch
    (do
      let can ← encodeSaslCan E
      if can then encodeSasl E size else pure (0, false))
    isAuthenticationFailure
    (fun _ => do transportClose; pure (0, true))
  if first.2 then
    pure first.1
  else if first.1 < size then
    CodecM.tryCatch
      (do let more ← encodeRest E encodePlain (size - first.1); pure (first.1 + more))
      isAuthenticationFailure
      (fun _ => do transportClose; pure first.1)
  else
    pure first.1

/-- The member function `encodePlain(buffer, size)`, with the fuel for the calls
of `encodePlain` and `encode` to each other. -/
def encodePlain (E : Wire) : Nat → Nat → CodecM Nat
  | 0 => encodePlainWith E (fun _ => CodecM.stuck)
  | fuel + 1 => encodePlainWith E (encodeWith E (encodePlain E fuel))

/-- The member function `encode(buffer, size)`, with the fuel for the calls of
`encodePlain` and `encode` to each other. -/
def encode (E : Wire) (fuel : Nat) (size : Nat) : CodecM Nat :=
  encodeWith E (encodePlain E fuel) size

/-- The `try` block of `canEncode`: `if (sasl->canEncode()) return true; else if
(!sasl->authenticated()) return false; else if (sasl->getSecurityLayer())
return sasl->getSecurityLayer()->canEncode();`.  The result is the value
returned, `none` when the block ends without a `return`. -/
def canEncodeSasl (E : Wire) (a : Nat) : CodecM (Option Bool) := do
  call .saslCanEncode
  match E.saslCanEncode a with
  | .error e => CodecM.raise e
  | .ok true => pure (some true)
  | .ok false =>
    if !E.authenticated a then
      pure (some false)
    else if E.securityLayer a then
      call .layerCanEncode
      (if (E.layerCanEncode a).1 then (do let _ ← canEncodePlain; pure ()) else pure () : CodecM Unit)
      match (E.layerCanEncode a).2 with
      | .error e => CodecM.raise e
      | .ok can => pure (some can)
    else
      pure none

/-- The member function `canEncode()`. -/
def canEncode (E : Wire) : CodecM Bool := do
  let c ← CodecM.get
  let answer ← (match c.sasl with
    | some a =>
      CodecM.tryCatch (canEncodeSasl E a) isAuthenticationFailure
        (fun _ => do transportClose; pure (some false))
    | none => pure none : CodecM (Option Bool))
  match answer with
  | some r => pure r
  | none => canEncodePlain

end Codec

/-! ## The sequence of ids of the message store (`IdSequence.cpp`) -/

/-- The class `mrg::msgstore::IdSequence`: the member `id`, a `u_int64_t` (the lock
is left out). -/
structure IdSequence where
  id : Nat
  deriving DecidableEq, Repr

namespace IdSequence

/-- The constructor `IdSequence() : id(1)`. -/
def new : IdSequence := ⟨1⟩

/-- The member function `next()`: `if (!id) id++; return id++;`, the increments
modulo `2^64`.  The result is the value returned and the sequence after the
call. -/
def next (q : IdSequence) : Nat × IdSequence :=
  let id := if q.id = 0 then (q.id + 1) % 2 ^ 64 else q.id
  (id, ⟨(id + 1) % 2 ^ 64⟩)

/-- The member function `reset(value)`: `id = value`. -/
def reset (_ : IdSequence) (value : Nat) : IdSequence := ⟨value⟩

/-- The values returned by `n` successive calls of `next()`. -/
def nexts : Nat → IdSequence → List Nat
  | 0, _ => []
  | n + 1, q => q.next.1 :: nexts n q.next.2

/-- The first `n` terms of the sequence `v, v+1, v+2, ...` modulo `2^64` with `0`
skipped (among `2 * n` terms of `v, v+1, ...` at least `n` are not `0`). -/
def countingFrom (v n : Nat) : List Nat :=
  (((List.range (2 * n)).map fun i => (v + i) % 2 ^ 64).filter fun x => x ≠ 0).take n

end IdSequence

/-! ## The builder of incoming messages (`MessageBuilder.cpp`) -/

namespace broker

/-- The exception `QpidError` thrown by `THROW_QPID_ERROR(PROTOCOL_ERROR + n, text)`.
The value of the constant `PROTOCOL_ERROR` is not in the sources: `code` is
the number `n` added to it. -/
structure QpidError where
  code : Nat
  text : String
  deriving DecidableEq, Repr

/-- What `MessageBuilder` uses of the classes `Message`, `AMQHeaderBody` and
`MessageStore`, whose files are not among the sources: the messages `Msg`,
headers `Hdr` and content bodies `Body` are any types, and the member
functions it calls are parameters.  `stage` is what `store->stage(message)`
does to the message it is given. -/
structure Parts (Msg Hdr Body : Type) where
  setHeader : Msg → Hdr → Msg
  addContent : Msg → Body → Msg
  releaseContent : Msg → Msg
  isComplete : Msg → Bool
  getContentSize : Hdr → Nat
  stage : Msg → Msg

/-- A call of the builder to the store or to the completion handler, with the
message passed. -/
inductive Call (Msg : Type) where
  | stage (message : Msg)
  | complete (message : Msg)
  deriving DecidableEq, Repr

/-- The class `MessageBuilder`.  `handler` and `store` say whether the pointer is
set; `message` is the shared pointer (`none` when it is null); `calls` records
the calls made to the store and to the handler, in order. -/
structure MessageBuilder (Msg : Type) where
  handler : Bool
  store : Bool
  stagingThreshold : Nat
  staging : Bool
  message : Option Msg
  calls : List (Call Msg)
  deriving DecidableEq, Repr

namespace MessageBuilder

/-- The constructor `MessageBuilder(_handler, _store, _stagingThreshold)`. -/
def new {Msg : Type} (handler store : Bool) (stagingThreshold : Nat) : MessageBuilder Msg :=
  ⟨handler, store, stagingThreshold, false, none, []⟩

/-- The first block of `route()`: `if (staging && store) { store->stage(message);
message->releaseContent(); }`, for the message `m` in progress. -/
def stageIfStaging {Msg Hdr Body : Type} (P : Parts Msg Hdr Body) (b : MessageBuilder Msg)
    (m : Msg) : MessageBuilder Msg :=
  if b.staging && b.store then
    { b with message := some (P.releaseContent (P.stage m)), calls := b.calls ++ [.stage m] }
  else
    { b with message := some m }

/-- The second block of `route()`: `if (message->isComplete()) { if (handler)
handler->complete(message); message.reset(); staging = false; }`, for the
message `m` in progress. -/
def completeIfComplete {Msg Hdr Body : Type} (P : Parts Msg Hdr Body) (b : MessageBuilder Msg)
    (m : Msg) : MessageBuilder Msg :=
  if P.isComplete m then
    { b with message := none, staging := false,
             calls := if b.handler then b.calls ++ [.complete m] else b.calls }
  else
    b

/-- The member function `route()`.  It is private and called only after the test
that a message is in progress; without one it would dereference a null
pointer, and the model leaves the builder as it is. -/
def route {Msg Hdr Body : Type} (P : Parts Msg Hdr Body) (b : MessageBuilder Msg) :
    MessageBuilder Msg :=
  match b.message with
  | none => b
  | some m =>
    let b1 := stageIfStaging P b m
    match b1.message with
    | none => b1
    | some m1 => completeIfComplete P b1 m1

/-- The member function `initialise(msg)`; the result is the exception thrown, if
any, and the builder after the call. -/
def initialise {Msg : Type} (b : MessageBuilder Msg) (msg : Option Msg) :
    Option QpidError × MessageBuilder Msg :=
  if b.message.isSome then
    (some ⟨504, "Invalid message sequence: got publish before previous content was completed."⟩,
     b)
  else
    (none, { b with message := msg })

/-- The member function `setHeader(header)`. -/
def setHeader {Msg Hdr Body : Type} (P : Parts Msg Hdr Body) (b : MessageBuilder Msg)
    (header : Hdr) : Option QpidError × MessageBuilder Msg :=
  match b.message with
  | none => (some ⟨504, "Invalid message sequence: got header before publish."⟩, b)
  | some m =>
    (none, route P
      { b with message := some (P.setHeader m header),
               staging := decide (b.stagingThreshold ≠ 0
                 ∧ P.getContentSize header ≥ b.stagingThreshold) })

/-- The member function `addContent(content)`. -/
def addContent {Msg Hdr Body : Type} (P : Parts Msg Hdr Body) (b : MessageBuilder Msg)
    (content : Body) : Option QpidError × MessageBuilder Msg :=
  match b.message with
  | none => (some ⟨504, "Invalid message sequence: got content before publish."⟩, b)
  | some m => (none, route P { b with message := some (P.addContent m content) })

/-- The builders that calls of `initialise`, `setHeader` and `addContent` lead to
from a builder as constructed. -/
inductive Reachable {Msg Hdr Body : Type} (P : Parts Msg Hdr Body) : MessageBuilder Msg → Prop
  | constructed (handler store : Bool) (stagingThreshold : Nat) :
      Reachable P (new handler store stagingThreshold)
  | initialise (b : MessageBuilder Msg) (msg : Option Msg) :
      Reachable P b → Reachable P (initialise b msg).2
  | setHeader (b : MessageBuilder Msg) (header : Hdr) :
      Reachable P b → Reachable P (setHeader P b header).2
  | addContent (b : MessageBuilder Msg) (content : Body) :
      Reachable P b → Reachable P (addContent P b content).2

/-- The message after `store->stage(message); message->releaseContent();` when the
builder is staging and has a store, the message itself otherwise. -/
def staged {Msg Hdr Body : Type} (P : Parts Msg Hdr Body) (staging store : Bool) (m : Msg) : Msg :=
  if staging && store then P.releaseContent (P.stage m) else m

/-- The value `setHeader(header)` gives to `staging`. -/
def stagingFor {Msg Hdr Body : Type} (P : Parts Msg Hdr Body) (b : MessageBuilder Msg)
    (header : Hdr) : Bool :=
  decide (b.stagingThreshold ≠ 0 ∧ P.getContentSize header ≥ b.stagingThreshold)

/-- The builder after a call of `route()` that finds the message `m` complete once
it is staged (when `staging` and there is a store): the store has been called
with the message if it was staged, the handler, if there is one, has been
called once, with the message, and no message is in progress. -/
def completed {Msg Hdr Body : Type} (P : Parts Msg Hdr Body) (b : MessageBuilder Msg)
    (staging : Bool) (m : Msg) : MessageBuilder Msg :=
  { b with
    message := none, staging := false,
    calls := (if staging && b.store then b.calls ++ [.stage m] else b.calls)
      ++ (if b.handler then [.complete (staged P staging b.store m)] else []) }

end MessageBuilder

/-- An example of the parts: a message is the content size of its header, if it
has one, and the sizes of the bodies received; a header is a content size and a
body a size; the message is complete when it has a header and as many bytes as
the header says; the store leaves the message as it is and `releaseContent`
keeps the sizes. -/
def Parts.sizes : Parts (Option Nat × List Nat) Nat Nat :=
  { setHeader := fun m h => (some h, m.2),
    addContent := fun m c => (m.1, m.2 ++ [c]),
    releaseContent := fun m => m,
    isComplete := fun m => m.1 == some m.2.sum,
    getContentSize := fun h => h,
    stage := fun m => m }

end broker

/-! ## The serialization of packed structs (`Packer.h`) -/

namespace amqp_0_10

/-- A member of a packable struct as its `serialize` passes it to a serializer: a
member of a type `T` or a member of type `boost::optional<T>`.  The struct
types and their `serialize` are not in the sources: a struct is the list of
its members in the order `serialize` passes them, and a value of a type `T`
is a number, written and read by the underlying serializer as one item. -/
inductive Member where
  | plain (value : Nat)
  | optional (value : Option Nat)
  deriving DecidableEq, Repr

/-- The class `PackBits`: the members `bit` and `bits`, both `uint32_t`. -/
structure PackBits where
  bit : Nat
  bits : Nat
  deriving DecidableEq, Repr

namespace PackBits

/-- The constructor `PackBits() : bit(1), bits(0)`. -/
def new : PackBits := ⟨1, 0⟩

/-- The member function `setBit()`: `bits |= bit; bit <<= 1;`. -/
def setBit (p : PackBits) : PackBits := ⟨(p.bit <<< 1) % 2 ^ 32, p.bits ||| p.bit⟩

/-- The member function `skipBit()`: `bit <<= 1;`. -/
def skipBit (p : PackBits) : PackBits := ⟨(p.bit <<< 1) % 2 ^ 32, p.bits⟩

/-- The two `operator()`: `setBit()` for a member of a type `T`; for an optional
member `opt ? setBit() : skipBit()`. -/
def call (p : PackBits) : Member → PackBits
  | .plain _ => p.setBit
  | .optional opt => if opt.isSome then p.setBit else p.skipBit

/-- The member function `getBits()`. -/
def getBits (p : PackBits) : Nat := p.bits

end PackBits

/-- The function `packBits(t)`: the struct is serialized to a new `PackBits`. -/
def packBits (t : List Member) : Nat := (t.foldl PackBits.call PackBits.new).getBits

/-- What the underlying encoder writes for a member: the value of a member of a
type `T`; for an optional member (`SerializableOptional::serialize`) the value
`if (optional)`, else nothing. -/
def encodeMember : Member → List Nat
  | .plain v => [v]
  | .optional (some v) => [v]
  | .optional none => []

/-- The member function `Packer::encode(s)` for a struct with `T::PACK = pack`:
`Bits bits = packBits(data); s(bits); data.serialize(s);`, where `Bits` has
`pack` bytes.  The result is what is written. -/
def Packer.encode (pack : Nat) (data : List Member) : List Nat :=
  (packBits data % 2 ^ (8 * pack)) :: (data.map encodeMember).flatten

/-- The class `PackedDecoder`: the member `bits`, and what is left to read for the
underlying decoder `decode`. -/
structure PackedDecoder where
  bits : Nat
  input : List Nat
  deriving DecidableEq, Repr

/-- The two `operator()` of `PackedDecoder`, for a member that is optional or
not; the result is the member decoded and the decoder after it, or `none` when
the underlying decoder has nothing left to read.  For a member of a type `T`:
`decode(t)`.  For an optional member: `if (bits & 1) { opt = T();
decode(*opt); } else opt = boost::none; bits >>= 1;`. -/
def PackedDecoder.call (d : PackedDecoder) (isOptional : Bool) :
    Option (Member × PackedDecoder) :=
  if isOptional then
    if d.bits &&& 1 ≠ 0 then
      match d.input with
      | v :: rest => some (.optional (some v), ⟨d.bits >>> 1, rest⟩)
      | [] => none
    else
      some (.optional none, ⟨d.bits >>> 1, d.input⟩)
  else
    match d.input with
    | v :: rest => some (.plain v, ⟨d.bits, rest⟩)
    | [] => none

/-- The call `data.serialize(decode)` of `Packer::decode`: the decoder is applied
to the members of the struct in order; `shape` says of each member whether it
is optional. -/
def PackedDecoder.serialize (d : PackedDecoder) : List Bool → Option (List Member × PackedDecoder)
  | [] => some ([], d)
  | k :: rest =>
    match d.call k with
    | none => none
    | some (m, d1) =>
      match d1.serialize rest with
      | none => none
      | some (ms, d2) => some (m :: ms, d2)

/-- The member function `Packer::decode(s)`: `Bits bits; s(bits);
PackedDecoder<S, Bits> decode(s, bits); data.serialize(decode);`.  The result
is the struct read and what is left of the input. -/
def Packer.decode (shape : List Bool) (input : List Nat) : Option (List Member × List Nat) :=
  match input with
  | [] => none
  | bits :: rest =>
    match (PackedDecoder.mk bits rest).serialize shape with
    | none => none
    | some (ms, d) => some (ms, d.input)

/-- Whether a member is optional. -/
def Member.isOptional : Member → Bool
  | .plain _ => false
  | .optional _ => true

/-- The shape of a struct: of each member, whether it is optional. -/
def shape (data : List Member) : List Bool := data.map Member.isOptional

/-- The flag bits of a struct whose members are all flagged in order: bit `i` is
set when member `i` is there. -/
def flags : List Member → Nat
  | [] => 0
  | .optional none :: rest => 2 * flags rest
  | _ :: rest => 2 * flags rest + 1

end amqp_0_10

/-! ## Vocabulary of the properties -/

/-- The operation returns from every state (it neither throws nor waits). -/
def M.Total {α : Type} (m : M α) : Prop := ∀ s, ∃ a s1, m s = (.ret a, s1)

/-- The operation leaves the component `π` of the state as it was, however it
ends. -/
def M.Fixes {α β : Type} (π : ConnectionContext → β) (m : M α) : Prop :=
  ∀ s, π (m s).2 = π s

namespace ConnectionContext

/-- The number of rounds of connection attempts (entries of `tryConnectUrl`) among
the calls. -/
def rounds (calls : List Call) : Nat :=
  (calls.filter fun c => match c with
    | .tryConnectUrl _ => true
    | _ => false).length

/-- The delays slept (`usleep`), in order, among the calls. -/
def sleeps (calls : List Call) : List ℚ :=
  calls.filterMap fun c => match c with
    | .usleep i => some i
    | _ => none

/-- The number of resets of the engine and transport among the calls. -/
def resets (calls : List Call) : Nat :=
  (calls.filter fun c => match c with
    | .reset => true
    | _ => false).length

/-- The number of `transport->connect` calls among the calls. -/
def connectCalls (calls : List Call) : Nat :=
  (calls.filter fun c => match c with
    | .connect _ => true
    | _ => false).length

/-- The shared state after the waits number `k`, ..., `k + j - 1`. -/
def wakes (E : Env) : Nat → Nat → World → World
  | _, 0, w => w
  | k, j + 1, w => wakes E (k + 1) j (E.wake k w)

/-- The connection is up: `CONNECTED`, and the peer has not closed the connection
under the driver (`check` finds nothing to do). -/
def Healthy (w : World) : Prop :=
  w.state = .CONNECTED ∧ w.engine.pn_connection_state &&& REQUIRES_CLOSE ≠ REQUIRES_CLOSE

instance (w : World) : Decidable (Healthy w) := by unfold Healthy; infer_instance

/-- The engine session `h` is neither closed by the peer under the driver nor
closed on both sides (`checkClosed(ssn)` finds nothing to do). -/
def SessionOpen (w : World) (h : Nat) : Prop :=
  w.engine.pn_session_state h &&& REQUIRES_CLOSE ≠ REQUIRES_CLOSE
    ∧ w.engine.pn_session_state h &&& IS_CLOSED ≠ IS_CLOSED

instance (w : World) (h : Nat) : Decidable (SessionOpen w h) := by
  unfold SessionOpen; infer_instance

/-- The engine link `l` is neither closed by the peer under the driver nor closed
on both sides (`checkClosed(ssn, lnk)` finds nothing to do on the link). -/
def LinkOpen (w : World) (l : Nat) : Prop :=
  w.engine.pn_link_state l &&& REQUIRES_CLOSE ≠ REQUIRES_CLOSE
    ∧ w.engine.pn_link_state l &&& IS_CLOSED ≠ IS_CLOSED

instance (w : World) (l : Nat) : Decidable (LinkOpen w l) := by
  unfold LinkOpen; infer_instance

/-- The state after `j` more waits in which the calling thread changes nothing
itself. -/
def waited (E : Env) (j : Nat) (s : ConnectionContext) : ConnectionContext :=
  { s with io := wakes E s.waits j s.io, waits := s.waits + j }

/-- The peer confirms each session open within `d` waits: from every healthy shared
state and for every engine session `h` that exists, there is a wait `j ≤ d` up
to which the connection stays healthy, before which the session is not
confirmed (`PN_REMOTE_UNINIT`), and at which it is. -/
def PeerConfirms (E : Env) (d : Nat) : Prop :=
  ∀ (k : Nat) (w : World) (h : Nat), Healthy w → h < w.engine.sessions.length →
    ∃ j, j ≤ d ∧ (∀ i, i ≤ j → Healthy (wakes E k i w))
      ∧ (∀ i, i < j → (wakes E k i w).engine.pn_session_state h &&& PN_REMOTE_UNINIT ≠ 0)
      ∧ (wakes E k j w).engine.pn_session_state h &&& PN_REMOTE_UNINIT = 0

/-- The state in which `newSession(false, n)` starts to wait for the peer: the
session object is made, its engine session is created and opened, and the
driver is woken. -/
def atSessionWait (n : String) (s : ConnectionContext) : ConnectionContext :=
  (wakeupDriver (openEngineSession s.ssnObjs.length (newSessionContext n s).2).2).2

/-- The connection is healthy and the session `ssn` and its sender `snd` are
open: the checks made on a wakeup in `send` find nothing. -/
def SenderSound (ssn snd : Nat) (s : ConnectionContext) : Prop :=
  Healthy s.io ∧ SessionOpen s.io (s.ssn ssn).session ∧ LinkOpen s.io (s.snd snd).sender

instance (ssn snd : Nat) (s : ConnectionContext) : Decidable (SenderSound ssn snd s) := by
  unfold SenderSound; infer_instance

/-- The connection is healthy and the session `ssn` and its receiver `rcv` are
open: the checks made on a wakeup in `fetch` find nothing. -/
def ReceiverSound (ssn rcv : Nat) (s : ConnectionContext) : Prop :=
  Healthy s.io ∧ SessionOpen s.io (s.ssn ssn).session ∧ LinkOpen s.io (s.rcv rcv).receiver

instance (ssn rcv : Nat) (s : ConnectionContext) : Decidable (ReceiverSound ssn rcv s) := by
  unfold ReceiverSound; infer_instance

/-- The state in which `fetch(ssn, lnk, message, 0)` starts to wait for the drain
when no check fails and nothing is queued: the fetch is counted, a receiver
without capacity has one more unit of credit (and the driver was woken for
it), `get` has read the clock twice, the link is in drain mode and the driver
woken. -/
def atDrainWait (E : Env) (lnk : Nat) (s : ConnectionContext) : ConnectionContext :=
  let s1 : ConnectionContext :=
    if (s.rcv lnk).capacity = 0 then
      { s with
        io := { s.io with engine := s.io.engine.pn_link_flow (s.rcv lnk).receiver 1,
                          haveOutput := true },
        calls := s.calls ++ [.activateOutput] }
    else s
  { s1 with
    io := { s1.io with engine := s1.io.engine.pn_link_drain (s.rcv lnk).receiver 0,
                       haveOutput := true },
    rcvObjs := modifyAt (fun o => { o with fetching := o.fetching + 1 }) lnk s.rcvObjs,
    calls := s1.calls ++ [.activateOutput],
    reads := s.reads + 2,
    clock := s.clock + E.elapse s.reads + E.elapse (s.reads + 1) }

/-- The state in which `tryConnectUrl(url)` comes to the first address: the round
is recorded, and the user name and the password of the URL are taken when they
are not empty. -/
def atFirstAddress (url : Url) (s : ConnectionContext) : ConnectionContext :=
  { s with
    calls := s.calls ++ [.tryConnectUrl url],
    username := if url.user.length ≠ 0 then url.user else s.username,
    password := if url.pass.length ≠ 0 then url.pass else s.password }

/-- The attempt on the address `a` from the state `s` succeeds: the transport
connect returns `true` and then the handshake returns `true`; the result is the
state after the handshake. -/
def succeedsAt (E : Env) (ac : M Unit) (fuel : Nat) (a : Address) (s : ConnectionContext) :
    Option ConnectionContext :=
  match tryConnectAddr E fuel a s with
  | (.ret true, s1) =>
    match tryOpenAddr E ac fuel a s1 with
    | (.ret true, s2) => some s2
    | _ => none
  | _ => none

/-- The attempt on the address `a` from the state `s` fails: either the transport
connect returns `false`, and the result is the state after it (no handshake is
attempted), or it returns `true` and the handshake returns `false`, and the
result is the state after the handshake. -/
def failsAt (E : Env) (ac : M Unit) (fuel : Nat) (a : Address) (s : ConnectionContext) :
    Option ConnectionContext :=
  match tryConnectAddr E fuel a s with
  | (.ret false, s1) => some s1
  | (.ret true, s1) =>
    match tryOpenAddr E ac fuel a s1 with
    | (.ret false, s2) => some s2
    | _ => none
  | _ => none

/-- The attempts on the addresses of a list, in the order of the list and each
from the state the one before left, all fail; the result is the state after the
last. -/
def allFail (E : Env) (ac : M Unit) (fuel : Nat) :
    List Address → ConnectionContext → Option ConnectionContext
  | [], s => some s
  | a :: rest, s =>
    match failsAt E ac fuel a s with
    | some t => allFail E ac fuel rest t
    | none => none

/-- The changes of the connection state in the state machine of the
specification: `DISCONNECTED → CONNECTING → CONNECTED → DISCONNECTED`. -/
def SpecEdge (a b : ConnectionState) : Prop :=
  (a = .DISCONNECTED ∧ b = .CONNECTING) ∨ (a = .CONNECTING ∧ b = .CONNECTED)
    ∨ (a = .CONNECTED ∧ b = .DISCONNECTED)

instance (a b : ConnectionState) : Decidable (SpecEdge a b) := by
  unfold SpecEdge; infer_instance

/-- The changes of the connection state that the driver makes: those of the
specification and `CONNECTING → DISCONNECTED`, for an attempt that fails. -/
def DriverEdge (a b : ConnectionState) : Prop :=
  SpecEdge a b ∨ (a = .CONNECTING ∧ b = .DISCONNECTED)

instance (a b : ConnectionState) : Decidable (DriverEdge a b) := by
  unfold DriverEdge; infer_instance

/-- The clock after `k` more readings, the next being the reading number `reads`. -/
def clockAfter (E : Env) : Nat → Nat → Nat → Nat
  | _, clock, 0 => clock
  | reads, clock, k + 1 => clockAfter E (reads + 1) (clock + E.elapse reads) k

/-- The state after `k` rounds of the loop of `get` that found no message: `k`
readings of the clock and `k` waits in which the calling thread changes nothing
itself. -/
def polled (E : Env) (k : Nat) (s : ConnectionContext) : ConnectionContext :=
  { waited E k s with reads := s.reads + k, clock := clockAfter E s.reads s.clock k }

/-- The state in which `fetch(ssn, lnk, message, timeout)`, for a timeout that is
not infinite, enters the loop of its first `get` when no check fails: the fetch
is counted, a receiver without capacity has one more unit of credit (and the
driver was woken for it), and `convert` has read the clock. -/
def atGetLoop (E : Env) (lnk : Nat) (s : ConnectionContext) : ConnectionContext :=
  let s1 : ConnectionContext :=
    if (s.rcv lnk).capacity = 0 then
      { s with
        io := { s.io with engine := s.io.engine.pn_link_flow (s.rcv lnk).receiver 1,
                          haveOutput := true },
        calls := s.calls ++ [.activateOutput] }
    else s
  { s1 with
    rcvObjs := modifyAt (fun o => { o with fetching := o.fetching + 1 }) lnk s.rcvObjs,
    reads := s.reads + 1,
    clock := s.clock + E.elapse s.reads }

/-- The in-progress-fetch counters of the receivers. -/
def fetchCounts (s : ConnectionContext) : List Nat := s.rcvObjs.map fun o => o.fetching

/-- Modelled from the spec: `SessionContext::createSender(address)` (its file is
not among the sources): "SessionContext ... owns its sender and receiver
registries".  A new sender for the target, with the capacity given, nothing in
flight and a new link on the session's engine session, is entered in the
session's senders under its name; the result is the pointer to it. -/
def createSender (ssn : Nat) (name target : String) (capacity : Nat) : M Nat := fun s =>
  let r := s.io.engine.pn_link (s.ssn ssn).session name
  let enter : SessionContext → SessionContext := fun o =>
    { o with senders := NameMap.insert name s.sndObjs.length o.senders }
  (.ret s.sndObjs.length,
   { s with io := { s.io with engine := r.2 },
            sndObjs := s.sndObjs ++ [⟨name, target, capacity, [], 0, r.1⟩],
            ssnObjs := modifyAt enter ssn s.ssnObjs })

/-- The calls `open(); newSession("s1"); attach(sender to "q"); send(msg, true);
detach(sender); close()` one after the other, the sender with the given
capacity. -/
def openSendClose (E : Env) (fuel : Nat) (capacity : Nat) (msg : Message) : M Unit := do
  ConnectionContext.open E fuel
  let ssn ← newSession E fuel false "s1"
  let snd ← createSender ssn "q" "q" capacity
  attachSender E fuel ssn snd
  send E fuel ssn snd msg true
  detachSender E fuel ssn snd
  close E fuel

/-- No session is registered, and no session object has a sender or a receiver
registered. -/
def RegistriesEmpty (s : ConnectionContext) : Prop :=
  s.sessions = [] ∧ ∀ o ∈ s.ssnObjs, o.senders = [] ∧ o.receivers = []

instance (s : ConnectionContext) : Decidable (RegistriesEmpty s) := by
  unfold RegistriesEmpty; infer_instance

/-- A step of `restartSessions`, for the record of their order:
`pn_session_open(s->session)` on an engine session, the call
`attach(s, link, credit)` for an engine link (which opens the link and, if
`credit` is not 0, grants it `credit` units), and `resend()` on a sender. -/
inductive Step where
  | pn_session_open (session : Nat)
  | attach (link : Nat) (credit : Nat)
  | resend (sender : Nat)
  deriving DecidableEq, Repr

/-- A step of `restartSessions` as it was made: the step, the engine as it was
when the step began, and the engine as it was when the step was done. -/
structure Made where
  step : Step
  before : Engine
  after : Engine
  deriving DecidableEq, Repr

/-- A loop `for (i = m.begin(); i != m.end(); ++i)` whose body records its steps:
the records one after the other. -/
def collectSteps {α : Type} (body : α → M (List Made)) : List α → M (List Made)
  | [] => pure []
  | a :: rest => do
    let x ← body a
    let y ← collectSteps body rest
    pure (x ++ y)

/-- The member function `attach(ssn, pn_link_t* link, credit)`, with the record of
the call: the engine is read before the call and after it. -/
def attachLinkSteps (E : Env) (autoconnect : M Unit) (fuel : Nat) (ssn : Nat) (link : Nat)
    (credit : Nat) : M (List Made) := do
  let s0 ← M.get
  attachLink E autoconnect fuel ssn link credit
  let s1 ← M.get
  pure [⟨Step.attach link credit, s0.io.engine, s1.io.engine⟩]

/-- The body of the loop of `restartSession` over the senders, with the record of
its steps. -/
def reattachSenderSteps (E : Env) (autoconnect : M Unit) (fuel : Nat) (p : Nat) (snd : Nat) :
    M (List Made) := do
  let s ← M.get
  let a ← attachLinkSteps E autoconnect fuel p (s.snd snd).sender 0
  let s ← M.get
  verify E (s.snd snd).sender
  let s0 ← M.get
  SenderContext.resend snd
  let s1 ← M.get
  pure (a ++ [⟨Step.resend snd, s0.io.engine, s1.io.engine⟩])

/-- The body of the loop of `restartSession` over the receivers, with the record
of its steps. -/
def reattachReceiverSteps (E : Env) (autoconnect : M Unit) (fuel : Nat) (p : Nat) (rcv : Nat) :
    M (List Made) := do
  let s ← M.get
  let a ← (if (s.rcv rcv).capacity ≠ 0 then
    attachLinkSteps E autoconnect fuel p (s.rcv rcv).receiver (s.rcv rcv).capacity
  else
    attachLinkSteps E autoconnect fuel p (s.rcv rcv).receiver (s.rcv rcv).fetching : M (List Made))
  let s ← M.get
  verify E (s.rcv rcv).receiver
  pure a

/-- The member function `restartSession(s)`, with the record of its steps; the
step `pn_session_open` is done when the loop that waits for the peer's answer
has ended. -/
def restartSessionSteps (E : Env) (autoconnect : M Unit) (fuel : Nat) (p : Nat) :
    M (List Made) := do
  let s ← M.get
  onEngine fun g => g.pn_session_open (s.ssn p).session
  wakeupDriver
  M.loop (sessionRemoteUninit p) (wait E autoconnect) fuel
  let s1 ← M.get
  let a ← collectSteps (fun i => reattachSenderSteps E autoconnect fuel p i.2) (s1.ssn p).senders
  let s2 ← M.get
  let b ← collectSteps (fun i => reattachReceiverSteps E autoconnect fuel p i.2) (s2.ssn p).receivers
  wakeupDriver
  pure (⟨Step.pn_session_open (s.ssn p).session, s.io.engine, s1.io.engine⟩ :: (a ++ b))

/-- The member function `restartSessions`, with the record of its steps (none
when it returns `false`). -/
def restartSessionsSteps (E : Env) (autoconnect : M Unit) (fuel : Nat) : M (Bool × List Made) :=
  M.tryCatch
    (do
      let s ← M.get
      let a ← collectSteps (fun i => restartSessionSteps E autoconnect fuel i.2) s.sessions
      pure (true, a))
    isQpidTransportFailure
    (fun _ => pure (false, []))

/-- The engine `g1` is the engine `g` or what the I/O thread made of it in one
wait. -/
def Answered (E : Env) (g g1 : Engine) : Prop :=
  g1 = g ∨ ∃ k w, w.engine = g ∧ g1 = (E.wake k w).engine

/-- What the driver calls on the engine in a step: `pn_session_open(session)`;
`pn_link_open(link)` and, if the credit is not 0, `pn_link_flow(link, credit)`;
nothing in `resend()`. -/
def Step.calls : Step → Engine → Engine
  | .pn_session_open x, g => g.pn_session_open x
  | .attach l credit, g =>
    if credit ≠ 0 then (g.pn_link_open l).pn_link_flow l credit else g.pn_link_open l
  | .resend _, g => g

/-- A step was made as the code of the step has it: the engine after the step is
the engine before it with the calls of the step, and with what the I/O thread
did in one wait if the driver waited; a `resend()` leaves the connection, the
sessions and the links of the engine as they were. -/
def Made.AsCoded (E : Env) (m : Made) : Prop :=
  match m.step with
  | .resend _ =>
    m.after.conn = m.before.conn ∧ m.after.sessions = m.before.sessions
      ∧ m.after.links = m.before.links
  | step => Answered E (step.calls m.before) m.after

/-- The steps of a record were made one after the other from the engine `g` to the
engine `g1`: each began with the engine as the step before left it. -/
def Consecutive : Engine → List Made → Engine → Prop
  | g, [], g1 => g1 = g
  | g, m :: rest, g1 => m.before = g ∧ Consecutive m.after rest g1

/-- The senders whose `resend()` a list of calls records, in the order of the
calls. -/
def resent (calls : List Call) : List Nat :=
  calls.filterMap fun c => match c with
    | .resend p => some p
    | _ => none

/-- The senders that resend in a list of steps, in the order of the steps. -/
def resentSteps (steps : List Step) : List Nat :=
  steps.filterMap fun x => match x with
    | .resend p => some p
    | _ => none

/-- The record `tr` is a record of the steps `steps` made from the state `s` to the
state `t`: its steps are `steps`; they were made one after the other from the
engine of `s` to the engine of `t`, each as the code of the step has it; and
the calls of `resend()` recorded from `s` to `t` are those of the steps. -/
def Recorded (E : Env) (steps : List Step) (s t : ConnectionContext) (tr : List Made) : Prop :=
  tr.map Made.step = steps ∧ Consecutive s.io.engine tr t.io.engine
    ∧ (∀ m ∈ tr, m.AsCoded E)
    ∧ resent t.calls = resent s.calls ++ resentSteps steps

/-- The credit a reattached receiver is to be granted: its capacity, or, with
capacity 0, its number of fetches in progress. -/
def reattachCredit (o : ReceiverContext) : Nat := if o.capacity ≠ 0 then o.capacity else o.fetching

/-- The steps of the reattach of the senders of a registry, in the order of the
registry: each is attached, without credit, and resends. -/
def senderSteps (s : ConnectionContext) : NameMap → List Step
  | [] => []
  | j :: rest => Step.attach (s.snd j.2).sender 0 :: Step.resend j.2 :: senderSteps s rest

/-- The steps of the reattach of the receivers of a registry, in the order of the
registry: each is attached with its credit. -/
def receiverSteps (s : ConnectionContext) : NameMap → List Step
  | [] => []
  | j :: rest =>
    Step.attach (s.rcv j.2).receiver (reattachCredit (s.rcv j.2)) :: receiverSteps s rest

/-- The steps of the restart of one session: it is reopened, then its senders are
reattached, then its receivers. -/
def sessionSteps (s : ConnectionContext) (p : Nat) : List Step :=
  Step.pn_session_open (s.ssn p).session ::
    (senderSteps s (s.ssn p).senders ++ receiverSteps s (s.ssn p).receivers)

/-- The steps of the restart of the sessions of a registry, in the order of the
registry. -/
def sessionsSteps (s : ConnectionContext) : NameMap → List Step
  | [] => []
  | i :: rest => sessionSteps s i.2 ++ sessionsSteps s rest

/-- The connection is up, and neither the driver nor the peer has closed the
connection or a session. -/
def Calm (w : World) : Prop :=
  w.state = .CONNECTED ∧ w.engine.conn.loc ≠ .CLOSED ∧ w.engine.conn.rem ≠ .CLOSED
    ∧ ∀ x ∈ w.engine.sessions, x.ep.loc ≠ .CLOSED ∧ x.ep.rem ≠ .CLOSED

instance (w : World) : Decidable (Calm w) := by unfold Calm; infer_instance

/-- A peer that stays connected and answers at the next wait: no `verify` throws;
and a wait in a calm shared state leaves it calm, keeps the engine's sessions
and links, and leaves no session and no link that the driver has opened
unconfirmed (`PN_REMOTE_UNINIT`). -/
def Cooperative (E : Env) : Prop :=
  (∀ g l, E.verifyFails g l = none) ∧
  ∀ k w, Calm w →
    Calm (E.wake k w)
    ∧ (∀ h, h < w.engine.sessions.length → h < (E.wake k w).engine.sessions.length
        ∧ ((w.engine.session h).ep.loc = .ACTIVE → ((E.wake k w).engine.session h).ep.rem ≠ .UNINIT))
    ∧ (∀ h, h < w.engine.links.length → h < (E.wake k w).engine.links.length
        ∧ ((w.engine.link h).ep.loc = .ACTIVE → ((E.wake k w).engine.link h).ep.rem ≠ .UNINIT))

/-- The connection is as after a successful connect: the shared state is calm, and
every registered session has its engine session and every sender and receiver
registered on it its engine link. -/
def Restartable (s : ConnectionContext) : Prop :=
  Calm s.io ∧ ∀ i ∈ s.sessions,
    (s.ssn i.2).session < s.io.engine.sessions.length
    ∧ (∀ j ∈ (s.ssn i.2).senders, (s.snd j.2).sender < s.io.engine.links.length)
    ∧ (∀ j ∈ (s.ssn i.2).receivers, (s.rcv j.2).receiver < s.io.engine.links.length)

instance (s : ConnectionContext) : Decidable (Restartable s) := by
  unfold Restartable; infer_instance

/-- The state `t` is a later state of a restart begun in `s`: the shared state is
calm, the registries, the session objects, the receivers and the links of the
senders are the same, and the engine has the sessions and links it had. -/
def Later (s t : ConnectionContext) : Prop :=
  Calm t.io ∧ t.sessions = s.sessions ∧ t.ssnObjs = s.ssnObjs ∧ t.rcvObjs = s.rcvObjs
    ∧ t.sndObjs.map (fun o => o.sender) = s.sndObjs.map (fun o => o.sender)
    ∧ s.io.engine.sessions.length ≤ t.io.engine.sessions.length
    ∧ s.io.engine.links.length ≤ t.io.engine.links.length

/-- The negotiated idle timeout in the words of the specification: the smaller of
the non-zero local and remote timeouts, in ms; none when both are zero. -/
def negotiatedIdleTimeout (loc remote : Nat) : Option Nat :=
  ([loc, remote].filter fun t => t ≠ 0).min?

/-- Every `transport->connect` throws. -/
def AllConnectsFail (E : Env) : Prop := ∀ k a, (E.connectThrows k a).isSome = true

/-- What a round of attempts that opens no connection leaves as it was: the
reconnect options, the retry counter, the delays slept and the rounds made so
far. -/
structure OptionsKept (s s1 : ConnectionContext) : Prop where
  reconnect : s1.reconnect = s.reconnect
  timeout : s1.timeout = s.timeout
  limit : s1.limit = s.limit
  retries : s1.retries = s.retries
  fullUrl : s1.fullUrl = s.fullUrl
  minInterval : s1.minReconnectInterval = s.minReconnectInterval
  maxInterval : s1.maxReconnectInterval = s.maxReconnectInterval
  sleeps : sleeps s1.calls = sleeps s.calls
  rounds : rounds s1.calls = rounds s.calls

/-- The delays of `k` successive failed rounds: the first is `i`, each later one
the double of the one before, capped at `max`. -/
def delays (max : ℚ) : Nat → ℚ → List ℚ
  | 0, _ => []
  | k + 1, i => i :: delays max k (min (i * 2) max)

/-- With reconnection disabled in `s`, the state `s1` still has it disabled and
has the retry counter, the delays slept, the rounds made and the URL of `s`. -/
def Undisturbed (s s1 : ConnectionContext) : Prop :=
  s.reconnect = false →
    s1.reconnect = false ∧ s1.retries = s.retries ∧ sleeps s1.calls = sleeps s.calls
      ∧ rounds s1.calls = rounds s.calls ∧ s1.fullUrl = s.fullUrl

/-- The operation, run with reconnection disabled, neither enables it nor changes
the retry counter, nor sleeps, nor starts a round of attempts. -/
def Keeps {α : Type} (m : M α) : Prop := ∀ s, Undisturbed s (m s).2

/-- The calls `newSession(false, n)` for the names `n` of a list, in order; the
result is the list of the sessions returned. -/
def newSessions (E : Env) (fuel : Nat) : List String → M (List Nat)
  | [] => pure []
  | n :: rest => do
    let p ← newSession E fuel false n
    let ps ← newSessions E fuel rest
    pure (p :: ps)

/-- The calls `endSession(p)` for the sessions `p` of a list, in order. -/
def endSessions (E : Env) (fuel : Nat) (ps : List Nat) : M Unit :=
  M.forEach (endSession E fuel) ps

end ConnectionContext

namespace ConnectionContext

/-- What a step of a round of attempts leaves as it was: the reconnect options
always; the number of rounds made, which does not decrease, and the delays
slept, to which it only adds; and, when it has not started another round, the
retry counter and the delays slept. -/
structure Quiet (s t : ConnectionContext) : Prop where
  reconnect : t.reconnect = s.reconnect
  timeout : t.timeout = s.timeout
  limit : t.limit = s.limit
  fullUrl : t.fullUrl = s.fullUrl
  minInterval : t.minReconnectInterval = s.minReconnectInterval
  maxInterval : t.maxReconnectInterval = s.maxReconnectInterval
  rounds_le : rounds s.calls ≤ rounds t.calls
  sleeps_grow : ∃ more, sleeps t.calls = sleeps s.calls ++ more
  kept : rounds t.calls = rounds s.calls → t.retries = s.retries ∧ sleeps t.calls = sleeps s.calls

/-- The operation leaves the reconnect options as they were and, unless a round of
attempts is started in it, the retry counter and the delays slept. -/
def Quietly {α : Type} (m : M α) : Prop := ∀ s, Quiet s (m s).2

/-- What every step of `autoconnect` leaves as it was: the reconnect options; the
number of rounds made does not decrease, and the delays slept are only added
to. -/
structure Steady (s t : ConnectionContext) : Prop where
  reconnect : t.reconnect = s.reconnect
  timeout : t.timeout = s.timeout
  limit : t.limit = s.limit
  fullUrl : t.fullUrl = s.fullUrl
  minInterval : t.minReconnectInterval = s.minReconnectInterval
  maxInterval : t.maxReconnectInterval = s.maxReconnectInterval
  rounds_le : rounds s.calls ≤ rounds t.calls
  sleeps_grow : ∃ more, sleeps t.calls = sleeps s.calls ++ more

/-- The operation leaves the reconnect options as they were. -/
def Steadily {α : Type} (m : M α) : Prop := ∀ s, Steady s (m s).2

end ConnectionContext

namespace ConnectionContext

/-- In the loop of `autoconnect` with the rounds `round`, begun at the time
`started`, in the state `s` and with the interval `i`, the next `k + 1` rounds
of attempts fail and the timeout does not expire between them: each round
returns `false` and is the only round made meanwhile (no connection is made and
lost again inside it), and after each but the last `expired(started, timeout)`
is false where the loop evaluates it, so that the loop sleeps and goes on. -/
def RoundsFail (E : Env) (round : M Bool) (started : Nat) : Nat → ℚ → ConnectionContext → Prop
  | 0, _, s => (round s).1 = .ret false ∧ rounds (round s).2.calls = rounds s.calls + 1
  | k + 1, i, s =>
    (round s).1 = .ret false ∧ rounds (round s).2.calls = rounds s.calls + 1
      ∧ (expired E started (round s).2.timeout
          { (round s).2 with retries := (round s).2.retries + 1 }).1 = .ret false
      ∧ RoundsFail E round started k
          (min (i * 2) (autoconnectBody E started i (round s).2).2.maxReconnectInterval)
          (autoconnectBody E started i (round s).2).2

/-- The first `n + 1` rounds of attempts of `open()` called in the state `s` fail,
and the timeout does not expire between them. -/
def OpenRoundsFail (E : Env) (fuel n : Nat) (s : ConnectionContext) : Prop :=
  RoundsFail E (tryConnectUrl E (autoconnect E (fuel - 1)) fuel s.fullUrl)
    (s.clock + E.elapse s.reads) n s.minReconnectInterval
    { s with driver := true, clock := s.clock + E.elapse s.reads, reads := s.reads + 1 }

end ConnectionContext

namespace ConnectionContext

/-- The delays that the loop of `autoconnect` itself sleeps, in order, when it is
run with the rounds `round` from the state `s` with the interval `i`: after a
round that returns `false`, if the body of the loop returns (it has slept), the
interval `i`, and then those of the loop from the state the body left, with the
interval the loop computes.  (What a round sleeps inside itself, in a
reconnection during its handshake, is slept by another call of `autoconnect`,
and is not among them.) -/
def loopDelays (E : Env) (round : M Bool) (started : Nat) : Nat → ℚ → ConnectionContext → List ℚ
  | 0, _, _ => []
  | fuel + 1, i, s =>
    match round s with
    | (.ret false, t) =>
      match autoconnectBody E started i t with
      | (.ret _, u) => i :: loopDelays E round started fuel (min (i * 2) u.maxReconnectInterval) u
      | _ => []
    | _ => []

/-- The delays that a call of `autoconnect` in the state `s` itself sleeps between
its rounds of attempts, in order. -/
def autoconnectDelays (E : Env) : Nat → ConnectionContext → List ℚ
  | 0, _ => []
  | fuel + 1, s =>
    loopDelays E (tryConnectUrl E (autoconnect E fuel) (fuel + 1) s.fullUrl)
      (s.clock + E.elapse s.reads) (fuel + 1) s.minReconnectInterval
      { s with clock := s.clock + E.elapse s.reads, reads := s.reads + 1 }

end ConnectionContext

namespace ConnectionContext

/-- The attempt on the address `a` from the state `s` throws: the transport
connect returns `true` and then the handshake throws; the result is the
exception and the state at the throw.  (`tryConnectAddr` catches what the
transport connect throws and returns `false`.) -/
def throwsAt (E : Env) (ac : M Unit) (fuel : Nat) (a : Address) (s : ConnectionContext) :
    Option (Exc × ConnectionContext) :=
  match tryConnectAddr E fuel a s with
  | (.ret true, s1) =>
    match tryOpenAddr E ac fuel a s1 with
    | (.raise e, s2) => some (e, s2)
    | _ => none
  | (.raise e, s1) => some (e, s1)
  | _ => none

end ConnectionContext

/-- The engine after the loop of `drain_and_release_messages` that releases what
was not fetched: every delivery queued on the link `h`, oldest first, has been
advanced past (it used one unit of credit), updated to `PN_RELEASED` and
settled; none is left queued. -/
def Engine.releaseQueued (g : Engine) (h : Nat) : Engine :=
  g.modifyLink h fun l =>
    { l with incoming := [], credit := l.credit - l.incoming.length,
             released := l.released ++ l.incoming }

namespace ConnectionContext

/-- The members after the first statement of `drain_and_release_messages`,
`pn_link_drain(lnk->receiver, 0)`: the drain is requested. -/
def drainRequested (s : ConnectionContext) (lnk : Nat) : ConnectionContext :=
  { s with io := { s.io with engine := s.io.engine.pn_link_drain (s.rcv lnk).receiver 0 } }

/-- The members after the loop of `drain_and_release_messages` that releases what
was not fetched on the link of the receiver `lnk`. -/
def releasedQueued (u : ConnectionContext) (lnk : Nat) : ConnectionContext :=
  { u with io := { u.io with engine := u.io.engine.releaseQueued (u.rcv lnk).receiver } }

end ConnectionContext

namespace ConnectionContext

/-- The statements of `detach(ssn, receiver)` after `drain_and_release_messages`:
the link is closed, if it is locally active, the peer's detach is waited for,
and the receiver is removed from the session's registry. -/
def detachReceiverAfterDrain (E : Env) (autoconnect : M Unit) (fuel : Nat) (ssn : Nat)
    (lnk : Nat) : M Unit := do
  detachLink E autoconnect fuel ssn (do pure ((← M.get).rcv lnk).receiver)
  M.modify fun s =>
    let remove : SessionContext → SessionContext := fun o =>
      { o with receivers := o.receivers.erase (s.rcv lnk).name }
    { s with ssnObjs := modifyAt remove ssn s.ssnObjs }

end ConnectionContext

namespace ConnectionContext

/-- A change of the connection state in an execution: who made it (the calling
thread, in `tryConnectAddr`; or the I/O thread, during a wait), the state
before it and the state after it. -/
structure Change where
  byDriver : Bool
  before : ConnectionState
  after : ConnectionState
  deriving DecidableEq, Repr

/-- An execution from the state `s` to the state `t`, with the changes of the
connection state made in it, in order.  The steps of an execution are:
a step of the calling thread that leaves the connection state alone (and
neither waits nor connects); the assignment `state = CONNECTING` of
`tryConnectAddr`, made in any state, with the transport connect that follows
it; the assignment `state = DISCONNECTED` of the handler of `tryConnectAddr`,
made in state `CONNECTING`; and a wait, in which the I/O thread makes its next
change to the shared state. -/
inductive Run (E : Env) : ConnectionContext → List Change → ConnectionContext → Prop
  | start (s : ConnectionContext) : Run E s [] s
  | own {s t u : ConnectionContext} {h : List Change} :
    Run E s h t → u.io.state = t.io.state → u.waits = t.waits → u.connects = t.connects →
    Run E s h u
  | connecting {s t u : ConnectionContext} {h : List Change} :
    Run E s h t → u.io.state = .CONNECTING → u.waits = t.waits → u.connects = t.connects + 1 →
    Run E s (h ++ [⟨true, t.io.state, .CONNECTING⟩]) u
  | refused {s t u : ConnectionContext} {h : List Change} :
    Run E s h t → t.io.state = .CONNECTING → u.io.state = .DISCONNECTED → u.waits = t.waits →
    u.connects = t.connects →
    Run E s (h ++ [⟨true, .CONNECTING, .DISCONNECTED⟩]) u
  | wait {s t u : ConnectionContext} {h : List Change} :
    Run E s h t → u.io = E.wake t.waits t.io → u.waits = t.waits + 1 →
    u.connects = t.connects →
    Run E s (h ++ [⟨false, t.io.state, u.io.state⟩]) u

/-- Every execution of the operation is a run. -/
def Tame {α : Type} (E : Env) (m : M α) : Prop := ∀ s, ∃ h, Run E s h (m s).2

/-- The changes of a history follow one another from the state `a` to the state
`b`: each begins in the state the one before it left. -/
def Linked : ConnectionState → List Change → ConnectionState → Prop
  | a, [], b => b = a
  | a, c :: rest, b => c.before = a ∧ Linked c.after rest b

/-- The changes of the connection state that the code has: those of the
specification, `CONNECTING → DISCONNECTED` for an attempt that fails, and
`CONNECTED → CONNECTING` for an attempt made on a connection whose handshake
has failed while the transport stayed connected. -/
def CodeEdge (a b : ConnectionState) : Prop :=
  DriverEdge a b ∨ (a = .CONNECTED ∧ b = .CONNECTING)

instance (a b : ConnectionState) : Decidable (CodeEdge a b) := by
  unfold CodeEdge; infer_instance

/-- The transport calls `opened()` only for a connect in progress (in state
`CONNECTING`) and `closed()` only for a connection made or in progress: in a
wait the I/O thread leaves the connection state as it is, or calls `opened()`
in state `CONNECTING`, or calls `closed()` in a state other than
`DISCONNECTED`. -/
def Callbacks (E : Env) : Prop :=
  ∀ k w, (E.wake k w).state = w.state
    ∨ (w.state = .CONNECTING ∧ (E.wake k w).state = (opened w).state)
    ∨ (w.state ≠ .DISCONNECTED ∧ (E.wake k w).state = (closed w).state)

/-- The operations of the connection that an application calls, each a member
function of `ConnectionContext` (`openConn` is `open()`), and the member
functions that connect: `autoconnect`, `tryConnectUrl` and `tryConnectAddr`. -/
inductive Operation where
  | openConn
  | reconnect (url : Url)
  | close
  | newSession (transactional : Bool) (name : String)
  | endSession (ssn : Nat)
  | attachSender (ssn lnk : Nat)
  | attachReceiver (ssn lnk : Nat)
  | detachSender (ssn lnk : Nat)
  | detachReceiver (ssn lnk : Nat)
  | send (ssn sender : Nat) (msg : Message) (synchronous : Bool)
  | fetch (ssn lnk : Nat) (timeout : Nat)
  | sync (ssn : Nat)
  | get (ssn lnk : Nat) (timeout : Nat)
  | autoconnect
  | tryConnectUrl (url : Url)
  | tryConnectAddr (address : Address)

/-- The state in which an operation ends when called in the state `s`. -/
def Operation.final (E : Env) (fuel : Nat) (s : ConnectionContext) : Operation → ConnectionContext
  | .openConn => (ConnectionContext.open E fuel s).2
  | .reconnect url => (ConnectionContext.reconnectUrl E fuel url s).2
  | .close => (ConnectionContext.close E fuel s).2
  | .newSession transactional name => (ConnectionContext.newSession E fuel transactional name s).2
  | .endSession ssn => (ConnectionContext.endSession E fuel ssn s).2
  | .attachSender ssn lnk => (ConnectionContext.attachSender E fuel ssn lnk s).2
  | .attachReceiver ssn lnk => (ConnectionContext.attachReceiver E fuel ssn lnk s).2
  | .detachSender ssn lnk => (ConnectionContext.detachSender E fuel ssn lnk s).2
  | .detachReceiver ssn lnk => (ConnectionContext.detachReceiver E fuel ssn lnk s).2
  | .send ssn sender msg synchronous =>
    (ConnectionContext.send E fuel ssn sender msg synchronous s).2
  | .fetch ssn lnk timeout => (ConnectionContext.fetch E fuel ssn lnk timeout s).2
  | .sync ssn => (ConnectionContext.syncWith E (ConnectionContext.autoconnect E fuel) fuel ssn s).2
  | .get ssn lnk timeout =>
    (ConnectionContext.get E (ConnectionContext.autoconnect E fuel) fuel ssn lnk timeout s).2
  | .autoconnect => (ConnectionContext.autoconnect E fuel s).2
  | .tryConnectUrl url =>
    (ConnectionContext.tryConnectUrl E (ConnectionContext.autoconnect E fuel) fuel url s).2
  | .tryConnectAddr address => (ConnectionContext.tryConnectAddr E fuel address s).2

end ConnectionContext

namespace Codec

/-- A call of a codec function by the I/O thread, or (`others`) a change by the
other threads of the members that the codec functions only read: the
authenticator, `haveOutput`, `state` and `notifyOnWrite`. -/
inductive Op where
  | decode (size : Nat)
  | encode (size : Nat)
  | canEncode
  | decodePlain (size : Nat)
  | encodePlain (size : Nat)
  | canEncodePlain
  | others (sasl : Option Nat) (haveOutput : Bool) (state : ConnectionState) (notifyOnWrite : Bool)
  deriving DecidableEq, Repr

/-- The members after a call. -/
def Op.run (E : Wire) (fuel : Nat) : Op → Codec → Codec
  | .decode size, c => (Codec.decode E fuel size c).2
  | .encode size, c => (Codec.encode E fuel size c).2
  | .canEncode, c => (Codec.canEncode E c).2
  | .decodePlain size, c => (Codec.decodePlain E fuel size c).2
  | .encodePlain size, c => (Codec.encodePlain E fuel size c).2
  | .canEncodePlain, c => (Codec.canEncodePlain c).2
  | .others sasl haveOutput state notifyOnWrite, c =>
    { c with sasl := sasl, haveOutput := haveOutput, state := state,
             notifyOnWrite := notifyOnWrite }

/-- The members after a sequence of calls. -/
def runAll (E : Wire) (fuel : Nat) : List Op → Codec → Codec
  | [], c => c
  | op :: rest, c => runAll E fuel rest (op.run E fuel c)

/-- The protocol header is left to the engine: both flags are false, and the
header has been neither read nor written by the codec functions. -/
def HeaderLeftToEngine (c : Codec) : Prop :=
  c.readHeader = false ∧ c.writeHeader = false
    ∧ CodecCall.readProtocolHeader ∉ c.calls ∧ CodecCall.writeProtocolHeader ∉ c.calls

instance (c : Codec) : Decidable (HeaderLeftToEngine c) := by
  unfold HeaderLeftToEngine; infer_instance

/-- The members after `transport->close()`. -/
def closed (c : Codec) : Codec := { c with calls := c.calls ++ [.close] }

/-- The security layer passes the buffers of the sizes `chunks` to a function of
`codecAdapter`. -/
def fed (plain : Nat → CodecM Nat) (chunks : List Nat) : CodecM Unit :=
  CodecM.forEach (fun chunk => do let _ ← plain chunk; pure ()) chunks

end Codec

/-- The function `m` keeps the property `P` of the members. -/
def CodecM.Preserves {α : Type} (P : Codec → Prop) (m : CodecM α) : Prop := ∀ c, P c → P (m c).2

/-- The function `m` returns, whatever the members: it neither throws nor runs out
of fuel. -/
def CodecM.Returns {α : Type} (m : CodecM α) : Prop := ∀ c, ∃ a c1, m c = (.ret a, c1)

/-! ## Examples -/

namespace Example

/-- An address. -/
def addr : Address := ⟨"tcp", "localhost", 5672⟩

/-- A URL with the one address `addr`. -/
def url : Url := ⟨[addr], "", ""⟩

/-- A connection as constructed, not yet opened, for `url`: no session, default
reconnect options (no reconnect, no retry limit, no timeout, intervals 1 ms to
2 s), no authentication. -/
def disconnected : ConnectionContext :=
  { reconnect := false, timeout := ConnectionContext.FOREVER, limit := -1,
    minReconnectInterval := 1 / 1000, maxReconnectInterval := 2, retries := 0,
    heartbeat := 0, mechanism := "none", username := "", password := "",
    fullUrl := url, currentUrl := ⟨[], "", ""⟩,
    io := ⟨.DISCONNECTED, Engine.fresh, false, false⟩,
    notifyOnWrite := false, sessions := [], ssnObjs := [], sndObjs := [], rcvObjs := [],
    transport := none, driver := false, sasl := false, ticker := none, id := "",
    calls := [], waits := 0, connects := 0, reads := 0, uuids := 0, clock := 0 }

/-- An open connection without sessions: `CONNECTED`, the connection active on
both sides. -/
def connected : ConnectionContext :=
  { disconnected with
    io := ⟨.CONNECTED, { Engine.fresh with conn := ⟨.ACTIVE, .ACTIVE, none⟩ }, false, false⟩,
    transport := some addr, driver := true, currentUrl := url }

/-- An open connection with the one session `"s1"`, active on both sides. -/
def withSession : ConnectionContext :=
  { connected with
    io := ⟨.CONNECTED,
      { Engine.fresh with conn := ⟨.ACTIVE, .ACTIVE, none⟩,
                          sessions := [⟨⟨.ACTIVE, .ACTIVE, none⟩⟩] }, false, false⟩,
    sessions := [("s1", 0)], ssnObjs := [⟨"s1", 0, [], [], [], 0⟩] }

/-- An environment in which nothing happens: no wait changes anything, no connect
throws, no time passes. -/
def quiet : Env :=
  { wake := fun _ w => w, connectThrows := fun _ _ => none, elapse := fun _ => 0,
    uuid := fun k => "uuid-" ++ toString k, verifyFails := fun _ _ => none,
    recvFails := fun _ _ => false, wakeupToIssueCredit := fun _ => true }

/-- An environment in which every `transport->connect` throws. -/
def refusing : Env := { quiet with connectThrows := fun _ _ => some "Connection refused" }

/-- A connection not yet opened, with reconnection enabled and the retry limit 3
(no timeout, the retry counter 0). -/
def retrying : ConnectionContext := { disconnected with reconnect := true, limit := 3 }

/-- A connection not yet opened, with reconnection enabled, the retry limit 2, and
a minimum reconnect interval (3 s) above the maximum (2 s). -/
def inverted : ConnectionContext :=
  { disconnected with reconnect := true, limit := 2, minReconnectInterval := 3,
                      maxReconnectInterval := 2 }

/-- An open connection with the session `"s1"` and, on it, the attached sender
`"out"` to `"q"` with capacity 1 and nothing in flight. -/
def withSender : ConnectionContext :=
  { connected with
    io := ⟨.CONNECTED,
      { Engine.fresh with
        conn := ⟨.ACTIVE, .ACTIVE, none⟩,
        sessions := [⟨⟨.ACTIVE, .ACTIVE, none⟩⟩],
        links := [⟨⟨.ACTIVE, .ACTIVE, none⟩, "out", 0, 10, false, [], []⟩] }, false, false⟩,
    sessions := [("s1", 0)], ssnObjs := [⟨"s1", 0, [("out", 0)], [], [], 0⟩],
    sndObjs := [⟨"out", "q", 1, [], 0, 0⟩] }

/-- An environment whose peer, at each wait, reports every delivery delivered and
accepted. -/
def accepting : Env :=
  { quiet with
    wake := fun _ w =>
      { w with engine :=
        { w.engine with deliveries := w.engine.deliveries.map fun _ => ⟨true, false, true⟩ } } }

/-- An environment whose peer, at each wait, reports every delivery delivered and
rejected. -/
def rejecting : Env :=
  { quiet with
    wake := fun _ w =>
      { w with engine :=
        { w.engine with deliveries := w.engine.deliveries.map fun _ => ⟨true, true, true⟩ } } }

/-- A message. -/
def hello : Message := ⟨"hello", 0⟩

/-- An open connection with the session `"s1"` and, on it, the attached receiver
`"in"` from `"q"` with the given capacity, as much credit, and nothing
queued. -/
def withReceiver (capacity : Nat) : ConnectionContext :=
  { connected with
    io := ⟨.CONNECTED,
      { Engine.fresh with
        conn := ⟨.ACTIVE, .ACTIVE, none⟩,
        sessions := [⟨⟨.ACTIVE, .ACTIVE, none⟩⟩],
        links := [⟨⟨.ACTIVE, .ACTIVE, none⟩, "in", 0, capacity, false, [], []⟩] }, false, false⟩,
    sessions := [("s1", 0)], ssnObjs := [⟨"s1", 0, [], [("in", 0)], [], 0⟩],
    rcvObjs := [⟨"in", "q", capacity, 0, 0⟩] }

/-- An environment whose peer, at each wait, returns the credit of every link in
drain mode without sending anything. -/
def draining : Env :=
  { quiet with
    wake := fun _ w =>
      { w with engine :=
        { w.engine with links := w.engine.links.map fun l =>
            if l.drain then { l with credit := 0 } else l } } }

/-- An environment whose peer, at each wait, sends the message `"m"` on every link
that has credit and nothing queued. -/
def delivering : Env :=
  { quiet with
    wake := fun _ w =>
      { w with engine :=
        { w.engine with links := w.engine.links.map fun l =>
            if 0 < l.credit ∧ l.incoming = [] then { l with incoming := [⟨"m"⟩] } else l } } }

/-- The connection `withSender` after the peer has detached the sender's link
with the condition `amqp:not-found`. -/
def withDetachedSender : ConnectionContext :=
  { withSender with
    io := ⟨.CONNECTED,
      { Engine.fresh with
        conn := ⟨.ACTIVE, .ACTIVE, none⟩,
        sessions := [⟨⟨.ACTIVE, .ACTIVE, none⟩⟩],
        links := [⟨⟨.ACTIVE, .CLOSED, some ⟨"amqp:not-found", "no such queue"⟩⟩, "out", 0, 10,
          false, [], []⟩] }, false, false⟩ }

/-- An environment in which the connection is lost at each wait: the transport
calls `closed()`. -/
def dropping : Env := { quiet with wake := fun _ w => { w with state := .DISCONNECTED } }

/-- An environment whose peer never answers a drain request: at each wait it only
detaches the links that are closed locally; a second passes before each
reading of the clock. -/
def stalling : Env :=
  { quiet with
    elapse := fun _ => ConnectionContext.TIME_SEC,
    wake := fun _ w =>
      { w with engine :=
        { w.engine with links := w.engine.links.map fun l =>
            if l.ep.loc = .CLOSED then { l with ep := { l.ep with rem := .CLOSED } } else l } } }

/-- The environment `delivering` in which a second passes before each reading of
the clock. -/
def deliveringAfterASecond : Env :=
  { delivering with elapse := fun _ => ConnectionContext.TIME_SEC }

/-- What a peer that accepts every request does to an endpoint: it closes what is
closed locally and opens what is opened locally. -/
def answer (e : Endpoint) : Endpoint :=
  if e.loc = .CLOSED then { e with rem := .CLOSED }
  else if e.loc = .ACTIVE ∧ e.rem = .UNINIT then { e with rem := .ACTIVE }
  else e

/-- An environment whose peer accepts every request: at each wait the transport
reports a pending connect made (`opened()`) and, once the connection is closed
on both sides, the transport closed (`closed()`); the peer opens and closes
the connection, the sessions and the links as the driver has, and accepts and
settles every delivery. -/
def obliging : Env :=
  { quiet with
    wake := fun _ w =>
      { w with
        state :=
          if w.state = .CONNECTING then (ConnectionContext.opened w).state
          else if w.engine.conn.loc = .CLOSED ∧ w.engine.conn.rem = .CLOSED then
            (ConnectionContext.closed w).state
          else w.state,
        engine :=
          { w.engine with
            conn := answer w.engine.conn,
            sessions := w.engine.sessions.map fun x => ⟨answer x.ep⟩,
            links := w.engine.links.map fun l => { l with ep := answer l.ep },
            deliveries := w.engine.deliveries.map fun _ => ⟨true, false, true⟩ } } }

/-- The connection `disconnected` after `open()` with the peer `obliging`: two
waits, for the transport and for the peer's open. -/
def afterOpen : ConnectionContext :=
  { connected with
    io := ⟨.CONNECTED, { Engine.fresh with conn := ⟨.ACTIVE, .ACTIVE, none⟩ }, true, false⟩,
    id := "localhost:5672",
    calls := [.tryConnectUrl url, .connect addr, .activateOutput],
    waits := 2, connects := 1, reads := 1 }

/-- The connection `afterOpen` after `newSession("s1")`. -/
def afterNewSession : ConnectionContext :=
  { afterOpen with
    io := ⟨.CONNECTED,
      { Engine.fresh with conn := ⟨.ACTIVE, .ACTIVE, none⟩,
                          sessions := [⟨⟨.ACTIVE, .ACTIVE, none⟩⟩] }, true, false⟩,
    sessions := [("s1", 0)], ssnObjs := [⟨"s1", 0, [], [], [], 0⟩],
    calls := afterOpen.calls ++ [.activateOutput], waits := 3 }

/-- The engine of the scenario once the link `"q"` exists: the connection and the
session with the endpoint states given, the link with its own, and the
deliveries and the pending output given. -/
def engineWith (top link : Endpoint) (deliveries : List PnDelivery) (pending : Nat) : Engine :=
  { Engine.fresh with
    conn := top, sessions := [⟨top⟩],
    links := [⟨link, "q", 0, 0, false, [], []⟩],
    deliveries := deliveries, pending := pending }

/-- The connection `afterNewSession` after a sender `"q"` to `"q"` with the given
capacity has been created on the session. -/
def afterCreateSender (capacity : Nat) : ConnectionContext :=
  { afterNewSession with
    io := ⟨.CONNECTED, engineWith ⟨.ACTIVE, .ACTIVE, none⟩ Endpoint.fresh [] 0, true, false⟩,
    ssnObjs := [⟨"s1", 0, [("q", 0)], [], [], 0⟩],
    sndObjs := [⟨"q", "q", capacity, [], 0, 0⟩] }

/-- The connection `afterCreateSender` after the sender has been attached. -/
def afterAttach (capacity : Nat) : ConnectionContext :=
  { afterCreateSender capacity with
    io := ⟨.CONNECTED,
      engineWith ⟨.ACTIVE, .ACTIVE, none⟩ ⟨.ACTIVE, .ACTIVE, none⟩ [] 0, true, false⟩,
    calls := afterNewSession.calls ++ [.activateOutput], waits := 4 }

/-- The connection `afterAttach` once the sender has handed the message to the
engine. -/
def afterHandOver (capacity : Nat) (msg : Message) : ConnectionContext :=
  { afterAttach capacity with
    io := ⟨.CONNECTED,
      engineWith ⟨.ACTIVE, .ACTIVE, none⟩ ⟨.ACTIVE, .ACTIVE, none⟩ [⟨false, false, false⟩]
        (0 + msg.payload.length), true, false⟩,
    sndObjs := [⟨"q", "q", capacity, [⟨0, some 0⟩], 1, 0⟩] }

/-- The connection `afterAttach` after the message has been sent and the peer has
accepted it. -/
def afterSend (capacity : Nat) (msg : Message) : ConnectionContext :=
  { afterHandOver capacity msg with
    io := ⟨.CONNECTED,
      engineWith ⟨.ACTIVE, .ACTIVE, none⟩ ⟨.ACTIVE, .ACTIVE, none⟩ [⟨true, false, true⟩]
        (0 + msg.payload.length), true, false⟩,
    calls := (afterAttach capacity).calls ++ [.activateOutput], waits := 5 }

/-- The connection `afterSend` after the sender has been detached. -/
def afterDetach (capacity : Nat) (msg : Message) : ConnectionContext :=
  { afterSend capacity msg with
    io := ⟨.CONNECTED,
      engineWith ⟨.ACTIVE, .ACTIVE, none⟩ ⟨.CLOSED, .CLOSED, none⟩ [⟨true, false, true⟩]
        (0 + msg.payload.length), true, false⟩,
    ssnObjs := [⟨"s1", 0, [], [], [], 0⟩],
    calls := (afterSend capacity msg).calls ++ [.activateOutput], waits := 6 }

/-- The connection `afterDetach` after `close()`. -/
def afterClose (capacity : Nat) (msg : Message) : ConnectionContext :=
  { afterDetach capacity msg with
    io := ⟨.DISCONNECTED,
      engineWith ⟨.CLOSED, .CLOSED, none⟩ ⟨.CLOSED, .CLOSED, none⟩ [⟨true, false, true⟩]
        (0 + msg.payload.length), true, false⟩,
    sessions := [],
    calls := (afterDetach capacity msg).calls ++ [.activateOutput, .transportClose], waits := 8 }

/-- A connection just connected again, before `restartSessions`: the sessions
`"s1"` (with the sender `"out"` and the receivers `"in"`, of capacity 5, and
`"in0"`, of capacity 0 with one fetch in progress) and `"s2"` (with the sender
`"out2"`), their engine sessions and links new. -/
def reconnected : ConnectionContext :=
  { connected with
    io := ⟨.CONNECTED,
      { Engine.fresh with
        conn := ⟨.ACTIVE, .ACTIVE, none⟩,
        sessions := [⟨Endpoint.fresh⟩, ⟨Endpoint.fresh⟩],
        links := [⟨Endpoint.fresh, "out", 0, 0, false, [], []⟩,
                  ⟨Endpoint.fresh, "in", 0, 0, false, [], []⟩,
                  ⟨Endpoint.fresh, "in0", 0, 0, false, [], []⟩,
                  ⟨Endpoint.fresh, "out2", 1, 0, false, [], []⟩] }, false, false⟩,
    sessions := [("s1", 0), ("s2", 1)],
    ssnObjs := [⟨"s1", 0, [("out", 0)], [("in", 0), ("in0", 1)], [], 0⟩,
                ⟨"s2", 1, [("out2", 1)], [], [], 0⟩],
    sndObjs := [⟨"out", "q", 1, [], 0, 0⟩, ⟨"out2", "q", 1, [], 0, 3⟩],
    rcvObjs := [⟨"in", "q", 5, 0, 1⟩, ⟨"in0", "q", 0, 1, 2⟩] }

/-- A wire without authentication, with the protocol header of 8 bytes, whose
engine takes and gives all the bytes of each call. -/
def plainWire : Wire :=
  { encodedSize := 8, input := fun _ size => size, output := fun _ size => size,
    transportError := fun _ => false, authenticated := fun _ => true,
    securityLayer := fun _ => false, saslCanEncode := fun _ => .ok false,
    saslDecode := fun a size => .ok (size, a), saslEncode := fun a size => .ok (size, a),
    layerDecode := fun a size => ([size], .ok (size, a)),
    layerEncode := fun a size => ([size], .ok (size, a)),
    layerCanEncode := fun _ => (true, .ok true) }

/-- A wire whose authenticator takes 5 bytes and is then authenticated, and whose
security layer passes 3 bytes on and then fails the authentication. -/
def failingWire : Wire :=
  { plainWire with
    authenticated := fun a => decide (a ≠ 0),
    securityLayer := fun _ => true,
    saslDecode := fun _ _ => .ok (5, 1),
    layerDecode := fun _ _ => ([3], .error (.AuthenticationFailure "bad")),
    layerEncode := fun _ _ => ([3], .error (.AuthenticationFailure "bad")),
    layerCanEncode := fun _ => (true, .error (.AuthenticationFailure "bad")) }

/-- The connection `afterOpen` with a local idle timeout of 6001 ms and a remote
one of 9000 ms. -/
def withIdleTimeouts : ConnectionContext :=
  { afterOpen with
    io := { afterOpen.io with
      engine := { afterOpen.io.engine with idleTimeout := 6001, remoteIdleTimeout := 9000 } } }

/-- A connection not yet opened, with reconnection enabled, the retry limit 3 and a
timeout of 1000 s (the retry counter 0). -/
def patient : ConnectionContext := { disconnected with reconnect := true, limit := 3, timeout := 1000 }

/-- The connection `withReceiver 5` with two deliveries, `"a"` and `"b"`, queued on
the link and not fetched. -/
def withQueued : ConnectionContext :=
  { withReceiver 5 with
    io := ⟨.CONNECTED,
      { Engine.fresh with
        conn := ⟨.ACTIVE, .ACTIVE, none⟩,
        sessions := [⟨⟨.ACTIVE, .ACTIVE, none⟩⟩],
        links := [⟨⟨.ACTIVE, .ACTIVE, none⟩, "in", 0, 5, false, [⟨"a"⟩, ⟨"b"⟩], []⟩] },
      false, false⟩ }

/-- An environment whose peer accepts the transport connect and then closes the
connection instead of opening it: at the first wait of an attempt the transport
reports the connect made (`opened()`), at the later waits the peer has closed
the connection with the condition `amqp:connection:forced`. -/
def declining : Env :=
  { quiet with
    wake := fun _ w =>
      if w.state = .CONNECTING then ConnectionContext.opened w
      else { w with engine :=
        { w.engine with conn :=
          { w.engine.conn with rem := .CLOSED,
                               cond := some ⟨"amqp:connection:forced", "not welcome"⟩ } } } }

/-- A second address. -/
def addr2 : Address := ⟨"tcp", "backup", 5672⟩

/-- A URL with the two addresses `addr` and `addr2`. -/
def url2 : Url := ⟨[addr, addr2], "", ""⟩

/-- The peer `obliging`, but every `verify` of a link finds the link lost and
throws the transport failure that `restartSessions` catches. -/
def unverified : Env :=
  { obliging with verifyFails := fun _ _ => some (.QpidTransportFailure "link lost") }

/-- A connection that was lost: as `withSender`, but `DISCONNECTED`, with
reconnection to the two addresses of `url2`. -/
def lost : ConnectionContext :=
  { withSender with
    io := { withSender.io with state := .DISCONNECTED },
    fullUrl := url2 }

/-- An environment whose peer confirms, at each wait, every session not yet
confirmed. -/
def confirming : Env :=
  { quiet with
    wake := fun _ w =>
      { w with engine :=
        { w.engine with sessions := w.engine.sessions.map fun x =>
            if x.ep.rem = .UNINIT then ⟨{ x.ep with rem := .ACTIVE }⟩ else x } } }

end Example

/-! ## Basic facts about the state transformers -/

@[simp] theorem M.pure_apply {α : Type} (a : α) (s : ConnectionContext) :
    (Pure.pure a : M α) s = (.ret a, s) := rfl

@[simp] theorem M.pure_apply2 {α : Type} (a : α) (s : ConnectionContext) :
    (M.pure a : M α) s = (.ret a, s) := rfl

@[simp] theorem M.bind_apply {α β : Type} (m : M α) (f : α → M β) (s : ConnectionContext) :
    (m >>= f) s = (match m s with
      | (.ret a, s1) => f a s1
      | (.raise e, s1) => (.raise e, s1)
      | (.stuck, s1) => (.stuck, s1)) := rfl

@[simp] theorem M.bind_apply2 {α β : Type} (m : M α) (f : α → M β) (s : ConnectionContext) :
    (M.bind m f) s = (match m s with
      | (.ret a, s1) => f a s1
      | (.raise e, s1) => (.raise e, s1)
      | (.stuck, s1) => (.stuck, s1)) := rfl

@[simp] theorem M.get_apply (s : ConnectionContext) : M.get s = (.ret s, s) := rfl

@[simp] theorem M.raise_apply {α : Type} (e : Exc) (s : ConnectionContext) :
    (M.raise e : M α) s = (.raise e, s) := rfl

@[simp] theorem M.stuck_apply {α : Type} (s : ConnectionContext) :
    (M.stuck : M α) s = (.stuck, s) := rfl

@[simp] theorem M.modify_apply (f : ConnectionContext → ConnectionContext)
    (s : ConnectionContext) : M.modify f s = (.ret (), f s) := rfl

@[simp] theorem M.test_apply (c : ConnectionContext → Bool) (s : ConnectionContext) :
    M.test c s = (.ret (c s), s) := rfl

@[simp] theorem M.when_apply (c : Prop) [Decidable c] (body : M Unit) (s : ConnectionContext) :
    M.when c body s = if c then body s else (.ret (), s) := by
  unfold M.when; split <;> rfl

/-! ## C1: a duplicate session name -/

/-- C1. On every connection whose session registry already maps the non-empty
name `n` (to a session `p`), `newSession(false, n)` raises `KeyError` and
leaves the whole state as it was: the registry (same names, `n` still mapped to
`p`), the session objects and the engine (no session created or opened). -/
theorem newSession_duplicate_raises_KeyError (E : Env) (fuel : Nat) (s : ConnectionContext)
    (n : String) (p : Nat) (hn : n.isEmpty = false) (hp : s.sessions.find n = some p) :
    ConnectionContext.newSession E fuel false n s
      = (.raise (.KeyError ("Session already exists: " ++ n)), s) := by
  simp [ConnectionContext.newSession, ConnectionContext.newSessionWith,
    ConnectionContext.sessionName, hn, hp]

/-- Witness of C1: the name `"s1"` on a connection that has the session `"s1"`. -/
theorem newSession_duplicate_raises_KeyError_witness :
    ConnectionContext.newSession Example.quiet 3 false "s1" Example.withSession
      = (.raise (.KeyError ("Session already exists: " ++ "s1")), Example.withSession) :=
  newSession_duplicate_raises_KeyError Example.quiet 3 Example.withSession "s1" 0
    (by decide) (by decide)

/-! ## Loops -/

/-- A call that is not stuck and did not throw has run each of its two parts. -/
theorem M.bind_eq_ret {α β : Type} {m : M α} {f : α → M β} {s s2 : ConnectionContext} {b : β}
    (h : (m >>= f) s = (.ret b, s2)) : ∃ a s1, m s = (.ret a, s1) ∧ f a s1 = (.ret b, s2) := by
  simp only [M.bind_apply] at h
  rcases hm : m s with ⟨o, s1⟩
  rw [hm] at h
  cases o with
  | ret a => exact ⟨a, s1, rfl, h⟩
  | raise e => simp at h
  | stuck => simp at h

/-- A loop whose condition only reads the state ends, when it ends normally, in a
state in which the condition is false. -/
theorem M.loop_ret_cond {c : ConnectionContext → Bool} {cond : M Bool} {body : M Unit}
    (hc : ∀ s, cond s = (.ret (c s), s)) :
    ∀ (fuel : Nat) (s s1 : ConnectionContext),
      M.loop cond body fuel s = (.ret (), s1) → c s1 = false := by
  intro fuel
  induction fuel with
  | zero =>
    intro s s1 h
    simp only [M.loop, M.bind_apply2, hc] at h
    cases hcs : c s with
    | false => simp [hcs] at h; rw [← h]; exact hcs
    | true => simp [hcs] at h
  | succ k ih =>
    intro s s1 h
    simp only [M.loop, M.bind_apply2, hc] at h
    cases hcs : c s with
    | false => simp [hcs] at h; rw [← h]; exact hcs
    | true =>
      simp only [hcs, if_true, M.bind_apply2] at h
      rcases hb : body s with ⟨o, s2⟩
      rw [hb] at h
      cases o with
      | ret a => exact ih s2 s1 h
      | raise e => simp at h
      | stuck => simp at h

/-- A loop whose condition only reads the state and is false does nothing. -/
theorem M.loop_false {c : ConnectionContext → Bool} {cond : M Bool} {body : M Unit}
    (hc : ∀ s, cond s = (.ret (c s), s)) (fuel : Nat) (s : ConnectionContext)
    (h : c s = false) : M.loop cond body fuel s = (.ret (), s) := by
  cases fuel <;> simp [M.loop, hc, h]

/-- A loop whose condition only reads the state and is true runs its body once
and goes on with one unit of fuel less. -/
theorem M.loop_true {c : ConnectionContext → Bool} {cond : M Bool} {body : M Unit}
    (hc : ∀ s, cond s = (.ret (c s), s)) (fuel : Nat) (s : ConnectionContext)
    (h : c s = true) :
    M.loop cond body (fuel + 1) s = (body >>= fun _ => M.loop cond body fuel) s := by
  simp [M.loop, hc, h]

/-! ## C7: `open` on a connection that is not `DISCONNECTED` -/

/-- C7. Called in a state other than `DISCONNECTED` (`CONNECTING` or `CONNECTED`),
`open()` raises `ConnectionError` and leaves the whole state as it was (no
connection attempt, the connection state, retry counter and session registry
unchanged); called in `DISCONNECTED` it runs `autoconnect` (after taking the
default driver). -/
theorem open_only_from_DISCONNECTED (E : Env) (fuel : Nat) (s : ConnectionContext) :
    (s.io.state ≠ .DISCONNECTED →
      ConnectionContext.open E fuel s
        = (.raise (.ConnectionError "Connection was already opened!"), s))
    ∧ (s.io.state = .DISCONNECTED →
      ConnectionContext.open E fuel s
        = ConnectionContext.autoconnect E fuel { s with driver := true }) := by
  constructor
  · intro h
    simp [ConnectionContext.open, ConnectionContext.requireDisconnected, h]
  · intro h
    cases hd : s.driver with
    | false => simp [ConnectionContext.open, ConnectionContext.requireDisconnected, h, hd]
    | true =>
      have hs : { s with driver := true } = s := by
        cases s; simp_all
      simp [ConnectionContext.open, ConnectionContext.requireDisconnected, h, hd, hs]

/-- Witness of C7: `open()` on an open connection, and on a connection not yet
opened. -/
theorem open_only_from_DISCONNECTED_witness :
    ConnectionContext.open Example.quiet 3 Example.connected
        = (.raise (.ConnectionError "Connection was already opened!"), Example.connected)
    ∧ ConnectionContext.open Example.refusing 3 Example.disconnected
        = ConnectionContext.autoconnect Example.refusing 3
            { Example.disconnected with driver := true } :=
  ⟨(open_only_from_DISCONNECTED Example.quiet 3 Example.connected).1 (by decide),
   (open_only_from_DISCONNECTED Example.refusing 3 Example.disconnected).2 (by decide)⟩

/-! ## C9: `close` -/

/-- When the block of `close` that waits for `DISCONNECTED` ends, the state is
`DISCONNECTED`. -/
theorem ConnectionContext.closeTransport_ret_state (E : Env) (fuel : Nat)
    (s s1 : ConnectionContext) (h : ConnectionContext.closeTransport E fuel s = (.ret (), s1)) :
    s1.io.state = .DISCONNECTED := by
  unfold ConnectionContext.closeTransport at h
  by_cases hd : s.io.state = .DISCONNECTED
  · simp [hd] at h
    rw [← h]; exact hd
  · simp only [M.bind_apply, M.get_apply, M.when_apply, ne_eq, hd, not_false_eq_true,
      if_true] at h
    have hl := @M.loop_ret_cond (fun s => decide (s.io.state ≠ .DISCONNECTED))
      (M.test fun s => decide (s.io.state ≠ .DISCONNECTED))
      (ConnectionContext.lockWait E) (fun _ => rfl) fuel
    simp only [ConnectionContext.call, M.modify_apply] at h
    have := hl _ _ h
    simpa using this

/-- The block of `close` that cancels the ticker returns and leaves the shared
state alone. -/
theorem ConnectionContext.cancelTicker_io (s : ConnectionContext) :
    ∃ s1, ConnectionContext.cancelTicker s = (.ret (), s1) ∧ s1.io = s.io := by
  unfold ConnectionContext.cancelTicker
  by_cases ht : s.ticker.isSome = true
  · simp [ht, ConnectionContext.call]
  · simp [ht]

/-- When `close()` returns, the connection is not `CONNECTED`. -/
theorem ConnectionContext.closeWith_ret_state (E : Env) (ac : M Unit) (fuel : Nat)
    (s s1 : ConnectionContext) (h : ConnectionContext.closeWith E ac fuel s = (.ret (), s1)) :
    s1.io.state ≠ .CONNECTED := by
  unfold ConnectionContext.closeWith at h
  by_cases hc : s.io.state = .CONNECTED
  · simp only [M.bind_apply, M.get_apply, hc, ne_eq, not_true_eq_false, if_false] at h
    rcases h1 : ConnectionContext.closeConnection E ac fuel s with ⟨o1, t1⟩
    rw [h1] at h
    cases o1 with
    | raise e => simp at h
    | stuck => simp at h
    | ret a =>
      simp only at h
      rcases h2 : ConnectionContext.closeTransport E fuel t1 with ⟨o2, t2⟩
      rw [h2] at h
      cases o2 with
      | raise e => simp at h
      | stuck => simp at h
      | ret b =>
        simp only at h
        have hst := ConnectionContext.closeTransport_ret_state E fuel t1 t2 h2
        obtain ⟨t3, h3, hio⟩ := ConnectionContext.cancelTicker_io t2
        rw [h3] at h
        have : t3 = s1 := by simpa using h
        rw [← this, hio, hst]
        decide
  · simp [hc] at h
    rw [← h]; exact hc

/-- C9. `close()` is idempotent once `DISCONNECTED`: called with the connection
state `DISCONNECTED` it returns and leaves the whole state as it was (the
connection state, the session registry, the engine); and whenever a call of
`close()` returns, a second `close()` returns at once and changes nothing, so
`close(); close()` has the effect of the one `close()`. -/
theorem close_idempotent (E : Env) (fuel : Nat) (s : ConnectionContext) :
    (s.io.state = .DISCONNECTED → ConnectionContext.close E fuel s = (.ret (), s))
    ∧ (∀ s1, ConnectionContext.close E fuel s = (.ret (), s1) →
        ∀ (E2 : Env) (fuel2 : Nat), ConnectionContext.close E2 fuel2 s1 = (.ret (), s1)) := by
  constructor
  · intro h
    simp [ConnectionContext.close, ConnectionContext.closeWith, h]
  · intro s1 h E2 fuel2
    have hst := ConnectionContext.closeWith_ret_state E _ fuel s s1 h
    simp [ConnectionContext.close, ConnectionContext.closeWith, hst]

/-- Witness of C9: `close()` on a connection that is `DISCONNECTED`, and a second
`close()` after it. -/
theorem close_idempotent_witness :
    ConnectionContext.close Example.quiet 3 Example.disconnected = (.ret (), Example.disconnected)
    ∧ ConnectionContext.close Example.refusing 5 Example.disconnected
        = (.ret (), Example.disconnected) :=
  ⟨(close_idempotent Example.quiet 3 Example.disconnected).1 (by decide),
   (close_idempotent Example.quiet 3 Example.disconnected).2 Example.disconnected
     ((close_idempotent Example.quiet 3 Example.disconnected).1 (by decide)) Example.refusing 5⟩

/-! ## Operations that always return -/

theorem M.total_pure {α : Type} (a : α) : M.Total (Pure.pure a : M α) :=
  fun s => ⟨a, s, rfl⟩

theorem M.total_modify (f : ConnectionContext → ConnectionContext) : M.Total (M.modify f) :=
  fun s => ⟨(), f s, rfl⟩

theorem M.total_get : M.Total M.get := fun s => ⟨s, s, rfl⟩

theorem M.total_bind {α β : Type} {m : M α} {f : α → M β} (hm : M.Total m)
    (hf : ∀ a, M.Total (f a)) : M.Total (m >>= f) := by
  intro s
  obtain ⟨a, s1, h1⟩ := hm s
  obtain ⟨b, s2, h2⟩ := hf a s1
  exact ⟨b, s2, by simp [h1, h2]⟩

theorem M.total_when (c : Prop) [Decidable c] {body : M Unit} (hb : M.Total body) :
    M.Total (M.when c body) := by
  intro s
  by_cases h : c
  · obtain ⟨a, s1, h1⟩ := hb s
    exact ⟨a, s1, by simp [h, h1]⟩
  · exact ⟨(), s, by simp [h]⟩

theorem M.total_forEach {α : Type} {body : α → M Unit} (hb : ∀ a, M.Total (body a)) :
    ∀ xs : List α, M.Total (M.forEach body xs) := by
  intro xs
  induction xs with
  | nil => exact fun s => ⟨(), s, rfl⟩
  | cons a as ih =>
    intro s
    obtain ⟨u, s1, h1⟩ := hb a s
    obtain ⟨v, s2, h2⟩ := ih s1
    exact ⟨v, s2, by simp [M.forEach, h1, h2]⟩

theorem ConnectionContext.sessionReset_total (p : Nat) :
    M.Total (ConnectionContext.SessionContext.reset p) := by
  unfold ConnectionContext.SessionContext.reset
  refine M.total_bind (M.total_modify _) fun _ => M.total_bind M.total_get fun s => ?_
  refine M.total_bind (M.total_forEach (fun _ => M.total_modify _) _) fun _ => ?_
  exact M.total_forEach (fun _ => M.total_modify _) _

/-- The member function `reset` always returns. -/
theorem ConnectionContext.reset_total : M.Total ConnectionContext.reset := by
  unfold ConnectionContext.reset ConnectionContext.configureConnection
  refine M.total_bind (M.total_modify _) fun _ => ?_
  refine M.total_bind (M.total_modify _) fun _ => ?_
  refine M.total_bind (M.total_bind M.total_get fun s => M.total_when _ (M.total_modify _))
    fun _ => ?_
  exact M.total_bind M.total_get fun s =>
    M.total_forEach (fun _ => ConnectionContext.sessionReset_total _) _

/-! ## C8: the failures of `reconnect` -/

/-- C8, as the code has it. `reconnect(url)` fails in two ways.  When the connection
state is not `DISCONNECTED` it raises `ConnectionError` and leaves the whole
state as it was (no reset of the engine and transport, no attempt).  When the
state is `DISCONNECTED` and the one round of attempts on the URL, made after
the reset, returns failure, it raises `TransportFailure` (through
`throwConnectFail`), in the state that round left. -/
theorem reconnect_failures (E : Env) (fuel : Nat) (url : Url) (s : ConnectionContext) :
    (s.io.state ≠ .DISCONNECTED →
      ConnectionContext.reconnectUrl E fuel url s
        = (.raise (.ConnectionError "Connection was already opened!"), s))
    ∧ (s.io.state = .DISCONNECTED →
      ∃ s1, ConnectionContext.reset { s with driver := true } = (.ret (), s1)
        ∧ ∀ s2, ConnectionContext.tryConnectUrl E (ConnectionContext.autoconnect E fuel) fuel
              url s1 = (.ret false, s2) →
            ConnectionContext.reconnectUrl E fuel url s
              = (.raise (.TransportFailure
                  ("Connect failed to " ++ ConnectionContext.Url.str url ++ ": "
                    ++ "Failed to reconnect")), s2)) := by
  constructor
  · intro h
    simp [ConnectionContext.reconnectUrl, ConnectionContext.requireDisconnected, h]
  · intro h
    obtain ⟨u, s1, h1⟩ := ConnectionContext.reset_total { s with driver := true }
    refine ⟨s1, h1, ?_⟩
    intro s2 h2
    have hs : s.driver = true → { s with driver := true } = s := by
      intro hd; cases s; simp_all
    cases hd : s.driver with
    | false =>
      simp [ConnectionContext.reconnectUrl, ConnectionContext.requireDisconnected, h, hd, h1, h2,
        ConnectionContext.throwConnectFail]
    | true =>
      rw [hs hd] at h1
      simp [ConnectionContext.reconnectUrl, ConnectionContext.requireDisconnected, h, hd, h1, h2,
        ConnectionContext.throwConnectFail]

/-- Counterexample to C8 as stated: on a `DISCONNECTED` connection whose one
attempt fails (the transport connect throws), `reconnect(url)` raises
`TransportFailure`, not `ConnectionError`. -/
theorem reconnect_failed_attempt_not_ConnectionError :
    (ConnectionContext.reconnectUrl Example.refusing 1 Example.url Example.disconnected).1
        = .raise (.TransportFailure "Connect failed to localhost:5672: Failed to reconnect")
    ∧ ∀ text, (ConnectionContext.reconnectUrl Example.refusing 1 Example.url
        Example.disconnected).1 ≠ .raise (.ConnectionError text) := by
  have h : (ConnectionContext.reconnectUrl Example.refusing 1 Example.url Example.disconnected).1
        = .raise (.TransportFailure "Connect failed to localhost:5672: Failed to reconnect") := by
    decide
  refine ⟨h, ?_⟩
  intro text
  rw [h]
  simp

/-- Witness of the amended C8: `reconnect` on an open connection, and on a
`DISCONNECTED` connection whose transport connect throws. -/
theorem reconnect_failures_witness :
    ConnectionContext.reconnectUrl Example.quiet 3 Example.url Example.connected
        = (.raise (.ConnectionError "Connection was already opened!"), Example.connected)
    ∧ ∃ s2, ConnectionContext.reconnectUrl Example.refusing 1 Example.url Example.disconnected
        = (.raise (.TransportFailure
            ("Connect failed to " ++ ConnectionContext.Url.str Example.url ++ ": "
              ++ "Failed to reconnect")), s2) := by
  refine ⟨(reconnect_failures Example.quiet 3 Example.url Example.connected).1 (by decide), ?_⟩
  obtain ⟨s1, h1, h2⟩ :=
    (reconnect_failures Example.refusing 1 Example.url Example.disconnected).2 (by decide)
  have hs1 : s1 = (ConnectionContext.reset { Example.disconnected with driver := true }).2 := by
    rw [h1]
  have hr : (ConnectionContext.tryConnectUrl Example.refusing
      (ConnectionContext.autoconnect Example.refusing 1) 1 Example.url
      (ConnectionContext.reset { Example.disconnected with driver := true }).2).1 = .ret false := by
    decide
  refine ⟨(ConnectionContext.tryConnectUrl Example.refusing
      (ConnectionContext.autoconnect Example.refusing 1) 1 Example.url s1).2, h2 _ ?_⟩
  rw [hs1]
  exact Prod.ext hr rfl

/-! ## Rounds of attempts in which every transport connect throws -/

theorem OptionsKept_refl (s : ConnectionContext) : ConnectionContext.OptionsKept s s :=
  ⟨rfl, rfl, rfl, rfl, rfl, rfl, rfl, rfl, rfl⟩

theorem OptionsKept_trans {s s1 s2 : ConnectionContext} (h1 : ConnectionContext.OptionsKept s s1)
    (h2 : ConnectionContext.OptionsKept s1 s2) : ConnectionContext.OptionsKept s s2 :=
  ⟨h2.reconnect.trans h1.reconnect, h2.timeout.trans h1.timeout, h2.limit.trans h1.limit,
   h2.retries.trans h1.retries, h2.fullUrl.trans h1.fullUrl,
   h2.minInterval.trans h1.minInterval, h2.maxInterval.trans h1.maxInterval,
   h2.sleeps.trans h1.sleeps, h2.rounds.trans h1.rounds⟩

@[simp] theorem sleeps_append (a b : List Call) :
    ConnectionContext.sleeps (a ++ b) = ConnectionContext.sleeps a ++ ConnectionContext.sleeps b := by
  simp [ConnectionContext.sleeps]

@[simp] theorem rounds_append (a b : List Call) :
    ConnectionContext.rounds (a ++ b) = ConnectionContext.rounds a + ConnectionContext.rounds b := by
  simp [ConnectionContext.rounds]

/-- When the transport connect throws, `tryConnectAddr` returns `false`. -/
theorem tryConnectAddr_refused (E : Env) (hE : ConnectionContext.AllConnectsFail E) (fuel : Nat)
    (a : Address) (s : ConnectionContext) :
    (ConnectionContext.tryConnectAddr E fuel a s).1 = .ret false
      ∧ ConnectionContext.OptionsKept s (ConnectionContext.tryConnectAddr E fuel a s).2 := by
  obtain ⟨w, hw⟩ := Option.isSome_iff_exists.1 (hE s.connects a)
  by_cases hs : ConnectionContext.useSasl
      { s with transport := some a, id := ConnectionContext.Address.str a } = true
  · refine ⟨?_, ?_⟩
    · simp [ConnectionContext.tryConnectAddr, ConnectionContext.prepareConnect,
        ConnectionContext.connectAndWait, ConnectionContext.call, M.tryCatch, hs, hw]
    · constructor <;>
        simp [ConnectionContext.tryConnectAddr, ConnectionContext.prepareConnect,
          ConnectionContext.connectAndWait, ConnectionContext.call, M.tryCatch, hs, hw,
          ConnectionContext.sleeps, ConnectionContext.rounds]
  · refine ⟨?_, ?_⟩
    · simp [ConnectionContext.tryConnectAddr, ConnectionContext.prepareConnect,
        ConnectionContext.connectAndWait, ConnectionContext.call, M.tryCatch, hs, hw]
    · constructor <;>
        simp [ConnectionContext.tryConnectAddr, ConnectionContext.prepareConnect,
          ConnectionContext.connectAndWait, ConnectionContext.call, M.tryCatch, hs, hw,
          ConnectionContext.sleeps, ConnectionContext.rounds]

/-- A call whose outcome is known is that outcome with the state it leaves. -/
theorem M.eq_of_fst {α : Type} {m : M α} {s : ConnectionContext} {o : Outcome α}
    (h : (m s).1 = o) : m s = (o, (m s).2) := Prod.ext h rfl

/-- An `if` around an assignment always returns. -/
theorem M.when_modify (c : Prop) [Decidable c] (f : ConnectionContext → ConnectionContext)
    (s : ConnectionContext) : M.when c (M.modify f) s = (.ret (), if c then f s else s) := by
  by_cases h : c <;> simp [h]

/-- When every transport connect throws, no address of the list connects. -/
theorem tryAddrs_refused (E : Env) (hE : ConnectionContext.AllConnectsFail E) (ac : M Unit)
    (fuel : Nat) : ∀ (addrs : List Address) (s : ConnectionContext),
    (ConnectionContext.tryAddrs E ac fuel addrs s).1 = .ret false
      ∧ ConnectionContext.OptionsKept s (ConnectionContext.tryAddrs E ac fuel addrs s).2 := by
  intro addrs
  induction addrs with
  | nil => intro s; exact ⟨rfl, OptionsKept_refl s⟩
  | cons a rest ih =>
    intro s
    obtain ⟨h1, k1⟩ := tryConnectAddr_refused E hE fuel a s
    have e1 := M.eq_of_fst h1
    obtain ⟨h2, k2⟩ := ih (ConnectionContext.tryConnectAddr E fuel a s).2
    have hstep : ConnectionContext.tryAddrs E ac fuel (a :: rest) s
        = ConnectionContext.tryAddrs E ac fuel rest (ConnectionContext.tryConnectAddr E fuel a s).2 := by
      rw [ConnectionContext.tryAddrs]
      simp only [M.bind_apply]
      rw [e1]
      simp
    rw [hstep]
    exact ⟨h2, OptionsKept_trans k1 k2⟩

/-- When every transport connect throws, a round of attempts returns `false`; it
is one more round, and leaves the options, the retry counter and the delays
slept as they were. -/
theorem tryConnectUrl_refused (E : Env) (hE : ConnectionContext.AllConnectsFail E) (ac : M Unit)
    (fuel : Nat) (url : Url) (s : ConnectionContext) :
    (ConnectionContext.tryConnectUrl E ac fuel url s).1 = .ret false
      ∧ ConnectionContext.OptionsKept { s with calls := s.calls ++ [.tryConnectUrl url] }
          (ConnectionContext.tryConnectUrl E ac fuel url s).2 := by
  unfold ConnectionContext.tryConnectUrl
  simp only [M.bind_apply, ConnectionContext.call, M.modify_apply, M.when_modify]
  refine ⟨(tryAddrs_refused E hE ac fuel url.addrs _).1, ?_⟩
  refine OptionsKept_trans ?_ (tryAddrs_refused E hE ac fuel url.addrs _).2
  split <;> split <;> constructor <;> rfl

/-! ## The retry loop of `autoconnect` -/

/-- The function `expired` returns, and leaves the options, the retry counter and
the calls as they were. -/
theorem expired_kept (E : Env) (start : Nat) (timeout : ℚ) (s : ConnectionContext) :
    (∃ b, (ConnectionContext.expired E start timeout s).1 = .ret b)
      ∧ ConnectionContext.OptionsKept s (ConnectionContext.expired E start timeout s).2 := by
  unfold ConnectionContext.expired
  by_cases h0 : timeout = 0
  · simp [h0, OptionsKept_refl]
  · by_cases hf : timeout = ConnectionContext.FOREVER
    · simp [h0, hf, OptionsKept_refl]
      split <;> simp [OptionsKept_refl]
    · simp only [h0, hf, if_false, M.bind_apply, ConnectionContext.now, M.pure_apply]
      exact ⟨⟨_, rfl⟩, by constructor <;> rfl⟩

/-- With reconnection disabled, the body of the retry loop throws at once. -/
theorem autoconnectBody_disabled (E : Env) (started : Nat) (i : ℚ) (s : ConnectionContext)
    (h : s.reconnect = false) :
    ConnectionContext.autoconnectBody E started i s
      = (.raise (.TransportFailure ("Connect failed to " ++ ConnectionContext.Url.str s.fullUrl
          ++ ": " ++ "Reconnect disabled")), s) := by
  simp [ConnectionContext.autoconnectBody, ConnectionContext.throwConnectFail, h]

/-- With the retry limit reached, the body of the retry loop counts the retry and
throws. -/
theorem autoconnectBody_exceeded (E : Env) (started : Nat) (i : ℚ) (s : ConnectionContext)
    (hr : s.reconnect = true) (hl : 0 ≤ s.limit) (hx : s.limit ≤ s.retries) :
    ConnectionContext.autoconnectBody E started i s
      = (.raise (.TransportFailure ("Connect failed to " ++ ConnectionContext.Url.str s.fullUrl
          ++ ": " ++ "Exceeded retries")), { s with retries := s.retries + 1 }) := by
  simp [ConnectionContext.autoconnectBody, ConnectionContext.countRetry,
    ConnectionContext.throwConnectFail, hr, hl, hx]

/-- Below the retry limit and without expiry, the body of the retry loop counts
the retry and sleeps for the interval. -/
theorem autoconnectBody_retry (E : Env) (started : Nat) (i : ℚ) (s : ConnectionContext)
    (hr : s.reconnect = true) (hl : 0 ≤ s.limit) (hx : s.retries < s.limit)
    (hto : ∀ start s1, (ConnectionContext.expired E start s.timeout s1).1 = .ret false) :
    (ConnectionContext.autoconnectBody E started i s).1 = .ret ()
      ∧ ConnectionContext.OptionsKept
          { s with retries := s.retries + 1, calls := s.calls ++ [.usleep i] }
          (ConnectionContext.autoconnectBody E started i s).2 := by
  have hx2 : ¬ s.limit ≤ s.retries := not_le.2 hx
  have ho := hto started { s with retries := s.retries + 1 }
  have hk := (expired_kept E started s.timeout { s with retries := s.retries + 1 }).2
  have e1 : M.when (s.reconnect = false)
      (ConnectionContext.throwConnectFail s.fullUrl "Reconnect disabled") s = (.ret (), s) := by
    simp [hr]
  have e2 : ConnectionContext.countRetry s = (.ret (), { s with retries := s.retries + 1 }) := by
    simp [ConnectionContext.countRetry, hl, hx2]
  rcases hexp : ConnectionContext.expired E started s.timeout { s with retries := s.retries + 1 }
    with ⟨o, s2⟩
  rw [hexp] at ho hk
  simp only at ho hk
  subst ho
  simp only [ConnectionContext.autoconnectBody, M.bind_apply, M.get_apply, e1, e2, hexp,
    M.when_apply, Bool.false_eq_true, if_false, ConnectionContext.call, M.modify_apply]
  refine ⟨trivial, ?_⟩
  constructor
  · exact hk.reconnect
  · exact hk.timeout
  · exact hk.limit
  · exact hk.retries
  · exact hk.fullUrl
  · exact hk.minInterval
  · exact hk.maxInterval
  · simp [hk.sleeps]
  · simp [hk.rounds]

@[simp] theorem rounds_round (url : Url) :
    ConnectionContext.rounds [Call.tryConnectUrl url] = 1 := rfl

@[simp] theorem sleeps_round (url : Url) :
    ConnectionContext.sleeps [Call.tryConnectUrl url] = [] := rfl

@[simp] theorem rounds_usleep (i : ℚ) : ConnectionContext.rounds [Call.usleep i] = 0 := rfl

@[simp] theorem sleeps_usleep (i : ℚ) : ConnectionContext.sleeps [Call.usleep i] = [i] := rfl

/-- The retry loop when every round fails, reconnection is enabled, nothing
expires, and `m` retries are left before the limit `n`: it throws
`TransportFailure` after `m + 1` more rounds, having slept `m` times. -/
theorem autoconnectLoop_exhausts (E : Env) (round : M Bool) (url : Url)
    (hround : ∀ s, (round s).1 = .ret false
      ∧ ConnectionContext.OptionsKept { s with calls := s.calls ++ [.tryConnectUrl url] } (round s).2)
    (started : Nat) (n : Nat) :
    ∀ (m fuel : Nat) (i : ℚ) (s : ConnectionContext), s.reconnect = true → s.limit = n →
      s.retries + m = n → m + 1 ≤ fuel →
      (∀ start s1, (ConnectionContext.expired E start s.timeout s1).1 = .ret false) →
      (ConnectionContext.autoconnectLoop E round started fuel i s).1
          = .raise (.TransportFailure ("Connect failed to " ++ ConnectionContext.Url.str s.fullUrl
              ++ ": " ++ "Exceeded retries"))
        ∧ ConnectionContext.rounds (ConnectionContext.autoconnectLoop E round started fuel i s).2.calls
            = ConnectionContext.rounds s.calls + (m + 1)
        ∧ ConnectionContext.sleeps (ConnectionContext.autoconnectLoop E round started fuel i s).2.calls
            = ConnectionContext.sleeps s.calls ++ ConnectionContext.delays s.maxReconnectInterval m i
        ∧ (ConnectionContext.autoconnectLoop E round started fuel i s).2.retries = n + 1 := by
  intro m
  induction m with
  | zero =>
    intro fuel i s hr hl hm hf hto
    obtain ⟨f, rfl⟩ : ∃ f, fuel = f + 1 := ⟨fuel - 1, by omega⟩
    obtain ⟨h1, k1⟩ := hround s
    have e1 := M.eq_of_fst h1
    have hb := autoconnectBody_exceeded E started i (round s).2 (k1.reconnect.trans hr)
      (by rw [k1.limit]; simp [hl]) (by rw [k1.limit, k1.retries]; simp [hl] ; omega)
    rw [ConnectionContext.autoconnectLoop]
    simp only [M.bind_apply]
    rw [e1]
    simp only [Bool.false_eq_true, if_false, M.bind_apply, hb]
    refine ⟨?_, ?_, ?_, ?_⟩
    · rw [k1.fullUrl]
    · simp [k1.rounds]
    · simp [k1.sleeps, ConnectionContext.delays]
    · simp [k1.retries]; omega
  | succ m ih =>
    intro fuel i s hr hl hm hf hto
    obtain ⟨f, rfl⟩ : ∃ f, fuel = f + 1 := ⟨fuel - 1, by omega⟩
    obtain ⟨h1, k1⟩ := hround s
    have e1 := M.eq_of_fst h1
    have hto1 : ∀ start s1,
        (ConnectionContext.expired E start (round s).2.timeout s1).1 = .ret false := by
      rw [k1.timeout]; exact hto
    obtain ⟨h2, k2⟩ := autoconnectBody_retry E started i (round s).2 (k1.reconnect.trans hr)
      (by rw [k1.limit]; simp [hl]) (by rw [k1.limit, k1.retries]; simp [hl]; omega) hto1
    have e2 := M.eq_of_fst h2
    have hrec := ih f (min (i * 2)
        (ConnectionContext.autoconnectBody E started i (round s).2).2.maxReconnectInterval)
      (ConnectionContext.autoconnectBody E started i (round s).2).2
      (by rw [k2.reconnect]; exact k1.reconnect.trans hr)
      (by rw [k2.limit]; exact k1.limit.trans hl)
      (by rw [k2.retries]; simp [k1.retries]; omega) (by omega)
      (by rw [k2.timeout]; exact hto1)
    have hstep : ConnectionContext.autoconnectLoop E round started (f + 1) i s
        = ConnectionContext.autoconnectLoop E round started f
            (min (i * 2)
              (ConnectionContext.autoconnectBody E started i (round s).2).2.maxReconnectInterval)
            (ConnectionContext.autoconnectBody E started i (round s).2).2 := by
      rw [ConnectionContext.autoconnectLoop]
      simp only [M.bind_apply]
      rw [e1]
      simp only [Bool.false_eq_true, if_false, M.bind_apply]
      rw [e2]
      simp
    rw [hstep]
    obtain ⟨r1, r2, r3, r4⟩ := hrec
    refine ⟨?_, ?_, ?_, r4⟩
    · rw [r1, k2.fullUrl]; simp [k1.fullUrl]
    · rw [r2, k2.rounds]; simp [k1.rounds]; omega
    · rw [r3, k2.sleeps, k2.maxInterval]
      simp [k1.sleeps, k1.maxInterval, ConnectionContext.delays]

/-! ## C4: the number of rounds before `open` gives up -/

/-- With the timeout `FOREVER` nothing expires. -/
theorem expired_FOREVER (E : Env) (start : Nat) (s : ConnectionContext) :
    (ConnectionContext.expired E start ConnectionContext.FOREVER s).1 = .ret false := by
  have h : ConnectionContext.FOREVER ≠ 0 := by
    unfold ConnectionContext.FOREVER; norm_num
  simp [ConnectionContext.expired, h]

/-- The rounds of `autoconnect` when every transport connect throws: with
reconnection enabled, no expiry, the retry limit `n` and the retry counter 0, it
throws after `n + 1` rounds, having slept `n` times. -/
theorem autoconnect_exhausts_retries (E : Env)
    (hE : ConnectionContext.AllConnectsFail E) (s : ConnectionContext) (n fuel : Nat)
    (hr : s.reconnect = true) (hl : s.limit = n) (hret : s.retries = 0)
    (hto : ∀ start s1, (ConnectionContext.expired E start s.timeout s1).1 = .ret false)
    (hf : n + 2 ≤ fuel) :
    (ConnectionContext.autoconnect E fuel s).1
        = .raise (.TransportFailure ("Connect failed to " ++ ConnectionContext.Url.str s.fullUrl
            ++ ": " ++ "Exceeded retries"))
      ∧ ConnectionContext.rounds (ConnectionContext.autoconnect E fuel s).2.calls
          = ConnectionContext.rounds s.calls + (n + 1)
      ∧ ConnectionContext.sleeps (ConnectionContext.autoconnect E fuel s).2.calls
          = ConnectionContext.sleeps s.calls
              ++ ConnectionContext.delays s.maxReconnectInterval n s.minReconnectInterval
      ∧ (ConnectionContext.autoconnect E fuel s).2.retries = n + 1 := by
  obtain ⟨f, rfl⟩ : ∃ f, fuel = f + 1 := ⟨fuel - 1, by omega⟩
  obtain ⟨r1, r2, r3, r4⟩ := autoconnectLoop_exhausts E
    (ConnectionContext.tryConnectUrl E (ConnectionContext.autoconnect E f) (f + 1) s.fullUrl)
    s.fullUrl (tryConnectUrl_refused E hE _ _ _) (s.clock + E.elapse s.reads) n n (f + 1)
    s.minReconnectInterval
    { s with clock := s.clock + E.elapse s.reads, reads := s.reads + 1 }
    hr hl (by simp [hret]) (by omega) hto
  rw [ConnectionContext.autoconnect]
  simp only [M.bind_apply, ConnectionContext.now, M.get_apply]
  rw [M.eq_of_fst r1]
  exact ⟨rfl, r2, r3, r4⟩

/-- From `DISCONNECTED`, `open()` is `autoconnect` after taking the default
driver. -/
theorem open_eq_autoconnect (E : Env) (fuel : Nat) (s : ConnectionContext)
    (hstate : s.io.state = .DISCONNECTED) :
    ConnectionContext.open E fuel s
      = ConnectionContext.autoconnect E fuel { s with driver := true } := by
  cases hd : s.driver with
  | false => simp [ConnectionContext.open, ConnectionContext.requireDisconnected, hstate, hd]
  | true =>
    have hs : { s with driver := true } = s := by
      cases s; simp_all
    simp [ConnectionContext.open, ConnectionContext.requireDisconnected, hstate, hd, hs]

/-- The rounds of `open()` when every transport connect throws: with reconnection
enabled, no expiry, the retry limit `n` and the retry counter 0, it throws
after `n + 1` rounds. -/
theorem open_exhausts_retries (E : Env)
    (hE : ConnectionContext.AllConnectsFail E) (s : ConnectionContext) (n fuel : Nat)
    (hstate : s.io.state = .DISCONNECTED) (hr : s.reconnect = true) (hl : s.limit = n)
    (hret : s.retries = 0)
    (hto : ∀ start s1, (ConnectionContext.expired E start s.timeout s1).1 = .ret false)
    (hf : n + 2 ≤ fuel) :
    (ConnectionContext.open E fuel s).1
        = .raise (.TransportFailure ("Connect failed to " ++ ConnectionContext.Url.str s.fullUrl
            ++ ": " ++ "Exceeded retries"))
      ∧ ConnectionContext.rounds (ConnectionContext.open E fuel s).2.calls
          = ConnectionContext.rounds s.calls + (n + 1)
      ∧ (ConnectionContext.open E fuel s).2.retries = n + 1 := by
  obtain ⟨r1, r2, _, r4⟩ := autoconnect_exhausts_retries E hE { s with driver := true } n fuel
    hr hl hret hto hf
  rw [open_eq_autoconnect E fuel s hstate]
  exact ⟨r1, r2, r4⟩

/-- Counterexample to C4 as stated: with the retry limit 3, reconnection enabled,
no timeout, the retry counter 0 and every connect failing, `open()` raises
`TransportFailure` after 4 rounds of `tryConnectUrl`, not 3. -/
theorem open_retry_limit_3_makes_4_rounds :
    (∃ text, (ConnectionContext.open Example.refusing 5 Example.retrying).1
        = .raise (.TransportFailure text))
      ∧ ConnectionContext.rounds (ConnectionContext.open Example.refusing 5 Example.retrying).2.calls = 4
      ∧ ConnectionContext.rounds (ConnectionContext.open Example.refusing 5 Example.retrying).2.calls
          ≠ 3 := by
  obtain ⟨h1, h2, _⟩ := open_exhausts_retries Example.refusing (fun _ _ => rfl) Example.retrying 3 5
    rfl rfl rfl rfl (fun start s1 => expired_FOREVER Example.refusing start s1) (by decide)
  have h4 : ConnectionContext.rounds
      (ConnectionContext.open Example.refusing 5 Example.retrying).2.calls = 4 := by
    rw [h2]; rfl
  exact ⟨⟨_, h1⟩, h4, by rw [h4]; decide⟩

/-! ## C5: the delays between failed rounds -/

/-- Every delay of the doubling sequence from `i` lies between `i` and `max`, when
`0 ≤ i ≤ max`. -/
theorem delays_bounds (max : ℚ) : ∀ (k : Nat) (i : ℚ), 0 ≤ i → i ≤ max →
    ∀ d ∈ ConnectionContext.delays max k i, i ≤ d ∧ d ≤ max := by
  intro k
  induction k with
  | zero => intro i _ _ d hd; simp [ConnectionContext.delays] at hd
  | succ k ih =>
    intro i h0 hm d hd
    simp only [ConnectionContext.delays, List.mem_cons] at hd
    rcases hd with rfl | hd
    · exact ⟨le_refl _, hm⟩
    · have hi : i ≤ min (i * 2) max := le_min (by linarith) hm
      obtain ⟨h1, h2⟩ := ih (min (i * 2) max) (le_trans h0 hi) (min_le_right _ _) d hd
      exact ⟨le_trans hi h1, h2⟩

/-- The doubling sequence from `i` is non-decreasing, when `0 ≤ i ≤ max`. -/
theorem delays_sorted (max : ℚ) : ∀ (k : Nat) (i : ℚ), 0 ≤ i → i ≤ max →
    List.Sorted (· ≤ ·) (ConnectionContext.delays max k i) := by
  intro k
  induction k with
  | zero => intro i _ _; simp [ConnectionContext.delays]
  | succ k ih =>
    intro i h0 hm
    have hi : i ≤ min (i * 2) max := le_min (by linarith) hm
    simp only [ConnectionContext.delays, List.sorted_cons]
    refine ⟨?_, ih _ (le_trans h0 hi) (min_le_right _ _)⟩
    intro d hd
    exact le_trans hi (delays_bounds max k _ (le_trans h0 hi) (min_le_right _ _) d hd).1

/-- The body of the retry loop either returns, having slept for the interval, or
does not return, having slept not at all; it keeps the maximum interval. -/
theorem autoconnectBody_sleeps (E : Env) (started : Nat) (i : ℚ) (s : ConnectionContext) :
    (ConnectionContext.autoconnectBody E started i s).2.maxReconnectInterval
        = s.maxReconnectInterval
      ∧ (((ConnectionContext.autoconnectBody E started i s).1 = .ret ()
          ∧ ConnectionContext.sleeps (ConnectionContext.autoconnectBody E started i s).2.calls
              = ConnectionContext.sleeps s.calls ++ [i])
        ∨ ((ConnectionContext.autoconnectBody E started i s).1 ≠ .ret ()
          ∧ ConnectionContext.sleeps (ConnectionContext.autoconnectBody E started i s).2.calls
              = ConnectionContext.sleeps s.calls)) := by
  by_cases hr : s.reconnect = false
  · rw [autoconnectBody_disabled E started i s hr]
    exact ⟨rfl, Or.inr ⟨by simp, rfl⟩⟩
  · have e1 : M.when (s.reconnect = false)
        (ConnectionContext.throwConnectFail s.fullUrl "Reconnect disabled") s = (.ret (), s) := by
      simp [hr]
    have hcount : (ConnectionContext.countRetry s = (.ret (), s)
          ∨ ConnectionContext.countRetry s = (.ret (), { s with retries := s.retries + 1 }))
        ∨ ∃ e, ConnectionContext.countRetry s = (.raise e, { s with retries := s.retries + 1 }) := by
      by_cases hl : 0 ≤ s.limit
      · by_cases hx : s.limit ≤ s.retries
        · refine Or.inr ⟨.TransportFailure ("Connect failed to "
            ++ ConnectionContext.Url.str s.fullUrl ++ ": " ++ "Exceeded retries"), ?_⟩
          simp [ConnectionContext.countRetry, ConnectionContext.throwConnectFail, hl, hx]
        · exact Or.inl (Or.inr (by simp [ConnectionContext.countRetry, hl, hx]))
      · exact Or.inl (Or.inl (by simp [ConnectionContext.countRetry, hl]))
    have hafter : ∀ s1 : ConnectionContext, s1.maxReconnectInterval = s.maxReconnectInterval →
        s1.calls = s.calls → s1.timeout = s.timeout → s1.fullUrl = s.fullUrl →
        ConnectionContext.countRetry s = (.ret (), s1) →
        (ConnectionContext.autoconnectBody E started i s).2.maxReconnectInterval
            = s.maxReconnectInterval
          ∧ (((ConnectionContext.autoconnectBody E started i s).1 = .ret ()
              ∧ ConnectionContext.sleeps (ConnectionContext.autoconnectBody E started i s).2.calls
                  = ConnectionContext.sleeps s.calls ++ [i])
            ∨ ((ConnectionContext.autoconnectBody E started i s).1 ≠ .ret ()
              ∧ ConnectionContext.sleeps (ConnectionContext.autoconnectBody E started i s).2.calls
                  = ConnectionContext.sleeps s.calls)) := by
      intro s1 hmax hcalls _ _ hc
      obtain ⟨⟨b, hb⟩, hk⟩ := expired_kept E started s.timeout s1
      rcases hexp : ConnectionContext.expired E started s.timeout s1 with ⟨o, s2⟩
      rw [hexp] at hb hk
      simp only at hb hk
      subst hb
      simp only [ConnectionContext.autoconnectBody, M.bind_apply, M.get_apply, e1, hc, hexp,
        M.when_apply, ConnectionContext.call, M.modify_apply]
      cases b with
      | true =>
        simp only [if_true, ConnectionContext.throwConnectFail, M.raise_apply]
        exact ⟨hk.maxInterval.trans hmax, Or.inr ⟨by simp, by rw [hk.sleeps, hcalls]⟩⟩
      | false =>
        simp only [Bool.false_eq_true, if_false]
        exact ⟨hk.maxInterval.trans hmax, Or.inl ⟨trivial, by simp [hk.sleeps, hcalls]⟩⟩
    rcases hcount with (hc | hc) | ⟨e, hc⟩
    · exact hafter s rfl rfl rfl rfl hc
    · exact hafter { s with retries := s.retries + 1 } rfl rfl rfl rfl hc
    · refine ⟨?_, Or.inr ⟨?_, ?_⟩⟩ <;>
        simp only [ConnectionContext.autoconnectBody, M.bind_apply, M.get_apply, e1, hc] <;>
        simp

/-- The delays slept by the retry loop when every round fails are the first `k`
of the doubling sequence from the interval `i`, for some `k`. -/
theorem autoconnectLoop_sleeps (E : Env) (round : M Bool) (url : Url)
    (hround : ∀ s, (round s).1 = .ret false
      ∧ ConnectionContext.OptionsKept { s with calls := s.calls ++ [.tryConnectUrl url] } (round s).2)
    (started : Nat) :
    ∀ (fuel : Nat) (i : ℚ) (s : ConnectionContext), ∃ k,
      ConnectionContext.sleeps (ConnectionContext.autoconnectLoop E round started fuel i s).2.calls
        = ConnectionContext.sleeps s.calls ++ ConnectionContext.delays s.maxReconnectInterval k i := by
  intro fuel
  induction fuel with
  | zero =>
    intro i s
    obtain ⟨h1, k1⟩ := hround s
    refine ⟨0, ?_⟩
    rw [ConnectionContext.autoconnectLoop]
    simp only [M.bind_apply]
    rw [M.eq_of_fst h1]
    simp [k1.sleeps, ConnectionContext.delays]
  | succ f ih =>
    intro i s
    obtain ⟨h1, k1⟩ := hround s
    obtain ⟨hmax, hb⟩ := autoconnectBody_sleeps E started i (round s).2
    have hunfold : ConnectionContext.autoconnectLoop E round started (f + 1) i s
        = (match ConnectionContext.autoconnectBody E started i (round s).2 with
          | (.ret _, s1) => ConnectionContext.autoconnectLoop E round started f
              (min (i * 2) s1.maxReconnectInterval) s1
          | (.raise e, s1) => (.raise e, s1)
          | (.stuck, s1) => (.stuck, s1)) := by
      rw [ConnectionContext.autoconnectLoop]
      simp only [M.bind_apply]
      rw [M.eq_of_fst h1]
      simp only [Bool.false_eq_true, if_false, M.bind_apply, M.get_apply]
      rcases ConnectionContext.autoconnectBody E started i (round s).2 with ⟨o, s2⟩
      cases o <;> rfl
    rw [hunfold]
    rcases hbody : ConnectionContext.autoconnectBody E started i (round s).2 with ⟨o, s2⟩
    rw [hbody] at hmax hb
    simp only at hmax hb
    cases o with
    | ret u =>
      obtain ⟨k, hk⟩ := ih (min (i * 2) s2.maxReconnectInterval) s2
      refine ⟨k + 1, ?_⟩
      simp only
      rcases hb with ⟨_, hs⟩ | ⟨hne, _⟩
      · rw [hk, hs, hmax, k1.maxInterval, k1.sleeps]
        simp [ConnectionContext.delays]
      · exact absurd rfl hne
    | raise e =>
      refine ⟨0, ?_⟩
      rcases hb with ⟨he, _⟩ | ⟨_, hs⟩
      · simp at he
      · simp [hs, k1.sleeps, ConnectionContext.delays]
    | stuck =>
      refine ⟨0, ?_⟩
      rcases hb with ⟨he, _⟩ | ⟨_, hs⟩
      · simp at he
      · simp [hs, k1.sleeps, ConnectionContext.delays]

/-- The delays slept by `autoconnect` when every transport connect throws are the
first `k` of the doubling sequence from the minimum interval, for some `k`. -/
theorem autoconnect_sleeps (E : Env) (hE : ConnectionContext.AllConnectsFail E) (fuel : Nat)
    (s : ConnectionContext) : ∃ k,
    ConnectionContext.sleeps (ConnectionContext.autoconnect E fuel s).2.calls
      = ConnectionContext.sleeps s.calls
          ++ ConnectionContext.delays s.maxReconnectInterval k s.minReconnectInterval := by
  cases fuel with
  | zero => exact ⟨0, by simp [ConnectionContext.autoconnect, ConnectionContext.delays]⟩
  | succ f =>
    obtain ⟨k, hk⟩ := autoconnectLoop_sleeps E
      (ConnectionContext.tryConnectUrl E (ConnectionContext.autoconnect E f) (f + 1) s.fullUrl)
      s.fullUrl (tryConnectUrl_refused E hE _ _ _) (s.clock + E.elapse s.reads) (f + 1)
      s.minReconnectInterval
      { s with clock := s.clock + E.elapse s.reads, reads := s.reads + 1 }
    refine ⟨k, ?_⟩
    rw [ConnectionContext.autoconnect]
    simp only [M.bind_apply, ConnectionContext.now, M.get_apply]
    rcases hloop : ConnectionContext.autoconnectLoop E
      (ConnectionContext.tryConnectUrl E (ConnectionContext.autoconnect E f) (f + 1) s.fullUrl)
      (s.clock + E.elapse s.reads) (f + 1) s.minReconnectInterval
      { s with clock := s.clock + E.elapse s.reads, reads := s.reads + 1 } with ⟨o, s2⟩
    rw [hloop] at hk
    cases o <;> simpa using hk

/-- Counterexample to C5 as stated: with the minimum interval 3 s above the maximum
2 s (retry limit 2, every connect failing), `autoconnect` sleeps 3 s and then
2 s: the first delay exceeds the maximum and the sequence decreases. -/
theorem autoconnect_delays_min_above_max :
    ConnectionContext.sleeps
        (ConnectionContext.autoconnect Example.refusing 5 Example.inverted).2.calls = [3, 2]
      ∧ ¬ (List.Sorted (· ≤ ·) (ConnectionContext.sleeps
            (ConnectionContext.autoconnect Example.refusing 5 Example.inverted).2.calls)
          ∧ ∀ d ∈ ConnectionContext.sleeps
              (ConnectionContext.autoconnect Example.refusing 5 Example.inverted).2.calls,
            d ≤ Example.inverted.maxReconnectInterval) := by
  obtain ⟨_, _, h3, _⟩ := autoconnect_exhausts_retries Example.refusing (fun _ _ => rfl)
    Example.inverted 2 5 rfl rfl rfl (fun start s1 => expired_FOREVER Example.refusing start s1)
    (by decide)
  have h : ConnectionContext.sleeps
      (ConnectionContext.autoconnect Example.refusing 5 Example.inverted).2.calls = [3, 2] := by
    rw [h3]
    norm_num [ConnectionContext.delays, ConnectionContext.sleeps, Example.inverted,
      Example.disconnected]
  refine ⟨h, ?_⟩
  rw [h]
  norm_num [Example.inverted, Example.disconnected]

/-! ## What a round of attempts leaves alone when reconnection is disabled -/

namespace ConnectionContext

theorem undisturbed_refl (s : ConnectionContext) : Undisturbed s s := fun h => ⟨h, rfl, rfl, rfl, rfl⟩

theorem undisturbed_trans {s s1 s2 : ConnectionContext} (h1 : Undisturbed s s1)
    (h2 : Undisturbed s1 s2) : Undisturbed s s2 := by
  intro h
  obtain ⟨a1, b1, c1, d1, e1⟩ := h1 h
  obtain ⟨a2, b2, c2, d2, e2⟩ := h2 a1
  exact ⟨a2, b2.trans b1, c2.trans c1, d2.trans d1, e2.trans e1⟩

theorem keeps_pure {α : Type} (a : α) : Keeps (Pure.pure a : M α) := fun s => undisturbed_refl s

theorem keeps_raise {α : Type} (e : Exc) : Keeps (M.raise e : M α) := fun s => undisturbed_refl s

theorem keeps_stuck {α : Type} : Keeps (M.stuck : M α) := fun s => undisturbed_refl s

theorem keeps_get : Keeps M.get := fun s => undisturbed_refl s

theorem keeps_test (c : ConnectionContext → Bool) : Keeps (M.test c) := fun s => undisturbed_refl s

theorem keeps_modify {f : ConnectionContext → ConnectionContext}
    (hf : ∀ s, Undisturbed s (f s)) : Keeps (M.modify f) := fun s => hf s

theorem keeps_bind {α β : Type} {m : M α} {f : α → M β} (hm : Keeps m)
    (hf : ∀ a, Keeps (f a)) : Keeps (m >>= f) := by
  intro s
  have h1 := hm s
  simp only [M.bind_apply]
  rcases hms : m s with ⟨o, s1⟩
  rw [hms] at h1
  cases o with
  | ret a => exact undisturbed_trans h1 (hf a s1)
  | raise e => exact h1
  | stuck => exact h1

theorem keeps_when (c : Prop) [Decidable c] {body : M Unit} (hb : Keeps body) :
    Keeps (M.when c body) := by
  unfold M.when
  split
  · exact hb
  · exact fun s => undisturbed_refl s

theorem keeps_ite {α : Type} (c : Prop) [Decidable c] {a b : M α} (ha : Keeps a) (hb : Keeps b) :
    Keeps (if c then a else b) := by
  split
  · exact ha
  · exact hb

theorem keeps_forEach {α : Type} {body : α → M Unit} (hb : ∀ a, Keeps (body a)) :
    ∀ xs : List α, Keeps (M.forEach body xs) := by
  intro xs
  induction xs with
  | nil => exact fun s => undisturbed_refl s
  | cons a as ih =>
    rw [M.forEach]
    exact keeps_bind (hb a) fun _ => ih

theorem keeps_loop {cond : M Bool} {body : M Unit} (hc : Keeps cond) (hb : Keeps body) :
    ∀ fuel : Nat, Keeps (M.loop cond body fuel) := by
  intro fuel
  induction fuel with
  | zero =>
    rw [M.loop]
    exact keeps_bind hc fun c => keeps_ite _ keeps_stuck (keeps_pure _)
  | succ k ih =>
    rw [M.loop]
    exact keeps_bind hc fun c => keeps_ite _ (keeps_bind hb fun _ => ih) (keeps_pure _)

theorem keeps_tryCatch {α : Type} {m : M α} {catches : Exc → Bool} {handler : Exc → M α}
    (hm : Keeps m) (hh : ∀ e, Keeps (handler e)) : Keeps (M.tryCatch m catches handler) := by
  intro s
  have h1 := hm s
  unfold M.tryCatch
  rcases hms : m s with ⟨o, s1⟩
  rw [hms] at h1
  cases o with
  | ret a => exact h1
  | raise e =>
    simp only
    split
    · exact undisturbed_trans h1 (hh e s1)
    · exact h1
  | stuck => exact h1

theorem keeps_onEngine (f : Engine → Engine) : Keeps (onEngine f) :=
  keeps_modify fun _ h => ⟨h, rfl, rfl, rfl, rfl⟩

theorem keeps_lockWait (E : Env) : Keeps (lockWait E) :=
  keeps_modify fun _ h => ⟨h, rfl, rfl, rfl, rfl⟩

theorem keeps_now (E : Env) : Keeps (now E) := fun _ h => ⟨h, rfl, rfl, rfl, rfl⟩

/-- Recording a call that is neither a sleep nor the start of a round. -/
theorem keeps_call (c : Call) (hs : sleeps [c] = []) (hr : rounds [c] = 0) : Keeps (call c) :=
  keeps_modify fun s h => ⟨h, rfl, by simp [hs], by simp [hr], rfl⟩

theorem keeps_wakeupDriver : Keeps wakeupDriver := by
  unfold wakeupDriver
  refine keeps_bind keeps_get fun s => ?_
  split
  · exact keeps_bind (keeps_modify fun _ h => ⟨h, rfl, rfl, rfl, rfl⟩) fun _ => keeps_call _ rfl rfl
  · exact keeps_pure _
  · exact keeps_pure _

theorem keeps_configureConnection : Keeps configureConnection :=
  keeps_bind keeps_get fun _ => keeps_when _ (keeps_onEngine _)

theorem keeps_senderReset (session p : Nat) : Keeps (SenderContext.reset session p) := by
  unfold SenderContext.reset
  exact keeps_modify fun _ h => ⟨h, rfl, rfl, rfl, rfl⟩

theorem keeps_receiverReset (session p : Nat) : Keeps (ReceiverContext.reset session p) := by
  unfold ReceiverContext.reset
  exact keeps_modify fun _ h => ⟨h, rfl, rfl, rfl, rfl⟩

theorem keeps_sessionReset (p : Nat) : Keeps (SessionContext.reset p) := by
  unfold SessionContext.reset
  refine keeps_bind (keeps_modify fun _ h => ⟨h, rfl, rfl, rfl, rfl⟩) fun _ => ?_
  refine keeps_bind keeps_get fun s => ?_
  refine keeps_bind (keeps_forEach (fun _ => keeps_senderReset _ _) _) fun _ => ?_
  exact keeps_forEach (fun _ => keeps_receiverReset _ _) _

theorem keeps_reset : Keeps reset := by
  unfold reset
  refine keeps_bind (keeps_call _ rfl rfl) fun _ => ?_
  refine keeps_bind (keeps_onEngine _) fun _ => ?_
  refine keeps_bind keeps_configureConnection fun _ => ?_
  exact keeps_bind keeps_get fun s => keeps_forEach (fun _ => keeps_sessionReset _) _

theorem keeps_checkConnectionClosed : Keeps checkConnectionClosed :=
  keeps_bind keeps_get fun _ =>
    keeps_when _ (keeps_bind (keeps_onEngine _) fun _ => keeps_raise _)

theorem keeps_checkDisconnected : Keeps checkDisconnected := by
  unfold checkDisconnected
  refine keeps_bind keeps_get fun s => ?_
  refine keeps_bind (keeps_ite _ keeps_reset keeps_checkConnectionClosed) fun _ => ?_
  exact keeps_bind keeps_get fun _ => keeps_pure _

/-- With reconnection disabled `check` never calls `autoconnect`. -/
theorem keeps_check (ac : M Unit) : Keeps (check ac) := by
  unfold check
  refine keeps_bind keeps_checkDisconnected fun d => ?_
  intro s
  simp only [M.bind_apply, M.get_apply]
  cases d with
  | false => exact undisturbed_refl s
  | true =>
    simp only [if_true]
    intro h
    simp [h]

end ConnectionContext

namespace ConnectionContext

theorem keeps_wait (E : Env) (ac : M Unit) : Keeps (wait E ac) :=
  keeps_bind (keeps_check ac) fun _ => keeps_bind (keeps_lockWait E) fun _ => keeps_check ac

theorem keeps_checkClosedSsn (ac : M Unit) (ssn : Nat) : Keeps (checkClosedSsn ac ssn) := by
  unfold checkClosedSsn
  refine keeps_bind (keeps_check ac) fun _ => keeps_bind keeps_get fun s => ?_
  refine keeps_ite _ (keeps_bind (keeps_onEngine _) fun _ => keeps_raise _) ?_
  exact keeps_ite _ (keeps_raise _) (keeps_pure _)

theorem keeps_waitSsn (E : Env) (ac : M Unit) (ssn : Nat) : Keeps (waitSsn E ac ssn) :=
  keeps_bind (keeps_wait E ac) fun _ => keeps_checkClosedSsn ac ssn

theorem keeps_verify (E : Env) (lnk : Nat) : Keeps (verify E lnk) := by
  unfold verify
  refine keeps_bind keeps_get fun s => ?_
  split
  · exact keeps_raise _
  · exact keeps_pure _

theorem keeps_attachLink (E : Env) (ac : M Unit) (fuel ssn link credit : Nat) :
    Keeps (attachLink E ac fuel ssn link credit) := by
  unfold attachLink
  refine keeps_bind (keeps_onEngine _) fun _ => ?_
  refine keeps_bind (keeps_when _ (keeps_onEngine _)) fun _ => ?_
  refine keeps_bind keeps_wakeupDriver fun _ => ?_
  exact keeps_loop (keeps_test _) (keeps_waitSsn E ac ssn) fuel

theorem keeps_resendDelivery (p : Nat) (d : Delivery) : Keeps (resendDelivery p d) := by
  unfold resendDelivery
  exact keeps_when _ (keeps_modify fun _ h => ⟨h, rfl, rfl, rfl, rfl⟩)

theorem keeps_resend (p : Nat) : Keeps (SenderContext.resend p) := by
  unfold SenderContext.resend
  refine keeps_bind (keeps_call _ rfl rfl) fun _ => keeps_bind keeps_get fun s => ?_
  exact keeps_forEach (fun d => keeps_resendDelivery p d) _

theorem keeps_reattachSender (E : Env) (ac : M Unit) (fuel p snd : Nat) :
    Keeps (reattachSender E ac fuel p snd) := by
  unfold reattachSender
  refine keeps_bind keeps_get fun s => keeps_bind (keeps_attachLink E ac fuel p _ _) fun _ => ?_
  exact keeps_bind keeps_get fun s => keeps_bind (keeps_verify E _) fun _ => keeps_resend snd

theorem keeps_reattachReceiver (E : Env) (ac : M Unit) (fuel p rcv : Nat) :
    Keeps (reattachReceiver E ac fuel p rcv) := by
  unfold reattachReceiver
  refine keeps_bind keeps_get fun s => ?_
  refine keeps_bind
    (keeps_ite _ (keeps_attachLink E ac fuel p _ _) (keeps_attachLink E ac fuel p _ _)) fun _ => ?_
  exact keeps_bind keeps_get fun s => keeps_verify E _

theorem keeps_sessionRemoteUninit (p : Nat) : Keeps (sessionRemoteUninit p) := by
  unfold sessionRemoteUninit
  exact keeps_test _

theorem keeps_restartSession (E : Env) (ac : M Unit) (fuel p : Nat) :
    Keeps (restartSession E ac fuel p) := by
  unfold restartSession
  refine keeps_bind keeps_get fun s => keeps_bind (keeps_onEngine _) fun _ => ?_
  refine keeps_bind keeps_wakeupDriver fun _ => ?_
  refine keeps_bind (keeps_loop (keeps_sessionRemoteUninit p) (keeps_wait E ac) fuel) fun _ => ?_
  refine keeps_bind keeps_get fun s => ?_
  refine keeps_bind (@keeps_forEach (String × Nat) (fun i => reattachSender E ac fuel p i.2)
    (fun i => keeps_reattachSender E ac fuel p i.2) _) fun _ => ?_
  refine keeps_bind keeps_get fun s => ?_
  refine keeps_bind (@keeps_forEach (String × Nat) (fun i => reattachReceiver E ac fuel p i.2)
    (fun i => keeps_reattachReceiver E ac fuel p i.2) _) fun _ => ?_
  exact keeps_wakeupDriver

theorem keeps_restartSessions (E : Env) (ac : M Unit) (fuel : Nat) :
    Keeps (restartSessions E ac fuel) := by
  unfold restartSessions
  refine keeps_tryCatch ?_ fun _ => keeps_pure _
  refine keeps_bind keeps_get fun s => ?_
  exact keeps_bind (@keeps_forEach (String × Nat) (fun i => restartSession E ac fuel i.2)
    (fun i => keeps_restartSession E ac fuel i.2) _) fun _ => keeps_pure _

theorem keeps_prepareConnect (a : Address) : Keeps (prepareConnect a) := by
  unfold prepareConnect
  refine keeps_bind (keeps_modify fun _ h => ⟨h, rfl, rfl, rfl, rfl⟩) fun _ => ?_
  refine keeps_bind keeps_get fun s => ?_
  refine keeps_bind (keeps_when _ (keeps_modify fun _ h => ⟨h, rfl, rfl, rfl, rfl⟩)) fun _ => ?_
  exact keeps_modify fun _ h => ⟨h, rfl, rfl, rfl, rfl⟩

theorem keeps_waitConnected (E : Env) : ∀ fuel : Nat, Keeps (waitConnected E fuel) := by
  intro fuel
  induction fuel with
  | zero =>
    rw [waitConnected]
    refine keeps_bind keeps_get fun s => ?_
    split
    · exact keeps_pure _
    · exact keeps_stuck
    · exact keeps_pure _
  | succ k ih =>
    rw [waitConnected]
    refine keeps_bind keeps_get fun s => ?_
    split
    · exact keeps_pure _
    · exact keeps_bind (keeps_lockWait E) fun _ => ih
    · exact keeps_pure _

theorem keeps_connectAndWait (E : Env) (fuel : Nat) (a : Address) :
    Keeps (connectAndWait E fuel a) := by
  unfold connectAndWait
  refine keeps_bind keeps_get fun s => ?_
  refine keeps_bind (keeps_modify fun _ h => ⟨h, rfl, rfl, rfl, rfl⟩) fun _ => ?_
  refine keeps_bind (keeps_call _ rfl rfl) fun _ => ?_
  split
  · exact keeps_raise _
  · exact keeps_waitConnected E fuel

theorem keeps_tryConnectAddr (E : Env) (fuel : Nat) (a : Address) :
    Keeps (tryConnectAddr E fuel a) := by
  unfold tryConnectAddr
  refine keeps_bind (keeps_prepareConnect a) fun _ => ?_
  refine keeps_bind (keeps_tryCatch (keeps_connectAndWait E fuel a) fun _ =>
    keeps_bind (keeps_modify fun _ h => ⟨h, rfl, rfl, rfl, rfl⟩) fun _ => keeps_pure _) fun c => ?_
  refine keeps_ite _ (keeps_pure _) ?_
  exact keeps_bind (keeps_modify fun _ h => ⟨h, rfl, rfl, rfl, rfl⟩) fun _ => keeps_pure _

theorem keeps_waitNoReconnect (E : Env) : Keeps (waitNoReconnect E) := by
  unfold waitNoReconnect
  refine keeps_bind keeps_checkDisconnected fun d => keeps_ite _ (keeps_pure _) ?_
  refine keeps_bind (keeps_lockWait E) fun _ => ?_
  exact keeps_bind keeps_checkDisconnected fun _ => keeps_pure _

theorem keeps_startTicker : Keeps startTicker := by
  unfold startTicker
  refine keeps_bind keeps_get fun s => keeps_when _ ?_
  exact keeps_bind (keeps_modify fun _ h => ⟨h, rfl, rfl, rfl, rfl⟩) fun _ => keeps_call _ rfl rfl

theorem keeps_awaitAuthenticated (E : Env) (fuel : Nat) : Keeps (awaitAuthenticated E fuel) := by
  unfold awaitAuthenticated
  refine keeps_bind keeps_get fun s => keeps_when _ ?_
  exact keeps_bind keeps_wakeupDriver fun _ =>
    keeps_loop (keeps_test _) (keeps_waitNoReconnect E) fuel

theorem keeps_openConnection (E : Env) (ac : M Unit) (fuel : Nat) :
    Keeps (openConnection E ac fuel) := by
  unfold openConnection
  refine keeps_bind (keeps_onEngine _) fun _ => keeps_bind keeps_wakeupDriver fun _ => ?_
  refine keeps_bind (keeps_loop (keeps_test _) (keeps_waitNoReconnect E) fuel) fun _ => ?_
  refine keeps_bind keeps_get fun s => keeps_ite _ (keeps_pure _) ?_
  refine keeps_ite _ (keeps_raise _) ?_
  exact keeps_bind keeps_startTicker fun _ => keeps_restartSessions E ac fuel

theorem keeps_tryOpenAddr (E : Env) (ac : M Unit) (fuel : Nat) (a : Address) :
    Keeps (tryOpenAddr E ac fuel a) := by
  unfold tryOpenAddr
  refine keeps_bind (keeps_modify fun _ h => ⟨h, rfl, rfl, rfl, rfl⟩) fun _ => ?_
  refine keeps_bind (keeps_awaitAuthenticated E fuel) fun _ => ?_
  exact keeps_bind keeps_get fun s => keeps_ite _ (keeps_pure _) (keeps_openConnection E ac fuel)

theorem keeps_tryAddrs (E : Env) (ac : M Unit) (fuel : Nat) :
    ∀ addrs : List Address, Keeps (tryAddrs E ac fuel addrs) := by
  intro addrs
  induction addrs with
  | nil => rw [tryAddrs]; exact keeps_pure _
  | cons a rest ih =>
    rw [tryAddrs]
    refine keeps_bind (keeps_tryConnectAddr E fuel a) fun c => keeps_ite _ ?_ ih
    exact keeps_bind (keeps_tryOpenAddr E ac fuel a) fun o => keeps_ite _ (keeps_pure _) ih

/-- With reconnection disabled, a round of attempts is one more round and changes
neither the retry counter nor the delays slept, however it ends. -/
theorem tryConnectUrl_undisturbed (E : Env) (ac : M Unit) (fuel : Nat) (url : Url)
    (s : ConnectionContext) (h : s.reconnect = false) :
    (tryConnectUrl E ac fuel url s).2.reconnect = false
      ∧ (tryConnectUrl E ac fuel url s).2.retries = s.retries
      ∧ sleeps (tryConnectUrl E ac fuel url s).2.calls = sleeps s.calls
      ∧ rounds (tryConnectUrl E ac fuel url s).2.calls = rounds s.calls + 1
      ∧ (tryConnectUrl E ac fuel url s).2.fullUrl = s.fullUrl := by
  have hk : Keeps (M.when (url.user.length ≠ 0) (M.modify fun s => { s with username := url.user })
      >>= fun _ => M.when (url.pass.length ≠ 0) (M.modify fun s => { s with password := url.pass })
      >>= fun _ => tryAddrs E ac fuel url.addrs) :=
    keeps_bind (keeps_when _ (keeps_modify fun _ h => ⟨h, rfl, rfl, rfl, rfl⟩)) fun _ =>
      keeps_bind (keeps_when _ (keeps_modify fun _ h => ⟨h, rfl, rfl, rfl, rfl⟩)) fun _ =>
        keeps_tryAddrs E ac fuel url.addrs
  obtain ⟨a, b, c, d, e⟩ := hk { s with calls := s.calls ++ [.tryConnectUrl url] } h
  have he : tryConnectUrl E ac fuel url s
      = (M.when (url.user.length ≠ 0) (M.modify fun s => { s with username := url.user })
      >>= fun _ => M.when (url.pass.length ≠ 0) (M.modify fun s => { s with password := url.pass })
      >>= fun _ => tryAddrs E ac fuel url.addrs)
        { s with calls := s.calls ++ [.tryConnectUrl url] } := rfl
  rw [he]
  exact ⟨a, b, by simpa using c, by simpa using d, e⟩

end ConnectionContext

/-! ## C6: `autoconnect` with reconnection disabled -/

/-- The outcome of `autoconnect` with reconnection disabled when the first round
of attempts returns failure. -/
theorem autoconnect_disabled (E : Env) (fuel : Nat) (s s1 : ConnectionContext)
    (hr : s.reconnect = false)
    (hround : ConnectionContext.tryConnectUrl E (ConnectionContext.autoconnect E fuel)
        (fuel + 1) s.fullUrl
        { s with clock := s.clock + E.elapse s.reads, reads := s.reads + 1 } = (.ret false, s1)) :
    ConnectionContext.autoconnect E (fuel + 1) s
        = (.raise (.TransportFailure ("Connect failed to "
            ++ ConnectionContext.Url.str s.fullUrl ++ ": " ++ "Reconnect disabled")), s1)
      ∧ ConnectionContext.rounds s1.calls = ConnectionContext.rounds s.calls + 1
      ∧ ConnectionContext.sleeps s1.calls = ConnectionContext.sleeps s.calls
      ∧ s1.retries = s.retries := by
  obtain ⟨a, b, c, d, e⟩ := ConnectionContext.tryConnectUrl_undisturbed E
    (ConnectionContext.autoconnect E fuel) (fuel + 1) s.fullUrl
    { s with clock := s.clock + E.elapse s.reads, reads := s.reads + 1 } hr
  rw [hround] at a b c d e
  simp only at a b c d e
  refine ⟨?_, d, c, b⟩
  rw [ConnectionContext.autoconnect]
  simp only [M.bind_apply, ConnectionContext.now, M.get_apply]
  rw [ConnectionContext.autoconnectLoop]
  simp only [M.bind_apply, hround, Bool.false_eq_true, if_false,
    autoconnectBody_disabled E _ _ s1 a, e]

theorem find_insert_self (k : String) (v : Nat) (m : NameMap) :
    (NameMap.insert k v m).find k = some v := by
  induction m with
  | nil => simp [NameMap.insert, NameMap.find, List.lookup]
  | cons a t ih =>
    obtain ⟨k1, v1⟩ := a
    simp only [NameMap.insert]
    by_cases h1 : k < k1
    · simp [h1, NameMap.find, List.lookup]
    · by_cases h2 : k = k1
      · simp [h1, h2, NameMap.find, List.lookup]
      · have h3 : (k == k1) = false := by simpa using h2
        simp only [h1, h2, if_false, NameMap.find, List.lookup, h3]
        exact ih

theorem find_insert_ne (j k : String) (v : Nat) (m : NameMap) (hjk : j ≠ k) :
    (NameMap.insert k v m).find j = m.find j := by
  have hb : (j == k) = false := by simpa using hjk
  induction m with
  | nil => simp [NameMap.insert, NameMap.find, List.lookup, hb]
  | cons a t ih =>
    obtain ⟨k1, v1⟩ := a
    simp only [NameMap.insert]
    by_cases h1 : k < k1
    · simp [h1, NameMap.find, List.lookup, hb]
    · by_cases h2 : k = k1
      · subst h2
        simp [h1, NameMap.find, List.lookup, hb]
      · simp only [h1, h2, if_false, NameMap.find, List.lookup]
        cases hj : j == k1 with
        | true => rfl
        | false => exact ih

theorem find_erase_self (k : String) (m : NameMap) : (m.erase k).find k = none := by
  induction m with
  | nil => rfl
  | cons a t ih =>
    obtain ⟨k1, v1⟩ := a
    by_cases h : k1 = k
    · subst h
      simpa [NameMap.erase, NameMap.find, List.filter] using ih
    · have h3 : (k == k1) = false := by simpa using fun e : k = k1 => h e.symm
      have h4 : (k1 != k) = true := by simpa using h
      simp only [NameMap.erase, NameMap.find, List.filter, h4, List.lookup, h3]
      exact ih

theorem find_erase_ne (j k : String) (m : NameMap) (hjk : j ≠ k) :
    (m.erase k).find j = m.find j := by
  induction m with
  | nil => rfl
  | cons a t ih =>
    obtain ⟨k1, v1⟩ := a
    by_cases h : k1 = k
    · subst h
      have hb : (j == k1) = false := by simpa using hjk
      simpa [NameMap.erase, NameMap.find, List.filter, List.lookup, hb] using ih
    · have h4 : (k1 != k) = true := by simpa using h
      simp only [NameMap.erase, NameMap.find, List.filter, h4, List.lookup]
      cases hj : j == k1 with
      | true => rfl
      | false => exact ih

/-! ## Waits on a healthy connection -/

namespace ConnectionContext

/-- On a healthy connection `checkDisconnected` changes nothing and returns
`false`. -/
theorem checkDisconnected_healthy (s : ConnectionContext) (h : Healthy s.io) :
    checkDisconnected s = (.ret false, s) := by
  obtain ⟨h1, h2⟩ := h
  simp [checkDisconnected, checkConnectionClosed, h1, h2]

/-- On a healthy connection `check` changes nothing. -/
theorem check_healthy (ac : M Unit) (s : ConnectionContext) (h : Healthy s.io) :
    check ac s = (.ret (), s) := by
  simp [check, checkDisconnected_healthy s h]

theorem waited_zero (E : Env) (s : ConnectionContext) : waited E 0 s = s := by
  cases s; simp [waited, wakes]

theorem waited_succ (E : Env) (j : Nat) (s : ConnectionContext) :
    waited E (j + 1) s = waited E j (waited E 1 s) := by
  simp only [waited, wakes]
  congr 1
  omega

/-- A wait on a connection that is healthy before and after it only lets the I/O
thread make its change. -/
theorem wait_healthy (E : Env) (ac : M Unit) (s : ConnectionContext) (h : Healthy s.io)
    (h1 : Healthy (waited E 1 s).io) : wait E ac s = (.ret (), waited E 1 s) := by
  have e1 : lockWait E s = (.ret (), waited E 1 s) := rfl
  simp only [wait, M.bind_apply, check_healthy ac s h, e1, check_healthy ac _ h1]

/-- A loop whose condition only reads the state and whose body is a wait that
changes nothing else, as long as the state is good before and after it: if the
state stays good for `j` waits, the condition holds before the `j`-th and fails
after it, the loop returns after `j` waits. -/
theorem loop_waits (E : Env) (c : ConnectionContext → Bool) (body : M Unit)
    (Good : ConnectionContext → Prop)
    (hbody : ∀ s, Good s → Good (waited E 1 s) → body s = (.ret (), waited E 1 s)) :
    ∀ (j fuel : Nat) (s : ConnectionContext), j ≤ fuel → (∀ i, i ≤ j → Good (waited E i s)) →
      (∀ i, i < j → c (waited E i s) = true) → c (waited E j s) = false →
      M.loop (M.test c) body fuel s = (.ret (), waited E j s) := by
  intro j
  induction j with
  | zero =>
    intro fuel s _ _ _ hc
    rw [waited_zero] at hc ⊢
    exact @M.loop_false c (M.test c) body (fun _ => rfl) fuel s hc
  | succ j ih =>
    intro fuel s hf hg ht hc
    obtain ⟨f, rfl⟩ : ∃ f, fuel = f + 1 := ⟨fuel - 1, by omega⟩
    have h0 : c s = true := by simpa [waited_zero] using ht 0 (by omega)
    have g0 : Good s := by simpa [waited_zero] using hg 0 (by omega)
    have g1 : Good (waited E 1 s) := hg 1 (by omega)
    rw [@M.loop_true c (M.test c) body (fun _ => rfl) f s h0]
    simp only [M.bind_apply, hbody s g0 g1]
    rw [waited_succ E j s]
    show M.loop (M.test c) body f (waited E 1 s) = (.ret (), waited E j (waited E 1 s))
    refine ih f (waited E 1 s) (by omega) ?_ ?_ ?_
    · intro i hi
      rw [← waited_succ E i s]
      exact hg (i + 1) (by omega)
    · intro i hi
      rw [← waited_succ E i s]
      exact ht (i + 1) (by omega)
    · rw [← waited_succ E j s]
      exact hc

end ConnectionContext

/-! ## C2: sessions with distinct names -/

namespace ConnectionContext

theorem modifyAt_length_append {α : Type} (f : α → α) (l : List α) (a : α) :
    modifyAt f l.length (l ++ [a]) = l ++ [f a] := by
  induction l with
  | nil => rfl
  | cons b t ih => simp [modifyAt, ih]

/-- Up to its wait, `newSession(false, n)` for a new non-empty name `n` reaches
the state `atSessionWait n s`. -/
theorem newSessionWith_unfold (E : Env) (ac : M Unit) (fuel : Nat) (s : ConnectionContext)
    (n : String) (hn : n.isEmpty = false) (hfresh : s.sessions.find n = none) :
    newSessionWith E ac fuel false n s
      = (M.loop (sessionRemoteUninit s.ssnObjs.length) (wait E ac) fuel >>= fun _ =>
          M.modify (fun s1 => { s1 with sessions := NameMap.insert n s.ssnObjs.length s1.sessions })
            >>= fun _ => Pure.pure s.ssnObjs.length) (atSessionWait n s) := by
  have hw : ∀ t, wakeupDriver t = (.ret (), (wakeupDriver t).2) := by
    intro t
    unfold wakeupDriver
    simp only [M.bind_apply, M.get_apply]
    cases t.io.state <;> rfl
  simp only [newSessionWith, sessionName, hn, M.bind_apply, M.when_apply, Bool.false_eq_true,
    if_false, M.get_apply, hfresh, newSessionContext, openEngineSession, M.modify_apply]
  rw [hw]
  rfl

/-- What `atSessionWait n s` is made of, on a connection that is `CONNECTED`. -/
theorem atSessionWait_facts (n : String) (s : ConnectionContext) :
    (atSessionWait n s).io.state = s.io.state
      ∧ (atSessionWait n s).io.engine.conn = s.io.engine.conn
      ∧ (atSessionWait n s).io.engine.sessions.length = s.io.engine.sessions.length + 1
      ∧ (atSessionWait n s).ssnObjs
          = s.ssnObjs ++ [⟨n, s.io.engine.sessions.length, [], [], [], 0⟩]
      ∧ (atSessionWait n s).sessions = s.sessions := by
  have hm := modifyAt_length_append
    (fun o : SessionContext => { o with session := s.io.engine.sessions.length }) s.ssnObjs
    ⟨n, 0, [], [], [], 0⟩
  unfold atSessionWait wakeupDriver
  simp only [M.bind_apply, M.get_apply, newSessionContext, openEngineSession, M.modify_apply,
    Engine.pn_session, Engine.pn_session_open, Engine.modifySession]
  cases hst : s.io.state <;>
    simp [call, hm, modifyAt_length_append]

end ConnectionContext

namespace ConnectionContext

theorem getD_length_append {α : Type} (l : List α) (a d : α) :
    (l ++ [a]).getD l.length d = a := by
  induction l with
  | nil => rfl
  | cons b t ih => simpa using ih

/-- One `newSession(false, n)` with a new non-empty name on a healthy connection
whose peer confirms: it returns the new session object, registered under `n`,
and the connection is healthy after it. -/
theorem newSession_confirmed (E : Env) (d fuel : Nat) (hE : PeerConfirms E d) (hd : d ≤ fuel)
    (s : ConnectionContext) (hs : Healthy s.io) (n : String) (hn : n.isEmpty = false)
    (hfresh : s.sessions.find n = none) :
    ∃ s1, newSession E fuel false n s = (.ret s.ssnObjs.length, s1) ∧ Healthy s1.io
      ∧ s1.sessions = NameMap.insert n s.ssnObjs.length s.sessions
      ∧ ∃ h, s1.ssnObjs = s.ssnObjs ++ [⟨n, h, [], [], [], 0⟩] := by
  obtain ⟨f1, f2, f3, f4, f5⟩ := atSessionWait_facts n s
  have hC : Healthy (atSessionWait n s).io := by
    obtain ⟨a, b⟩ := hs
    refine ⟨f1.trans a, ?_⟩
    simpa [Engine.pn_connection_state, f2] using b
  obtain ⟨j, hj, hgood, hbefore, hat⟩ := hE (atSessionWait n s).waits (atSessionWait n s).io
    s.io.engine.sessions.length hC (by rw [f3]; omega)
  have hobj : ∀ i, ((waited E i (atSessionWait n s)).ssn s.ssnObjs.length).session
      = s.io.engine.sessions.length := by
    intro i
    simp [waited, ssn, f4, getD_length_append]
  have hloop := loop_waits E
    (fun t => decide (t.io.engine.pn_session_state (t.ssn s.ssnObjs.length).session
      &&& PN_REMOTE_UNINIT ≠ 0))
    (wait E (autoconnect E fuel)) (fun t => Healthy t.io)
    (fun t h0 h1 => wait_healthy E _ t h0 h1) j fuel (atSessionWait n s) (le_trans hj hd)
    (fun i hi => hgood i hi)
    (fun i hi => by
      simp only [hobj i]
      simpa [waited] using hbefore i hi)
    (by
      simp only [hobj j]
      simpa [waited] using hat)
  refine ⟨{ waited E j (atSessionWait n s) with
    sessions := NameMap.insert n s.ssnObjs.length (waited E j (atSessionWait n s)).sessions },
    ?_, hgood j (le_refl j), ?_, ⟨s.io.engine.sessions.length, ?_⟩⟩
  · rw [newSession, newSessionWith_unfold E _ fuel s n hn hfresh]
    simp only [M.bind_apply]
    have hc : sessionRemoteUninit s.ssnObjs.length = M.test (fun t =>
        decide (t.io.engine.pn_session_state (t.ssn s.ssnObjs.length).session
          &&& PN_REMOTE_UNINIT ≠ 0)) := rfl
    rw [hc, hloop]
    rfl
  · simp [waited, f5]
  · simp [waited, f4]

end ConnectionContext

namespace ConnectionContext

/-- The member function `wakeupDriver` returns, and leaves the registry and the
session objects alone. -/
theorem wakeupDriver_facts (t : ConnectionContext) :
    wakeupDriver t = (.ret (), (wakeupDriver t).2)
      ∧ (wakeupDriver t).2.ssnObjs = t.ssnObjs ∧ (wakeupDriver t).2.sessions = t.sessions := by
  unfold wakeupDriver
  simp only [M.bind_apply, M.get_apply]
  cases t.io.state <;> exact ⟨rfl, rfl, rfl⟩

/-- Ending a session that has neither senders nor receivers: `endSession` returns
without waiting, and the session's name is erased from the registry. -/
theorem endSession_without_links (E : Env) (fuel : Nat) (s : ConnectionContext) (p : Nat)
    (hsnd : (s.ssn p).senders = []) (hrcv : (s.ssn p).receivers = []) :
    ∃ s1, endSession E fuel p s = (.ret (), s1) ∧ s1.ssnObjs = s.ssnObjs
      ∧ s1.sessions = s.sessions.erase (s.ssn p).name := by
  have hsettled : SessionContext.settled s p = true := by
    simp [SessionContext.settled, hsnd]
  have hdrain : endSessionDrain E (autoconnect E fuel) fuel p s = (.ret (), s) := by
    unfold endSessionDrain waitSettled
    simp only [M.bind_apply, M.get_apply, M.when_apply, hrcv, M.forEach, M.pure_apply2]
    have hl := @M.loop_false (fun t => !SessionContext.settled t p)
      (M.test fun t => !SessionContext.settled t p)
      (waitSsn E (autoconnect E fuel) p >>= fun _ => wakeupDriver) (fun _ => rfl) fuel s
      (by simp [hsettled])
    split
    · exact hl
    · rfl
  rw [endSession, endSessionWith]
  simp only [M.bind_apply, hdrain]
  unfold endSessionErase
  simp only [M.bind_apply, M.get_apply, M.when_apply, onEngine, M.modify_apply]
  by_cases hact : s.io.engine.pn_session_state (s.ssn p).session &&& PN_REMOTE_ACTIVE ≠ 0
  · rw [if_pos hact]
    obtain ⟨w1, w2, w3⟩ := wakeupDriver_facts
      { s with io := { s.io with engine := s.io.engine.pn_session_close (s.ssn p).session },
               sessions := s.sessions.erase (s.ssn p).name }
    exact ⟨_, w1, w2, w3⟩
  · rw [if_neg hact]
    obtain ⟨w1, w2, w3⟩ := wakeupDriver_facts
      { s with sessions := s.sessions.erase (s.ssn p).name }
    exact ⟨_, w1, w2, w3⟩

end ConnectionContext

namespace ConnectionContext

theorem ssn_append_left (s s1 : ConnectionContext) (objs : List SessionContext)
    (h : s1.ssnObjs = s.ssnObjs ++ objs) (p : Nat) (hp : p < s.ssnObjs.length) :
    s1.ssn p = s.ssn p := by
  simp [ssn, h, List.getD_eq_getElem?_getD, List.getElem?_append_left hp]

/-- The sessions made by a sequence of `newSession` calls with distinct new
non-empty names, on a healthy connection whose peer confirms: every call
returns; the `i`-th session is the object number `base + i`, is named and
registered under the `i`-th name, and has no links; older objects and other
names are left alone. -/
theorem newSessions_confirmed (E : Env) (d fuel : Nat) (hE : PeerConfirms E d) (hd : d ≤ fuel) :
    ∀ (names : List String) (s : ConnectionContext), Healthy s.io → names.Nodup →
      (∀ n ∈ names, n.isEmpty = false) → (∀ n ∈ names, s.sessions.find n = none) →
      ∃ s1, newSessions E fuel names s
          = (.ret (List.range' s.ssnObjs.length names.length), s1)
        ∧ Healthy s1.io
        ∧ (∃ objs, s1.ssnObjs = s.ssnObjs ++ objs)
        ∧ (∀ i (hi : i < names.length),
            (s1.ssn (s.ssnObjs.length + i)).name = names[i]
              ∧ (s1.ssn (s.ssnObjs.length + i)).senders = []
              ∧ (s1.ssn (s.ssnObjs.length + i)).receivers = []
              ∧ s1.sessions.find names[i] = some (s.ssnObjs.length + i))
        ∧ (∀ m, m ∉ names → s1.sessions.find m = s.sessions.find m) := by
  intro names
  induction names with
  | nil =>
    intro s hs _ _ _
    exact ⟨s, rfl, hs, ⟨[], by simp⟩, fun i hi => absurd hi (by simp), fun _ _ => rfl⟩
  | cons n rest ih =>
    intro s hs hnd hne hfresh
    obtain ⟨hn_notin, hnd_rest⟩ := List.nodup_cons.1 hnd
    obtain ⟨s', h1, hs', hreg', ⟨h, hobjs'⟩⟩ := newSession_confirmed E d fuel hE hd s hs n
      (hne n (List.mem_cons_self _ _)) (hfresh n (List.mem_cons_self _ _))
    have hlen' : s'.ssnObjs.length = s.ssnObjs.length + 1 := by simp [hobjs']
    have hfresh' : ∀ m ∈ rest, s'.sessions.find m = none := by
      intro m hm
      have hmn : m ≠ n := fun e => hn_notin (e ▸ hm)
      rw [hreg', find_insert_ne m n _ _ hmn]
      exact hfresh m (List.mem_cons_of_mem _ hm)
    obtain ⟨s1, h2, hs1, ⟨objs, hobjs⟩, hreg, hframe⟩ := ih s' hs' hnd_rest
      (fun m hm => hne m (List.mem_cons_of_mem _ hm)) hfresh'
    have hbase : s1.ssn s.ssnObjs.length = ⟨n, h, [], [], [], 0⟩ := by
      rw [ssn_append_left s' s1 objs hobjs _ (by omega)]
      simp [ssn, hobjs', getD_length_append]
    refine ⟨s1, ?_, hs1, ⟨[⟨n, h, [], [], [], 0⟩] ++ objs, by simp [hobjs, hobjs']⟩, ?_, ?_⟩
    · simp only [newSessions, M.bind_apply, h1, h2, hlen']
      simp [List.range'_succ]
    · intro i hi
      cases i with
      | zero =>
        simp only [Nat.add_zero, List.getElem_cons_zero, hbase, true_and]
        rw [hframe n hn_notin, hreg', find_insert_self]
      | succ k =>
        have hk : k < rest.length := by simpa using hi
        have e : s.ssnObjs.length + (k + 1) = s'.ssnObjs.length + k := by omega
        simp only [List.getElem_cons_succ, e]
        exact hreg k hk
    · intro m hm
      have hmn : m ≠ n := fun e => hm (e ▸ List.mem_cons_self _ _)
      rw [hframe m (fun hmr => hm (List.mem_cons_of_mem _ hmr)), hreg',
        find_insert_ne m n _ _ hmn]

/-- Ending, one after the other, sessions that have no links: every `endSession`
returns, and exactly their names leave the registry. -/
theorem endSessions_without_links (E : Env) (fuel : Nat) :
    ∀ (ended : List Nat) (s : ConnectionContext),
      (∀ p ∈ ended, (s.ssn p).senders = [] ∧ (s.ssn p).receivers = []) →
      ∃ s2, endSessions E fuel ended s = (.ret (), s2) ∧ s2.ssnObjs = s.ssnObjs
        ∧ (∀ m, (∃ p ∈ ended, (s.ssn p).name = m) → s2.sessions.find m = none)
        ∧ (∀ m, (∀ p ∈ ended, (s.ssn p).name ≠ m) → s2.sessions.find m = s.sessions.find m) := by
  intro ended
  induction ended with
  | nil => intro s _; exact ⟨s, rfl, rfl, fun m ⟨p, hp, _⟩ => absurd hp (by simp), fun _ _ => rfl⟩
  | cons p rest ih =>
    intro s hl
    obtain ⟨hsnd, hrcv⟩ := hl p (List.mem_cons_self _ _)
    obtain ⟨s', h1, hobj', hreg'⟩ := endSession_without_links E fuel s p hsnd hrcv
    have hssn : ∀ q, s'.ssn q = s.ssn q := fun q => by simp [ssn, hobj']
    obtain ⟨s2, h2, hobj2, hgone, hkept⟩ := ih s' (fun q hq => by
      rw [hssn q]; exact hl q (List.mem_cons_of_mem _ hq))
    refine ⟨s2, ?_, hobj2.trans hobj', ?_, ?_⟩
    · have : endSessions E fuel (p :: rest) s
          = (endSession E fuel p >>= fun _ => endSessions E fuel rest) s := rfl
      rw [this]
      simp only [M.bind_apply, h1, h2]
    · intro m ⟨q, hq, hqm⟩
      by_cases hin : ∃ q ∈ rest, (s'.ssn q).name = m
      · exact hgone m hin
      · have hnot : ∀ q ∈ rest, (s'.ssn q).name ≠ m := fun q hq e => hin ⟨q, hq, e⟩
        rw [hkept m hnot, hreg']
        rcases List.mem_cons.1 hq with rfl | hq'
        · rw [hqm]; exact find_erase_self m _
        · exact absurd (by rw [hssn q]; exact hqm) (hnot q hq')
    · intro m hm
      have hnot : ∀ q ∈ rest, (s'.ssn q).name ≠ m := fun q hq => by
        rw [hssn q]; exact hm q (List.mem_cons_of_mem _ hq)
      rw [hkept m hnot, hreg']
      exact find_erase_ne m _ _ (fun e => hm p (List.mem_cons_self _ _) e.symm)

end ConnectionContext

/-- C2. For every sequence of `newSession` calls with pairwise-distinct non-empty
names, not yet in the registry, on a connected (healthy) connection whose peer
confirms each session open, every call succeeds and registers its session under
its name; and after `endSession` has been called on any of these sessions (the
list `ended`, possibly empty), `getSession(name)` returns its session for each
name whose session has not been ended and raises `KeyError` for each name whose
session has. -/
theorem newSessions_lookup_until_ended (E : Env) (d fuel : Nat)
    (hE : ConnectionContext.PeerConfirms E d) (hd : d ≤ fuel) (s : ConnectionContext)
    (hs : ConnectionContext.Healthy s.io) (names : List String) (hnd : names.Nodup)
    (hne : ∀ n ∈ names, n.isEmpty = false) (hfresh : ∀ n ∈ names, s.sessions.find n = none) :
    ∃ s1, ConnectionContext.newSessions E fuel names s
        = (.ret (List.range' s.ssnObjs.length names.length), s1)
      ∧ ∀ ended : List Nat, (∀ p ∈ ended, p ∈ List.range' s.ssnObjs.length names.length) →
        ∃ s2, ConnectionContext.endSessions E fuel ended s1 = (.ret (), s2)
          ∧ ∀ i (hi : i < names.length),
            (s.ssnObjs.length + i ∉ ended →
              ConnectionContext.getSession names[i] s2 = (.ret (s.ssnObjs.length + i), s2))
            ∧ (s.ssnObjs.length + i ∈ ended →
              ConnectionContext.getSession names[i] s2
                = (.raise (.KeyError ("No such session" ++ names[i])), s2)) := by
  obtain ⟨s1, h1, _, _, hreg, _⟩ :=
    ConnectionContext.newSessions_confirmed E d fuel hE hd names s hs hnd hne hfresh
  refine ⟨s1, h1, ?_⟩
  intro ended hended
  have hidx : ∀ p ∈ ended, ∃ k, ∃ hk : k < names.length, p = s.ssnObjs.length + k := by
    intro p hp
    obtain ⟨a, b⟩ := List.mem_range'_1.1 (hended p hp)
    exact ⟨p - s.ssnObjs.length, by omega, by omega⟩
  obtain ⟨s2, h2, _, hgone, hkept⟩ := ConnectionContext.endSessions_without_links E fuel ended s1
    (fun p hp => by
      obtain ⟨k, hk, rfl⟩ := hidx p hp
      exact ⟨(hreg k hk).2.1, (hreg k hk).2.2.1⟩)
  refine ⟨s2, h2, ?_⟩
  intro i hi
  constructor
  · intro hnot
    have hne2 : ∀ p ∈ ended, (s1.ssn p).name ≠ names[i] := by
      intro p hp e
      obtain ⟨k, hk, rfl⟩ := hidx p hp
      rw [(hreg k hk).1] at e
      have : k = i := (hnd.getElem_inj_iff).1 e
      exact hnot (this ▸ hp)
    simp [ConnectionContext.getSession, hkept _ hne2, (hreg i hi).2.2.2]
  · intro hin
    simp [ConnectionContext.getSession, hgone _ ⟨_, hin, (hreg i hi).1⟩]

/-- The test `state & PN_REMOTE_UNINIT` holds exactly when the remote half of the
endpoint is uninitialised. -/
theorem pn_state_remote_uninit (e : Endpoint) :
    e.pn_state &&& PN_REMOTE_UNINIT ≠ 0 ↔ e.rem = .UNINIT := by
  obtain ⟨l, r, c⟩ := e
  cases l <;> cases r <;> simp [Endpoint.pn_state, EpState.localBit, EpState.remoteBit,
    PN_REMOTE_UNINIT] <;> decide

/-- The peer of `Example.confirming` confirms each session within one wait. -/
theorem confirming_confirms : ConnectionContext.PeerConfirms Example.confirming 1 := by
  intro k w h hw hh
  have hwake : ∀ k w, ConnectionContext.Healthy w →
      ConnectionContext.Healthy (Example.confirming.wake k w) := fun _ _ hw => hw
  by_cases hu : (w.engine.session h).ep.rem = .UNINIT
  · refine ⟨1, le_refl 1, ?_, ?_, ?_⟩
    · intro i hi
      obtain rfl | rfl : i = 0 ∨ i = 1 := by omega
      · exact hw
      · exact hwake k w hw
    · intro i hi
      obtain rfl : i = 0 := by omega
      exact (pn_state_remote_uninit _).2 hu
    · have hs : ((ConnectionContext.wakes Example.confirming k 1 w).engine.session h).ep.rem
          = .ACTIVE := by
        simp only [ConnectionContext.wakes, Example.confirming, Engine.session,
          List.getD_eq_getElem?_getD, List.getElem?_map, List.getElem?_eq_getElem hh,
          Option.map_some', Option.getD_some]
        have hu2 : (w.engine.sessions[h]).ep.rem = .UNINIT := by
          simpa [Engine.session, List.getD_eq_getElem?_getD, List.getElem?_eq_getElem hh] using hu
        simp [hu2]
      have := (pn_state_remote_uninit
        ((ConnectionContext.wakes Example.confirming k 1 w).engine.session h).ep).not
      simp only [hs] at this
      simpa [Engine.pn_session_state] using this
  · refine ⟨0, by omega, ?_, ?_, ?_⟩
    · intro i hi
      obtain rfl : i = 0 := by omega
      exact hw
    · intro i hi
      omega
    · have := (pn_state_remote_uninit (w.engine.session h).ep).not.2 hu
      simpa [Engine.pn_session_state, ConnectionContext.wakes] using this

/-- Witness of C2: the sessions `"a"` and `"b"` on an open connection whose peer
confirms each session at the next wait. -/
theorem newSessions_lookup_until_ended_witness :
    ∃ s1, ConnectionContext.newSessions Example.confirming 3 ["a", "b"] Example.connected
        = (.ret (List.range' Example.connected.ssnObjs.length ["a", "b"].length), s1)
      ∧ ∀ ended : List Nat,
        (∀ p ∈ ended, p ∈ List.range' Example.connected.ssnObjs.length ["a", "b"].length) →
        ∃ s2, ConnectionContext.endSessions Example.confirming 3 ended s1 = (.ret (), s2)
          ∧ ∀ i (hi : i < ["a", "b"].length),
            (Example.connected.ssnObjs.length + i ∉ ended →
              ConnectionContext.getSession ["a", "b"][i] s2
                = (.ret (Example.connected.ssnObjs.length + i), s2))
            ∧ (Example.connected.ssnObjs.length + i ∈ ended →
              ConnectionContext.getSession ["a", "b"][i] s2
                = (.raise (.KeyError ("No such session" ++ ["a", "b"][i])), s2)) :=
  newSessions_lookup_until_ended Example.confirming 1 3 confirming_confirms (by decide)
    Example.connected (by decide) ["a", "b"] (by decide) (by decide) (by decide)

/-! ## Checks on open sessions and links -/

namespace ConnectionContext

/-- On a healthy connection with the session open `checkClosed(ssn)` changes
nothing. -/
theorem checkClosedSsn_open (ac : M Unit) (ssn : Nat) (s : ConnectionContext)
    (h : Healthy s.io) (ho : SessionOpen s.io (s.ssn ssn).session) :
    checkClosedSsn ac ssn s = (.ret (), s) := by
  obtain ⟨h1, h2⟩ := ho
  simp [checkClosedSsn, check_healthy ac s h, h1, h2]

/-- On a healthy connection with the session and the link open
`checkClosed(ssn, lnk)` changes nothing. -/
theorem checkClosedLink_open (ac : M Unit) (ssn lnk : Nat) (s : ConnectionContext)
    (h : Healthy s.io) (ho : SessionOpen s.io (s.ssn ssn).session) (hl : LinkOpen s.io lnk) :
    checkClosedLink ac ssn lnk s = (.ret (), s) := by
  obtain ⟨h1, h2⟩ := hl
  simp [checkClosedLink, checkClosedSsn_open ac ssn s h ho, h1, h2]

/-- A wait of `send` on a connection, session and sender that are sound before and
after it only lets the I/O thread make its change. -/
theorem waitSnd_sound (E : Env) (ac : M Unit) (ssn snd : Nat) (s : ConnectionContext)
    (h0 : SenderSound ssn snd s) (h1 : SenderSound ssn snd (waited E 1 s)) :
    waitSnd E ac ssn snd s = (.ret (), waited E 1 s) := by
  obtain ⟨a1, b1, c1⟩ := h1
  simp only [waitSnd, M.bind_apply, wait_healthy E ac s h0.1 a1, checkClosedSnd, M.get_apply]
  exact checkClosedLink_open ac ssn _ _ a1 b1 c1

/-- A wait of `fetch` on a connection, session and receiver that are sound before
and after it only lets the I/O thread make its change. -/
theorem waitRcv_sound (E : Env) (ac : M Unit) (ssn rcv : Nat) (s : ConnectionContext)
    (h0 : ReceiverSound ssn rcv s) (h1 : ReceiverSound ssn rcv (waited E 1 s)) :
    waitRcv E ac ssn rcv s = (.ret (), waited E 1 s) := by
  obtain ⟨a1, b1, c1⟩ := h1
  simp only [waitRcv, M.bind_apply, wait_healthy E ac s h0.1 a1, checkClosedRcv, M.get_apply]
  exact checkClosedLink_open ac ssn _ _ a1 b1 c1

end ConnectionContext

/-! ## C3: synchronous `send` -/

namespace ConnectionContext

/-- The sender either accepts the message, with a delivery, or refuses it, without
one. -/
theorem senderSend_cases (p : Nat) (msg : Message) (s : ConnectionContext) :
    (∃ d s1, SenderContext.send p msg s = (.ret (true, some d), s1))
      ∨ (∃ s1, SenderContext.send p msg s = (.ret (false, none), s1)) := by
  unfold SenderContext.send
  simp only
  split
  · exact Or.inl ⟨_, _, rfl⟩
  · exact Or.inr ⟨_, rfl⟩

/-- When the loop `while (!snd->send(message, &delivery))` ends, there is a
delivery. -/
theorem sendLoop_some (E : Env) (ac : M Unit) (ssn snd : Nat) (msg : Message) :
    ∀ (fuel : Nat) (s s1 : ConnectionContext) (r : Option Nat),
      sendLoop E ac ssn snd msg fuel s = (.ret r, s1) → ∃ d, r = some d := by
  intro fuel
  induction fuel with
  | zero =>
    intro s s1 r h
    rw [sendLoop] at h
    simp only [M.bind_apply] at h
    rcases senderSend_cases snd msg s with ⟨d, t, e⟩ | ⟨t, e⟩
    · rw [e] at h
      simp only [if_true, M.pure_apply, Prod.mk.injEq, Outcome.ret.injEq] at h
      exact ⟨d, h.1.symm⟩
    · rw [e] at h
      simp at h
  | succ k ih =>
    intro s s1 r h
    rw [sendLoop] at h
    simp only [M.bind_apply] at h
    rcases senderSend_cases snd msg s with ⟨d, t, e⟩ | ⟨t, e⟩
    · rw [e] at h
      simp only [if_true, M.pure_apply, Prod.mk.injEq, Outcome.ret.injEq] at h
      exact ⟨d, h.1.symm⟩
    · rw [e] at h
      simp only [Bool.false_eq_true, if_false, M.bind_apply] at h
      rcases hw : waitSnd E ac ssn snd t with ⟨o, t2⟩
      rw [hw] at h
      cases o with
      | ret u => exact ih t2 s1 r h
      | raise e => simp at h
      | stuck => simp at h

/-- When the first part of `send` returns, it returns a delivery. -/
theorem sendStart_some (E : Env) (ac : M Unit) (fuel ssn snd : Nat) (msg : Message)
    (s s1 : ConnectionContext) (r : Option Nat)
    (h : sendStart E ac fuel ssn snd msg s = (.ret r, s1)) : ∃ d, r = some d := by
  unfold sendStart at h
  obtain ⟨_, t1, _, h⟩ := M.bind_eq_ret h
  obtain ⟨_, t2, _, h⟩ := M.bind_eq_ret h
  obtain ⟨r2, t3, hl, h⟩ := M.bind_eq_ret h
  obtain ⟨_, t4, _, h⟩ := M.bind_eq_ret h
  obtain ⟨d, hd⟩ := sendLoop_some E ac ssn snd msg fuel t2 t3 r2 hl
  have : r2 = r := by simpa using congrArg Prod.fst h
  exact ⟨d, this ▸ hd⟩

/-- When the block of `send` that waits for the confirmation returns, the delivery
has been reported delivered and is not rejected. -/
theorem sendConfirm_ret (E : Env) (ac : M Unit) (fuel ssn snd d : Nat)
    (s s1 : ConnectionContext) (h : sendConfirm E ac fuel ssn snd d s = (.ret (), s1)) :
    delivered s1 snd d = true ∧ rejected s1 snd d = false := by
  unfold sendConfirm at h
  obtain ⟨_, t1, hl, h⟩ := M.bind_eq_ret h
  have hd := @M.loop_ret_cond (fun t => !delivered t snd d) (M.test fun t => !delivered t snd d)
    (waitSnd E ac ssn snd) (fun _ => rfl) fuel s t1 hl
  simp only [M.bind_apply, M.get_apply, M.when_apply] at h
  by_cases hr : rejected t1 snd d = true
  · simp [hr] at h
  · have hr2 : rejected t1 snd d = false := by simpa using hr
    simp only [hr2, Bool.false_eq_true, if_false, Prod.mk.injEq, true_and] at h
    subst h
    exact ⟨by simpa using hd, hr2⟩

/-- The block of `send` that waits for the confirmation, on a connection, session
and sender that stay sound: when the delivery is reported delivered at the
`j`-th wakeup, the block ends there, throwing `MessageRejected` if the delivery
is rejected and returning if it is not. -/
theorem sendConfirm_reported (E : Env) (ac : M Unit) (fuel ssn snd d : Nat)
    (s : ConnectionContext) (j : Nat) (hj : j ≤ fuel)
    (hsound : ∀ i, i ≤ j → SenderSound ssn snd (waited E i s))
    (hbefore : ∀ i, i < j → delivered (waited E i s) snd d = false)
    (hat : delivered (waited E j s) snd d = true) :
    sendConfirm E ac fuel ssn snd d s
      = (if rejected (waited E j s) snd d then
          .raise (.MessageRejected "Message was rejected by peer") else .ret (),
         waited E j s) := by
  have hloop := loop_waits E (fun t => !delivered t snd d) (waitSnd E ac ssn snd)
    (SenderSound ssn snd) (fun t h0 h1 => waitSnd_sound E ac ssn snd t h0 h1) j fuel s hj hsound
    (fun i hi => by simp [hbefore i hi]) (by simp [hat])
  unfold sendConfirm
  simp only [M.bind_apply, hloop, M.get_apply, M.when_apply]
  split <;> rfl

end ConnectionContext

namespace ConnectionContext

/-- Changing an element of a table by a function that keeps a component keeps
that component of every element read from the table. -/
theorem getD_modifyAt_keeps {α β : Type} (f : α → α) (proj : α → β) (d : α)
    (hf : ∀ a, proj (f a) = proj a) :
    ∀ (l : List α) (i j : Nat), proj ((modifyAt f i l).getD j d) = proj (l.getD j d) := by
  intro l
  induction l with
  | nil => intro i j; simp [modifyAt]
  | cons a as ih =>
    intro i j
    cases i with
    | zero => cases j <;> simp [modifyAt, hf]
    | succ i =>
      cases j with
      | zero => simp [modifyAt]
      | succ j => simpa [modifyAt] using ih i j

/-- Reading the changed element of a table. -/
theorem getD_modifyAt_self {α : Type} (f : α → α) (d : α) :
    ∀ (l : List α) (i : Nat), i < l.length → (modifyAt f i l).getD i d = f (l.getD i d) := by
  intro l
  induction l with
  | nil => intro i h; simp at h
  | cons a as ih =>
    intro i h
    cases i with
    | zero => simp [modifyAt]
    | succ i => simpa [modifyAt] using ih i (by simpa using h)

/-- A change of the credit or of the drain mode of a link changes no endpoint
state of a link. -/
theorem link_ep_modifyLink (g : Engine) (r l : Nat) (f : PnLink → PnLink)
    (hf : ∀ x, (f x).ep = x.ep) : ((g.modifyLink r f).link l).ep = (g.link l).ep :=
  getD_modifyAt_keeps f PnLink.ep default hf g.links r l

/-- A change of the credit or of the drain mode of a link changes no queue of a
link. -/
theorem link_incoming_modifyLink (g : Engine) (r l : Nat) (f : PnLink → PnLink)
    (hf : ∀ x, (f x).incoming = x.incoming) :
    ((g.modifyLink r f).link l).incoming = (g.link l).incoming :=
  getD_modifyAt_keeps f PnLink.incoming default hf g.links r l

/-- The credit of a link after `pn_link_flow(l, n)`. -/
theorem credit_flow (g : Engine) (r : Nat) (n : Int) (h : r < g.links.length) :
    (g.pn_link_flow r n).pn_link_credit r = g.pn_link_credit r + n := by
  unfold Engine.pn_link_flow Engine.pn_link_credit Engine.modifyLink Engine.link
  simp only
  rw [getD_modifyAt_self _ _ _ _ h]

/-- What the checks of a wakeup in `fetch` read. -/
theorem receiverSound_of_eq (ssn lnk : Nat) (t t1 : ConnectionContext)
    (hstate : t1.io.state = t.io.state) (hconn : t1.io.engine.conn = t.io.engine.conn)
    (hsess : t1.io.engine.sessions = t.io.engine.sessions)
    (hlink : ∀ l, (t1.io.engine.link l).ep = (t.io.engine.link l).ep)
    (hssn : (t1.ssn ssn).session = (t.ssn ssn).session)
    (hrcv : (t1.rcv lnk).receiver = (t.rcv lnk).receiver)
    (h : ReceiverSound ssn lnk t) : ReceiverSound ssn lnk t1 := by
  unfold ReceiverSound Healthy SessionOpen LinkOpen Engine.pn_connection_state
    Engine.pn_session_state Engine.pn_link_state Engine.session at *
  rw [hstate, hconn, hsess, hssn, hrcv, hlink]
  exact h

/-- With the receiver sound, `checkClosed(ssn, lnk)` changes nothing. -/
theorem checkClosedRcv_sound (ac : M Unit) (ssn lnk : Nat) (t : ConnectionContext)
    (h : ReceiverSound ssn lnk t) : checkClosedRcv ac ssn lnk t = (.ret (), t) := by
  simp only [checkClosedRcv, M.bind_apply, M.get_apply]
  exact checkClosedLink_open ac ssn _ t h.1 h.2.1 h.2.2

/-- On an open connection `wakeupDriver` sets `haveOutput` and activates the
output. -/
theorem wakeupDriver_connected (t : ConnectionContext) (h : t.io.state = .CONNECTED) :
    wakeupDriver t = (.ret (), { t with io := { t.io with haveOutput := true },
                                        calls := t.calls ++ [.activateOutput] }) := by
  unfold wakeupDriver call
  simp only [M.bind_apply, M.get_apply, h, M.modify_apply]

/-- With the receiver sound, nothing queued and the deadline reached, a round of
the loop of `get` reads the clock and returns `false`. -/
theorem getLoop_expired (E : Env) (ac : M Unit) (ssn lnk deadline fuel : Nat)
    (u : ConnectionContext) (h : ReceiverSound ssn lnk u)
    (hq : u.io.engine.pn_link_queued (u.rcv lnk).receiver = 0) (hd : deadline ≤ u.clock) :
    getLoop E ac ssn lnk deadline (fuel + 1) u
      = (.ret none, { u with reads := u.reads + 1, clock := u.clock + E.elapse u.reads }) := by
  have hcur : u.io.engine.pn_link_current (u.rcv lnk).receiver = none := by
    unfold Engine.pn_link_queued at hq
    unfold Engine.pn_link_current
    rw [List.length_eq_zero] at hq
    rw [hq]
    rfl
  have hnow : now E u
      = (.ret (u.clock + E.elapse u.reads),
        { u with clock := u.clock + E.elapse u.reads, reads := u.reads + 1 }) := rfl
  rw [getLoop]
  simp only [M.bind_apply]
  rw [checkClosedRcv_sound ac ssn lnk u h]
  simp only [M.get_apply]
  rw [hcur]
  simp only [M.bind_apply, hnow]
  rw [if_neg (by omega)]
  rfl

/-- With the receiver sound and nothing queued, `get` without waiting reads the
clock twice and returns `false`. -/
theorem get_immediate_none (E : Env) (ac : M Unit) (fuel ssn lnk : Nat) (t : ConnectionContext)
    (h : ReceiverSound ssn lnk t) (hq : t.io.engine.pn_link_queued (t.rcv lnk).receiver = 0) :
    get E ac fuel ssn lnk 0 t
      = (.ret none, { t with reads := t.reads + 2,
                             clock := t.clock + E.elapse t.reads + E.elapse (t.reads + 1) }) := by
  have hlt : (0 : Nat) < TIME_INFINITE / TIME_MSEC := by decide
  have hnow : now E t
      = (.ret (t.clock + E.elapse t.reads),
        { t with clock := t.clock + E.elapse t.reads, reads := t.reads + 1 }) := rfl
  unfold get convert
  rw [if_pos hlt]
  simp only [M.bind_apply, hnow, M.pure_apply]
  exact getLoop_expired E ac ssn lnk _ fuel
    { t with clock := t.clock + E.elapse t.reads, reads := t.reads + 1 } h hq
    (by show t.clock + E.elapse t.reads + 0 * TIME_MSEC ≤ t.clock + E.elapse t.reads; omega)

end ConnectionContext

namespace ConnectionContext

/-- The first block of `fetch` with the receiver sound: one unit of credit and a
wakeup of the driver for a receiver without capacity, nothing otherwise. -/
theorem fetchCredit_sound (ac : M Unit) (ssn lnk r c : Nat) (t : ConnectionContext)
    (h : ReceiverSound ssn lnk t) (hr : (t.rcv lnk).receiver = r)
    (hc : (t.rcv lnk).capacity = c) :
    fetchCredit ac ssn lnk t
      = (.ret (), if c = 0 then
          { t with io := { t.io with engine := t.io.engine.pn_link_flow r 1, haveOutput := true },
                   calls := t.calls ++ [.activateOutput] }
          else t) := by
  unfold fetchCredit
  simp only [M.bind_apply, checkClosedRcv_sound ac ssn lnk t h, M.get_apply, M.when_apply, hr, hc]
  split
  · have e : (onEngine fun g => g.pn_link_flow r 1) t
        = (.ret (), { t with io := { t.io with engine := t.io.engine.pn_link_flow r 1 } }) := rfl
    simp only [M.bind_apply, e]
    exact wakeupDriver_connected _ h.1.1
  · rfl

/-- The block of `fetch` that drains the link, with the receiver sound while it
waits: when the credit is used up at the `j`-th wakeup and nothing is queued,
the block returns there, after giving a receiver with capacity its capacity
as credit. -/
theorem fetchDrain_drained (E : Env) (ac : M Unit) (fuel ssn lnk r c : Nat)
    (t t0 : ConnectionContext) (hconn : t.io.state = .CONNECTED)
    (hr : (t.rcv lnk).receiver = r) (hc : (t.rcv lnk).capacity = c)
    (ht0 : t0 = { t with io := { t.io with engine := t.io.engine.pn_link_drain r 0,
                                           haveOutput := true },
                         calls := t.calls ++ [.activateOutput] })
    (j : Nat) (hj : j ≤ fuel)
    (hsound : ∀ i, i ≤ j → ReceiverSound ssn lnk (waited E i t0))
    (hempty : ∀ i, i ≤ j → (waited E i t0).io.engine.pn_link_queued r = 0)
    (hbefore : ∀ i, i < j → (waited E i t0).io.engine.pn_link_credit r ≠ 0)
    (hat : (waited E j t0).io.engine.pn_link_credit r = 0) :
    fetchDrain E ac fuel ssn lnk t
      = (.ret (), if c ≠ 0 then
          { waited E j t0 with
            io := { (waited E j t0).io with
              engine := (waited E j t0).io.engine.pn_link_flow r c } }
          else waited E j t0) := by
  have hr0 : ∀ i, ((waited E i t0).rcv lnk).receiver = r := by
    intro i; rw [ht0]; exact hr
  have hc0 : ((waited E j t0).rcv lnk).capacity = c := by
    rw [ht0]; exact hc
  have hloop := loop_waits E
    (fun s => decide (s.io.engine.pn_link_credit (s.rcv lnk).receiver ≠ 0
      ∧ s.io.engine.pn_link_queued (s.rcv lnk).receiver = 0))
    (waitRcv E ac ssn lnk) (ReceiverSound ssn lnk)
    (fun u h0 h1 => waitRcv_sound E ac ssn lnk u h0 h1) j fuel t0 hj hsound
    (fun i hi => by
      simp only [hr0 i]
      exact decide_eq_true ⟨hbefore i hi, hempty i (by omega)⟩)
    (by
      simp only [hr0 j]
      exact decide_eq_false (fun hx => hx.1 hat))
  have e1 : (onEngine fun g => g.pn_link_drain (t.rcv lnk).receiver 0) t
      = (.ret (), { t with io := { t.io with engine := t.io.engine.pn_link_drain r 0 } }) := by
    rw [hr]; rfl
  have e2 : wakeupDriver { t with io := { t.io with engine := t.io.engine.pn_link_drain r 0 } }
      = (.ret (), t0) := by
    rw [ht0]
    exact wakeupDriver_connected _ hconn
  unfold fetchDrain
  simp only [M.bind_apply, M.get_apply, e1, e2, hloop, M.when_apply, hr0 j, hc0, hempty j (le_refl j),
    and_true]
  split
  · rfl
  · rfl

/-- The end of `fetch` with the receiver sound and nothing queued: `get` reads the
clock twice and the result is `false`. -/
theorem fetchAgain_none (E : Env) (ac : M Unit) (fuel ssn lnk : Nat) (t : ConnectionContext)
    (h : ReceiverSound ssn lnk t) (hq : t.io.engine.pn_link_queued (t.rcv lnk).receiver = 0) :
    fetchAgain E ac fuel ssn lnk t
      = (.ret none, { t with reads := t.reads + 2,
                             clock := t.clock + E.elapse t.reads + E.elapse (t.reads + 1) }) := by
  unfold fetchAgain
  simp only [M.bind_apply]
  rw [show get E ac fuel ssn lnk IMMEDIATE t = get E ac fuel ssn lnk 0 t from rfl,
    get_immediate_none E ac fuel ssn lnk t h hq]
  rfl

end ConnectionContext

namespace ConnectionContext

/-- The guard that counts a fetch in progress, around a body that returns. -/
theorem scopedIncrement_ret {α : Type} (lnk : Nat) (body : M α) (s s1 : ConnectionContext)
    (a : α)
    (h : body { s with
        rcvObjs := modifyAt (fun o => { o with fetching := o.fetching + 1 }) lnk s.rcvObjs }
      = (.ret a, s1)) :
    scopedIncrement lnk body s
      = (.ret a, { s1 with
          rcvObjs := modifyAt (fun o => { o with fetching := o.fetching - 1 }) lnk s1.rcvObjs }) := by
  unfold scopedIncrement
  simp only [h]

/-- A `fetch` without waiting on a sound receiver with nothing queued, when the
peer sends nothing during the drain and has returned the credit at the `j`-th
wakeup: the result is `false`, and the engine on return is the one of that
wakeup with, for a receiver with capacity, the capacity given as credit. -/
theorem fetch_immediate_drained (E : Env) (fuel ssn lnk : Nat) (s : ConnectionContext) (j : Nat)
    (hj : j ≤ fuel) (hs : ReceiverSound ssn lnk s)
    (hq : s.io.engine.pn_link_queued (s.rcv lnk).receiver = 0)
    (hsound : ∀ i, i ≤ j → ReceiverSound ssn lnk (waited E i (atDrainWait E lnk s)))
    (hempty : ∀ i, i ≤ j →
      (waited E i (atDrainWait E lnk s)).io.engine.pn_link_queued (s.rcv lnk).receiver = 0)
    (hbefore : ∀ i, i < j →
      (waited E i (atDrainWait E lnk s)).io.engine.pn_link_credit (s.rcv lnk).receiver ≠ 0)
    (hat : (waited E j (atDrainWait E lnk s)).io.engine.pn_link_credit (s.rcv lnk).receiver = 0) :
    ∃ s1, fetch E fuel ssn lnk 0 s = (.ret none, s1)
      ∧ s1.io.engine = (if (s.rcv lnk).capacity ≠ 0 then
          (waited E j (atDrainWait E lnk s)).io.engine.pn_link_flow (s.rcv lnk).receiver
            (s.rcv lnk).capacity
          else (waited E j (atDrainWait E lnk s)).io.engine) := by
  obtain ⟨s1, hs1⟩ : ∃ s1, s1 = { s with
      rcvObjs := modifyAt (fun o => { o with fetching := o.fetching + 1 }) lnk s.rcvObjs } :=
    ⟨_, rfl⟩
  have hr1 : (s1.rcv lnk).receiver = (s.rcv lnk).receiver := by
    rw [hs1]
    exact getD_modifyAt_keeps (fun o : ReceiverContext => { o with fetching := o.fetching + 1 })
      ReceiverContext.receiver default (fun _ => rfl) s.rcvObjs lnk lnk
  have hc1 : (s1.rcv lnk).capacity = (s.rcv lnk).capacity := by
    rw [hs1]
    exact getD_modifyAt_keeps (fun o : ReceiverContext => { o with fetching := o.fetching + 1 })
      ReceiverContext.capacity default (fun _ => rfl) s.rcvObjs lnk lnk
  have hsound1 : ReceiverSound ssn lnk s1 :=
    receiverSound_of_eq ssn lnk s s1 (by rw [hs1]) (by rw [hs1]) (by rw [hs1])
      (by rw [hs1]; intro l; rfl) (by rw [hs1]; rfl) hr1 hs
  have hq1 : s1.io.engine.pn_link_queued (s.rcv lnk).receiver = 0 := by rw [hs1]; exact hq
  -- the credit
  obtain ⟨s2, hs2⟩ : ∃ s2, s2 = (if (s.rcv lnk).capacity = 0 then
      { s1 with
        io := { s1.io with engine := s1.io.engine.pn_link_flow (s.rcv lnk).receiver 1,
                           haveOutput := true },
        calls := s1.calls ++ [Call.activateOutput] }
      else s1) := ⟨_, rfl⟩
  have e2 : fetchCredit (autoconnect E fuel) ssn lnk s1 = (.ret (), s2) := by
    rw [hs2]
    exact fetchCredit_sound _ ssn lnk _ _ s1 hsound1 hr1 hc1
  have hr2 : (s2.rcv lnk).receiver = (s.rcv lnk).receiver := by
    rw [hs2]; split <;> exact hr1
  have hc2 : (s2.rcv lnk).capacity = (s.rcv lnk).capacity := by
    rw [hs2]; split <;> exact hc1
  have hsound2 : ReceiverSound ssn lnk s2 := by
    rw [hs2]
    split
    · exact receiverSound_of_eq ssn lnk s1 _ rfl rfl rfl
        (fun l => link_ep_modifyLink _ _ _ _ (fun _ => rfl)) rfl rfl hsound1
    · exact hsound1
  have hq2 : s2.io.engine.pn_link_queued (s2.rcv lnk).receiver = 0 := by
    rw [hr2, hs2]
    split
    · exact (congrArg List.length (link_incoming_modifyLink s1.io.engine (s.rcv lnk).receiver
        (s.rcv lnk).receiver (fun l : PnLink => { l with credit := l.credit + 1 })
        (fun _ => rfl))).trans hq1
    · exact hq1
  -- the first `get`
  obtain ⟨s3, hs3⟩ : ∃ s3, s3 = { s2 with
      reads := s2.reads + 2,
      clock := s2.clock + E.elapse s2.reads + E.elapse (s2.reads + 1) } := ⟨_, rfl⟩
  have e3 : get E (autoconnect E fuel) fuel ssn lnk 0 s2 = (.ret none, s3) := by
    rw [hs3]
    exact get_immediate_none E _ fuel ssn lnk s2 hsound2 hq2
  -- the drain
  obtain ⟨t0, ht0⟩ : ∃ t0, t0 = { s3 with
      io := { s3.io with engine := s3.io.engine.pn_link_drain (s.rcv lnk).receiver 0,
                         haveOutput := true },
      calls := s3.calls ++ [Call.activateOutput] } := ⟨_, rfl⟩
  have hA : atDrainWait E lnk s = t0 := by
    rw [ht0, hs3, hs2, hs1]
    unfold atDrainWait
    simp only
    split <;> rfl
  rw [hA] at hsound hempty hbefore hat ⊢
  have e4 := fetchDrain_drained E (autoconnect E fuel) fuel ssn lnk (s.rcv lnk).receiver
    (s.rcv lnk).capacity s3 t0 (by rw [hs3]; exact hsound2.1.1) (by rw [hs3]; exact hr2)
    (by rw [hs3]; exact hc2) ht0 j hj hsound hempty hbefore hat
  obtain ⟨s4, hs4⟩ : ∃ s4, s4 = (if (s.rcv lnk).capacity ≠ 0 then
      { waited E j t0 with
        io := { (waited E j t0).io with
          engine := (waited E j t0).io.engine.pn_link_flow (s.rcv lnk).receiver
            (s.rcv lnk).capacity } }
      else waited E j t0) := ⟨_, rfl⟩
  rw [← hs4] at e4
  have hr0 : (t0.rcv lnk).receiver = (s.rcv lnk).receiver := by
    rw [ht0, hs3]; exact hr2
  have hr4 : (s4.rcv lnk).receiver = (s.rcv lnk).receiver := by
    rw [hs4]; split <;> exact hr0
  have hsound4 : ReceiverSound ssn lnk s4 := by
    rw [hs4]
    split
    · exact receiverSound_of_eq ssn lnk (waited E j t0) _ rfl rfl rfl
        (fun l => link_ep_modifyLink _ _ _ _ (fun _ => rfl)) rfl rfl (hsound j (le_refl j))
    · exact hsound j (le_refl j)
  have hq4 : s4.io.engine.pn_link_queued (s4.rcv lnk).receiver = 0 := by
    rw [hr4, hs4]
    split
    · exact (congrArg List.length (link_incoming_modifyLink (waited E j t0).io.engine
        (s.rcv lnk).receiver (s.rcv lnk).receiver
        (fun l : PnLink => { l with credit := l.credit + ((s.rcv lnk).capacity : Int) })
        (fun _ => rfl))).trans (hempty j (le_refl j))
    · exact hempty j (le_refl j)
  have e5 := fetchAgain_none E (autoconnect E fuel) fuel ssn lnk s4 hsound4 hq4
  have key : fetch E fuel ssn lnk 0 s
      = (.ret none, { s4 with
          rcvObjs := modifyAt (fun o => { o with fetching := o.fetching - 1 }) lnk s4.rcvObjs,
          reads := s4.reads + 2,
          clock := s4.clock + E.elapse s4.reads + E.elapse (s4.reads + 1) }) := by
    unfold fetch fetchWith
    refine scopedIncrement_ret lnk _ s
      { s4 with reads := s4.reads + 2,
                clock := s4.clock + E.elapse s4.reads + E.elapse (s4.reads + 1) } none ?_
    rw [← hs1]
    simp only [M.bind_apply, e2, e3, e4, e5]
  refine ⟨_, key, ?_⟩
  show s4.io.engine = _
  rw [hs4]
  split <;> rfl

end ConnectionContext

/-- C19. `newSession(true, name)` is rejected for every name and in every state of
the connection: it raises `MessagingException` and leaves the whole state as it
was (the session registry, the engine, also the count of generated names: the
name is neither made nor looked up), also when `name` is registered. -/
theorem newSession_transactional_rejected (E : Env) (fuel : Nat) (n : String)
    (s : ConnectionContext) :
    ConnectionContext.newSession E fuel true n s
      = (.raise (.MessagingException "Transactions not yet supported"), s) := by
  simp [ConnectionContext.newSession, ConnectionContext.newSessionWith]

/-! ## C13: a link detached by the peer -/

namespace ConnectionContext

/-- A link that is locally active and remotely closed has the bits of
`REQUIRES_CLOSE`. -/
theorem requires_close_of_states (e : Endpoint) (h1 : e.loc = .ACTIVE) (h2 : e.rem = .CLOSED) :
    e.pn_state &&& REQUIRES_CLOSE = REQUIRES_CLOSE := by
  unfold Endpoint.pn_state
  rw [h1, h2]
  decide

/-- A link that has the bits of `REQUIRES_CLOSE` is in the engine's table. -/
theorem link_exists_of_requires_close (g : Engine) (l : Nat)
    (h : g.pn_link_state l &&& REQUIRES_CLOSE = REQUIRES_CLOSE) : l < g.links.length := by
  by_contra hl
  have : g.link l = default := by
    unfold Engine.link
    exact List.getD_eq_default _ _ (by omega)
  unfold Engine.pn_link_state at h
  rw [this] at h
  revert h
  decide

/-- After `pn_link_close` a link of the table is locally closed. -/
theorem link_close_loc (g : Engine) (l : Nat) (h : l < g.links.length) :
    ((g.pn_link_close l).link l).ep.loc = .CLOSED := by
  unfold Engine.pn_link_close Engine.modifyLink Engine.link
  simp only
  rw [getD_modifyAt_self _ _ _ _ h]
  rfl

end ConnectionContext

/-- C13. When `checkClosed(ssn, lnk)` gets to the link (the connection is healthy
and the session open) and finds it locally active and remotely closed, it closes
the link locally and raises: `NotFound` if the peer's condition is set and its
name is the AMQP not-found condition, `UnauthorizedAccess` if it is the
unauthorized-access condition, `LinkError` for every other name and when no
condition is set; the text is "Link detached by peer", followed by the name and
the description of the condition when one is set. -/
theorem checkClosed_link_detached_by_peer (ac : M Unit) (ssn lnk : Nat) (s : ConnectionContext)
    (h : ConnectionContext.Healthy s.io)
    (ho : ConnectionContext.SessionOpen s.io (s.ssn ssn).session)
    (hloc : (s.io.engine.link lnk).ep.loc = .ACTIVE)
    (hrem : (s.io.engine.link lnk).ep.rem = .CLOSED) :
    ConnectionContext.checkClosedLink ac ssn lnk s
      = (.raise
          (match (s.io.engine.link lnk).ep.cond with
           | some c =>
             if c.name = "amqp:not-found" then
               .NotFound ("Link detached by peer with " ++ c.name ++ ": " ++ c.description)
             else if c.name = "amqp:unauthorized-access" then
               .UnauthorizedAccess
                 ("Link detached by peer with " ++ c.name ++ ": " ++ c.description)
             else
               .LinkError ("Link detached by peer with " ++ c.name ++ ": " ++ c.description)
           | none => .LinkError "Link detached by peer"),
         { s with io := { s.io with engine := s.io.engine.pn_link_close lnk } })
      ∧ ((s.io.engine.pn_link_close lnk).link lnk).ep.loc = .CLOSED := by
  have hreq : s.io.engine.pn_link_state lnk &&& REQUIRES_CLOSE = REQUIRES_CLOSE :=
    ConnectionContext.requires_close_of_states _ hloc hrem
  refine ⟨?_, ConnectionContext.link_close_loc _ _
    (ConnectionContext.link_exists_of_requires_close _ _ hreq)⟩
  unfold ConnectionContext.checkClosedLink
  simp only [M.bind_apply, ConnectionContext.checkClosedSsn_open ac ssn s h ho, M.get_apply]
  rw [if_pos hreq]
  cases hc : (s.io.engine.link lnk).ep.cond with
  | none =>
    simp [ConnectionContext.onEngine, ConnectionContext.conditionName,
      ConnectionContext.closedText, ConnectionContext.NOT_FOUND,
      ConnectionContext.UNAUTHORIZED_ACCESS]
  | some c =>
    simp only [M.bind_apply, ConnectionContext.onEngine, M.modify_apply,
      ConnectionContext.conditionName, ConnectionContext.closedText,
      ConnectionContext.NOT_FOUND, ConnectionContext.UNAUTHORIZED_ACCESS]
    split <;> [skip; split] <;> rfl

/-- Witness of C13: the sender's link detached by the peer with `amqp:not-found`. -/
theorem checkClosed_link_detached_by_peer_witness :
    ConnectionContext.checkClosedLink (ConnectionContext.autoconnect Example.quiet 3) 0 0
        Example.withDetachedSender
      = (.raise (.NotFound "Link detached by peer with amqp:not-found: no such queue"),
         { Example.withDetachedSender with
           io := { Example.withDetachedSender.io with
             engine := Example.withDetachedSender.io.engine.pn_link_close 0 } }) :=
  (checkClosed_link_detached_by_peer (ConnectionContext.autoconnect Example.quiet 3) 0 0
    Example.withDetachedSender (by decide) (by decide) (by decide) (by decide)).1

/-! ## Components of the state that an operation leaves alone -/

theorem M.fixes_pure {α β : Type} (π : ConnectionContext → β) (a : α) :
    M.Fixes π (Pure.pure a : M α) := fun _ => rfl

theorem M.fixes_raise {α β : Type} (π : ConnectionContext → β) (e : Exc) :
    M.Fixes π (M.raise e : M α) := fun _ => rfl

theorem M.fixes_stuck {α β : Type} (π : ConnectionContext → β) :
    M.Fixes π (M.stuck : M α) := fun _ => rfl

theorem M.fixes_get {β : Type} (π : ConnectionContext → β) : M.Fixes π M.get := fun _ => rfl

theorem M.fixes_test {β : Type} (π : ConnectionContext → β) (c : ConnectionContext → Bool) :
    M.Fixes π (M.test c) := fun _ => rfl

theorem M.fixes_modify {β : Type} {π : ConnectionContext → β}
    {f : ConnectionContext → ConnectionContext} (hf : ∀ s, π (f s) = π s) :
    M.Fixes π (M.modify f) := fun s => hf s

theorem M.fixes_bind {α β γ : Type} {π : ConnectionContext → γ} {m : M α} {f : α → M β}
    (hm : M.Fixes π m) (hf : ∀ a, M.Fixes π (f a)) : M.Fixes π (m >>= f) := by
  intro s
  have h1 := hm s
  simp only [M.bind_apply]
  rcases hms : m s with ⟨o, s1⟩
  rw [hms] at h1
  cases o with
  | ret a => exact (hf a s1).trans h1
  | raise e => exact h1
  | stuck => exact h1

theorem M.fixes_when {β : Type} {π : ConnectionContext → β} (c : Prop) [Decidable c]
    {body : M Unit} (hb : M.Fixes π body) : M.Fixes π (M.when c body) := by
  unfold M.when
  split
  · exact hb
  · exact fun _ => rfl

theorem M.fixes_ite {α β : Type} {π : ConnectionContext → β} (c : Prop) [Decidable c]
    {a b : M α} (ha : M.Fixes π a) (hb : M.Fixes π b) : M.Fixes π (if c then a else b) := by
  split
  · exact ha
  · exact hb

theorem M.fixes_forEach {α β : Type} {π : ConnectionContext → β} {body : α → M Unit}
    (hb : ∀ a, M.Fixes π (body a)) : ∀ xs : List α, M.Fixes π (M.forEach body xs) := by
  intro xs
  induction xs with
  | nil => exact fun _ => rfl
  | cons a as ih =>
    rw [M.forEach]
    exact M.fixes_bind (hb a) fun _ => ih

theorem M.fixes_loop {β : Type} {π : ConnectionContext → β} {cond : M Bool} {body : M Unit}
    (hc : M.Fixes π cond) (hb : M.Fixes π body) : ∀ fuel : Nat, M.Fixes π (M.loop cond body fuel) := by
  intro fuel
  induction fuel with
  | zero =>
    rw [M.loop]
    exact M.fixes_bind hc fun c => M.fixes_ite _ (M.fixes_stuck π) (M.fixes_pure π _)
  | succ k ih =>
    rw [M.loop]
    exact M.fixes_bind hc fun c =>
      M.fixes_ite _ (M.fixes_bind hb fun _ => ih) (M.fixes_pure π _)

theorem M.fixes_tryCatch {α β : Type} {π : ConnectionContext → β} {m : M α}
    {catches : Exc → Bool} {handler : Exc → M α}
    (hm : M.Fixes π m) (hh : ∀ e, M.Fixes π (handler e)) :
    M.Fixes π (M.tryCatch m catches handler) := by
  intro s
  have h1 := hm s
  unfold M.tryCatch
  rcases hms : m s with ⟨o, s1⟩
  rw [hms] at h1
  cases o with
  | ret a => exact h1
  | raise e =>
    simp only
    split
    · exact (hh e s1).trans h1
    · exact h1
  | stuck => exact h1

namespace ConnectionContext

/-- Neither `reset` nor what it calls assigns the member `state`. -/
theorem reset_fixes_state : M.Fixes (fun s => s.io.state) reset := by
  have hsnd : ∀ a p, M.Fixes (fun s => s.io.state) (SenderContext.reset a p) := fun _ _ =>
    M.fixes_modify fun _ => rfl
  have hrcv : ∀ a p, M.Fixes (fun s => s.io.state) (ReceiverContext.reset a p) := fun _ _ =>
    M.fixes_modify fun _ => rfl
  have hssn : ∀ p, M.Fixes (fun s => s.io.state) (SessionContext.reset p) := by
    intro p
    unfold SessionContext.reset
    refine M.fixes_bind (M.fixes_modify fun _ => rfl) fun _ => ?_
    refine M.fixes_bind (M.fixes_get _) fun s => ?_
    refine M.fixes_bind (M.fixes_forEach (fun _ => hsnd _ _) _) fun _ => ?_
    exact M.fixes_forEach (fun _ => hrcv _ _) _
  unfold reset
  refine M.fixes_bind (M.fixes_modify fun _ => rfl) fun _ => ?_
  refine M.fixes_bind (M.fixes_modify fun _ => rfl) fun _ => ?_
  refine M.fixes_bind ?_ fun _ => ?_
  · exact M.fixes_bind (M.fixes_get _) fun _ => M.fixes_when _ (M.fixes_modify fun _ => rfl)
  · exact M.fixes_bind (M.fixes_get _) fun s => M.fixes_forEach (fun _ => hssn _) _

end ConnectionContext

/-! ## C15: what a wait finds on wakeup -/

namespace ConnectionContext

/-- On a connection found `DISCONNECTED` with reconnection disabled, `check` throws
`TransportFailure`. -/
theorem check_disconnected (ac : M Unit) (s : ConnectionContext)
    (hd : s.io.state = .DISCONNECTED) (hr : s.reconnect = false) :
    (check ac s).1 = .raise (.TransportFailure "Disconnected (reconnect disabled)") := by
  obtain ⟨u, t, ht⟩ := reset_total s
  have hst : t.io.state = .DISCONNECTED := by
    have := reset_fixes_state s
    rw [ht] at this
    exact this.trans hd
  have hrt : t.reconnect = false := by
    have := keeps_reset s hr
    rw [ht] at this
    exact this.1
  simp [check, checkDisconnected, hd, ht, hst, hrt]

/-- On a connection that is not `DISCONNECTED` and that the peer has closed,
`check` throws `ConnectionError`. -/
theorem check_closed_by_peer (ac : M Unit) (s : ConnectionContext)
    (hd : s.io.state ≠ .DISCONNECTED) (hloc : s.io.engine.conn.loc = .ACTIVE)
    (hrem : s.io.engine.conn.rem = .CLOSED) :
    (check ac s).1
      = .raise (.ConnectionError (closedText "Connection closed by peer" s.io.engine.conn.cond)) := by
  have hreq : s.io.engine.pn_connection_state &&& REQUIRES_CLOSE = REQUIRES_CLOSE :=
    requires_close_of_states _ hloc hrem
  simp [check, checkDisconnected, checkConnectionClosed, hd, hreq, onEngine]

/-- On a healthy connection, for a session that the peer has ended,
`checkClosed(ssn)` throws `SessionError`. -/
theorem checkClosedSsn_ended (ac : M Unit) (ssn : Nat) (s : ConnectionContext)
    (h : Healthy s.io) (hloc : (s.io.engine.session (s.ssn ssn).session).ep.loc = .ACTIVE)
    (hrem : (s.io.engine.session (s.ssn ssn).session).ep.rem = .CLOSED) :
    (checkClosedSsn ac ssn s).1
      = .raise (.SessionError (closedText "Session ended by peer"
          (s.io.engine.session (s.ssn ssn).session).ep.cond)) := by
  have hreq : s.io.engine.pn_session_state (s.ssn ssn).session &&& REQUIRES_CLOSE
      = REQUIRES_CLOSE := requires_close_of_states _ hloc hrem
  simp [checkClosedSsn, check_healthy ac s h, hreq, onEngine]

/-- On a healthy connection with the session open, for a link that the peer has
detached, `checkClosed(ssn, lnk)` throws `NotFound`, `UnauthorizedAccess` or
`LinkError`. -/
theorem checkClosedLink_detached (ac : M Unit) (ssn lnk : Nat) (s : ConnectionContext)
    (h : Healthy s.io) (ho : SessionOpen s.io (s.ssn ssn).session)
    (hloc : (s.io.engine.link lnk).ep.loc = .ACTIVE)
    (hrem : (s.io.engine.link lnk).ep.rem = .CLOSED) :
    ∃ text, (checkClosedLink ac ssn lnk s).1 = .raise (.NotFound text)
      ∨ (checkClosedLink ac ssn lnk s).1 = .raise (.UnauthorizedAccess text)
      ∨ (checkClosedLink ac ssn lnk s).1 = .raise (.LinkError text) := by
  have hreq : s.io.engine.pn_link_state lnk &&& REQUIRES_CLOSE = REQUIRES_CLOSE :=
    requires_close_of_states _ hloc hrem
  refine ⟨closedText "Link detached by peer" (s.io.engine.link lnk).ep.cond, ?_⟩
  unfold checkClosedLink
  simp only [M.bind_apply, checkClosedSsn_open ac ssn s h ho, M.get_apply]
  rw [if_pos hreq]
  simp only [M.bind_apply, onEngine, M.modify_apply]
  split
  · exact Or.inl rfl
  · split
    · exact Or.inr (Or.inl rfl)
    · exact Or.inr (Or.inr rfl)

/-- What follows a wait is not run when the wait throws. -/
theorem bind_raise_fst {α β : Type} {m : M α} {f : α → M β} {s : ConnectionContext} {e : Exc}
    (h : (m s).1 = .raise e) : ((m >>= f) s).1 = .raise e := by
  simp only [M.bind_apply]
  rcases hm : m s with ⟨o, s1⟩
  rw [hm] at h
  cases o with
  | ret a => cases h
  | raise e1 =>
    simp only [Outcome.raise.injEq] at h ⊢
    exact h
  | stuck => cases h

end ConnectionContext

namespace ConnectionContext

/-- A wait that starts on a healthy connection is the wait on the lock followed
by `check`. -/
theorem wait_eq_check (E : Env) (ac : M Unit) (s : ConnectionContext) (h : Healthy s.io) :
    wait E ac s = check ac (waited E 1 s) := by
  have e1 : lockWait E s = (.ret (), waited E 1 s) := rfl
  simp only [wait, M.bind_apply, check_healthy ac s h, e1]

theorem waitUntil_eq_check (E : Env) (ac : M Unit) (s : ConnectionContext) :
    waitUntil E ac s = check ac (waited E 1 s) := by
  have e1 : lockWait E s = (.ret (), waited E 1 s) := rfl
  simp only [waitUntil, M.bind_apply, e1]

/-- An exception of `check` on wakeup is the exception of the wait. -/
theorem wait_raises_of_check (E : Env) (ac : M Unit) (ssn snd rcv : Nat)
    (s : ConnectionContext) (h : Healthy s.io) (e : Exc)
    (hc : (check ac (waited E 1 s)).1 = .raise e) :
    ∀ m ∈ [wait E ac, waitUntil E ac, waitSsn E ac ssn, waitSnd E ac ssn snd,
        waitRcv E ac ssn rcv, waitUntilRcv E ac ssn rcv],
      (m s).1 = .raise e := by
  have hw : (wait E ac s).1 = .raise e := by rw [wait_eq_check E ac s h]; exact hc
  have hu : (waitUntil E ac s).1 = .raise e := by rw [waitUntil_eq_check E ac s]; exact hc
  intro m hm
  simp only [List.mem_cons, List.mem_singleton, List.not_mem_nil, or_false] at hm
  rcases hm with rfl | rfl | rfl | rfl | rfl | rfl
  · exact hw
  · exact hu
  · exact bind_raise_fst hw
  · exact bind_raise_fst hw
  · exact bind_raise_fst hw
  · exact bind_raise_fst hu

/-- An exception of `checkClosed(ssn)` on a healthy wakeup is the exception of the
waits that take a session. -/
theorem wait_raises_of_checkClosedSsn (E : Env) (ac : M Unit) (ssn snd rcv : Nat)
    (s : ConnectionContext) (h : Healthy s.io) (h1 : Healthy (waited E 1 s).io) (e : Exc)
    (hc : (checkClosedSsn ac ssn (waited E 1 s)).1 = .raise e) :
    ∀ m ∈ [waitSsn E ac ssn, waitSnd E ac ssn snd, waitRcv E ac ssn rcv,
        waitUntilRcv E ac ssn rcv],
      (m s).1 = .raise e := by
  have hw : wait E ac s = (.ret (), waited E 1 s) := wait_healthy E ac s h h1
  have hu : waitUntil E ac s = (.ret (), waited E 1 s) := by
    rw [waitUntil_eq_check, check_healthy ac _ h1]
  have hl : ∀ l, (checkClosedLink ac ssn l (waited E 1 s)).1 = .raise e := fun l => by
    unfold checkClosedLink
    exact bind_raise_fst hc
  intro m hm
  simp only [List.mem_cons, List.mem_singleton, List.not_mem_nil, or_false] at hm
  rcases hm with rfl | rfl | rfl | rfl
  · simp only [waitSsn, M.bind_apply, hw]
    exact hc
  · simp only [waitSnd, M.bind_apply, hw, checkClosedSnd, M.get_apply]
    exact hl _
  · simp only [waitRcv, M.bind_apply, hw, checkClosedRcv, M.get_apply]
    exact hl _
  · simp only [waitUntilRcv, M.bind_apply, hu, checkClosedRcv, M.get_apply]
    exact hl _

end ConnectionContext

/-- C15, as the code has it.  The waits made through `wait` and `waitUntil` (in
`newSession`, `attach`, `detach`, `send`, `fetch`, `sync` and, for the
settlement of the sends, `close`), started on a healthy connection, re-validate
on wakeup.  Each of them throws `TransportFailure` when the connection is then
`DISCONNECTED` and reconnection is disabled, and `ConnectionError` when the peer
has closed the connection; those that take a session throw `SessionError` when
the peer has ended it; those that take a link throw `NotFound`,
`UnauthorizedAccess` or `LinkError` when the peer has detached it.  The wait
on the lock alone, which `close` makes for the peer's close and for the
disconnection, returns without throwing. -/
theorem waits_revalidate_on_wakeup (E : Env) (ac : M Unit) (ssn snd rcv : Nat)
    (s : ConnectionContext) (h : ConnectionContext.Healthy s.io) :
    (∀ m ∈ [ConnectionContext.wait E ac, ConnectionContext.waitUntil E ac,
        ConnectionContext.waitSsn E ac ssn, ConnectionContext.waitSnd E ac ssn snd,
        ConnectionContext.waitRcv E ac ssn rcv, ConnectionContext.waitUntilRcv E ac ssn rcv],
      ((ConnectionContext.waited E 1 s).io.state = .DISCONNECTED → s.reconnect = false →
        (m s).1 = .raise (.TransportFailure "Disconnected (reconnect disabled)"))
      ∧ ((ConnectionContext.waited E 1 s).io.state ≠ .DISCONNECTED →
        (ConnectionContext.waited E 1 s).io.engine.conn.loc = .ACTIVE →
        (ConnectionContext.waited E 1 s).io.engine.conn.rem = .CLOSED →
        (m s).1 = .raise (.ConnectionError (ConnectionContext.closedText
          "Connection closed by peer" (ConnectionContext.waited E 1 s).io.engine.conn.cond))))
    ∧ (ConnectionContext.Healthy (ConnectionContext.waited E 1 s).io →
      ((ConnectionContext.waited E 1 s).io.engine.session (s.ssn ssn).session).ep.loc = .ACTIVE →
      ((ConnectionContext.waited E 1 s).io.engine.session (s.ssn ssn).session).ep.rem = .CLOSED →
      ∀ m ∈ [ConnectionContext.waitSsn E ac ssn, ConnectionContext.waitSnd E ac ssn snd,
          ConnectionContext.waitRcv E ac ssn rcv, ConnectionContext.waitUntilRcv E ac ssn rcv],
        (m s).1 = .raise (.SessionError (ConnectionContext.closedText "Session ended by peer"
          ((ConnectionContext.waited E 1 s).io.engine.session (s.ssn ssn).session).ep.cond)))
    ∧ (ConnectionContext.Healthy (ConnectionContext.waited E 1 s).io →
      ConnectionContext.SessionOpen (ConnectionContext.waited E 1 s).io (s.ssn ssn).session →
      (((ConnectionContext.waited E 1 s).io.engine.link (s.snd snd).sender).ep.loc = .ACTIVE →
        ((ConnectionContext.waited E 1 s).io.engine.link (s.snd snd).sender).ep.rem = .CLOSED →
        ∃ text, (ConnectionContext.waitSnd E ac ssn snd s).1 = .raise (.NotFound text)
          ∨ (ConnectionContext.waitSnd E ac ssn snd s).1 = .raise (.UnauthorizedAccess text)
          ∨ (ConnectionContext.waitSnd E ac ssn snd s).1 = .raise (.LinkError text))
      ∧ (((ConnectionContext.waited E 1 s).io.engine.link (s.rcv rcv).receiver).ep.loc = .ACTIVE →
        ((ConnectionContext.waited E 1 s).io.engine.link (s.rcv rcv).receiver).ep.rem = .CLOSED →
        ∀ m ∈ [ConnectionContext.waitRcv E ac ssn rcv, ConnectionContext.waitUntilRcv E ac ssn rcv],
          ∃ text, (m s).1 = .raise (.NotFound text)
            ∨ (m s).1 = .raise (.UnauthorizedAccess text)
            ∨ (m s).1 = .raise (.LinkError text)))
    ∧ (ConnectionContext.lockWait E s).1 = .ret () := by
  refine ⟨?_, ?_, ?_, rfl⟩
  · intro m hm
    refine ⟨fun hd hr => ?_, fun hd hloc hrem => ?_⟩
    · exact ConnectionContext.wait_raises_of_check E ac ssn snd rcv s h _
        (ConnectionContext.check_disconnected ac _ hd hr) m hm
    · exact ConnectionContext.wait_raises_of_check E ac ssn snd rcv s h _
        (ConnectionContext.check_closed_by_peer ac _ hd hloc hrem) m hm
  · intro h1 hloc hrem m hm
    exact ConnectionContext.wait_raises_of_checkClosedSsn E ac ssn snd rcv s h h1 _
      (ConnectionContext.checkClosedSsn_ended ac ssn _ h1 hloc hrem) m hm
  · intro h1 ho
    have hw : ConnectionContext.wait E ac s = (.ret (), ConnectionContext.waited E 1 s) :=
      ConnectionContext.wait_healthy E ac s h h1
    have hu : ConnectionContext.waitUntil E ac s = (.ret (), ConnectionContext.waited E 1 s) := by
      rw [ConnectionContext.waitUntil_eq_check, ConnectionContext.check_healthy ac _ h1]
    refine ⟨fun hloc hrem => ?_, fun hloc hrem m hm => ?_⟩
    · have := ConnectionContext.checkClosedLink_detached ac ssn (s.snd snd).sender
        (ConnectionContext.waited E 1 s) h1 ho hloc hrem
      simpa only [ConnectionContext.waitSnd, M.bind_apply, hw, ConnectionContext.checkClosedSnd,
        M.get_apply] using this
    · have := ConnectionContext.checkClosedLink_detached ac ssn (s.rcv rcv).receiver
        (ConnectionContext.waited E 1 s) h1 ho hloc hrem
      simp only [List.mem_cons, List.mem_singleton, List.not_mem_nil, or_false] at hm
      rcases hm with rfl | rfl
      · simpa only [ConnectionContext.waitRcv, M.bind_apply, hw, ConnectionContext.checkClosedRcv,
          M.get_apply] using this
      · simpa only [ConnectionContext.waitUntilRcv, M.bind_apply, hu,
          ConnectionContext.checkClosedRcv, M.get_apply] using this

/-- Witness of the amended C15: a wait of `send` during which the connection is
lost, with reconnection disabled, throws `TransportFailure`. -/
theorem waits_revalidate_on_wakeup_witness :
    ConnectionContext.Healthy Example.withSender.io
      ∧ (ConnectionContext.waitSnd Example.dropping
          (ConnectionContext.autoconnect Example.dropping 3) 0 0 Example.withSender).1
        = .raise (.TransportFailure "Disconnected (reconnect disabled)") :=
  ⟨by decide,
   ((waits_revalidate_on_wakeup Example.dropping
      (ConnectionContext.autoconnect Example.dropping 3) 0 0 0 Example.withSender
      (by decide)).1 _
      (List.Mem.tail _ (List.Mem.tail _ (List.Mem.tail _ (List.Mem.head _))))).1
      (by decide) (by decide)⟩

/-- Counterexample to C15 as stated: `close()` on an open connection without
sessions and with reconnection disabled, which is lost while `close` waits for
the peer's close.  The wait (one, on the lock alone) wakes up to a
`DISCONNECTED` connection, and `close` returns normally: no `TransportFailure`
is thrown. -/
theorem close_woken_DISCONNECTED_returns :
    Example.connected.reconnect = false
      ∧ (ConnectionContext.close Example.dropping 3 Example.connected).1 = .ret ()
      ∧ (ConnectionContext.close Example.dropping 3 Example.connected).2.waits
        = Example.connected.waits + 1
      ∧ (ConnectionContext.close Example.dropping 3 Example.connected).2.io.state
        = .DISCONNECTED :=
  ⟨by decide, by decide, by decide, by decide⟩

/-! ## C17: the addresses of a URL -/

namespace ConnectionContext

/-- One round of the loop of `tryConnectUrl`: it returns `true` at the address `a`
when the attempt on `a` succeeds, and goes on with the rest of the addresses,
from the state the attempt left, when it fails. -/
theorem tryAddrs_cons (E : Env) (ac : M Unit) (fuel : Nat) (a : Address) (rest : List Address)
    (s s1 : ConnectionContext) (b : Bool) :
    tryAddrs E ac fuel (a :: rest) s = (.ret b, s1)
      ↔ (b = true ∧ succeedsAt E ac fuel a s = some s1)
        ∨ ∃ t, failsAt E ac fuel a s = some t ∧ tryAddrs E ac fuel rest t = (.ret b, s1) := by
  rw [tryAddrs]
  unfold succeedsAt failsAt
  simp only [M.bind_apply]
  rcases tryConnectAddr E fuel a s with ⟨o, t⟩
  cases o with
  | raise e => simp
  | stuck => simp
  | ret c =>
    cases c with
    | false => simp
    | true =>
      simp only [if_true, M.bind_apply]
      rcases tryOpenAddr E ac fuel a t with ⟨o2, t2⟩
      cases o2 with
      | raise e => simp
      | stuck => simp
      | ret c2 =>
        cases c2 with
        | false => simp
        | true =>
          simp only [if_true, M.pure_apply, Prod.mk.injEq, Outcome.ret.injEq, Option.some.injEq,
            reduceCtorEq, false_and, exists_false, or_false]
          constructor
          · rintro ⟨rfl, rfl⟩
            exact ⟨rfl, rfl⟩
          · rintro ⟨rfl, rfl⟩
            exact ⟨rfl, rfl⟩

/-- The loop of `tryConnectUrl` returns `false` exactly when the attempts on all
the addresses, in order, fail. -/
theorem tryAddrs_false_iff (E : Env) (ac : M Unit) (fuel : Nat) :
    ∀ (addrs : List Address) (s s1 : ConnectionContext),
      tryAddrs E ac fuel addrs s = (.ret false, s1) ↔ allFail E ac fuel addrs s = some s1 := by
  intro addrs
  induction addrs with
  | nil =>
    intro s s1
    rw [tryAddrs, allFail]
    simp
  | cons a rest ih =>
    intro s s1
    rw [tryAddrs_cons, allFail]
    cases hf : failsAt E ac fuel a s with
    | none => simp
    | some t => simp [ih]

/-- The loop of `tryConnectUrl` returns `true` exactly when the attempts fail on
the addresses before some address of the list and the attempt on that address
succeeds; the state is then the one that attempt left. -/
theorem tryAddrs_true_iff (E : Env) (ac : M Unit) (fuel : Nat) :
    ∀ (addrs : List Address) (s s1 : ConnectionContext),
      tryAddrs E ac fuel addrs s = (.ret true, s1)
        ↔ ∃ pre a post t, addrs = pre ++ a :: post ∧ allFail E ac fuel pre s = some t
            ∧ succeedsAt E ac fuel a t = some s1 := by
  intro addrs
  induction addrs with
  | nil =>
    intro s s1
    rw [tryAddrs]
    simp
  | cons a rest ih =>
    intro s s1
    rw [tryAddrs_cons]
    constructor
    · rintro (⟨-, h⟩ | ⟨t, hf, h⟩)
      · exact ⟨[], a, rest, s, rfl, rfl, h⟩
      · obtain ⟨pre, a2, post, t2, rfl, hpre, hs⟩ := (ih t s1).mp h
        refine ⟨a :: pre, a2, post, t2, rfl, ?_, hs⟩
        rw [allFail, hf]
        exact hpre
    · rintro ⟨pre, a2, post, t2, hsplit, hpre, hs⟩
      cases pre with
      | nil =>
        simp only [List.nil_append, List.cons.injEq] at hsplit
        obtain ⟨rfl, rfl⟩ := hsplit
        rw [allFail] at hpre
        cases hpre
        exact Or.inl ⟨rfl, hs⟩
      | cons a3 pre3 =>
        simp only [List.cons_append, List.cons.injEq] at hsplit
        obtain ⟨rfl, rfl⟩ := hsplit
        rw [allFail] at hpre
        cases hf : failsAt E ac fuel a s with
        | none => rw [hf] at hpre; cases hpre
        | some t =>
          rw [hf] at hpre
          exact Or.inr ⟨t, rfl, (ih t s1).mpr ⟨pre3, a2, post, t2, rfl, hpre, hs⟩⟩

/-- The statements of `tryConnectUrl` before its loop. -/
theorem tryConnectUrl_eq_tryAddrs (E : Env) (ac : M Unit) (fuel : Nat) (url : Url)
    (s : ConnectionContext) :
    tryConnectUrl E ac fuel url s = tryAddrs E ac fuel url.addrs (atFirstAddress url s) := by
  unfold tryConnectUrl atFirstAddress
  simp only [M.bind_apply, call, M.modify_apply, M.when_apply]
  by_cases hu : url.user.length ≠ 0 <;> by_cases hp : url.pass.length ≠ 0
  · simp only [if_pos hu, if_pos hp, M.modify_apply]
  · simp only [if_pos hu, if_neg hp, M.modify_apply, M.pure_apply2]
  · simp only [if_neg hu, if_pos hp, M.modify_apply, M.pure_apply2]
  · simp only [if_neg hu, if_neg hp, M.pure_apply2]

end ConnectionContext

/-! ## C14: the changes of the connection state -/

namespace ConnectionContext

/-- The body of the `try` of `tryConnectAddr` throws only from `transport->connect`,
before any wait: the shared state is then as it was. -/
theorem connectAndWait_raise (E : Env) (fuel : Nat) (a : Address) (s t : ConnectionContext)
    (e : Exc) (h : connectAndWait E fuel a s = (.raise e, t)) : t.io = s.io := by
  unfold connectAndWait at h
  simp only [M.bind_apply, M.get_apply, M.modify_apply, call] at h
  cases hc : E.connectThrows s.connects a with
  | some what =>
    rw [hc] at h
    simp only [M.raise_apply, Prod.mk.injEq] at h
    rw [← h.2]
  | none =>
    rw [hc] at h
    simp only at h
    exfalso
    have hw : ∀ (fuel : Nat) (u : ConnectionContext), (waitConnected E fuel u).1 ≠ .raise e := by
      intro fuel
      induction fuel with
      | zero =>
        intro u
        rw [waitConnected]
        simp only [M.bind_apply, M.get_apply]
        cases u.io.state <;> simp [M.stuck]
      | succ k ih =>
        intro u
        rw [waitConnected]
        simp only [M.bind_apply, M.get_apply]
        cases u.io.state with
        | DISCONNECTED => simp
        | CONNECTED => simp
        | CONNECTING =>
          have e1 : lockWait E u = (.ret (), waited E 1 u) := rfl
          simp only [M.bind_apply, e1]
          exact ih _
    exact hw fuel _ (by rw [h])

end ConnectionContext

namespace ConnectionContext

end ConnectionContext

/-- Counterexample to C14 as stated: `tryConnectAddr` on a connection not yet opened
whose transport connect throws.  The state is `CONNECTING` when the connect
throws, and `tryConnectAddr` leaves it `DISCONNECTED`: a change along
`CONNECTING → DISCONNECTED`, which is not an edge of the specification. -/
theorem tryConnectAddr_refused_CONNECTING_to_DISCONNECTED :
    (ConnectionContext.connectAndWait Example.refusing 3 Example.addr
        (ConnectionContext.prepareConnect Example.addr Example.disconnected).2).1
      = .raise (.StdException "Connection refused")
    ∧ (ConnectionContext.connectAndWait Example.refusing 3 Example.addr
        (ConnectionContext.prepareConnect Example.addr Example.disconnected).2).2.io.state
      = .CONNECTING
    ∧ (ConnectionContext.tryConnectAddr Example.refusing 3 Example.addr
        Example.disconnected).2.io.state = .DISCONNECTED
    ∧ ¬ ConnectionContext.SpecEdge .CONNECTING .DISCONNECTED :=
  ⟨by decide, by decide, by decide, by decide⟩

/-! ## C12: `detach` of a receiver -/

/-- A loop that ends normally ends with a test of its condition that gives
`false`. -/
theorem M.loop_ret_exit {cond : M Bool} {body : M Unit} :
    ∀ (fuel : Nat) (s t : ConnectionContext), M.loop cond body fuel s = (.ret (), t) →
      ∃ u, cond u = (.ret false, t) := by
  intro fuel
  induction fuel with
  | zero =>
    intro s t h
    rw [M.loop] at h
    simp only [M.bind_apply2] at h
    rcases hc : cond s with ⟨o, s1⟩
    rw [hc] at h
    cases o with
    | raise e => simp at h
    | stuck => simp at h
    | ret c =>
      cases c with
      | true => simp at h
      | false =>
        simp only [Bool.false_eq_true, if_false, M.pure_apply2, Prod.mk.injEq, true_and] at h
        exact ⟨s, by rw [hc, h]⟩
  | succ k ih =>
    intro s t h
    rw [M.loop] at h
    simp only [M.bind_apply2] at h
    rcases hc : cond s with ⟨o, s1⟩
    rw [hc] at h
    cases o with
    | raise e => simp at h
    | stuck => simp at h
    | ret c =>
      cases c with
      | false =>
        simp only [Bool.false_eq_true, if_false, M.pure_apply2, Prod.mk.injEq, true_and] at h
        exact ⟨s, by rw [hc, h]⟩
      | true =>
        simp only [if_true, M.bind_apply2] at h
        rcases hb : body s1 with ⟨o2, s2⟩
        rw [hb] at h
        cases o2 with
        | raise e => simp at h
        | stuck => simp at h
        | ret a => exact ih s2 t h

namespace ConnectionContext

/-- Changing an element of a table keeps the size of the table. -/
theorem length_modifyAt {α : Type} (f : α → α) :
    ∀ (l : List α) (i : Nat), (modifyAt f i l).length = l.length := by
  intro l
  induction l with
  | nil => intro i; simp [modifyAt]
  | cons a as ih => intro i; cases i <;> simp [modifyAt, ih]

/-- When the condition of the loop of `drain_and_release_messages` is false, the
credit is no greater than the number of queued deliveries or the deadline has
been reached. -/
theorem drainPending_false (E : Env) (lnk deadline : Nat) (u t : ConnectionContext)
    (h : drainPending E lnk deadline u = (.ret false, t)) :
    t.rcvObjs = u.rcvObjs
      ∧ (t.io.engine.pn_link_credit (t.rcv lnk).receiver
          ≤ (t.io.engine.pn_link_queued (t.rcv lnk).receiver : Int)
        ∨ deadline ≤ t.clock) := by
  unfold drainPending at h
  simp only [M.bind_apply, M.get_apply] at h
  by_cases hc : u.io.engine.pn_link_credit (u.rcv lnk).receiver
      > (u.io.engine.pn_link_queued (u.rcv lnk).receiver : Int)
  · rw [if_pos hc] at h
    have hnow : now E u = (.ret (u.clock + E.elapse u.reads),
        { u with clock := u.clock + E.elapse u.reads, reads := u.reads + 1 }) := rfl
    simp only [M.bind_apply, hnow, M.pure_apply, Prod.mk.injEq, Outcome.ret.injEq,
      decide_eq_false_iff_not, not_lt] at h
    obtain ⟨hd, rfl⟩ := h
    exact ⟨rfl, Or.inr hd⟩
  · rw [if_neg hc] at h
    simp only [M.pure_apply, Prod.mk.injEq, true_and] at h
    subst h
    exact ⟨rfl, Or.inl (not_lt.mp hc)⟩

/-- The loop that releases the deliveries not yet fetched, run for as many rounds
as deliveries are queued, returns with none queued; each delivery released used
one unit of credit. -/
theorem releaseUnfetched_spec (r : Nat) :
    ∀ (n : Nat) (u : ConnectionContext), u.io.engine.pn_link_queued r = n →
      ∃ t, releaseUnfetched r n u = (.ret (), t)
        ∧ t.io.engine.pn_link_queued r = 0
        ∧ t.io.engine.pn_link_credit r = u.io.engine.pn_link_credit r - n
        ∧ t.rcvObjs = u.rcvObjs ∧ t.ssnObjs = u.ssnObjs ∧ t.clock = u.clock := by
  intro n
  induction n with
  | zero =>
    intro u hq
    have hcur : u.io.engine.pn_link_current r = none := by
      unfold Engine.pn_link_queued at hq
      unfold Engine.pn_link_current
      rw [List.length_eq_zero] at hq
      rw [hq]
      rfl
    refine ⟨u, ?_, hq, by simp, rfl, rfl, rfl⟩
    rw [releaseUnfetched]
    simp only [M.bind_apply, M.get_apply, hcur, M.pure_apply]
  | succ k ih =>
    intro u hq
    unfold Engine.pn_link_queued at hq
    obtain ⟨d, rest, hinc⟩ : ∃ d rest, (u.io.engine.link r).incoming = d :: rest := by
      cases hl : (u.io.engine.link r).incoming with
      | nil => rw [hl] at hq; cases hq
      | cons d rest => exact ⟨d, rest, rfl⟩
    have hcur : u.io.engine.pn_link_current r = some d := by
      unfold Engine.pn_link_current
      rw [hinc]
      rfl
    have hr : r < u.io.engine.links.length := by
      by_contra hlt
      have : u.io.engine.link r = default := by
        unfold Engine.link
        exact List.getD_eq_default _ _ (by omega)
      rw [this] at hinc
      cases hinc
    have hlink : ((u.io.engine.pn_link_advance r).releaseAndSettle r d).link r
        = { u.io.engine.link r with
            incoming := rest, credit := (u.io.engine.link r).credit - 1,
            released := (u.io.engine.link r).released ++ [d] } := by
      unfold Engine.releaseAndSettle Engine.pn_link_advance Engine.modifyLink Engine.link
      simp only
      have hr2 : r < (modifyAt (fun l : PnLink =>
          match l.incoming with
          | [] => l
          | _ :: rest => { l with incoming := rest, credit := l.credit - 1 })
          r u.io.engine.links).length := by
        rw [length_modifyAt]
        exact hr
      rw [getD_modifyAt_self _ _ _ _ hr2, getD_modifyAt_self _ _ _ _ hr]
      unfold Engine.link at hinc
      simp only [hinc]
    obtain ⟨t, ht, hq0, hcr, h1, h2, h3⟩ := ih
      { u with io := { u.io with
          engine := (u.io.engine.pn_link_advance r).releaseAndSettle r d } }
      (by
        show (((u.io.engine.pn_link_advance r).releaseAndSettle r d).link r).incoming.length = k
        rw [hlink]
        rw [hinc] at hq
        simpa using hq)
    refine ⟨t, ?_, hq0, ?_, h1, h2, h3⟩
    · rw [releaseUnfetched]
      simp only [M.bind_apply, M.get_apply, hcur, onEngine, M.modify_apply]
      exact ht
    · rw [hcr]
      show (((u.io.engine.pn_link_advance r).releaseAndSettle r d).link r).credit - (k : Int)
        = (u.io.engine.link r).credit - ((k + 1 : Nat) : Int)
      rw [hlink]
      push_cast
      ring

end ConnectionContext

namespace ConnectionContext

/-- Reading an element that is not in the table after a change of it. -/
theorem getD_modifyAt_out {α : Type} (f : α → α) (d : α) (l : List α) (i : Nat)
    (h : ¬ i < l.length) : (modifyAt f i l).getD i d = d :=
  List.getD_eq_default _ _ (by rw [length_modifyAt]; omega)

/-- Neither the request of a drain nor the wakeup of the driver reads the clock. -/
theorem wakeupDriver_fixes_clock : M.Fixes (fun s => (s.clock, s.reads)) wakeupDriver := by
  unfold wakeupDriver
  refine M.fixes_bind (M.fixes_get _) fun s => ?_
  split
  · exact M.fixes_bind (M.fixes_modify fun _ => rfl) fun _ => M.fixes_modify fun _ => rfl
  · exact M.fixes_pure _ _
  · exact M.fixes_pure _ _

/-- When `drain_and_release_messages` returns, no delivery is queued on the link,
and either the credit is used up or the two seconds allowed for the drain are
over. -/
theorem drain_and_release_ret (E : Env) (ac : M Unit) (fuel ssn lnk : Nat)
    (s t : ConnectionContext)
    (h : drain_and_release_messages E ac fuel ssn lnk s = (.ret (), t)) :
    t.io.engine.pn_link_queued (t.rcv lnk).receiver = 0
      ∧ (t.io.engine.pn_link_credit (t.rcv lnk).receiver ≤ 0
        ∨ s.clock + E.elapse s.reads + TIME_SEC * 2 ≤ t.clock) := by
  unfold drain_and_release_messages at h
  obtain ⟨a1, s1, h1, h⟩ := M.bind_eq_ret h
  have e1 : a1 = s ∧ s1 = s := by
    simp only [M.get_apply, Prod.mk.injEq, Outcome.ret.injEq] at h1
    exact ⟨h1.1.symm, h1.2.symm⟩
  rw [e1.1, e1.2] at h
  clear h1 e1 a1 s1
  obtain ⟨_, s2, h2, h⟩ := M.bind_eq_ret h
  obtain ⟨_, s3, h3, h⟩ := M.bind_eq_ret h
  obtain ⟨c, s4, h4, h⟩ := M.bind_eq_ret h
  obtain ⟨_, s5, h5, h⟩ := M.bind_eq_ret h
  obtain ⟨a6, s6, h6, h⟩ := M.bind_eq_ret h
  have e6 : a6 = s5 ∧ s6 = s5 := by
    simp only [M.get_apply, Prod.mk.injEq, Outcome.ret.injEq] at h6
    exact ⟨h6.1.symm, h6.2.symm⟩
  rw [e6.1, e6.2] at h
  clear h6 e6 a6 s6
  have hs2 : s2.clock = s.clock ∧ s2.reads = s.reads := by
    have := congrArg Prod.snd h2
    simp only [onEngine, M.modify_apply] at this
    rw [← this]
    exact ⟨rfl, rfl⟩
  have hs3 : s3.clock = s2.clock ∧ s3.reads = s2.reads := by
    have := wakeupDriver_fixes_clock s2
    rw [h3] at this
    exact ⟨congrArg Prod.fst this, congrArg Prod.snd this⟩
  have hc : c = s.clock + E.elapse s.reads := by
    have hnow : now E s3 = (.ret (s3.clock + E.elapse s3.reads),
        { s3 with clock := s3.clock + E.elapse s3.reads, reads := s3.reads + 1 }) := rfl
    rw [hnow] at h4
    simp only [Prod.mk.injEq, Outcome.ret.injEq] at h4
    rw [← h4.1, hs3.1, hs3.2, hs2.1, hs2.2]
  obtain ⟨u, hu⟩ := M.loop_ret_exit fuel s4 s5 h5
  obtain ⟨-, hexit⟩ := drainPending_false E lnk _ u s5 hu
  obtain ⟨t2, ht2, hq0, hcr, hrcv, -, hclk⟩ := releaseUnfetched_spec (s5.rcv lnk).receiver
    (s5.io.engine.pn_link_queued (s5.rcv lnk).receiver) s5 rfl
  rw [ht2] at h
  have et : t2 = t := by simpa using h
  subst et
  have hr : (t2.rcv lnk).receiver = (s5.rcv lnk).receiver := by
    unfold rcv
    rw [hrcv]
  rw [hr]
  refine ⟨hq0, ?_⟩
  rcases hexit with hle | hdl
  · left
    rw [hcr]
    omega
  · right
    rw [hclk, ← hc]
    exact hdl

end ConnectionContext

namespace ConnectionContext

/-- A timed wait of `fetch` after which the connection, session and receiver are
sound only lets the I/O thread make its change. -/
theorem waitUntilRcv_sound (E : Env) (ac : M Unit) (ssn rcv : Nat) (s : ConnectionContext)
    (h1 : ReceiverSound ssn rcv (waited E 1 s)) :
    waitUntilRcv E ac ssn rcv s = (.ret (), waited E 1 s) := by
  obtain ⟨a1, b1, c1⟩ := h1
  simp only [waitUntilRcv, M.bind_apply, waitUntil_eq_check, check_healthy ac _ a1,
    checkClosedRcv, M.get_apply]
  exact checkClosedLink_open ac ssn _ _ a1 b1 c1

theorem polled_zero (E : Env) (s : ConnectionContext) : polled E 0 s = s := by
  cases s; simp [polled, waited, wakes, clockAfter]

theorem polled_succ (E : Env) (j : Nat) (s : ConnectionContext) :
    polled E (j + 1) s
      = polled E j (waited E 1
          { s with clock := s.clock + E.elapse s.reads, reads := s.reads + 1 }) := by
  simp only [polled, waited, wakes, clockAfter]
  congr 1 <;> omega

/-- A wait changes neither the clock nor the count of its readings. -/
theorem waited_clocked (E : Env) (k c r : Nat) (s : ConnectionContext) :
    waited E k { s with clock := c, reads := r } = { waited E k s with clock := c, reads := r } :=
  rfl

/-- The loop of `get` when the message `d` arrives at the `j`-th wakeup, before the
deadline, the receiver staying sound: it reads the clock and waits `j` times,
and then receives `d`. -/
theorem getLoop_arrives (E : Env) (ac : M Unit) (ssn lnk deadline : Nat) (d : Incoming) :
    ∀ (j fuel : Nat) (u : ConnectionContext), j ≤ fuel →
      (∀ i, i ≤ j → ReceiverSound ssn lnk (waited E i u)) →
      (∀ i, i < j → (waited E i u).io.engine.pn_link_queued (u.rcv lnk).receiver = 0) →
      (∀ i, i < j → clockAfter E u.reads u.clock (i + 1) < deadline) →
      (waited E j u).io.engine.pn_link_current (u.rcv lnk).receiver = some d →
      getLoop E ac ssn lnk deadline (fuel + 1) u
        = (receive E ssn lnk d >>= fun m => pure (some m)) (polled E j u) := by
  intro j
  induction j with
  | zero =>
    intro fuel u _ hsound _ _ hcur
    rw [waited_zero] at hcur
    have hs0 : ReceiverSound ssn lnk u := by simpa [waited_zero] using hsound 0 (le_refl 0)
    rw [polled_zero, getLoop]
    simp only [M.bind_apply]
    rw [checkClosedRcv_sound ac ssn lnk u hs0]
    simp only [M.get_apply]
    rw [hcur]
    simp only [M.bind_apply]
  | succ j ih =>
    intro fuel u hf hsound hempty hintime hcur
    obtain ⟨f, rfl⟩ : ∃ f, fuel = f + 1 := ⟨fuel - 1, by omega⟩
    have hs0 : ReceiverSound ssn lnk u := by simpa [waited_zero] using hsound 0 (by omega)
    have hq0 : u.io.engine.pn_link_queued (u.rcv lnk).receiver = 0 := by
      simpa [waited_zero] using hempty 0 (by omega)
    have hcur0 : u.io.engine.pn_link_current (u.rcv lnk).receiver = none := by
      unfold Engine.pn_link_queued at hq0
      unfold Engine.pn_link_current
      rw [List.length_eq_zero] at hq0
      rw [hq0]
      rfl
    have hnow : now E u = (.ret (u.clock + E.elapse u.reads),
        { u with clock := u.clock + E.elapse u.reads, reads := u.reads + 1 }) := rfl
    have ht : u.clock + E.elapse u.reads < deadline := hintime 0 (by omega)
    have hw := waitUntilRcv_sound E ac ssn lnk
      { u with clock := u.clock + E.elapse u.reads, reads := u.reads + 1 } (hsound 1 (by omega))
    rw [getLoop]
    simp only [M.bind_apply]
    rw [checkClosedRcv_sound ac ssn lnk u hs0]
    simp only [M.get_apply]
    rw [hcur0]
    simp only [M.bind_apply, hnow]
    rw [if_pos ht]
    simp only [M.bind_apply, hw]
    rw [polled_succ]
    refine ih f _ (by omega) ?_ ?_ ?_ ?_
    · intro i hi
      rw [← waited_succ E i]
      exact hsound (i + 1) (by omega)
    · intro i hi
      rw [← waited_succ E i]
      exact hempty (i + 1) (by omega)
    · intro i hi
      exact hintime (i + 1) (by omega)
    · rw [← waited_succ E j]
      exact hcur

end ConnectionContext

namespace ConnectionContext

/-- The credit of a link after `pn_link_advance` past a current delivery. -/
theorem credit_advance (g : Engine) (r : Nat) (d : Incoming)
    (h : g.pn_link_current r = some d) :
    (g.pn_link_advance r).pn_link_credit r = g.pn_link_credit r - 1 := by
  have hr : r < g.links.length := by
    by_contra hlt
    have : g.link r = default := by
      unfold Engine.link
      exact List.getD_eq_default _ _ (by omega)
    unfold Engine.pn_link_current at h
    rw [this] at h
    cases h
  unfold Engine.pn_link_current at h
  unfold Engine.pn_link_advance Engine.pn_link_credit Engine.modifyLink
  show (Engine.link _ r).credit = _
  unfold Engine.link at h ⊢
  simp only
  rw [getD_modifyAt_self _ _ _ _ hr]
  cases hinc : (g.links.getD r default).incoming with
  | nil => rw [hinc] at h; cases h
  | cons a rest => rfl

/-- The branch `if (current)` of `get` on a receiver without capacity, when the
message can be read: the result is the message, the link is advanced, and no
credit is granted. -/
theorem receive_no_capacity (E : Env) (ssn lnk : Nat) (d : Incoming) (p : ConnectionContext)
    (hcap : (p.rcv lnk).capacity = 0)
    (hrecv : E.recvFails p.io.engine (p.rcv lnk).receiver = false) :
    receive E ssn lnk d p
      = (.ret ⟨d.payload, (p.ssn ssn).nextId⟩,
         { (SessionContext.record ssn d p).2 with
           io := { p.io with engine := p.io.engine.pn_link_advance (p.rcv lnk).receiver } }) := by
  have hrec : SessionContext.record ssn d p
      = (.ret (p.ssn ssn).nextId, (SessionContext.record ssn d p).2) := rfl
  unfold receive
  simp only [M.bind_apply, M.get_apply, M.when_apply, hrecv, Bool.false_eq_true, if_false,
    M.pure_apply2]
  rw [hrec]
  simp only [onEngine, M.modify_apply, replenish, M.bind_apply, M.get_apply, M.when_apply]
  have hc2 : (rcv { (SessionContext.record ssn d p).2 with
      io := { (SessionContext.record ssn d p).2.io with
        engine := (SessionContext.record ssn d p).2.io.engine.pn_link_advance
          (p.rcv lnk).receiver } } lnk).capacity = 0 := hcap
  rw [if_neg (by rw [hc2]; simp)]
  rfl

end ConnectionContext

namespace ConnectionContext

/-- A `fetch` on a sound receiver without capacity, when the message `d` arrives at
the `j`-th wakeup of the first `get`, before the deadline: the result is `true`
with that message, and the engine on return is the one of that wakeup with the
link advanced past the message. -/
theorem fetch_arrives (E : Env) (fuel ssn lnk timeout : Nat) (s : ConnectionContext) (j : Nat)
    (d : Incoming) (hj : j ≤ fuel) (hcap : (s.rcv lnk).capacity = 0)
    (hs : ReceiverSound ssn lnk s) (htimeout : timeout < TIME_INFINITE / TIME_MSEC)
    (hsound : ∀ i, i ≤ j → ReceiverSound ssn lnk (waited E i (atGetLoop E lnk s)))
    (hempty : ∀ i, i < j →
      (waited E i (atGetLoop E lnk s)).io.engine.pn_link_queued (s.rcv lnk).receiver = 0)
    (hintime : ∀ i, i < j →
      clockAfter E (atGetLoop E lnk s).reads (atGetLoop E lnk s).clock (i + 1)
        < (atGetLoop E lnk s).clock + timeout * TIME_MSEC)
    (harrive : (waited E j (atGetLoop E lnk s)).io.engine.pn_link_current (s.rcv lnk).receiver
      = some d)
    (hrecv : E.recvFails (waited E j (atGetLoop E lnk s)).io.engine (s.rcv lnk).receiver
      = false) :
    ∃ s1, fetch E fuel ssn lnk timeout s = (.ret (some ⟨d.payload, (s.ssn ssn).nextId⟩), s1)
      ∧ s1.io.engine
        = (waited E j (atGetLoop E lnk s)).io.engine.pn_link_advance (s.rcv lnk).receiver := by
  obtain ⟨s1, hs1⟩ : ∃ s1, s1 = { s with
      rcvObjs := modifyAt (fun o => { o with fetching := o.fetching + 1 }) lnk s.rcvObjs } :=
    ⟨_, rfl⟩
  have hr1 : (s1.rcv lnk).receiver = (s.rcv lnk).receiver := by
    rw [hs1]
    exact getD_modifyAt_keeps (fun o : ReceiverContext => { o with fetching := o.fetching + 1 })
      ReceiverContext.receiver default (fun _ => rfl) s.rcvObjs lnk lnk
  have hc1 : (s1.rcv lnk).capacity = 0 := by
    rw [hs1, ← hcap]
    exact getD_modifyAt_keeps (fun o : ReceiverContext => { o with fetching := o.fetching + 1 })
      ReceiverContext.capacity default (fun _ => rfl) s.rcvObjs lnk lnk
  have hsound1 : ReceiverSound ssn lnk s1 :=
    receiverSound_of_eq ssn lnk s s1 (by rw [hs1]) (by rw [hs1]) (by rw [hs1])
      (by rw [hs1]; intro l; rfl) (by rw [hs1]; rfl) hr1 hs
  obtain ⟨s2, hs2⟩ : ∃ s2, s2 = { s1 with
      io := { s1.io with engine := s1.io.engine.pn_link_flow (s.rcv lnk).receiver 1,
                         haveOutput := true },
      calls := s1.calls ++ [Call.activateOutput] } := ⟨_, rfl⟩
  have e2 : fetchCredit (autoconnect E fuel) ssn lnk s1 = (.ret (), s2) := by
    rw [hs2, fetchCredit_sound _ ssn lnk _ 0 s1 hsound1 hr1 hc1, if_pos rfl]
  obtain ⟨s3, hs3⟩ : ∃ s3, s3 = { s2 with
      clock := s2.clock + E.elapse s2.reads, reads := s2.reads + 1 } := ⟨_, rfl⟩
  have hA : atGetLoop E lnk s = s3 := by
    rw [hs3, hs2, hs1]
    unfold atGetLoop
    simp only [hcap, if_true]
  rw [hA] at hsound hempty hintime harrive hrecv ⊢
  have hr3 : (s3.rcv lnk).receiver = (s.rcv lnk).receiver := by
    rw [hs3, hs2]; exact hr1
  have hc3 : (s3.rcv lnk).capacity = 0 := by
    rw [hs3, hs2]; exact hc1
  have hssn3 : (s3.ssn ssn).nextId = (s.ssn ssn).nextId := by
    rw [hs3, hs2, hs1]; rfl
  have e3 : get E (autoconnect E fuel) fuel ssn lnk timeout s2
      = (receive E ssn lnk d >>= fun m => pure (some m)) (polled E j s3) := by
    have hnow : now E s2 = (.ret (s2.clock + E.elapse s2.reads), s3) := by rw [hs3]; rfl
    unfold get convert
    rw [if_pos htimeout]
    simp only [M.bind_apply, hnow, M.pure_apply]
    refine getLoop_arrives E _ ssn lnk _ d j fuel s3 hj hsound ?_ ?_ ?_
    · intro i hi; rw [hr3]; exact hempty i hi
    · intro i hi
      have := hintime i hi
      rw [hs3] at this ⊢
      exact this
    · rw [hr3]; exact harrive
  have e4 := receive_no_capacity E ssn lnk d (polled E j s3) hc3
    (by
      show E.recvFails (waited E j s3).io.engine (s3.rcv lnk).receiver = false
      rw [hr3]; exact hrecv)
  have key : fetch E fuel ssn lnk timeout s
      = (.ret (some ⟨d.payload, (s.ssn ssn).nextId⟩),
         { (SessionContext.record ssn d (polled E j s3)).2 with
           io := { (polled E j s3).io with
             engine := (polled E j s3).io.engine.pn_link_advance (s.rcv lnk).receiver },
           rcvObjs := modifyAt (fun o => { o with fetching := o.fetching - 1 }) lnk
             (SessionContext.record ssn d (polled E j s3)).2.rcvObjs }) := by
    unfold fetch fetchWith
    refine scopedIncrement_ret lnk _ s
      { (SessionContext.record ssn d (polled E j s3)).2 with
        io := { (polled E j s3).io with
          engine := (polled E j s3).io.engine.pn_link_advance (s.rcv lnk).receiver } }
      _ ?_
    rw [← hs1]
    simp only [M.bind_apply, e2, e3, e4]
    rw [← hr3, ← hssn3]
    rfl
  exact ⟨_, key, rfl⟩

end ConnectionContext

namespace ConnectionContext

/-- Changing an element of a table by a function that keeps a component keeps the
list of that component. -/
theorem map_modifyAt_keeps {α β : Type} (f : α → α) (g : α → β) (hf : ∀ a, g (f a) = g a) :
    ∀ (l : List α) (i : Nat), (modifyAt f i l).map g = l.map g := by
  intro l
  induction l with
  | nil => intro i; simp [modifyAt]
  | cons a as ih => intro i; cases i <;> simp [modifyAt, hf, ih]

theorem counts_onEngine (f : Engine → Engine) : M.Fixes fetchCounts (onEngine f) :=
  M.fixes_modify fun _ => rfl

theorem counts_lockWait (E : Env) : M.Fixes fetchCounts (lockWait E) :=
  M.fixes_modify fun _ => rfl

theorem counts_now (E : Env) : M.Fixes fetchCounts (now E) := fun _ => rfl

theorem counts_call (c : Call) : M.Fixes fetchCounts (call c) := M.fixes_modify fun _ => rfl

theorem counts_wakeupDriver : M.Fixes fetchCounts wakeupDriver := by
  unfold wakeupDriver
  refine M.fixes_bind (M.fixes_get _) fun s => ?_
  split
  · exact M.fixes_bind (M.fixes_modify fun _ => rfl) fun _ => counts_call _
  · exact M.fixes_pure _ _
  · exact M.fixes_pure _ _

theorem counts_configureConnection : M.Fixes fetchCounts configureConnection :=
  M.fixes_bind (M.fixes_get _) fun _ => M.fixes_when _ (counts_onEngine _)

theorem counts_senderReset (session p : Nat) :
    M.Fixes fetchCounts (SenderContext.reset session p) := by
  unfold SenderContext.reset
  exact M.fixes_modify fun _ => rfl

/-- `ReceiverContext::reset` gives the receiver a new link and keeps its counter. -/
theorem counts_receiverReset (session p : Nat) :
    M.Fixes fetchCounts (ReceiverContext.reset session p) := by
  unfold ReceiverContext.reset
  exact M.fixes_modify fun s =>
    map_modifyAt_keeps
      (fun o : ReceiverContext =>
        { o with receiver := (s.io.engine.pn_link session (s.rcv p).name).1 })
      (fun o => o.fetching) (fun _ => rfl) s.rcvObjs p

theorem counts_sessionReset (p : Nat) : M.Fixes fetchCounts (SessionContext.reset p) := by
  unfold SessionContext.reset
  refine M.fixes_bind (M.fixes_modify fun _ => rfl) fun _ => ?_
  refine M.fixes_bind (M.fixes_get _) fun s => ?_
  refine M.fixes_bind (M.fixes_forEach (fun _ => counts_senderReset _ _) _) fun _ => ?_
  exact M.fixes_forEach (fun _ => counts_receiverReset _ _) _

theorem counts_reset : M.Fixes fetchCounts reset := by
  unfold reset
  refine M.fixes_bind (counts_call _) fun _ => ?_
  refine M.fixes_bind (counts_onEngine _) fun _ => ?_
  refine M.fixes_bind counts_configureConnection fun _ => ?_
  exact M.fixes_bind (M.fixes_get _) fun s => M.fixes_forEach (fun _ => counts_sessionReset _) _

theorem counts_checkConnectionClosed : M.Fixes fetchCounts checkConnectionClosed :=
  M.fixes_bind (M.fixes_get _) fun _ =>
    M.fixes_when _ (M.fixes_bind (counts_onEngine _) fun _ => M.fixes_raise _ _)

theorem counts_checkDisconnected : M.Fixes fetchCounts checkDisconnected := by
  unfold checkDisconnected
  refine M.fixes_bind (M.fixes_get _) fun s => ?_
  refine M.fixes_bind (M.fixes_ite _ counts_reset counts_checkConnectionClosed) fun _ => ?_
  exact M.fixes_bind (M.fixes_get _) fun _ => M.fixes_pure _ _

theorem counts_check (ac : M Unit) (hac : M.Fixes fetchCounts ac) :
    M.Fixes fetchCounts (check ac) := by
  unfold check
  refine M.fixes_bind counts_checkDisconnected fun d => ?_
  refine M.fixes_bind (M.fixes_get _) fun s => ?_
  exact M.fixes_ite _ (M.fixes_ite _ hac (M.fixes_raise _ _)) (M.fixes_pure _ _)

theorem counts_wait (E : Env) (ac : M Unit) (hac : M.Fixes fetchCounts ac) :
    M.Fixes fetchCounts (wait E ac) :=
  M.fixes_bind (counts_check ac hac) fun _ =>
    M.fixes_bind (counts_lockWait E) fun _ => counts_check ac hac

theorem counts_waitUntil (E : Env) (ac : M Unit) (hac : M.Fixes fetchCounts ac) :
    M.Fixes fetchCounts (waitUntil E ac) :=
  M.fixes_bind (counts_lockWait E) fun _ => counts_check ac hac

theorem counts_checkClosedSsn (ac : M Unit) (hac : M.Fixes fetchCounts ac) (ssn : Nat) :
    M.Fixes fetchCounts (checkClosedSsn ac ssn) := by
  unfold checkClosedSsn
  refine M.fixes_bind (counts_check ac hac) fun _ => M.fixes_bind (M.fixes_get _) fun s => ?_
  refine M.fixes_ite _ (M.fixes_bind (counts_onEngine _) fun _ => M.fixes_raise _ _) ?_
  exact M.fixes_ite _ (M.fixes_raise _ _) (M.fixes_pure _ _)

theorem counts_checkClosedLink (ac : M Unit) (hac : M.Fixes fetchCounts ac) (ssn lnk : Nat) :
    M.Fixes fetchCounts (checkClosedLink ac ssn lnk) := by
  unfold checkClosedLink
  refine M.fixes_bind (counts_checkClosedSsn ac hac ssn) fun _ =>
    M.fixes_bind (M.fixes_get _) fun s => ?_
  refine M.fixes_ite _ ?_ (M.fixes_ite _ (M.fixes_raise _ _) (M.fixes_pure _ _))
  refine M.fixes_bind (counts_onEngine _) fun _ => ?_
  exact M.fixes_ite _ (M.fixes_raise _ _) (M.fixes_ite _ (M.fixes_raise _ _) (M.fixes_raise _ _))

theorem counts_checkClosedRcv (ac : M Unit) (hac : M.Fixes fetchCounts ac) (ssn lnk : Nat) :
    M.Fixes fetchCounts (checkClosedRcv ac ssn lnk) :=
  M.fixes_bind (M.fixes_get _) fun _ => counts_checkClosedLink ac hac ssn _

theorem counts_waitSsn (E : Env) (ac : M Unit) (hac : M.Fixes fetchCounts ac) (ssn : Nat) :
    M.Fixes fetchCounts (waitSsn E ac ssn) :=
  M.fixes_bind (counts_wait E ac hac) fun _ => counts_checkClosedSsn ac hac ssn

theorem counts_waitRcv (E : Env) (ac : M Unit) (hac : M.Fixes fetchCounts ac) (ssn lnk : Nat) :
    M.Fixes fetchCounts (waitRcv E ac ssn lnk) :=
  M.fixes_bind (counts_wait E ac hac) fun _ => counts_checkClosedRcv ac hac ssn lnk

theorem counts_waitUntilRcv (E : Env) (ac : M Unit) (hac : M.Fixes fetchCounts ac)
    (ssn lnk : Nat) : M.Fixes fetchCounts (waitUntilRcv E ac ssn lnk) :=
  M.fixes_bind (counts_waitUntil E ac hac) fun _ => counts_checkClosedRcv ac hac ssn lnk

theorem counts_convert (E : Env) (timeout : Nat) : M.Fixes fetchCounts (convert E timeout) := by
  unfold convert
  exact M.fixes_ite _ (M.fixes_bind (counts_now E) fun _ => M.fixes_pure _ _) (M.fixes_pure _ _)

theorem counts_replenish (E : Env) (lnk : Nat) : M.Fixes fetchCounts (replenish E lnk) := by
  unfold replenish
  refine M.fixes_bind (M.fixes_get _) fun s => M.fixes_when _ ?_
  refine M.fixes_bind (counts_onEngine _) fun _ => ?_
  exact M.fixes_ite _ counts_wakeupDriver (M.fixes_modify fun _ => rfl)

theorem counts_receive (E : Env) (ssn lnk : Nat) (d : Incoming) :
    M.Fixes fetchCounts (receive E ssn lnk d) := by
  unfold receive
  refine M.fixes_bind (M.fixes_get _) fun s => ?_
  refine M.fixes_bind (M.fixes_when _ (M.fixes_raise _ _)) fun _ => ?_
  refine M.fixes_bind (fun _ => rfl) fun _ => ?_
  refine M.fixes_bind (counts_onEngine _) fun _ => ?_
  exact M.fixes_bind (counts_replenish E lnk) fun _ => M.fixes_pure _ _

theorem counts_getLoop (E : Env) (ac : M Unit) (hac : M.Fixes fetchCounts ac)
    (ssn lnk deadline : Nat) :
    ∀ fuel : Nat, M.Fixes fetchCounts (getLoop E ac ssn lnk deadline fuel) := by
  intro fuel
  induction fuel with
  | zero => rw [getLoop]; exact M.fixes_stuck _
  | succ k ih =>
    rw [getLoop]
    refine M.fixes_bind (counts_checkClosedRcv ac hac ssn lnk) fun _ => ?_
    refine M.fixes_bind (M.fixes_get _) fun s => ?_
    split
    · exact M.fixes_bind (counts_receive E ssn lnk _) fun _ => M.fixes_pure _ _
    · refine M.fixes_bind (counts_now E) fun t => M.fixes_ite _ ?_ (M.fixes_pure _ _)
      exact M.fixes_bind (counts_waitUntilRcv E ac hac ssn lnk) fun _ => ih

theorem counts_get (E : Env) (ac : M Unit) (hac : M.Fixes fetchCounts ac)
    (fuel ssn lnk timeout : Nat) : M.Fixes fetchCounts (get E ac fuel ssn lnk timeout) :=
  M.fixes_bind (counts_convert E timeout) fun _ => counts_getLoop E ac hac ssn lnk _ _

theorem counts_fetchCredit (ac : M Unit) (hac : M.Fixes fetchCounts ac) (ssn lnk : Nat) :
    M.Fixes fetchCounts (fetchCredit ac ssn lnk) := by
  unfold fetchCredit
  refine M.fixes_bind (counts_checkClosedRcv ac hac ssn lnk) fun _ => ?_
  refine M.fixes_bind (M.fixes_get _) fun s => M.fixes_when _ ?_
  exact M.fixes_bind (counts_onEngine _) fun _ => counts_wakeupDriver

theorem counts_fetchDrain (E : Env) (ac : M Unit) (hac : M.Fixes fetchCounts ac)
    (fuel ssn lnk : Nat) : M.Fixes fetchCounts (fetchDrain E ac fuel ssn lnk) := by
  unfold fetchDrain
  refine M.fixes_bind (M.fixes_get _) fun s => ?_
  refine M.fixes_bind (counts_onEngine _) fun _ => ?_
  refine M.fixes_bind counts_wakeupDriver fun _ => ?_
  refine M.fixes_bind (M.fixes_loop (M.fixes_test _ _) (counts_waitRcv E ac hac ssn lnk) fuel)
    fun _ => ?_
  exact M.fixes_bind (M.fixes_get _) fun s => M.fixes_when _ (counts_onEngine _)

theorem counts_fetchAgain (E : Env) (ac : M Unit) (hac : M.Fixes fetchCounts ac)
    (fuel ssn lnk : Nat) : M.Fixes fetchCounts (fetchAgain E ac fuel ssn lnk) := by
  unfold fetchAgain
  refine M.fixes_bind (counts_get E ac hac fuel ssn lnk _) fun r => ?_
  split
  · refine M.fixes_bind (M.fixes_get _) fun s => ?_
    refine M.fixes_bind (M.fixes_when _ ?_) fun _ => M.fixes_pure _ _
    exact M.fixes_bind (counts_onEngine _) fun _ => counts_wakeupDriver
  · exact M.fixes_pure _ _

end ConnectionContext

namespace ConnectionContext

theorem counts_verify (E : Env) (lnk : Nat) : M.Fixes fetchCounts (verify E lnk) := by
  unfold verify
  refine M.fixes_bind (M.fixes_get _) fun s => ?_
  split
  · exact M.fixes_raise _ _
  · exact M.fixes_pure _ _

theorem counts_attachLink (E : Env) (ac : M Unit) (hac : M.Fixes fetchCounts ac)
    (fuel ssn link credit : Nat) : M.Fixes fetchCounts (attachLink E ac fuel ssn link credit) := by
  unfold attachLink
  refine M.fixes_bind (counts_onEngine _) fun _ => ?_
  refine M.fixes_bind (M.fixes_when _ (counts_onEngine _)) fun _ => ?_
  refine M.fixes_bind counts_wakeupDriver fun _ => ?_
  exact M.fixes_loop (M.fixes_test _ _) (counts_waitSsn E ac hac ssn) fuel

theorem counts_resendDelivery (p : Nat) (d : Delivery) :
    M.Fixes fetchCounts (resendDelivery p d) := by
  unfold resendDelivery
  exact M.fixes_when _ (M.fixes_modify fun _ => rfl)

theorem counts_resend (p : Nat) : M.Fixes fetchCounts (SenderContext.resend p) := by
  unfold SenderContext.resend
  refine M.fixes_bind (counts_call _) fun _ => M.fixes_bind (M.fixes_get _) fun s => ?_
  exact M.fixes_forEach (fun d => counts_resendDelivery p d) _

theorem counts_reattachSender (E : Env) (ac : M Unit) (hac : M.Fixes fetchCounts ac)
    (fuel p snd : Nat) : M.Fixes fetchCounts (reattachSender E ac fuel p snd) := by
  unfold reattachSender
  refine M.fixes_bind (M.fixes_get _) fun s =>
    M.fixes_bind (counts_attachLink E ac hac fuel p _ _) fun _ => ?_
  exact M.fixes_bind (M.fixes_get _) fun s =>
    M.fixes_bind (counts_verify E _) fun _ => counts_resend snd

theorem counts_reattachReceiver (E : Env) (ac : M Unit) (hac : M.Fixes fetchCounts ac)
    (fuel p rcv : Nat) : M.Fixes fetchCounts (reattachReceiver E ac fuel p rcv) := by
  unfold reattachReceiver
  refine M.fixes_bind (M.fixes_get _) fun s => ?_
  refine M.fixes_bind
    (M.fixes_ite _ (counts_attachLink E ac hac fuel p _ _) (counts_attachLink E ac hac fuel p _ _))
    fun _ => ?_
  exact M.fixes_bind (M.fixes_get _) fun s => counts_verify E _

theorem counts_restartSession (E : Env) (ac : M Unit) (hac : M.Fixes fetchCounts ac)
    (fuel p : Nat) : M.Fixes fetchCounts (restartSession E ac fuel p) := by
  unfold restartSession
  refine M.fixes_bind (M.fixes_get _) fun s => M.fixes_bind (counts_onEngine _) fun _ => ?_
  refine M.fixes_bind counts_wakeupDriver fun _ => ?_
  refine M.fixes_bind (M.fixes_loop (by unfold sessionRemoteUninit; exact M.fixes_test _ _)
    (counts_wait E ac hac) fuel) fun _ => ?_
  refine M.fixes_bind (M.fixes_get _) fun s => ?_
  refine M.fixes_bind (@M.fixes_forEach (String × Nat) _ fetchCounts
    (fun i => reattachSender E ac fuel p i.2)
    (fun i => counts_reattachSender E ac hac fuel p i.2) _) fun _ => ?_
  refine M.fixes_bind (M.fixes_get _) fun s => ?_
  refine M.fixes_bind (@M.fixes_forEach (String × Nat) _ fetchCounts
    (fun i => reattachReceiver E ac fuel p i.2)
    (fun i => counts_reattachReceiver E ac hac fuel p i.2) _) fun _ => ?_
  exact counts_wakeupDriver

theorem counts_restartSessions (E : Env) (ac : M Unit) (hac : M.Fixes fetchCounts ac)
    (fuel : Nat) : M.Fixes fetchCounts (restartSessions E ac fuel) := by
  unfold restartSessions
  refine M.fixes_tryCatch ?_ fun _ => M.fixes_pure _ _
  refine M.fixes_bind (M.fixes_get _) fun s => ?_
  exact M.fixes_bind (@M.fixes_forEach (String × Nat) _ fetchCounts
    (fun i => restartSession E ac fuel i.2)
    (fun i => counts_restartSession E ac hac fuel i.2) _) fun _ => M.fixes_pure _ _

theorem counts_prepareConnect (a : Address) : M.Fixes fetchCounts (prepareConnect a) := by
  unfold prepareConnect
  refine M.fixes_bind (M.fixes_modify fun _ => rfl) fun _ => ?_
  refine M.fixes_bind (M.fixes_get _) fun s => ?_
  refine M.fixes_bind (M.fixes_when _ (M.fixes_modify fun _ => rfl)) fun _ => ?_
  exact M.fixes_modify fun _ => rfl

theorem counts_waitConnected (E : Env) :
    ∀ fuel : Nat, M.Fixes fetchCounts (waitConnected E fuel) := by
  intro fuel
  induction fuel with
  | zero =>
    rw [waitConnected]
    refine M.fixes_bind (M.fixes_get _) fun s => ?_
    split
    · exact M.fixes_pure _ _
    · exact M.fixes_stuck _
    · exact M.fixes_pure _ _
  | succ k ih =>
    rw [waitConnected]
    refine M.fixes_bind (M.fixes_get _) fun s => ?_
    split
    · exact M.fixes_pure _ _
    · exact M.fixes_bind (counts_lockWait E) fun _ => ih
    · exact M.fixes_pure _ _

theorem counts_connectAndWait (E : Env) (fuel : Nat) (a : Address) :
    M.Fixes fetchCounts (connectAndWait E fuel a) := by
  unfold connectAndWait
  refine M.fixes_bind (M.fixes_get _) fun s => ?_
  refine M.fixes_bind (M.fixes_modify fun _ => rfl) fun _ => ?_
  refine M.fixes_bind (counts_call _) fun _ => ?_
  split
  · exact M.fixes_raise _ _
  · exact counts_waitConnected E fuel

theorem counts_tryConnectAddr (E : Env) (fuel : Nat) (a : Address) :
    M.Fixes fetchCounts (tryConnectAddr E fuel a) := by
  unfold tryConnectAddr
  refine M.fixes_bind (counts_prepareConnect a) fun _ => ?_
  refine M.fixes_bind (M.fixes_tryCatch (counts_connectAndWait E fuel a) fun _ =>
    M.fixes_bind (M.fixes_modify fun _ => rfl) fun _ => M.fixes_pure _ _) fun c => ?_
  refine M.fixes_ite _ (M.fixes_pure _ _) ?_
  exact M.fixes_bind (M.fixes_modify fun _ => rfl) fun _ => M.fixes_pure _ _

theorem counts_waitNoReconnect (E : Env) : M.Fixes fetchCounts (waitNoReconnect E) := by
  unfold waitNoReconnect
  refine M.fixes_bind counts_checkDisconnected fun d => M.fixes_ite _ (M.fixes_pure _ _) ?_
  refine M.fixes_bind (counts_lockWait E) fun _ => ?_
  exact M.fixes_bind counts_checkDisconnected fun _ => M.fixes_pure _ _

theorem counts_startTicker : M.Fixes fetchCounts startTicker := by
  unfold startTicker
  refine M.fixes_bind (M.fixes_get _) fun s => M.fixes_when _ ?_
  exact M.fixes_bind (M.fixes_modify fun _ => rfl) fun _ => counts_call _

theorem counts_awaitAuthenticated (E : Env) (fuel : Nat) :
    M.Fixes fetchCounts (awaitAuthenticated E fuel) := by
  unfold awaitAuthenticated
  refine M.fixes_bind (M.fixes_get _) fun s => M.fixes_when _ ?_
  exact M.fixes_bind counts_wakeupDriver fun _ =>
    M.fixes_loop (M.fixes_test _ _) (counts_waitNoReconnect E) fuel

theorem counts_openConnection (E : Env) (ac : M Unit) (hac : M.Fixes fetchCounts ac)
    (fuel : Nat) : M.Fixes fetchCounts (openConnection E ac fuel) := by
  unfold openConnection
  refine M.fixes_bind (counts_onEngine _) fun _ => M.fixes_bind counts_wakeupDriver fun _ => ?_
  refine M.fixes_bind (M.fixes_loop (M.fixes_test _ _) (counts_waitNoReconnect E) fuel)
    fun _ => ?_
  refine M.fixes_bind (M.fixes_get _) fun s => M.fixes_ite _ (M.fixes_pure _ _) ?_
  refine M.fixes_ite _ (M.fixes_raise _ _) ?_
  exact M.fixes_bind counts_startTicker fun _ => counts_restartSessions E ac hac fuel

theorem counts_tryOpenAddr (E : Env) (ac : M Unit) (hac : M.Fixes fetchCounts ac)
    (fuel : Nat) (a : Address) : M.Fixes fetchCounts (tryOpenAddr E ac fuel a) := by
  unfold tryOpenAddr
  refine M.fixes_bind (M.fixes_modify fun _ => rfl) fun _ => ?_
  refine M.fixes_bind (counts_awaitAuthenticated E fuel) fun _ => ?_
  exact M.fixes_bind (M.fixes_get _) fun s =>
    M.fixes_ite _ (M.fixes_pure _ _) (counts_openConnection E ac hac fuel)

theorem counts_tryAddrs (E : Env) (ac : M Unit) (hac : M.Fixes fetchCounts ac) (fuel : Nat) :
    ∀ addrs : List Address, M.Fixes fetchCounts (tryAddrs E ac fuel addrs) := by
  intro addrs
  induction addrs with
  | nil => rw [tryAddrs]; exact M.fixes_pure _ _
  | cons a rest ih =>
    rw [tryAddrs]
    refine M.fixes_bind (counts_tryConnectAddr E fuel a) fun c => M.fixes_ite _ ?_ ih
    exact M.fixes_bind (counts_tryOpenAddr E ac hac fuel a) fun o =>
      M.fixes_ite _ (M.fixes_pure _ _) ih

theorem counts_tryConnectUrl (E : Env) (ac : M Unit) (hac : M.Fixes fetchCounts ac)
    (fuel : Nat) (url : Url) : M.Fixes fetchCounts (tryConnectUrl E ac fuel url) := by
  unfold tryConnectUrl
  refine M.fixes_bind (counts_call _) fun _ => ?_
  refine M.fixes_bind (M.fixes_when _ (M.fixes_modify fun _ => rfl)) fun _ => ?_
  refine M.fixes_bind (M.fixes_when _ (M.fixes_modify fun _ => rfl)) fun _ => ?_
  exact counts_tryAddrs E ac hac fuel _

theorem counts_expired (E : Env) (start : Nat) (timeout : ℚ) :
    M.Fixes fetchCounts (expired E start timeout) := by
  unfold expired
  refine M.fixes_ite _ (M.fixes_pure _ _) (M.fixes_ite _ (M.fixes_pure _ _) ?_)
  exact M.fixes_bind (counts_now E) fun _ => M.fixes_pure _ _

theorem counts_autoconnectBody (E : Env) (started : Nat) (i : ℚ) :
    M.Fixes fetchCounts (autoconnectBody E started i) := by
  unfold autoconnectBody
  refine M.fixes_bind (M.fixes_get _) fun s => ?_
  refine M.fixes_bind (M.fixes_when _ (M.fixes_raise _ _)) fun _ => ?_
  refine M.fixes_bind ?_ fun _ => ?_
  · unfold countRetry
    refine M.fixes_bind (M.fixes_get _) fun s => M.fixes_when _ ?_
    exact M.fixes_bind (M.fixes_modify fun _ => rfl) fun _ => M.fixes_when _ (M.fixes_raise _ _)
  · refine M.fixes_bind (counts_expired E started _) fun late => ?_
    exact M.fixes_bind (M.fixes_when _ (M.fixes_raise _ _)) fun _ => counts_call _

theorem counts_autoconnectLoop (E : Env) (round : M Bool) (hr : M.Fixes fetchCounts round)
    (started : Nat) :
    ∀ (fuel : Nat) (i : ℚ), M.Fixes fetchCounts (autoconnectLoop E round started fuel i) := by
  intro fuel
  induction fuel with
  | zero =>
    intro i
    rw [autoconnectLoop]
    exact M.fixes_bind hr fun c => M.fixes_ite _ (M.fixes_pure _ _) (M.fixes_stuck _)
  | succ k ih =>
    intro i
    rw [autoconnectLoop]
    refine M.fixes_bind hr fun c => M.fixes_ite _ (M.fixes_pure _ _) ?_
    refine M.fixes_bind (counts_autoconnectBody E started i) fun _ => ?_
    exact M.fixes_bind (M.fixes_get _) fun s => ih _

/-- `autoconnect`, with all that it runs (the resets, the attempts, the restart of
the sessions, the nested reconnections), leaves the fetch counters alone. -/
theorem counts_autoconnect (E : Env) : ∀ fuel : Nat, M.Fixes fetchCounts (autoconnect E fuel) := by
  intro fuel
  induction fuel with
  | zero => rw [autoconnect]; exact M.fixes_stuck _
  | succ k ih =>
    rw [autoconnect]
    refine M.fixes_bind (counts_now E) fun started => M.fixes_bind (M.fixes_get _) fun s => ?_
    refine M.fixes_bind (counts_autoconnectLoop E _ (counts_tryConnectUrl E _ ih _ _) _ _ _)
      fun _ => ?_
    exact M.fixes_modify fun _ => rfl

end ConnectionContext

/-! ## C20: the count of the fetches in progress -/

namespace ConnectionContext

/-- The counter of a receiver of the table, read from the list of the counters. -/
theorem fetching_of_counts (s t : ConnectionContext) (lnk : Nat)
    (h : fetchCounts t = fetchCounts s) : (t.rcv lnk).fetching = (s.rcv lnk).fetching := by
  unfold fetchCounts at h
  have e : ∀ l : List ReceiverContext,
      (l.getD lnk default).fetching = (l.map fun o => o.fetching).getD lnk 0 := by
    intro l
    induction l generalizing lnk with
    | nil => simp; rfl
    | cons a as ih =>
      cases lnk with
      | zero => simp
      | succ n => simpa using ih n
  unfold rcv
  rw [e, e, h]

/-- The guard that counts a fetch in progress, around a body that leaves the
counters alone: the counter of the receiver is as before when the body has
returned or thrown, and one higher while the body waits. -/
theorem scopedIncrement_counts {α : Type} (lnk : Nat) (body : M α)
    (hb : M.Fixes fetchCounts body) (s : ConnectionContext) (hl : lnk < s.rcvObjs.length) :
    ((scopedIncrement lnk body s).1 ≠ .stuck →
      ((scopedIncrement lnk body s).2.rcv lnk).fetching = (s.rcv lnk).fetching)
    ∧ ((scopedIncrement lnk body s).1 = .stuck →
      ((scopedIncrement lnk body s).2.rcv lnk).fetching = (s.rcv lnk).fetching + 1) := by
  obtain ⟨u, hu⟩ : ∃ u : ConnectionContext, u = { s with rcvObjs := modifyAt (fun o => { o with fetching := o.fetching + 1 }) lnk s.rcvObjs } := ⟨_, rfl⟩
  have hup : (u.rcv lnk).fetching = (s.rcv lnk).fetching + 1 := by
    rw [hu]
    unfold rcv
    simp only
    rw [getD_modifyAt_self _ _ _ _ hl]
  have hulen : u.rcvObjs.length = s.rcvObjs.length := by
    rw [hu]
    exact length_modifyAt _ _ _
  have hfix := hb u
  unfold scopedIncrement
  simp only
  rw [← hu]
  rcases hbody : body u with ⟨o, t⟩
  rw [hbody] at hfix
  simp only at hfix
  have ht : (t.rcv lnk).fetching = (s.rcv lnk).fetching + 1 :=
    (fetching_of_counts _ t lnk hfix).trans hup
  have hlen : lnk < t.rcvObjs.length := by
    have := congrArg List.length hfix
    unfold fetchCounts at this
    simp only [List.length_map] at this
    omega
  obtain ⟨d, hd⟩ : ∃ d : ConnectionContext, d = { t with rcvObjs := modifyAt (fun o => { o with fetching := o.fetching - 1 }) lnk t.rcvObjs } := ⟨_, rfl⟩
  have hdown : (d.rcv lnk).fetching = (s.rcv lnk).fetching := by
    rw [hd]
    unfold rcv
    simp only
    rw [getD_modifyAt_self _ _ _ _ hlen]
    show (t.rcv lnk).fetching - 1 = (s.rcv lnk).fetching
    rw [ht]
    exact Nat.add_sub_cancel _ _
  subst hd
  cases o with
  | ret a => exact ⟨fun _ => hdown, fun h => by cases h⟩
  | raise e => exact ⟨fun _ => hdown, fun h => by cases h⟩
  | stuck => exact ⟨fun h => absurd rfl h, fun _ => ht⟩

end ConnectionContext

/-- C20. For every call of `fetch` on a receiver of the table: the call is the guard
that counts the fetch around a body that never changes a counter (whatever it
runs: the waits, a reconnection with the restart of the sessions); so when the
call has returned (`true` or `false`) or thrown, the in-progress-fetch counter
of the receiver has the value it had before the call, and while the call is in
progress (here: the fuel of a wait has run out) it is exactly one higher. -/
theorem fetch_counter_symmetric (E : Env) (fuel ssn lnk timeout : Nat) (s : ConnectionContext)
    (hl : lnk < s.rcvObjs.length) :
    (∃ body : M (Option Message),
      ConnectionContext.fetch E fuel ssn lnk timeout = ConnectionContext.scopedIncrement lnk body
        ∧ M.Fixes ConnectionContext.fetchCounts body)
    ∧ ((ConnectionContext.fetch E fuel ssn lnk timeout s).1 ≠ .stuck →
      ((ConnectionContext.fetch E fuel ssn lnk timeout s).2.rcv lnk).fetching
        = (s.rcv lnk).fetching)
    ∧ ((ConnectionContext.fetch E fuel ssn lnk timeout s).1 = .stuck →
      ((ConnectionContext.fetch E fuel ssn lnk timeout s).2.rcv lnk).fetching
        = (s.rcv lnk).fetching + 1) := by
  have hac := ConnectionContext.counts_autoconnect E fuel
  have hbody : M.Fixes ConnectionContext.fetchCounts
      (ConnectionContext.fetchCredit (ConnectionContext.autoconnect E fuel) ssn lnk >>= fun _ =>
        ConnectionContext.get E (ConnectionContext.autoconnect E fuel) fuel ssn lnk timeout
          >>= fun r =>
        match r with
        | some m => pure (some m)
        | none =>
          ConnectionContext.fetchDrain E (ConnectionContext.autoconnect E fuel) fuel ssn lnk
            >>= fun _ =>
          ConnectionContext.fetchAgain E (ConnectionContext.autoconnect E fuel) fuel ssn lnk) := by
    refine M.fixes_bind (ConnectionContext.counts_fetchCredit _ hac ssn lnk) fun _ => ?_
    refine M.fixes_bind (ConnectionContext.counts_get E _ hac fuel ssn lnk timeout) fun r => ?_
    cases r with
    | some m => exact M.fixes_pure _ _
    | none =>
      exact M.fixes_bind (ConnectionContext.counts_fetchDrain E _ hac fuel ssn lnk) fun _ =>
        ConnectionContext.counts_fetchAgain E _ hac fuel ssn lnk
  have hfetch : ConnectionContext.fetch E fuel ssn lnk timeout
      = ConnectionContext.scopedIncrement lnk
        (ConnectionContext.fetchCredit (ConnectionContext.autoconnect E fuel) ssn lnk >>= fun _ =>
          ConnectionContext.get E (ConnectionContext.autoconnect E fuel) fuel ssn lnk timeout
            >>= fun r =>
          match r with
          | some m => pure (some m)
          | none =>
            ConnectionContext.fetchDrain E (ConnectionContext.autoconnect E fuel) fuel ssn lnk
              >>= fun _ =>
            ConnectionContext.fetchAgain E (ConnectionContext.autoconnect E fuel) fuel ssn lnk) :=
    rfl
  refine ⟨⟨_, hfetch, hbody⟩, ?_⟩
  rw [hfetch]
  exact ConnectionContext.scopedIncrement_counts lnk _ hbody s hl

/-- Witness of C20: a `fetch` that returns a message on the one receiver of a
connection. -/
theorem fetch_counter_symmetric_witness :
    ((ConnectionContext.fetch Example.delivering 3 0 0 0 (Example.withReceiver 0)).2.rcv 0).fetching
      = ((Example.withReceiver 0).rcv 0).fetching :=
  (fetch_counter_symmetric Example.delivering 3 0 0 0 (Example.withReceiver 0)
    (by decide)).2.1 (by decide)

/-! ## C16: open, send and close with a peer that accepts every request -/

namespace ConnectionContext

/-- The tests of the driver on the state of an endpoint, read on the two sides of
the endpoint. -/
theorem endpoint_bits (e : Endpoint) :
    (e.pn_state &&& REQUIRES_CLOSE = REQUIRES_CLOSE ↔ e.loc = .ACTIVE ∧ e.rem = .CLOSED)
    ∧ (e.pn_state &&& IS_CLOSED = IS_CLOSED ↔ e.loc = .CLOSED ∧ e.rem = .CLOSED)
    ∧ (e.pn_state &&& PN_REMOTE_UNINIT ≠ 0 ↔ e.rem = .UNINIT)
    ∧ (e.pn_state &&& PN_REMOTE_ACTIVE ≠ 0 ↔ e.rem = .ACTIVE)
    ∧ (e.pn_state &&& PN_REMOTE_CLOSED ≠ 0 ↔ e.rem = .CLOSED)
    ∧ (e.pn_state &&& PN_LOCAL_ACTIVE ≠ 0 ↔ e.loc = .ACTIVE)
    ∧ (e.pn_state &&& PN_LOCAL_CLOSED ≠ 0 ↔ e.loc = .CLOSED) := by
  rcases e with ⟨l, r, c⟩
  simp only [Endpoint.pn_state]
  cases l <;> cases r <;> decide

/-- With the peer `obliging`, `open()` on the connection `disconnected` returns;
the connection is then `afterOpen`. -/
theorem open_obliging (k : Nat) :
    ConnectionContext.open Example.obliging (k + 2) Example.disconnected
      = (.ret (), Example.afterOpen) := rfl

/-- With the peer `obliging`, `newSession("s1")` returns the first session. -/
theorem newSession_obliging (k : Nat) :
    newSession Example.obliging (k + 2) false "s1" Example.afterOpen
      = (.ret 0, Example.afterNewSession) := rfl

/-- The creation of the sender `"q"` on the session. -/
theorem createSender_obliging (c : Nat) :
    createSender 0 "q" "q" c Example.afterNewSession = (.ret 0, Example.afterCreateSender c) := rfl

set_option maxHeartbeats 4000000 in
/-- With the peer `obliging`, the attach of the sender returns after one wait. -/
theorem attachSender_obliging (k c : Nat) :
    attachSender Example.obliging (k + 2) 0 0 (Example.afterCreateSender c)
      = (.ret (), Example.afterAttach c) := by
  simp [attachSender, attachSenderWith, attachLink, checkClosedSnd, checkClosedLink, checkClosedSsn,
    waitSsn, wait, lockWait, wakeupDriver, call, onEngine, verify, M.loop,
    check, checkDisconnected, checkConnectionClosed, M.when, Engine.pn_connection_state,
    Engine.pn_session_state, Engine.pn_link_state, Engine.link, Engine.session, endpoint_bits,
    Engine.pn_link_open, Engine.modifyLink, modifyAt, Endpoint.open, snd, ssn,
    Example.afterCreateSender, Example.afterAttach, Example.engineWith, Example.obliging,
    Example.answer, Endpoint.fresh, Example.quiet]
  rfl

set_option maxHeartbeats 4000000 in
/-- With the peer `obliging`, the synchronous send of a message on a sender with
room returns after one wait, the delivery accepted. -/
theorem send_obliging (k c : Nat) (msg : Message) (hc : 0 < c) :
    send Example.obliging (k + 2) 0 0 msg true (Example.afterAttach c)
      = (.ret (), Example.afterSend c msg) := by
  simp [send, sendWith, sendStart, sendConfirm, sendLoop, SenderContext.send, awaitOutput,
    delivered, rejected, engineDelivery, Delivery.settled, Engine.delivery,
    waitSnd, checkClosedSnd, checkClosedLink, checkClosedSsn,
    waitSsn, wait, lockWait, wakeupDriver, call, onEngine, M.loop,
    check, checkDisconnected, checkConnectionClosed, M.when, Engine.pn_connection_state,
    Engine.pn_session_state, Engine.pn_link_state, Engine.link, Engine.session, endpoint_bits,
    modifyAt, snd, ssn, hc,
    Example.afterHandOver, Example.afterSend, Example.afterAttach, Example.afterCreateSender,
    Example.afterNewSession, Example.engineWith,
    Example.obliging, Example.answer, Example.quiet]

set_option maxHeartbeats 4000000 in
/-- With the peer `obliging`, the detach of the sender returns after one wait, the
sender no longer registered. -/
theorem detachSender_obliging (k c : Nat) (msg : Message) :
    detachSender Example.obliging (k + 2) 0 0 (Example.afterSend c msg)
      = (.ret (), Example.afterDetach c msg) := by
  simp [detachSender, detachSenderWith, detachLink, NameMap.erase,
    waitSnd, checkClosedSnd, checkClosedLink, checkClosedSsn,
    waitSsn, wait, lockWait, wakeupDriver, call, onEngine, M.loop,
    check, checkDisconnected, checkConnectionClosed, M.when, Engine.pn_connection_state,
    Engine.pn_session_state, Engine.pn_link_state, Engine.link, Engine.session, endpoint_bits,
    Engine.pn_link_close, Engine.modifyLink, Endpoint.close,
    modifyAt, snd, ssn,
    Example.afterDetach, Example.afterHandOver, Example.afterSend, Example.afterAttach,
    Example.afterCreateSender, Example.afterNewSession,
    Example.engineWith, Example.obliging, Example.answer, Example.quiet]

set_option maxHeartbeats 4000000 in
/-- With the peer `obliging`, `close()` returns after two waits, for the peer's
close and for the transport. -/
theorem close_obliging (k c : Nat) (msg : Message) :
    close Example.obliging (k + 2) (Example.afterDetach c msg)
      = (.ret (), Example.afterClose c msg) := by
  simp [close, closeWith, closeConnection, closeSession, closeTransport, cancelTicker,
    SessionContext.settled, Delivery.settled, Engine.delivery, M.forEach,
    checkClosedSsn, waitSsn, wait, lockWait, wakeupDriver, call, onEngine, M.loop,
    check, checkDisconnected, checkConnectionClosed, M.when, Engine.pn_connection_state,
    Engine.pn_session_state, Engine.pn_link_state, Engine.link, Engine.session, endpoint_bits,
    Engine.pn_session_close, Engine.pn_connection_close, Engine.modifySession, Endpoint.close,
    modifyAt, snd, ssn, opened, closed,
    Example.afterClose, Example.afterDetach, Example.afterHandOver, Example.afterSend,
    Example.afterAttach, Example.afterCreateSender, Example.afterNewSession,
    Example.engineWith, Example.obliging, Example.answer, Example.quiet]
  rfl

/-- The whole scenario with the peer `obliging`: every call returns, and the
connection is then `afterClose`. -/
theorem openSendClose_obliging (k c : Nat) (msg : Message) (hc : 0 < c) :
    openSendClose Example.obliging (k + 2) c msg Example.disconnected
      = (.ret (), Example.afterClose c msg) := by
  unfold openSendClose
  simp only [M.bind_apply, open_obliging, newSession_obliging, createSender_obliging,
    attachSender_obliging, send_obliging k c msg hc, detachSender_obliging, close_obliging]

end ConnectionContext

/-- C16. From the connection as constructed (`DISCONNECTED`, no session, no sender,
no receiver), with a peer that accepts every request, the calls `open()`,
`newSession("s1")`, attach of a sender to `"q"` (of any capacity with room for
a message), `send(msg, sync=true)` (any message), detach of the sender and
`close()` all return (given fuel for two waits in a loop), and they end with
the connection `DISCONNECTED`, no session registered, and no sender and no
receiver registered on any session. -/
theorem open_send_close_ends_DISCONNECTED_empty (fuel capacity : Nat) (msg : Message)
    (hf : 2 ≤ fuel) (hc : 0 < capacity) :
    (ConnectionContext.openSendClose Example.obliging fuel capacity msg Example.disconnected).1
      = .ret ()
    ∧ (ConnectionContext.openSendClose Example.obliging fuel capacity msg
        Example.disconnected).2.io.state = .DISCONNECTED
    ∧ ConnectionContext.RegistriesEmpty
        (ConnectionContext.openSendClose Example.obliging fuel capacity msg
          Example.disconnected).2 := by
  obtain ⟨k, rfl⟩ : ∃ k, fuel = k + 2 := ⟨fuel - 2, by omega⟩
  rw [ConnectionContext.openSendClose_obliging k capacity msg hc]
  refine ⟨rfl, rfl, rfl, ?_⟩
  intro o ho
  have : o = ⟨"s1", 0, [], [], [], 0⟩ := by
    simpa [Example.afterClose, Example.afterDetach] using ho
  rw [this]
  exact ⟨rfl, rfl⟩

/-- Witness of C16: the scenario with fuel 2, a sender of capacity 1 and the
message `hello`. -/
theorem open_send_close_ends_DISCONNECTED_empty_witness :
    (2 ≤ 2 ∧ 0 < 1)
    ∧ (ConnectionContext.openSendClose Example.obliging 2 1 Example.hello Example.disconnected).1
      = .ret ()
    ∧ (ConnectionContext.openSendClose Example.obliging 2 1 Example.hello
        Example.disconnected).2.io.state = .DISCONNECTED
    ∧ ConnectionContext.RegistriesEmpty
        (ConnectionContext.openSendClose Example.obliging 2 1 Example.hello
          Example.disconnected).2 :=
  ⟨by decide, open_send_close_ends_DISCONNECTED_empty 2 1 Example.hello (by decide) (by decide)⟩

/-! ## C18: the restart of the sessions after a reconnection -/

namespace ConnectionContext

/-- In a calm shared state the connection is healthy. -/
theorem calm_healthy {w : World} (h : Calm w) : Healthy w := by
  refine ⟨h.1, ?_⟩
  unfold Engine.pn_connection_state
  intro c
  exact h.2.2.1 ((endpoint_bits w.engine.conn).1.mp c).2

/-- In a calm shared state no session is closed by the peer. -/
theorem calm_session_rem {w : World} (h : Calm w) (x : Nat) :
    (w.engine.session x).ep.rem ≠ .CLOSED := by
  unfold Engine.session
  by_cases hx : x < w.engine.sessions.length
  · rw [List.getD_eq_getElem _ _ hx]
    exact (h.2.2.2 _ (List.getElem_mem _)).2
  · rw [List.getD_eq_default _ _ (by omega)]
    decide

/-- In a calm shared state every session is open for `checkClosed(ssn)`. -/
theorem calm_sessionOpen {w : World} (h : Calm w) (x : Nat) : SessionOpen w x := by
  unfold SessionOpen Engine.pn_session_state
  exact ⟨fun c => calm_session_rem h x ((endpoint_bits _).1.mp c).2,
    fun c => calm_session_rem h x ((endpoint_bits _).2.1.mp c).2⟩

theorem later_refl (s : ConnectionContext) (h : Calm s.io) : Later s s :=
  ⟨h, rfl, rfl, rfl, rfl, le_refl _, le_refl _⟩

theorem later_trans {s t u : ConnectionContext} (h1 : Later s t) (h2 : Later t u) : Later s u :=
  ⟨h2.1, h2.2.1.trans h1.2.1, h2.2.2.1.trans h1.2.2.1, h2.2.2.2.1.trans h1.2.2.2.1,
    h2.2.2.2.2.1.trans h1.2.2.2.2.1, le_trans h1.2.2.2.2.2.1 h2.2.2.2.2.2.1,
    le_trans h1.2.2.2.2.2.2 h2.2.2.2.2.2.2⟩

theorem later_ssn {s t : ConnectionContext} (h : Later s t) (p : Nat) : t.ssn p = s.ssn p := by
  unfold ssn; rw [h.2.2.1]

theorem later_rcv {s t : ConnectionContext} (h : Later s t) (p : Nat) : t.rcv p = s.rcv p := by
  unfold rcv; rw [h.2.2.2.1]

theorem later_sender {s t : ConnectionContext} (h : Later s t) (p : Nat) :
    (t.snd p).sender = (s.snd p).sender := by
  have e : ∀ l : List SenderContext,
      (l.getD p default).sender = (l.map fun o => o.sender).getD p 0 := by
    intro l
    induction l generalizing p with
    | nil => simp; rfl
    | cons a as ih =>
      cases p with
      | zero => simp
      | succ n => simpa using ih n
  unfold snd
  rw [e, e, h.2.2.2.2.1]

/-- The steps expected of a restart are the same read in a later state. -/
theorem later_senderSteps {s t : ConnectionContext} (h : Later s t) (l : NameMap) :
    senderSteps t l = senderSteps s l := by
  induction l with
  | nil => rfl
  | cons j rest ih => simp only [senderSteps, later_sender h, ih]

theorem later_receiverSteps {s t : ConnectionContext} (h : Later s t) (l : NameMap) :
    receiverSteps t l = receiverSteps s l := by
  induction l with
  | nil => rfl
  | cons j rest ih => simp only [receiverSteps, later_rcv h, ih]

theorem later_sessionSteps {s t : ConnectionContext} (h : Later s t) (p : Nat) :
    sessionSteps t p = sessionSteps s p := by
  simp only [sessionSteps, later_ssn h, later_senderSteps h, later_receiverSteps h]

theorem later_sessionsSteps {s t : ConnectionContext} (h : Later s t) (l : NameMap) :
    sessionsSteps t l = sessionsSteps s l := by
  induction l with
  | nil => rfl
  | cons j rest ih => simp only [sessionsSteps, later_sessionSteps h, ih]

end ConnectionContext

namespace ConnectionContext

/-- Replacing an element of a table by one with a property that all have keeps
the property of all. -/
theorem forall_mem_modifyAt {α : Type} (f : α → α) (P : α → Prop) (hf : ∀ a, P a → P (f a)) :
    ∀ (l : List α) (i : Nat), (∀ x ∈ l, P x) → ∀ x ∈ modifyAt f i l, P x := by
  intro l
  induction l with
  | nil => intro i _ x hx; simp [modifyAt] at hx
  | cons a as ih =>
    intro i h x hx
    cases i with
    | zero =>
      simp only [modifyAt, List.mem_cons] at hx
      rcases hx with rfl | hx
      · exact hf a (h a (List.mem_cons_self _ _))
      · exact h x (List.mem_cons_of_mem _ hx)
    | succ n =>
      simp only [modifyAt, List.mem_cons] at hx
      rcases hx with rfl | hx
      · exact h _ (List.mem_cons_self _ _)
      · exact ih n (fun y hy => h y (List.mem_cons_of_mem _ hy)) x hx

/-- A shared state with the state and the connection of a calm one, and with no
session closed, is calm. -/
theorem calm_of_same {w v : World} (h : Calm w) (h1 : v.state = w.state)
    (h2 : v.engine.conn = w.engine.conn)
    (h3 : ∀ x ∈ v.engine.sessions, x.ep.loc ≠ .CLOSED ∧ x.ep.rem ≠ .CLOSED) : Calm v :=
  ⟨h1.trans h.1, h2 ▸ h.2.1, h2 ▸ h.2.2.1, h3⟩

/-- A change of the driver's own objects and records that leaves the shared state
but for `haveOutput`, the registries, the session objects, the receivers and
the links of the senders alone leads to a later state. -/
theorem later_of_engine {s t : ConnectionContext} (h : Calm s.io)
    (h1 : t.io.state = s.io.state) (h2 : t.io.engine = s.io.engine)
    (h3 : t.sessions = s.sessions) (h4 : t.ssnObjs = s.ssnObjs) (h5 : t.rcvObjs = s.rcvObjs)
    (h6 : t.sndObjs.map (fun o => o.sender) = s.sndObjs.map (fun o => o.sender)) : Later s t :=
  ⟨calm_of_same h h1 (by rw [h2]) (by rw [h2]; exact h.2.2.2), h3, h4, h5, h6, by rw [h2],
    by rw [h2]⟩

/-- The call `pn_session_open` on a calm connection: the session, if the engine
has it, is then open on the driver's side. -/
theorem session_open_later (s : ConnectionContext) (x : Nat) (h : Calm s.io) :
    ∃ t, onEngine (fun g => g.pn_session_open x) s = (.ret (), t) ∧ Later s t
      ∧ (x < s.io.engine.sessions.length → (t.io.engine.session x).ep.loc = .ACTIVE) := by
  refine ⟨_, rfl, ⟨?_, rfl, rfl, rfl, rfl, ?_, le_refl _⟩, ?_⟩
  · refine calm_of_same h rfl rfl ?_
    exact forall_mem_modifyAt (fun a : PnSession => { a with ep := a.ep.open })
      (fun x => x.ep.loc ≠ .CLOSED ∧ x.ep.rem ≠ .CLOSED)
      (fun a ha => ⟨by simp [Endpoint.open], ha.2⟩) _ _ h.2.2.2
  · show _ ≤ (modifyAt _ x s.io.engine.sessions).length
    rw [length_modifyAt]
  · intro hx
    show ((modifyAt _ x s.io.engine.sessions).getD x default).ep.loc = .ACTIVE
    rw [getD_modifyAt_self _ _ _ _ hx]
    rfl

/-- The calls `pn_link_open(link); if (credit) pn_link_flow(link, credit);` on a
calm connection: the link, if the engine has it, is then open on the driver's
side. -/
theorem link_open_later (s : ConnectionContext) (l credit : Nat) (h : Calm s.io) :
    ∃ s1 t, onEngine (fun g => g.pn_link_open l) s = (.ret (), s1)
      ∧ M.when (credit ≠ 0) (onEngine fun g => g.pn_link_flow l credit) s1 = (.ret (), t)
      ∧ Later s t
      ∧ (l < s.io.engine.links.length → (t.io.engine.link l).ep.loc = .ACTIVE) := by
  by_cases hc : credit ≠ 0
  · refine ⟨_, { s with io := { s.io with
        engine := (s.io.engine.pn_link_open l).pn_link_flow l credit } }, rfl,
      by simp only [onEngine, M.modify_apply, M.when_apply, if_pos hc],
      ⟨calm_of_same h rfl rfl h.2.2.2, rfl, rfl, rfl, rfl, le_refl _, ?_⟩, ?_⟩
    · show _ ≤ (modifyAt _ l (modifyAt _ l s.io.engine.links)).length
      rw [length_modifyAt, length_modifyAt]
    · intro hl
      show ((modifyAt _ l (modifyAt _ l s.io.engine.links)).getD l default).ep.loc = .ACTIVE
      rw [getD_modifyAt_self _ _ _ _ (by rw [length_modifyAt]; exact hl),
        getD_modifyAt_self _ _ _ _ hl]
      rfl
  · refine ⟨_, { s with io := { s.io with engine := s.io.engine.pn_link_open l } }, rfl,
      by simp only [onEngine, M.modify_apply, M.when_apply, if_neg hc],
      ⟨calm_of_same h rfl rfl h.2.2.2, rfl, rfl, rfl, rfl, le_refl _, ?_⟩, ?_⟩
    · show _ ≤ (modifyAt _ l s.io.engine.links).length
      rw [length_modifyAt]
    · intro hl
      show ((modifyAt _ l s.io.engine.links).getD l default).ep.loc = .ACTIVE
      rw [getD_modifyAt_self _ _ _ _ hl]
      rfl

/-- A wait on a calm connection with a cooperative peer only lets the I/O thread
make its change, which leads to a later state. -/
theorem wait_later (E : Env) (ac : M Unit) (s : ConnectionContext) (hE : Cooperative E)
    (h : Calm s.io) :
    wait E ac s = (.ret (), waited E 1 s) ∧ Later s (waited E 1 s)
      ∧ (waited E 1 s).io = E.wake s.waits s.io := by
  have hw : (waited E 1 s).io = E.wake s.waits s.io := rfl
  have hc : Calm (waited E 1 s).io := by rw [hw]; exact (hE.2 _ _ h).1
  refine ⟨wait_healthy E ac s (calm_healthy h) (calm_healthy hc), ⟨hc, rfl, rfl, rfl, rfl, ?_, ?_⟩,
    hw⟩
  · rw [hw]
    by_cases h0 : s.io.engine.sessions.length = 0
    · omega
    · have := ((hE.2 s.waits _ h).2.1 (s.io.engine.sessions.length - 1) (by omega)).1
      omega
  · rw [hw]
    by_cases h0 : s.io.engine.links.length = 0
    · omega
    · have := ((hE.2 s.waits _ h).2.2 (s.io.engine.links.length - 1) (by omega)).1
      omega

end ConnectionContext

namespace ConnectionContext

/-- With a cooperative peer `verify` does not throw. -/
theorem verify_cooperative (E : Env) (l : Nat) (s : ConnectionContext) (hE : Cooperative E) :
    verify E l s = (.ret (), s) := by
  simp [verify, hE.1]

end ConnectionContext

namespace ConnectionContext

theorem consecutive_append :
    ∀ (x y : List Made) (g g1 g2 : Engine), Consecutive g x g1 → Consecutive g1 y g2 →
      Consecutive g (x ++ y) g2 := by
  intro x
  induction x with
  | nil =>
    intro y g g1 g2 h1 h2
    simp only [Consecutive] at h1
    subst h1
    exact h2
  | cons m rest ih =>
    intro y g g1 g2 h1 h2
    exact ⟨h1.1, ih y _ g1 g2 h1.2 h2⟩

theorem resentSteps_append (a b : List Step) :
    resentSteps (a ++ b) = resentSteps a ++ resentSteps b := by
  simp [resentSteps, List.filterMap_append]

theorem resent_append (a b : List Call) : resent (a ++ b) = resent a ++ resent b := by
  simp [resent, List.filterMap_append]

/-- No step: the engine and the calls of `resend()` are as they were. -/
theorem recorded_nil (E : Env) {s t : ConnectionContext} (h1 : t.io.engine = s.io.engine)
    (h2 : resent t.calls = resent s.calls) : Recorded E [] s t [] :=
  ⟨rfl, h1, fun m hm => by simp at hm, by simp [resentSteps, h2]⟩

/-- The records of steps made one after the other. -/
theorem recorded_append (E : Env) {a b : List Step} {s u t : ConnectionContext}
    {x y : List Made} (h1 : Recorded E a s u x) (h2 : Recorded E b u t y) :
    Recorded E (a ++ b) s t (x ++ y) := by
  refine ⟨by rw [List.map_append, h1.1, h2.1],
    consecutive_append x y _ _ _ h1.2.1 h2.2.1, fun m hm => ?_, ?_⟩
  · rcases List.mem_append.mp hm with hm | hm
    · exact h1.2.2.1 m hm
    · exact h2.2.2.1 m hm
  · rw [h2.2.2.2, h1.2.2.2, resentSteps_append, List.append_assoc]

/-- The wakeup of the driver on a calm connection leaves the engine and the calls
of `resend()` as they were. -/
theorem wakeupDriver_made (s : ConnectionContext) (h : Calm s.io) :
    ∃ t, wakeupDriver s = (.ret (), t) ∧ Later s t ∧ t.io.engine = s.io.engine
      ∧ resent t.calls = resent s.calls := by
  refine ⟨_, wakeupDriver_connected s h.1, ?_, rfl, ?_⟩
  · exact later_of_engine h rfl rfl rfl rfl rfl rfl
  · simp [resent]

/-- With a cooperative peer the loop of `restartSession` that waits for the
confirmation of a session the driver has opened returns, after one wait at
most. -/
theorem session_loop_made (E : Env) (ac : M Unit) (fuel p : Nat) (s : ConnectionContext)
    (hE : Cooperative E) (hf : 1 ≤ fuel) (h : Calm s.io)
    (hx : (s.ssn p).session < s.io.engine.sessions.length)
    (ho : (s.io.engine.session (s.ssn p).session).ep.loc = .ACTIVE) :
    ∃ t, M.loop (sessionRemoteUninit p) (wait E ac) fuel s = (.ret (), t) ∧ Later s t
      ∧ Answered E s.io.engine t.io.engine ∧ resent t.calls = resent s.calls := by
  have hcond : ∀ s, sessionRemoteUninit p s
      = (.ret (decide (s.io.engine.pn_session_state (s.ssn p).session &&& PN_REMOTE_UNINIT ≠ 0)),
        s) := fun _ => rfl
  cases hcs : decide (s.io.engine.pn_session_state (s.ssn p).session &&& PN_REMOTE_UNINIT ≠ 0) with
  | false => exact ⟨s, M.loop_false hcond fuel s hcs, later_refl s h, Or.inl rfl, rfl⟩
  | true =>
    obtain ⟨k, rfl⟩ : ∃ k, fuel = k + 1 := ⟨fuel - 1, by omega⟩
    obtain ⟨hw, hl, hio⟩ := wait_later E ac s hE h
    refine ⟨waited E 1 s, ?_, hl, Or.inr ⟨s.waits, s.io, rfl, by rw [hio]⟩, rfl⟩
    rw [M.loop_true hcond k s hcs]
    simp only [M.bind_apply, hw]
    refine M.loop_false hcond k _ ?_
    have hr := ((hE.2 s.waits _ h).2.1 _ hx).2 ho
    rw [← hio] at hr
    have hs : ((waited E 1 s).ssn p).session = (s.ssn p).session := rfl
    rw [hs, decide_eq_false_iff_not, not_not]
    by_contra hne
    exact hr ((endpoint_bits _).2.2.1.mp hne)

/-- With a cooperative peer `attach(ssn, link, credit)` for a link of the engine
returns, after one wait at most: the engine is then the engine with
`pn_link_open(link)` and, if `credit` is not 0, `pn_link_flow(link, credit)`,
and with what the I/O thread did in the wait, if there was one. -/
theorem attachLink_made (E : Env) (ac : M Unit) (fuel p l credit : Nat) (s : ConnectionContext)
    (hE : Cooperative E) (hf : 1 ≤ fuel) (h : Calm s.io) (hl : l < s.io.engine.links.length) :
    ∃ t, attachLink E ac fuel p l credit s = (.ret (), t) ∧ Later s t
      ∧ Answered E ((Step.attach l credit).calls s.io.engine) t.io.engine
      ∧ resent t.calls = resent s.calls := by
  obtain ⟨s1, s2, e1, e2, l2, o2⟩ := link_open_later s l credit h
  have g2 : s2.io.engine = (Step.attach l credit).calls s.io.engine := by
    have h1 : s1 = (onEngine (fun g => g.pn_link_open l) s).2 := by rw [e1]
    have h2 : s2 = (M.when (credit ≠ 0) (onEngine fun g => g.pn_link_flow l credit) s1).2 := by
      rw [e2]
    rw [h2, h1]
    by_cases hc : credit ≠ 0
    · simp only [Step.calls, if_pos hc, M.when_apply, onEngine, M.modify_apply]
    · simp only [Step.calls, if_neg hc, M.when_apply, onEngine, M.modify_apply]
  have c2 : s2.calls = s.calls := by
    have h1 : s1 = (onEngine (fun g => g.pn_link_open l) s).2 := by rw [e1]
    have h2 : s2 = (M.when (credit ≠ 0) (onEngine fun g => g.pn_link_flow l credit) s1).2 := by
      rw [e2]
    rw [h2, h1]
    by_cases hc : credit ≠ 0
    · simp only [if_pos hc, M.when_apply, onEngine, M.modify_apply]
    · simp only [if_neg hc, M.when_apply, onEngine, M.modify_apply]
  obtain ⟨s3, e3, l3, g3, c3⟩ := wakeupDriver_made s2 l2.1
  have hcond : ∀ s : ConnectionContext,
      (M.test fun s => decide (s.io.engine.pn_link_state l &&& PN_REMOTE_UNINIT ≠ 0)) s
        = (.ret (decide (s.io.engine.pn_link_state l &&& PN_REMOTE_UNINIT ≠ 0)), s) :=
    fun _ => rfl
  have hloop : ∃ t, M.loop
      (M.test fun s => decide (s.io.engine.pn_link_state l &&& PN_REMOTE_UNINIT ≠ 0))
      (waitSsn E ac p) fuel s3 = (.ret (), t) ∧ Later s3 t
        ∧ Answered E s3.io.engine t.io.engine ∧ resent t.calls = resent s3.calls := by
    cases hcs : decide (s3.io.engine.pn_link_state l &&& PN_REMOTE_UNINIT ≠ 0) with
    | false => exact ⟨s3, M.loop_false hcond fuel s3 hcs, later_refl s3 l3.1, Or.inl rfl, rfl⟩
    | true =>
      obtain ⟨k, rfl⟩ : ∃ k, fuel = k + 1 := ⟨fuel - 1, by omega⟩
      obtain ⟨hw, hl4, hio⟩ := wait_later E ac s3 hE l3.1
      refine ⟨waited E 1 s3, ?_, hl4, Or.inr ⟨s3.waits, s3.io, rfl, by rw [hio]⟩, rfl⟩
      rw [M.loop_true hcond k s3 hcs]
      have hbody : waitSsn E ac p s3 = (.ret (), waited E 1 s3) := by
        simp only [waitSsn, M.bind_apply, hw,
          checkClosedSsn_open ac p _ (calm_healthy hl4.1) (calm_sessionOpen hl4.1 _)]
      simp only [M.bind_apply, hbody]
      refine M.loop_false hcond k _ ?_
      have hl3 : l < s3.io.engine.links.length := by
        have := l2.2.2.2.2.2.2
        have := l3.2.2.2.2.2.2
        omega
      have hr := ((hE.2 s3.waits _ l3.1).2.2 l hl3).2 (by rw [g3]; exact o2 hl)
      rw [← hio] at hr
      rw [decide_eq_false_iff_not, not_not]
      by_contra hne
      exact hr ((endpoint_bits _).2.2.1.mp hne)
  obtain ⟨t, e4, l4, a4, c4⟩ := hloop
  refine ⟨t, ?_, later_trans (later_trans l2 l3) l4, ?_, by rw [c4, c3, c2]⟩
  · unfold attachLink
    simp only [M.bind_apply, e1, e2, e3, e4]
  · rw [← g2, ← g3]
    exact a4

/-- The resending of the in-flight deliveries of a sender on a calm connection
leaves the connection, the sessions and the links of the engine, and the calls
recorded, as they were. -/
theorem resendDeliveries_made (p : Nat) :
    ∀ (l : List Delivery) (s : ConnectionContext), Calm s.io →
      ∃ t, M.forEach (resendDelivery p) l s = (.ret (), t) ∧ Later s t
        ∧ t.io.engine.conn = s.io.engine.conn ∧ t.io.engine.sessions = s.io.engine.sessions
        ∧ t.io.engine.links = s.io.engine.links ∧ t.calls = s.calls := by
  intro l
  induction l with
  | nil => intro s h; exact ⟨s, rfl, later_refl s h, rfl, rfl, rfl, rfl⟩
  | cons d rest ih =>
    intro s h
    have hd : ∃ u, resendDelivery p d s = (.ret (), u) ∧ Later s u
        ∧ u.io.engine.conn = s.io.engine.conn ∧ u.io.engine.sessions = s.io.engine.sessions
        ∧ u.io.engine.links = s.io.engine.links ∧ u.calls = s.calls := by
      by_cases hn : d.token = none
      · refine ⟨{ s with
            io := { s.io with engine := { s.io.engine with
              deliveries := s.io.engine.deliveries ++ [⟨false, false, false⟩] } },
            sndObjs := modifyAt (fun o => { o with deliveries := o.deliveries.map fun x =>
              if x.id = d.id then { x with token := some s.io.engine.deliveries.length } else x })
              p s.sndObjs },
          by simp only [resendDelivery, M.when_apply, if_pos hn, M.modify_apply],
          ⟨calm_of_same h rfl rfl h.2.2.2, rfl, rfl, rfl, ?_, le_refl _, le_refl _⟩,
          rfl, rfl, rfl, rfl⟩
        exact map_modifyAt_keeps
          (fun o : SenderContext => { o with deliveries := o.deliveries.map fun x =>
            if x.id = d.id then { x with token := some s.io.engine.deliveries.length } else x })
          (fun o : SenderContext => o.sender) (fun _ => rfl) _ _
      · exact ⟨s, by simp only [resendDelivery, M.when_apply, if_neg hn], later_refl s h,
          rfl, rfl, rfl, rfl⟩
    obtain ⟨u, eu, lu, a1, a2, a3, a4⟩ := hd
    obtain ⟨t, et, lt, b1, b2, b3, b4⟩ := ih u lu.1
    exact ⟨t, by simp only [M.forEach, M.bind_apply2, eu, et], later_trans lu lt,
      b1.trans a1, b2.trans a2, b3.trans a3, b4.trans a4⟩

/-- The call `resend()` on a sender, on a calm connection: it is recorded among
the calls, and leaves the connection, the sessions and the links of the engine
as they were. -/
theorem resend_made (p : Nat) (s : ConnectionContext) (h : Calm s.io) :
    ∃ t, SenderContext.resend p s = (.ret (), t) ∧ Later s t
      ∧ t.io.engine.conn = s.io.engine.conn ∧ t.io.engine.sessions = s.io.engine.sessions
      ∧ t.io.engine.links = s.io.engine.links ∧ t.calls = s.calls ++ [Call.resend p] := by
  obtain ⟨u, hu⟩ : ∃ u : ConnectionContext, u = { s with calls := s.calls ++ [Call.resend p] } :=
    ⟨_, rfl⟩
  have lu : Later s u := by rw [hu]; exact later_of_engine h rfl rfl rfl rfl rfl rfl
  obtain ⟨t, et, lt, b1, b2, b3, b4⟩ := resendDeliveries_made p (u.snd p).deliveries u lu.1
  refine ⟨t, ?_, later_trans lu lt, by rw [b1, hu], by rw [b2, hu], by rw [b3, hu],
    by rw [b4, hu]⟩
  unfold SenderContext.resend call
  simp only [M.bind_apply, M.modify_apply, M.get_apply, ← hu, et]

theorem attachLinkSteps_later (E : Env) (ac : M Unit) (fuel p l credit : Nat)
    (s : ConnectionContext) (hE : Cooperative E) (hf : 1 ≤ fuel) (h : Calm s.io)
    (hl : l < s.io.engine.links.length) :
    ∃ t tr, attachLinkSteps E ac fuel p l credit s = (.ret tr, t) ∧ Later s t
      ∧ Recorded E [Step.attach l credit] s t tr := by
  obtain ⟨t, e, lt, a, c⟩ := attachLink_made E ac fuel p l credit s hE hf h hl
  refine ⟨t, [⟨Step.attach l credit, s.io.engine, t.io.engine⟩],
    by simp only [attachLinkSteps, M.bind_apply, M.get_apply, e, M.pure_apply], lt,
    rfl, ⟨rfl, rfl⟩, ?_, ?_⟩
  · intro m hm
    rw [List.mem_singleton] at hm
    subst hm
    exact a
  · rw [c]
    simp [resentSteps]

/-- With a cooperative peer the reattach of a sender returns: the sender is
attached, without credit, and then resends. -/
theorem reattachSenderSteps_later (E : Env) (ac : M Unit) (fuel p snd : Nat)
    (s : ConnectionContext) (hE : Cooperative E) (hf : 1 ≤ fuel) (h : Calm s.io)
    (hl : (s.snd snd).sender < s.io.engine.links.length) :
    ∃ t tr, reattachSenderSteps E ac fuel p snd s = (.ret tr, t) ∧ Later s t
      ∧ Recorded E [Step.attach (s.snd snd).sender 0, Step.resend snd] s t tr := by
  obtain ⟨u, x, eu, lu, ru⟩ := attachLinkSteps_later E ac fuel p (s.snd snd).sender 0 s hE hf h hl
  obtain ⟨t, et, lt, a1, a2, a3, a4⟩ := resend_made snd u lu.1
  refine ⟨t, x ++ [⟨Step.resend snd, u.io.engine, t.io.engine⟩], ?_, later_trans lu lt, ?_⟩
  · simp only [reattachSenderSteps, M.bind_apply, M.get_apply, eu, verify_cooperative E _ u hE, et,
      M.pure_apply]
  · have hr : Recorded E [Step.resend snd] u t [⟨Step.resend snd, u.io.engine, t.io.engine⟩] := by
      refine ⟨rfl, ⟨rfl, rfl⟩, ?_, ?_⟩
      · intro m hm
        rw [List.mem_singleton] at hm
        subst hm
        exact ⟨a1, a2, a3⟩
      · rw [a4]
        simp [resent, resentSteps]
    exact recorded_append E ru hr

/-- With a cooperative peer the reattach of a receiver returns: the receiver is
attached with its capacity as credit or, with capacity 0, its number of
fetches in progress. -/
theorem reattachReceiverSteps_later (E : Env) (ac : M Unit) (fuel p rcv : Nat)
    (s : ConnectionContext) (hE : Cooperative E) (hf : 1 ≤ fuel) (h : Calm s.io)
    (hl : (s.rcv rcv).receiver < s.io.engine.links.length) :
    ∃ t tr, reattachReceiverSteps E ac fuel p rcv s = (.ret tr, t) ∧ Later s t
      ∧ Recorded E [Step.attach (s.rcv rcv).receiver (reattachCredit (s.rcv rcv))] s t tr := by
  by_cases hc : (s.rcv rcv).capacity ≠ 0
  · obtain ⟨t, tr, et, lt, rt⟩ :=
      attachLinkSteps_later E ac fuel p (s.rcv rcv).receiver (s.rcv rcv).capacity s hE hf h hl
    refine ⟨t, tr, ?_, lt, ?_⟩
    · simp only [reattachReceiverSteps, M.bind_apply, M.get_apply, if_pos hc, et,
        verify_cooperative E _ t hE, M.pure_apply]
    · simpa only [reattachCredit, if_pos hc] using rt
  · obtain ⟨t, tr, et, lt, rt⟩ :=
      attachLinkSteps_later E ac fuel p (s.rcv rcv).receiver (s.rcv rcv).fetching s hE hf h hl
    refine ⟨t, tr, ?_, lt, ?_⟩
    · simp only [reattachReceiverSteps, M.bind_apply, M.get_apply, if_neg hc, et,
        verify_cooperative E _ t hE, M.pure_apply]
    · simpa only [reattachCredit, if_neg hc] using rt

/-- With a cooperative peer the loop of `restartSession` over the senders returns,
having reattached them in the order of the registry. -/
theorem senders_later (E : Env) (ac : M Unit) (fuel p : Nat) (hE : Cooperative E)
    (hf : 1 ≤ fuel) :
    ∀ (l : NameMap) (s : ConnectionContext), Calm s.io →
      (∀ j ∈ l, (s.snd j.2).sender < s.io.engine.links.length) →
      ∃ t tr, collectSteps (fun i => reattachSenderSteps E ac fuel p i.2) l s = (.ret tr, t)
        ∧ Later s t ∧ Recorded E (senderSteps s l) s t tr := by
  intro l
  induction l with
  | nil => intro s h _; exact ⟨s, [], rfl, later_refl s h, recorded_nil E rfl rfl⟩
  | cons j rest ih =>
    intro s h hr
    obtain ⟨u, x, eu, lu, ru⟩ :=
      reattachSenderSteps_later E ac fuel p j.2 s hE hf h (hr j (List.mem_cons_self _ _))
    obtain ⟨t, y, et, lt, rt⟩ := ih u lu.1 (fun i hi => by
      rw [later_sender lu]
      exact lt_of_lt_of_le (hr i (List.mem_cons_of_mem _ hi)) lu.2.2.2.2.2.2)
    refine ⟨t, x ++ y, ?_, later_trans lu lt, ?_⟩
    · simp only [collectSteps, M.bind_apply, eu, et, M.pure_apply]
    · rw [later_senderSteps lu] at rt
      exact recorded_append E ru rt

/-- With a cooperative peer the loop of `restartSession` over the receivers
returns, having reattached them in the order of the registry. -/
theorem receivers_later (E : Env) (ac : M Unit) (fuel p : Nat) (hE : Cooperative E)
    (hf : 1 ≤ fuel) :
    ∀ (l : NameMap) (s : ConnectionContext), Calm s.io →
      (∀ j ∈ l, (s.rcv j.2).receiver < s.io.engine.links.length) →
      ∃ t tr, collectSteps (fun i => reattachReceiverSteps E ac fuel p i.2) l s = (.ret tr, t)
        ∧ Later s t ∧ Recorded E (receiverSteps s l) s t tr := by
  intro l
  induction l with
  | nil => intro s h _; exact ⟨s, [], rfl, later_refl s h, recorded_nil E rfl rfl⟩
  | cons j rest ih =>
    intro s h hr
    obtain ⟨u, x, eu, lu, ru⟩ :=
      reattachReceiverSteps_later E ac fuel p j.2 s hE hf h (hr j (List.mem_cons_self _ _))
    obtain ⟨t, y, et, lt, rt⟩ := ih u lu.1 (fun i hi => by
      rw [later_rcv lu]
      exact lt_of_lt_of_le (hr i (List.mem_cons_of_mem _ hi)) lu.2.2.2.2.2.2)
    refine ⟨t, x ++ y, ?_, later_trans lu lt, ?_⟩
    · simp only [collectSteps, M.bind_apply, eu, et, M.pure_apply]
    · rw [later_receiverSteps lu] at rt
      exact recorded_append E ru rt

end ConnectionContext

namespace ConnectionContext

/-- The engine session and links of the session object `p` and of the senders and
receivers registered on it are in the engine. -/
theorem restartable_later {s t : ConnectionContext} (h : Later s t) (p : Nat)
    (hr : (s.ssn p).session < s.io.engine.sessions.length
      ∧ (∀ j ∈ (s.ssn p).senders, (s.snd j.2).sender < s.io.engine.links.length)
      ∧ (∀ j ∈ (s.ssn p).receivers, (s.rcv j.2).receiver < s.io.engine.links.length)) :
    (t.ssn p).session < t.io.engine.sessions.length
      ∧ (∀ j ∈ (t.ssn p).senders, (t.snd j.2).sender < t.io.engine.links.length)
      ∧ (∀ j ∈ (t.ssn p).receivers, (t.rcv j.2).receiver < t.io.engine.links.length) := by
  rw [later_ssn h]
  refine ⟨lt_of_lt_of_le hr.1 h.2.2.2.2.2.1, fun j hj => ?_, fun j hj => ?_⟩
  · rw [later_sender h]
    exact lt_of_lt_of_le (hr.2.1 j hj) h.2.2.2.2.2.2
  · rw [later_rcv h]
    exact lt_of_lt_of_le (hr.2.2 j hj) h.2.2.2.2.2.2

/-- With a cooperative peer `restartSession(s)` returns: the session is reopened,
then its senders are reattached, then its receivers, in the order of the
registries. -/
theorem restartSessionSteps_later (E : Env) (ac : M Unit) (fuel p : Nat) (s : ConnectionContext)
    (hE : Cooperative E) (hf : 1 ≤ fuel) (h : Calm s.io)
    (hr : (s.ssn p).session < s.io.engine.sessions.length
      ∧ (∀ j ∈ (s.ssn p).senders, (s.snd j.2).sender < s.io.engine.links.length)
      ∧ (∀ j ∈ (s.ssn p).receivers, (s.rcv j.2).receiver < s.io.engine.links.length)) :
    ∃ t tr, restartSessionSteps E ac fuel p s = (.ret tr, t) ∧ Later s t
      ∧ Recorded E (sessionSteps s p) s t tr := by
  obtain ⟨s1, e1, l1, o1⟩ := session_open_later s (s.ssn p).session h
  have g1 : s1.io.engine = s.io.engine.pn_session_open (s.ssn p).session := by
    have h1 : s1 = (onEngine (fun g => g.pn_session_open (s.ssn p).session) s).2 := by rw [e1]
    rw [h1]
    rfl
  have c1 : s1.calls = s.calls := by
    have h1 : s1 = (onEngine (fun g => g.pn_session_open (s.ssn p).session) s).2 := by rw [e1]
    rw [h1]
    rfl
  obtain ⟨s2, e2, l2, g2, c2⟩ := wakeupDriver_made s1 l1.1
  have l02 := later_trans l1 l2
  have r2 := restartable_later l02 p hr
  obtain ⟨s3, e3, l3, a3, c3⟩ := session_loop_made E ac fuel p s2 hE hf l2.1 r2.1 (by
    rw [later_ssn l02, g2]
    exact o1 hr.1)
  have l03 := later_trans l02 l3
  have r3 := restartable_later l03 p hr
  obtain ⟨s4, x, e4, l4, t4⟩ := senders_later E ac fuel p hE hf (s3.ssn p).senders s3 l3.1 r3.2.1
  have l04 := later_trans l03 l4
  have r4 := restartable_later l04 p hr
  obtain ⟨s5, y, e5, l5, t5⟩ :=
    receivers_later E ac fuel p hE hf (s4.ssn p).receivers s4 l4.1 r4.2.2
  have l05 := later_trans l04 l5
  obtain ⟨s6, e6, l6, g6, c6⟩ := wakeupDriver_made s5 l5.1
  rw [later_ssn l03, later_senderSteps l03] at t4
  rw [later_ssn l04, later_receiverSteps l04] at t5
  have k3 : s3.ssn p = s.ssn p := later_ssn l03 p
  have k4 : s4.ssn p = s.ssn p := later_ssn l04 p
  rw [k3] at e4
  rw [k4] at e5
  refine ⟨s6, ⟨Step.pn_session_open (s.ssn p).session, s.io.engine, s3.io.engine⟩ :: (x ++ y),
    ?_, later_trans l05 l6, ?_⟩
  · simp only [restartSessionSteps, M.bind_apply, M.get_apply, e1, e2, e3, k3, e4, k4, e5, e6,
      M.pure_apply]
  · have hopen : Recorded E [Step.pn_session_open (s.ssn p).session] s s3
        [⟨Step.pn_session_open (s.ssn p).session, s.io.engine, s3.io.engine⟩] := by
      refine ⟨rfl, ⟨rfl, rfl⟩, ?_, ?_⟩
      · intro m hm
        rw [List.mem_singleton] at hm
        subst hm
        show Answered E (s.io.engine.pn_session_open (s.ssn p).session) s3.io.engine
        rw [← g1, ← g2]
        exact a3
      · rw [c3, c2, c1]
        simp [resentSteps]
    have hend : Recorded E [] s5 s6 [] := recorded_nil E g6 c6
    have hall := recorded_append E hopen (recorded_append E t4 (recorded_append E t5 hend))
    simpa only [sessionSteps, List.singleton_append, List.append_nil] using hall

/-- With a cooperative peer the loop of `restartSessions` returns, having
restarted the sessions in the order of the registry. -/
theorem sessions_later (E : Env) (ac : M Unit) (fuel : Nat) (hE : Cooperative E) (hf : 1 ≤ fuel) :
    ∀ (l : NameMap) (s : ConnectionContext), Calm s.io →
      (∀ i ∈ l, (s.ssn i.2).session < s.io.engine.sessions.length
        ∧ (∀ j ∈ (s.ssn i.2).senders, (s.snd j.2).sender < s.io.engine.links.length)
        ∧ (∀ j ∈ (s.ssn i.2).receivers, (s.rcv j.2).receiver < s.io.engine.links.length)) →
      ∃ t tr, collectSteps (fun i => restartSessionSteps E ac fuel i.2) l s = (.ret tr, t)
        ∧ Later s t ∧ Recorded E (sessionsSteps s l) s t tr := by
  intro l
  induction l with
  | nil => intro s h _; exact ⟨s, [], rfl, later_refl s h, recorded_nil E rfl rfl⟩
  | cons i rest ih =>
    intro s h hr
    obtain ⟨u, x, eu, lu, ru⟩ :=
      restartSessionSteps_later E ac fuel i.2 s hE hf h (hr i (List.mem_cons_self _ _))
    obtain ⟨t, y, et, lt, rt⟩ := ih u lu.1 (fun k hk =>
      restartable_later lu k.2 (hr k (List.mem_cons_of_mem _ hk)))
    refine ⟨t, x ++ y, ?_, later_trans lu lt, ?_⟩
    · simp only [collectSteps, M.bind_apply, eu, et, M.pure_apply]
    · rw [later_sessionsSteps lu] at rt
      exact recorded_append E ru rt

/-- With a cooperative peer `restartSessions` returns `true`, having restarted the
sessions in the order of the registry. -/
theorem restartSessionsSteps_later (E : Env) (ac : M Unit) (fuel : Nat) (s : ConnectionContext)
    (hE : Cooperative E) (hf : 1 ≤ fuel) (hs : Restartable s) :
    ∃ t tr, restartSessionsSteps E ac fuel s = (.ret (true, tr), t) ∧ Later s t
      ∧ Recorded E (sessionsSteps s s.sessions) s t tr := by
  obtain ⟨t, tr, et, lt, rt⟩ := sessions_later E ac fuel hE hf s.sessions s hs.1 hs.2
  refine ⟨t, tr, ?_, lt, rt⟩
  unfold restartSessionsSteps M.tryCatch
  simp only [M.bind_apply, M.get_apply, et, M.pure_apply]

end ConnectionContext

/-- Two binds in a row. -/
theorem M.bind_assoc {α β γ : Type} (m : M α) (f : α → M β) (g : β → M γ) :
    (m >>= f) >>= g = m >>= fun a => f a >>= g := by
  funext s
  simp only [M.bind_apply]
  rcases m s with ⟨o, s1⟩
  cases o <;> rfl

/-- A bind after `pure`. -/
theorem M.pure_bind {α β : Type} (a : α) (f : α → M β) :
    (Pure.pure a : M α) >>= f = f a := rfl

/-- A bind with `pure ()` after a statement. -/
theorem M.bind_pure_unit (m : M Unit) : (m >>= fun _ => Pure.pure ()) = m := by
  funext s
  simp only [M.bind_apply]
  rcases m s with ⟨o, s1⟩
  cases o <;> rfl

/-- A bind whose second part depends on the first by an equation. -/
theorem M.bind_congr {α β : Type} (m : M α) {f g : α → M β} (h : ∀ a, f a = g a) :
    m >>= f = m >>= g := by
  have : f = g := funext h
  rw [this]

/-- A function of the result of a `try` block is the `try` block of the function
of the results. -/
theorem M.tryCatch_map {α β : Type} (m : M α) (c : Exc → Bool) (h : Exc → M α) (f : α → β) :
    (M.tryCatch m c h >>= fun r => Pure.pure (f r))
      = M.tryCatch (m >>= fun r => Pure.pure (f r)) c
          (fun e => h e >>= fun r => Pure.pure (f r)) := by
  funext s
  simp only [M.bind_apply, M.tryCatch]
  rcases m s with ⟨o, s1⟩
  cases o with
  | ret a => rfl
  | raise e => by_cases hc : c e = true <;> simp [hc]
  | stuck => rfl

namespace ConnectionContext

/-- A loop whose body records its steps is, the record dropped, the loop. -/
theorem forEach_forgets {α : Type} (body : α → M Unit) (steps : α → M (List Made))
    (h : ∀ a, body a = (steps a >>= fun _ => pure ())) :
    ∀ l : List α, M.forEach body l = (collectSteps steps l >>= fun _ => pure ()) := by
  intro l
  induction l with
  | nil => rfl
  | cons a rest ih =>
    show (body a >>= fun _ => M.forEach body rest) = _
    rw [collectSteps, h a, ih, M.bind_assoc, M.bind_assoc]
    refine M.bind_congr _ fun x => ?_
    rw [M.pure_bind, M.bind_assoc]
    refine M.bind_congr _ fun y => ?_
    rw [M.pure_bind]

theorem attachLink_forgets (E : Env) (ac : M Unit) (fuel p l credit : Nat) :
    attachLink E ac fuel p l credit
      = (attachLinkSteps E ac fuel p l credit >>= fun _ => pure ()) := by
  funext s
  simp only [attachLinkSteps, M.bind_apply, M.get_apply]
  rcases attachLink E ac fuel p l credit s with ⟨o, t⟩
  cases o <;> rfl

theorem reattachSender_forgets (E : Env) (ac : M Unit) (fuel p snd : Nat) :
    reattachSender E ac fuel p snd
      = (reattachSenderSteps E ac fuel p snd >>= fun _ => pure ()) := by
  rw [reattachSenderSteps, reattachSender, M.bind_assoc]
  refine M.bind_congr _ fun s => ?_
  rw [attachLink_forgets, M.bind_assoc, M.bind_assoc]
  refine M.bind_congr _ fun a => ?_
  rw [M.pure_bind, M.bind_assoc]
  refine M.bind_congr _ fun s1 => ?_
  rw [M.bind_assoc]
  refine M.bind_congr _ fun _ => ?_
  funext u
  simp only [M.bind_apply, M.get_apply]
  rcases SenderContext.resend snd u with ⟨o, t⟩
  cases o <;> rfl

theorem reattachReceiver_forgets (E : Env) (ac : M Unit) (fuel p rcv : Nat) :
    reattachReceiver E ac fuel p rcv
      = (reattachReceiverSteps E ac fuel p rcv >>= fun _ => pure ()) := by
  rw [reattachReceiverSteps, reattachReceiver, M.bind_assoc]
  refine M.bind_congr _ fun s => ?_
  rw [M.bind_assoc]
  by_cases hc : (s.rcv rcv).capacity ≠ 0
  · rw [if_pos hc, if_pos hc, attachLink_forgets, M.bind_assoc]
    refine M.bind_congr _ fun a => ?_
    rw [M.pure_bind, M.bind_assoc]
    refine M.bind_congr _ fun s1 => ?_
    rw [M.bind_assoc]
    exact (M.bind_pure_unit _).symm
  · rw [if_neg hc, if_neg hc, attachLink_forgets, M.bind_assoc]
    refine M.bind_congr _ fun a => ?_
    rw [M.pure_bind, M.bind_assoc]
    refine M.bind_congr _ fun s1 => ?_
    rw [M.bind_assoc]
    exact (M.bind_pure_unit _).symm

theorem restartSession_forgets (E : Env) (ac : M Unit) (fuel p : Nat) :
    restartSession E ac fuel p = (restartSessionSteps E ac fuel p >>= fun _ => pure ()) := by
  rw [restartSessionSteps, restartSession, M.bind_assoc]
  refine M.bind_congr _ fun s => ?_
  rw [M.bind_assoc]
  refine M.bind_congr _ fun _ => ?_
  rw [M.bind_assoc]
  refine M.bind_congr _ fun _ => ?_
  rw [M.bind_assoc]
  refine M.bind_congr _ fun _ => ?_
  rw [M.bind_assoc]
  refine M.bind_congr _ fun s1 => ?_
  rw [forEach_forgets (fun i : String × Nat => reattachSender E ac fuel p i.2)
    (fun i => reattachSenderSteps E ac fuel p i.2)
    (fun i => reattachSender_forgets E ac fuel p i.2), M.bind_assoc, M.bind_assoc]
  refine M.bind_congr _ fun a => ?_
  rw [M.pure_bind, M.bind_assoc]
  refine M.bind_congr _ fun s2 => ?_
  rw [forEach_forgets (fun i : String × Nat => reattachReceiver E ac fuel p i.2)
    (fun i => reattachReceiverSteps E ac fuel p i.2)
    (fun i => reattachReceiver_forgets E ac fuel p i.2), M.bind_assoc, M.bind_assoc]
  refine M.bind_congr _ fun b => ?_
  rw [M.pure_bind, M.bind_assoc]
  exact (M.bind_pure_unit _).symm

/-- The member function `restartSessions` with the record of its steps is, the
record dropped, `restartSessions`: same result, same state, same exception. -/
theorem restartSessions_forgets (E : Env) (ac : M Unit) (fuel : Nat) :
    restartSessions E ac fuel = (restartSessionsSteps E ac fuel >>= fun r => pure r.1) := by
  rw [restartSessionsSteps, M.tryCatch_map, restartSessions]
  have hm : (do
        let s ← M.get
        M.forEach (fun i => restartSession E ac fuel i.2) s.sessions
        pure true : M Bool)
      = ((do
        let s ← M.get
        let a ← collectSteps (fun i => restartSessionSteps E ac fuel i.2) s.sessions
        pure (true, a) : M (Bool × List Made)) >>= fun r => pure r.1) := by
    rw [M.bind_assoc]
    refine M.bind_congr _ fun s => ?_
    rw [forEach_forgets (fun i : String × Nat => restartSession E ac fuel i.2)
      (fun i => restartSessionSteps E ac fuel i.2)
      (fun i => restartSession_forgets E ac fuel i.2), M.bind_assoc, M.bind_assoc]
    refine M.bind_congr _ fun a => ?_
    rw [M.pure_bind, M.pure_bind]
  rw [hm]
  rfl

end ConnectionContext

/-- What the peer `obliging` answers on an endpoint: the driver's side is kept, an
endpoint closed on neither side is not closed, and one the driver has opened
is confirmed. -/
theorem Example.answer_facts (e : Endpoint) :
    (Example.answer e).loc = e.loc
    ∧ (e.loc ≠ .CLOSED → e.rem ≠ .CLOSED → (Example.answer e).rem ≠ .CLOSED)
    ∧ (e.loc = .ACTIVE → (Example.answer e).rem ≠ .UNINIT) := by
  rcases e with ⟨l, r, c⟩
  cases l <;> cases r <;> simp [Example.answer]

/-- The peer `obliging` is cooperative. -/
theorem Example.obliging_cooperative : ConnectionContext.Cooperative Example.obliging := by
  refine ⟨fun _ _ => rfl, fun k w h => ?_⟩
  have hs : (Example.obliging.wake k w).engine.sessions
      = w.engine.sessions.map fun x => ⟨Example.answer x.ep⟩ := rfl
  have hl : (Example.obliging.wake k w).engine.links
      = w.engine.links.map fun l => { l with ep := Example.answer l.ep } := rfl
  refine ⟨⟨?_, ?_, ?_, ?_⟩, ?_, ?_⟩
  · show (if w.state = .CONNECTING then _ else _) = ConnectionState.CONNECTED
    rw [if_neg (by rw [h.1]; decide), if_neg (fun c => h.2.1 c.1)]
    exact h.1
  · show (Example.answer w.engine.conn).loc ≠ .CLOSED
    rw [(Example.answer_facts _).1]
    exact h.2.1
  · exact (Example.answer_facts _).2.1 h.2.1 h.2.2.1
  · intro x hx
    rw [hs] at hx
    obtain ⟨y, hy, rfl⟩ := List.mem_map.mp hx
    have hq := h.2.2.2 y hy
    exact ⟨by show (Example.answer y.ep).loc ≠ .CLOSED; rw [(Example.answer_facts _).1]; exact hq.1,
      (Example.answer_facts _).2.1 hq.1 hq.2⟩
  · intro x hx
    have hx1 : x < (Example.obliging.wake k w).engine.sessions.length := by
      rw [hs, List.length_map]; exact hx
    refine ⟨hx1, fun ho => ?_⟩
    unfold Engine.session at ho ⊢
    rw [List.getD_eq_getElem _ _ hx] at ho
    rw [List.getD_eq_getElem _ _ hx1]
    simp only [hs, List.getElem_map]
    exact (Example.answer_facts _).2.2 ho
  · intro x hx
    have hx1 : x < (Example.obliging.wake k w).engine.links.length := by
      rw [hl, List.length_map]; exact hx
    refine ⟨hx1, fun ho => ?_⟩
    unfold Engine.link at ho ⊢
    rw [List.getD_eq_getElem _ _ hx] at ho
    rw [List.getD_eq_getElem _ _ hx1]
    simp only [hl, List.getElem_map]
    exact (Example.answer_facts _).2.2 ho

/-- C22.  The block of `tryOpenAddr` that runs once the connection is open starts
the ticker with the interval `(t + 1) / 2` ms, where `t` is the negotiated idle
timeout: the smaller of the non-zero local and remote idle timeouts.  When both
are zero there is no such `t`, and the block starts no ticker and changes
nothing.  The interval is half of `t` rounded up: `t ≤ 2 * ((t + 1) / 2) ≤ t + 1`. -/
theorem ticker_interval_half_negotiated (s : ConnectionContext) :
    ConnectionContext.startTicker s
      = (match ConnectionContext.negotiatedIdleTimeout s.io.engine.idleTimeout
            s.io.engine.remoteIdleTimeout with
         | none => (.ret (), s)
         | some t =>
           (.ret (),
            { s with
              ticker := some ((t + 1) / 2),
              calls := s.calls ++ [.tickerStart ((t + 1) / 2)] }))
    ∧ (ConnectionContext.negotiatedIdleTimeout s.io.engine.idleTimeout
          s.io.engine.remoteIdleTimeout = none
        ↔ s.io.engine.idleTimeout = 0 ∧ s.io.engine.remoteIdleTimeout = 0)
    ∧ (∀ t, ConnectionContext.negotiatedIdleTimeout s.io.engine.idleTimeout
          s.io.engine.remoteIdleTimeout = some t →
        t ≠ 0 ∧ (t = s.io.engine.idleTimeout ∨ t = s.io.engine.remoteIdleTimeout)
        ∧ (s.io.engine.idleTimeout ≠ 0 → t ≤ s.io.engine.idleTimeout)
        ∧ (s.io.engine.remoteIdleTimeout ≠ 0 → t ≤ s.io.engine.remoteIdleTimeout)
        ∧ t ≤ 2 * ((t + 1) / 2) ∧ 2 * ((t + 1) / 2) ≤ t + 1) := by
  generalize hl : s.io.engine.idleTimeout = loc
  generalize hr : s.io.engine.remoteIdleTimeout = remote
  have key : ConnectionContext.negotiatedIdleTimeout loc remote
      = if remote ≠ 0 ∧ loc ≠ 0 then some (min remote loc)
        else if remote ≠ 0 then some remote else if loc ≠ 0 then some loc else none := by
    unfold ConnectionContext.negotiatedIdleTimeout
    by_cases h1 : loc = 0 <;> by_cases h2 : remote = 0 <;>
      simp [h1, h2, List.filter, List.min?, Nat.min_comm]
  refine ⟨?_, ?_, ?_⟩
  · rw [key]
    by_cases h1 : loc = 0 <;> by_cases h2 : remote = 0 <;>
      simp [ConnectionContext.startTicker, hl, hr, h1, h2, M.when, ConnectionContext.call]
  · rw [key]
    by_cases h1 : loc = 0 <;> by_cases h2 : remote = 0 <;> simp [h1, h2]
  · intro t ht
    rw [key] at ht
    by_cases h1 : loc = 0 <;> by_cases h2 : remote = 0 <;> simp [h1, h2] at ht <;>
      subst ht <;> refine ⟨?_, ?_, ?_, ?_, ?_, ?_⟩ <;> omega

/-- C22 at an example: a local idle timeout of 6001 ms and a remote one of 9000 ms
give a ticker of 3001 ms. -/
theorem ticker_interval_half_negotiated_witness :
    ConnectionContext.negotiatedIdleTimeout 6001 9000 = some 6001
    ∧ (ConnectionContext.startTicker Example.withIdleTimeouts).2.ticker = some 3001
    ∧ (6001 ≠ 0 ∧ (6001 = 6001 ∨ 6001 = 9000) ∧ (6001 ≠ 0 → 6001 ≤ 6001)
      ∧ (9000 ≠ 0 → 6001 ≤ 9000) ∧ 6001 ≤ 2 * ((6001 + 1) / 2)
      ∧ 2 * ((6001 + 1) / 2) ≤ 6001 + 1) :=
  ⟨by decide, by rfl,
   (ticker_interval_half_negotiated Example.withIdleTimeouts).2.2 6001 (by decide)⟩

/-! ## The codec functions as functions of the members -/

namespace CodecM

@[simp] theorem pure_at {α : Type} (a : α) (c : Codec) :
    (Pure.pure a : CodecM α) c = (.ret a, c) := rfl

@[simp] theorem pure_at2 {α : Type} (a : α) (c : Codec) :
    (CodecM.pure a : CodecM α) c = (.ret a, c) := rfl

@[simp] theorem bind_at {α β : Type} (m : CodecM α) (f : α → CodecM β) (c : Codec) :
    (m >>= f) c = (match m c with
      | (.ret a, c1) => f a c1
      | (.raise e, c1) => (.raise e, c1)
      | (.stuck, c1) => (.stuck, c1)) := rfl

@[simp] theorem bind_at2 {α β : Type} (m : CodecM α) (f : α → CodecM β) (c : Codec) :
    (CodecM.bind m f) c = (match m c with
      | (.ret a, c1) => f a c1
      | (.raise e, c1) => (.raise e, c1)
      | (.stuck, c1) => (.stuck, c1)) := rfl

@[simp] theorem get_at (c : Codec) : CodecM.get c = (.ret c, c) := rfl

@[simp] theorem modify_at (f : Codec → Codec) (c : Codec) :
    CodecM.modify f c = (.ret (), f c) := rfl

@[simp] theorem raise_at {α : Type} (e : Exc) (c : Codec) :
    (CodecM.raise e : CodecM α) c = (.raise e, c) := rfl

@[simp] theorem stuck_at {α : Type} (c : Codec) : (CodecM.stuck : CodecM α) c = (.stuck, c) := rfl

theorem preserves_pure {α : Type} (P : Codec → Prop) (a : α) :
    Preserves P (Pure.pure a : CodecM α) := fun _ h => h

theorem preserves_raise {α : Type} (P : Codec → Prop) (e : Exc) :
    Preserves P (CodecM.raise e : CodecM α) := fun _ h => h

theorem preserves_stuck {α : Type} (P : Codec → Prop) :
    Preserves P (CodecM.stuck : CodecM α) := fun _ h => h

theorem preserves_get (P : Codec → Prop) : Preserves P CodecM.get := fun _ h => h

theorem preserves_modify {P : Codec → Prop} {f : Codec → Codec} (hf : ∀ c, P c → P (f c)) :
    Preserves P (CodecM.modify f) := hf

theorem preserves_bind {α β : Type} {P : Codec → Prop} {m : CodecM α} {f : α → CodecM β}
    (hm : Preserves P m) (hf : ∀ a, Preserves P (f a)) : Preserves P (m >>= f) := by
  intro c h
  have h1 := hm c h
  simp only [bind_at]
  rcases hmc : m c with ⟨o, c1⟩
  rw [hmc] at h1
  cases o with
  | ret a => exact hf a c1 h1
  | raise e => exact h1
  | stuck => exact h1

theorem preserves_ite {α : Type} {P : Codec → Prop} (p : Prop) [Decidable p] {m n : CodecM α}
    (hm : Preserves P m) (hn : Preserves P n) : Preserves P (if p then m else n) := by
  split
  · exact hm
  · exact hn

theorem preserves_tryCatch {α : Type} {P : Codec → Prop} {m : CodecM α} {catches : Exc → Bool}
    {handler : Exc → CodecM α} (hm : Preserves P m) (hh : ∀ e, Preserves P (handler e)) :
    Preserves P (CodecM.tryCatch m catches handler) := by
  intro c h
  have h1 := hm c h
  unfold CodecM.tryCatch
  rcases hmc : m c with ⟨o, c1⟩
  rw [hmc] at h1
  cases o with
  | ret a => exact h1
  | raise e =>
    by_cases hc : catches e = true
    · simp only [hc, if_true]; exact hh e c1 h1
    · simp only [hc]; exact h1
  | stuck => exact h1

theorem preserves_forEach {α : Type} {P : Codec → Prop} {body : α → CodecM Unit}
    (hb : ∀ a, Preserves P (body a)) : ∀ l : List α, Preserves P (CodecM.forEach body l) := by
  intro l
  induction l with
  | nil => exact fun _ h => h
  | cons a rest ih => exact preserves_bind (hb a) fun _ => ih

theorem returns_pure {α : Type} (a : α) : Returns (Pure.pure a : CodecM α) :=
  fun c => ⟨a, c, rfl⟩

theorem returns_modify (f : Codec → Codec) : Returns (CodecM.modify f) := fun c => ⟨(), f c, rfl⟩

theorem returns_bind {α β : Type} {m : CodecM α} {f : α → CodecM β} (hm : Returns m)
    (hf : ∀ a, Returns (f a)) : Returns (m >>= f) := by
  intro c
  obtain ⟨a, c1, h1⟩ := hm c
  obtain ⟨b, c2, h2⟩ := hf a c1
  exact ⟨b, c2, by simp only [bind_at, h1, h2]⟩

theorem returns_ite {α : Type} (p : Prop) [Decidable p] {m n : CodecM α} (hm : Returns m)
    (hn : Returns n) : Returns (if p then m else n) := by
  split
  · exact hm
  · exact hn

end CodecM

namespace Codec

/-- The record of a call that is not the reading or the writing of the header
leaves the header to the engine. -/
theorem call_keeps (x : CodecCall) (h1 : x ≠ .readProtocolHeader) (h2 : x ≠ .writeProtocolHeader) :
    CodecM.Preserves HeaderLeftToEngine (call x) := by
  intro c h
  obtain ⟨a, b, r, w⟩ := h
  refine ⟨a, b, ?_, ?_⟩
  · show CodecCall.readProtocolHeader ∉ c.calls ++ [x]
    simp only [List.mem_append, List.mem_singleton, not_or]
    exact ⟨r, fun e => h1 e.symm⟩
  · show CodecCall.writeProtocolHeader ∉ c.calls ++ [x]
    simp only [List.mem_append, List.mem_singleton, not_or]
    exact ⟨w, fun e => h2 e.symm⟩

theorem call_returns (x : CodecCall) : CodecM.Returns (call x) := fun _ => ⟨_, _, rfl⟩

/-- A change of the members other than the flags of the header and the record of
the calls leaves the header to the engine. -/
theorem keeps_of_same {c d : Codec} (h : HeaderLeftToEngine c) (h1 : d.readHeader = c.readHeader)
    (h2 : d.writeHeader = c.writeHeader) (h3 : d.calls = c.calls) : HeaderLeftToEngine d := by
  unfold HeaderLeftToEngine
  rw [h1, h2, h3]
  exact h

theorem checkTransportError_keeps (E : Wire) :
    CodecM.Preserves HeaderLeftToEngine (checkTransportError E) := fun _ h => h

theorem pn_transport_input_keeps (E : Wire) (size : Nat) :
    CodecM.Preserves HeaderLeftToEngine (pn_transport_input E size) := fun c h =>
  keeps_of_same (call_keeps (.pn_transport_input size) (by intro e; cases e) (by intro e; cases e) c h) rfl rfl rfl

theorem pn_transport_output_keeps (E : Wire) (size : Nat) :
    CodecM.Preserves HeaderLeftToEngine (pn_transport_output E size) := fun c h =>
  keeps_of_same (call_keeps (.pn_transport_output size) (by intro e; cases e) (by intro e; cases e) c h) rfl rfl rfl

theorem decodeEngine_keeps (E : Wire) (size : Nat) :
    CodecM.Preserves HeaderLeftToEngine (decodeEngine E size) := by
  unfold decodeEngine
  refine CodecM.preserves_bind (pn_transport_input_keeps E size) fun n => ?_
  refine CodecM.preserves_ite _ ?_ ?_
  · refine CodecM.preserves_bind
      (CodecM.preserves_ite _ (checkTransportError_keeps E) (CodecM.preserves_pure _ _))
      fun failed => ?_
    refine CodecM.preserves_ite _ ?_ ?_
    · exact CodecM.preserves_bind (call_keeps _ (by decide) (by decide))
        fun _ => CodecM.preserves_pure _ _
    · exact CodecM.preserves_bind (call_keeps _ (by decide) (by decide)) fun _ =>
        CodecM.preserves_bind (call_keeps _ (by decide) (by decide))
          fun _ => CodecM.preserves_pure _ _
  · refine CodecM.preserves_ite _ ?_ (CodecM.preserves_pure _ _)
    exact CodecM.preserves_bind (checkTransportError_keeps E) fun _ =>
      CodecM.preserves_bind (call_keeps _ (by decide) (by decide))
        fun _ => CodecM.preserves_pure _ _

theorem encodeEngine_keeps (E : Wire) (size : Nat) :
    CodecM.Preserves HeaderLeftToEngine (encodeEngine E size) := by
  unfold encodeEngine
  refine CodecM.preserves_bind (pn_transport_output_keeps E size) fun n => ?_
  refine CodecM.preserves_ite _ ?_ ?_
  · refine CodecM.preserves_bind
      (CodecM.preserves_modify fun c h => keeps_of_same h rfl rfl rfl) fun _ => ?_
    refine CodecM.preserves_bind (CodecM.preserves_get _) fun c => ?_
    exact CodecM.preserves_bind
      (CodecM.preserves_ite _ (call_keeps _ (by decide) (by decide)) (CodecM.preserves_pure _ _))
      fun _ => CodecM.preserves_pure _ _
  · refine CodecM.preserves_ite _ ?_ ?_
    · exact CodecM.preserves_bind (checkTransportError_keeps E) fun _ =>
        CodecM.preserves_bind (call_keeps _ (by decide) (by decide))
          fun _ => CodecM.preserves_pure _ _
    · refine CodecM.preserves_ite _ ?_ ?_
      · refine CodecM.preserves_bind
          (CodecM.preserves_modify fun c h => keeps_of_same h rfl rfl rfl) fun _ => ?_
        refine CodecM.preserves_bind (checkTransportError_keeps E) fun failed => ?_
        exact CodecM.preserves_bind
          (CodecM.preserves_ite _ (call_keeps _ (by decide) (by decide))
            (CodecM.preserves_pure _ _))
          fun _ => CodecM.preserves_pure _ _
      · exact CodecM.preserves_bind
          (CodecM.preserves_modify fun c h => keeps_of_same h rfl rfl rfl)
          fun _ => CodecM.preserves_pure _ _

/-- What the engine part of `decodePlain` does always returns. -/
theorem decodeEngine_returns (E : Wire) (size : Nat) : CodecM.Returns (decodeEngine E size) := by
  unfold decodeEngine
  refine CodecM.returns_bind (fun c => ⟨_, _, rfl⟩) fun n => ?_
  refine CodecM.returns_ite _ ?_ ?_
  · refine CodecM.returns_bind
      (CodecM.returns_ite _ (fun c => ⟨_, _, rfl⟩) (CodecM.returns_pure _)) fun failed => ?_
    refine CodecM.returns_ite _ ?_ ?_
    · exact CodecM.returns_bind (call_returns _) fun _ => CodecM.returns_pure _
    · exact CodecM.returns_bind (call_returns _) fun _ =>
        CodecM.returns_bind (call_returns _) fun _ => CodecM.returns_pure _
  · refine CodecM.returns_ite _ ?_ (CodecM.returns_pure _)
    exact CodecM.returns_bind (fun c => ⟨_, _, rfl⟩) fun _ =>
      CodecM.returns_bind (call_returns _) fun _ => CodecM.returns_pure _

/-- What the engine part of `encodePlain` does always returns. -/
theorem encodeEngine_returns (E : Wire) (size : Nat) : CodecM.Returns (encodeEngine E size) := by
  unfold encodeEngine
  refine CodecM.returns_bind (fun c => ⟨_, _, rfl⟩) fun n => ?_
  refine CodecM.returns_ite _ ?_ ?_
  · refine CodecM.returns_bind (CodecM.returns_modify _) fun _ => ?_
    refine CodecM.returns_bind (fun c => ⟨_, _, rfl⟩) fun c => ?_
    exact CodecM.returns_bind
      (CodecM.returns_ite _ (call_returns _) (CodecM.returns_pure _))
      fun _ => CodecM.returns_pure _
  · refine CodecM.returns_ite _ ?_ ?_
    · exact CodecM.returns_bind (fun c => ⟨_, _, rfl⟩) fun _ =>
        CodecM.returns_bind (call_returns _) fun _ => CodecM.returns_pure _
    · refine CodecM.returns_ite _ ?_ ?_
      · refine CodecM.returns_bind (CodecM.returns_modify _) fun _ => ?_
        refine CodecM.returns_bind (fun c => ⟨_, _, rfl⟩) fun failed => ?_
        exact CodecM.returns_bind
          (CodecM.returns_ite _ (call_returns _) (CodecM.returns_pure _))
          fun _ => CodecM.returns_pure _
      · exact CodecM.returns_bind (CodecM.returns_modify _) fun _ => CodecM.returns_pure _

end Codec

namespace Codec

/-- With `readHeader` false `decodePlain` passes its bytes to the engine. -/
theorem decodePlainWith_engine (E : Wire) (decode : Nat → CodecM Nat) (size : Nat) (c : Codec)
    (h : c.readHeader = false) : decodePlainWith E decode size c = decodeEngine E size c := by
  simp [decodePlainWith, h]

/-- With `writeHeader` false `encodePlain` takes its bytes from the engine. -/
theorem encodePlainWith_engine (E : Wire) (encode : Nat → CodecM Nat) (size : Nat) (c : Codec)
    (h : c.writeHeader = false) : encodePlainWith E encode size c = encodeEngine E size c := by
  simp [encodePlainWith, h]

theorem decodePlain_engine (E : Wire) (fuel size : Nat) (c : Codec) (h : c.readHeader = false) :
    decodePlain E fuel size c = decodeEngine E size c := by
  cases fuel <;> exact decodePlainWith_engine E _ size c h

theorem encodePlain_engine (E : Wire) (fuel size : Nat) (c : Codec) (h : c.writeHeader = false) :
    encodePlain E fuel size c = encodeEngine E size c := by
  cases fuel <;> exact encodePlainWith_engine E _ size c h

theorem decodePlain_keeps (E : Wire) (fuel size : Nat) :
    CodecM.Preserves HeaderLeftToEngine (decodePlain E fuel size) := fun c h => by
  rw [decodePlain_engine E fuel size c h.1]
  exact decodeEngine_keeps E size c h

theorem encodePlain_keeps (E : Wire) (fuel size : Nat) :
    CodecM.Preserves HeaderLeftToEngine (encodePlain E fuel size) := fun c h => by
  rw [encodePlain_engine E fuel size c h.2.1]
  exact encodeEngine_keeps E size c h

theorem transportClose_keeps : CodecM.Preserves HeaderLeftToEngine transportClose :=
  call_keeps _ (by decide) (by decide)

theorem fed_keeps {plain : Nat → CodecM Nat}
    (hp : ∀ size, CodecM.Preserves HeaderLeftToEngine (plain size)) (chunks : List Nat) :
    CodecM.Preserves HeaderLeftToEngine
      (CodecM.forEach (fun chunk => do let _ ← plain chunk; pure ()) chunks) :=
  CodecM.preserves_forEach
    (fun chunk => CodecM.preserves_bind (hp chunk) fun _ => CodecM.preserves_pure _ _) chunks

theorem decodeSasl_keeps (E : Wire) (size : Nat) :
    CodecM.Preserves HeaderLeftToEngine (decodeSasl E size) := by
  intro c h
  unfold decodeSasl
  cases hs : c.sasl with
  | none => exact h
  | some a =>
    simp only
    by_cases ha : E.authenticated a = true
    · simp only [ha, if_true]; exact h
    · simp only [ha]
      have hk := call_keeps (.saslDecode size) (by intro e; cases e) (by intro e; cases e) c h
      cases E.saslDecode a size with
      | error e => exact keeps_of_same hk rfl rfl rfl
      | ok r => exact keeps_of_same hk rfl rfl rfl

theorem layerDecode_keeps (E : Wire) {plain : Nat → CodecM Nat}
    (hp : ∀ size, CodecM.Preserves HeaderLeftToEngine (plain size)) (a size : Nat) :
    CodecM.Preserves HeaderLeftToEngine (layerDecode E plain a size) := by
  unfold layerDecode
  refine CodecM.preserves_bind (call_keeps _ (by intro e; cases e) (by intro e; cases e))
    fun _ => ?_
  refine CodecM.preserves_bind (fed_keeps hp _) fun _ => ?_
  cases (E.layerDecode a size).2 with
  | error e => exact CodecM.preserves_raise _ _
  | ok r =>
    exact CodecM.preserves_bind (CodecM.preserves_modify fun c h => keeps_of_same h rfl rfl rfl)
      fun _ => CodecM.preserves_pure _ _

theorem decodeRest_keeps (E : Wire) {plain : Nat → CodecM Nat}
    (hp : ∀ size, CodecM.Preserves HeaderLeftToEngine (plain size)) (size : Nat) :
    CodecM.Preserves HeaderLeftToEngine (decodeRest E plain size) := by
  unfold decodeRest
  refine CodecM.preserves_bind (CodecM.preserves_get _) fun c => ?_
  cases c.sasl with
  | none => exact hp size
  | some a => exact CodecM.preserves_ite _ (layerDecode_keeps E hp a size) (hp size)

theorem decodeWith_keeps (E : Wire) {plain : Nat → CodecM Nat}
    (hp : ∀ size, CodecM.Preserves HeaderLeftToEngine (plain size)) (size : Nat) :
    CodecM.Preserves HeaderLeftToEngine (decodeWith E plain size) := by
  unfold decodeWith
  refine CodecM.preserves_bind
    (CodecM.preserves_tryCatch (decodeSasl_keeps E size) fun _ =>
      CodecM.preserves_bind transportClose_keeps fun _ => CodecM.preserves_pure _ _)
    fun first => ?_
  refine CodecM.preserves_ite _ (CodecM.preserves_pure _ _) ?_
  refine CodecM.preserves_ite _ ?_ (CodecM.preserves_pure _ _)
  refine CodecM.preserves_tryCatch ?_ fun _ =>
    CodecM.preserves_bind transportClose_keeps fun _ => CodecM.preserves_pure _ _
  exact CodecM.preserves_bind (decodeRest_keeps E hp _) fun _ => CodecM.preserves_pure _ _

theorem encodeSaslCan_keeps (E : Wire) : CodecM.Preserves HeaderLeftToEngine (encodeSaslCan E) := by
  intro c h
  unfold encodeSaslCan
  cases hs : c.sasl with
  | none => exact h
  | some a =>
    simp only
    have hk := call_keeps .saslCanEncode (by decide) (by decide) c h
    cases E.saslCanEncode a with
    | error e => exact keeps_of_same hk rfl rfl rfl
    | ok r => exact keeps_of_same hk rfl rfl rfl

theorem encodeSasl_keeps (E : Wire) (size : Nat) :
    CodecM.Preserves HeaderLeftToEngine (encodeSasl E size) := by
  intro c h
  unfold encodeSasl
  cases hs : c.sasl with
  | none => exact h
  | some a =>
    simp only
    have hk := call_keeps (.saslEncode size) (by intro e; cases e) (by intro e; cases e) c h
    cases E.saslEncode a size with
    | error e => exact keeps_of_same hk rfl rfl rfl
    | ok r => exact keeps_of_same hk rfl rfl rfl

theorem layerEncode_keeps (E : Wire) {plain : Nat → CodecM Nat}
    (hp : ∀ size, CodecM.Preserves HeaderLeftToEngine (plain size)) (a size : Nat) :
    CodecM.Preserves HeaderLeftToEngine (layerEncode E plain a size) := by
  unfold layerEncode
  refine CodecM.preserves_bind (call_keeps _ (by intro e; cases e) (by intro e; cases e))
    fun _ => ?_
  refine CodecM.preserves_bind (fed_keeps hp _) fun _ => ?_
  cases (E.layerEncode a size).2 with
  | error e => exact CodecM.preserves_raise _ _
  | ok r =>
    exact CodecM.preserves_bind (CodecM.preserves_modify fun c h => keeps_of_same h rfl rfl rfl)
      fun _ => CodecM.preserves_pure _ _

theorem encodeRest_keeps (E : Wire) {plain : Nat → CodecM Nat}
    (hp : ∀ size, CodecM.Preserves HeaderLeftToEngine (plain size)) (size : Nat) :
    CodecM.Preserves HeaderLeftToEngine (encodeRest E plain size) := by
  unfold encodeRest
  refine CodecM.preserves_bind (CodecM.preserves_get _) fun c => ?_
  cases c.sasl with
  | none => exact hp size
  | some a => exact CodecM.preserves_ite _ (layerEncode_keeps E hp a size) (hp size)

theorem encodeWith_keeps (E : Wire) {plain : Nat → CodecM Nat}
    (hp : ∀ size, CodecM.Preserves HeaderLeftToEngine (plain size)) (size : Nat) :
    CodecM.Preserves HeaderLeftToEngine (encodeWith E plain size) := by
  unfold encodeWith
  refine CodecM.preserves_bind
    (CodecM.preserves_tryCatch
      (CodecM.preserves_bind (encodeSaslCan_keeps E) fun can => by
        cases can
        · exact CodecM.preserves_pure _ _
        · exact encodeSasl_keeps E size)
      fun _ => CodecM.preserves_bind transportClose_keeps fun _ => CodecM.preserves_pure _ _)
    fun first => ?_
  refine CodecM.preserves_ite _ (CodecM.preserves_pure _ _) ?_
  refine CodecM.preserves_ite _ ?_ (CodecM.preserves_pure _ _)
  refine CodecM.preserves_tryCatch ?_ fun _ =>
    CodecM.preserves_bind transportClose_keeps fun _ => CodecM.preserves_pure _ _
  exact CodecM.preserves_bind (encodeRest_keeps E hp _) fun _ => CodecM.preserves_pure _ _

theorem canEncodePlain_keeps : CodecM.Preserves HeaderLeftToEngine canEncodePlain := by
  unfold canEncodePlain
  exact CodecM.preserves_bind (call_keeps _ (by decide) (by decide)) fun _ =>
    CodecM.preserves_bind (CodecM.preserves_get _) fun _ => CodecM.preserves_pure _ _

theorem canEncodeSasl_keeps (E : Wire) (a : Nat) :
    CodecM.Preserves HeaderLeftToEngine (canEncodeSasl E a) := by
  unfold canEncodeSasl
  refine CodecM.preserves_bind (call_keeps _ (by decide) (by decide)) fun _ => ?_
  cases E.saslCanEncode a with
  | error e => exact CodecM.preserves_raise _ _
  | ok can =>
    cases can with
    | true => exact CodecM.preserves_pure _ _
    | false =>
      simp only
      refine CodecM.preserves_ite _ (CodecM.preserves_pure _ _) ?_
      refine CodecM.preserves_ite _ ?_ (CodecM.preserves_pure _ _)
      refine CodecM.preserves_bind (call_keeps _ (by decide) (by decide)) fun _ => ?_
      refine CodecM.preserves_bind
        (CodecM.preserves_ite _
          (CodecM.preserves_bind canEncodePlain_keeps fun _ => CodecM.preserves_pure _ _)
          (CodecM.preserves_pure _ _)) fun _ => ?_
      cases (E.layerCanEncode a).2 with
      | error e => exact CodecM.preserves_raise _ _
      | ok r => exact CodecM.preserves_pure _ _

theorem canEncode_keeps (E : Wire) : CodecM.Preserves HeaderLeftToEngine (canEncode E) := by
  unfold canEncode
  refine CodecM.preserves_bind (CodecM.preserves_get _) fun c => ?_
  refine CodecM.preserves_bind ?_ fun answer => ?_
  · cases c.sasl with
    | none => exact CodecM.preserves_pure _ _
    | some a =>
      exact CodecM.preserves_tryCatch (canEncodeSasl_keeps E a) fun _ =>
        CodecM.preserves_bind transportClose_keeps fun _ => CodecM.preserves_pure _ _
  · cases answer with
    | none => exact canEncodePlain_keeps
    | some r => exact CodecM.preserves_pure _ _

/-- Every call of a codec function, and every change of the other members, leaves
the header to the engine. -/
theorem run_keeps (E : Wire) (fuel : Nat) (op : Op) (c : Codec) (h : HeaderLeftToEngine c) :
    HeaderLeftToEngine (op.run E fuel c) := by
  cases op with
  | decode size => exact decodeWith_keeps E (decodePlain_keeps E fuel) size c h
  | encode size => exact encodeWith_keeps E (encodePlain_keeps E fuel) size c h
  | canEncode => exact canEncode_keeps E c h
  | decodePlain size => exact decodePlain_keeps E fuel size c h
  | encodePlain size => exact encodePlain_keeps E fuel size c h
  | canEncodePlain => exact canEncodePlain_keeps c h
  | others sasl haveOutput state notifyOnWrite => exact keeps_of_same h rfl rfl rfl

theorem runAll_keeps (E : Wire) (fuel : Nat) :
    ∀ (ops : List Op) (c : Codec), HeaderLeftToEngine c → HeaderLeftToEngine (runAll E fuel ops c) := by
  intro ops
  induction ops with
  | nil => exact fun _ h => h
  | cons op rest ih => exact fun c h => ih _ (run_keeps E fuel op c h)

end Codec

namespace Codec

/-- Were `readHeader` true (no statement sets it), a buffer shorter than the header
would send `decodePlain` and `decode` into calls of each other that do not
end: at every fuel the calls run out of it. -/
theorem decodePlain_short_buffer (E : Wire) (size : Nat) (c : Codec) (hr : c.readHeader = true)
    (hs : c.sasl = none) (h0 : 0 < size) (hsize : size < E.encodedSize) :
    ∀ fuel, decodePlain E fuel size c = (.stuck, c) := by
  have hn : ¬ size ≥ E.encodedSize := by omega
  intro fuel
  induction fuel with
  | zero =>
    simp [decodePlain, decodePlainWith, hr, readProtocolHeader, hn, h0]
  | succ fuel ih =>
    simp [decodePlain, decodePlainWith, hr, readProtocolHeader, hn, h0, decodeWith, decodeSasl,
      hs, CodecM.tryCatch, decodeRest, ih]

/-- Were `writeHeader` true (no statement sets it), a buffer shorter than the header
would send `encodePlain` and `encode` into calls of each other that do not
end: at every fuel the calls run out of it. -/
theorem encodePlain_short_buffer (E : Wire) (size : Nat) (c : Codec) (hw : c.writeHeader = true)
    (hs : c.sasl = none) (h0 : 0 < size) (hsize : size < E.encodedSize) :
    ∀ fuel, encodePlain E fuel size c = (.stuck, c) := by
  have hn : ¬ size ≥ E.encodedSize := by omega
  intro fuel
  induction fuel with
  | zero =>
    simp [encodePlain, encodePlainWith, hw, writeProtocolHeader, hn, h0]
  | succ fuel ih =>
    simp [encodePlain, encodePlainWith, hw, writeProtocolHeader, hn, h0, encodeWith,
      encodeSaslCan, hs, CodecM.tryCatch, encodeRest, ih]

end Codec

/-! ## C23: the protocol header -/

/-- C23, as the code has it.  On a connection as constructed, after any calls of
the codec functions (and any changes of the other members by the other
threads), the protocol header is left to the engine: `readHeader` and
`writeHeader` are false and the header has been neither read nor written by
`decodePlain` or `encodePlain`.  In such a state `decodePlain` passes every
byte it is given to the engine and `encodePlain` takes every byte from it, and
both return for every size, also one shorter than the header (whatever the
fuel, which they do not use). -/
theorem header_left_to_engine (E : Wire) (fuel : Nat) (ops : List Codec.Op) (more size : Nat) :
    Codec.HeaderLeftToEngine (Codec.runAll E fuel ops Codec.constructed)
    ∧ Codec.decodePlain E more size (Codec.runAll E fuel ops Codec.constructed)
      = Codec.decodeEngine E size (Codec.runAll E fuel ops Codec.constructed)
    ∧ Codec.encodePlain E more size (Codec.runAll E fuel ops Codec.constructed)
      = Codec.encodeEngine E size (Codec.runAll E fuel ops Codec.constructed)
    ∧ (∃ n c, Codec.decodePlain E more size (Codec.runAll E fuel ops Codec.constructed)
        = (.ret n, c))
    ∧ (∃ n c, Codec.encodePlain E more size (Codec.runAll E fuel ops Codec.constructed)
        = (.ret n, c)) := by
  have h := Codec.runAll_keeps E fuel ops Codec.constructed (by decide)
  have hd := Codec.decodePlain_engine E more size _ h.1
  have he := Codec.encodePlain_engine E more size _ h.2.1
  refine ⟨h, hd, he, ?_, ?_⟩
  · rw [hd]; exact Codec.decodeEngine_returns E size _
  · rw [he]; exact Codec.encodeEngine_returns E size _

/-- C23, the claim at a connection as constructed: the first 8 bytes given to
`decodePlain` all go to the engine, and the first 8 bytes `encodePlain` gives
all come from the engine; the header (of 8 bytes) is neither read nor written
by them. -/
theorem decodePlain_passes_header_to_engine :
    (Codec.decodePlain Example.plainWire 1 8 Codec.constructed).2.calls
      = [.pn_transport_input 8, .pn_transport_tick, .notifyAll]
    ∧ (Codec.encodePlain Example.plainWire 1 8 Codec.constructed).2.calls
      = [.pn_transport_output 8]
    ∧ CodecCall.readProtocolHeader
      ∉ (Codec.decodePlain Example.plainWire 1 8 Codec.constructed).2.calls
    ∧ CodecCall.writeProtocolHeader
      ∉ (Codec.encodePlain Example.plainWire 1 8 Codec.constructed).2.calls := by
  decide

/-! ## C21: an authentication failure in the codec -/

namespace Codec

/-- With the header left to the engine, the security layer's passing of buffers
to `decodePlain` or `encodePlain` returns. -/
theorem fed_returns {plain : Nat → CodecM Nat}
    (hp : ∀ size, CodecM.Preserves HeaderLeftToEngine (plain size))
    (hr : ∀ size c, HeaderLeftToEngine c → ∃ n c1, plain size c = (.ret n, c1)) :
    ∀ (chunks : List Nat) (c : Codec), HeaderLeftToEngine c →
      ∃ c2, fed plain chunks c = (.ret (), c2) := by
  intro chunks
  induction chunks with
  | nil => exact fun c _ => ⟨c, rfl⟩
  | cons chunk rest ih =>
    intro c h
    obtain ⟨n, c1, h1⟩ := hr chunk c h
    have hk : HeaderLeftToEngine c1 := by have := hp chunk c h; rw [h1] at this; exact this
    obtain ⟨c2, h2⟩ := ih c1 hk
    refine ⟨c2, ?_⟩
    unfold fed at h2 ⊢
    simp only [CodecM.forEach, CodecM.bind_at2, CodecM.bind_at, h1, CodecM.pure_at, h2]

theorem fed_decodePlain_returns (E : Wire) (fuel : Nat) (chunks : List Nat) (c : Codec)
    (h : HeaderLeftToEngine c) : ∃ c2, fed (decodePlain E fuel) chunks c = (.ret (), c2) :=
  fed_returns (decodePlain_keeps E fuel)
    (fun size c h => by rw [decodePlain_engine E fuel size c h.1]; exact decodeEngine_returns E size c)
    chunks c h

theorem fed_encodePlain_returns (E : Wire) (fuel : Nat) (chunks : List Nat) (c : Codec)
    (h : HeaderLeftToEngine c) : ∃ c2, fed (encodePlain E fuel) chunks c = (.ret (), c2) :=
  fed_returns (encodePlain_keeps E fuel)
    (fun size c h => by rw [encodePlain_engine E fuel size c h.2.1]; exact encodeEngine_returns E size c)
    chunks c h

/-- The security layer's `decode` throws after passing its buffers on. -/
theorem layerDecode_raises (E : Wire) (plain : Nat → CodecM Nat) (a size : Nat) (c c2 : Codec)
    (e : Exc) (hl : (E.layerDecode a size).2 = .error e)
    (hf : fed plain (E.layerDecode a size).1 { c with calls := c.calls ++ [.layerDecode size] }
      = (.ret (), c2)) :
    layerDecode E plain a size c = (.raise e, c2) := by
  unfold fed at hf
  simp only [layerDecode, call, CodecM.bind_at, CodecM.modify_at, hf, hl, CodecM.raise_at]

/-- The security layer's `encode` throws after having its buffers filled. -/
theorem layerEncode_raises (E : Wire) (plain : Nat → CodecM Nat) (a size : Nat) (c c2 : Codec)
    (e : Exc) (hl : (E.layerEncode a size).2 = .error e)
    (hf : fed plain (E.layerEncode a size).1 { c with calls := c.calls ++ [.layerEncode size] }
      = (.ret (), c2)) :
    layerEncode E plain a size c = (.raise e, c2) := by
  unfold fed at hf
  simp only [layerEncode, call, CodecM.bind_at, CodecM.modify_at, hf, hl, CodecM.raise_at]

theorem fed_sasl (plain : Nat → CodecM Nat) (hp : ∀ size c, ((plain size c).2).sasl = c.sasl) :
    ∀ (chunks : List Nat) (c : Codec), ((fed plain chunks c).2).sasl = c.sasl := by
  intro chunks
  induction chunks with
  | nil => exact fun _ => rfl
  | cons chunk rest ih =>
    intro c
    have h1 := hp chunk c
    unfold fed at ih ⊢
    simp only [CodecM.forEach, CodecM.bind_at2, CodecM.bind_at]
    rcases hm : plain chunk c with ⟨o, c1⟩
    rw [hm] at h1
    cases o with
    | ret n => simp only [CodecM.pure_at]; rw [ih c1]; exact h1
    | raise e => exact h1
    | stuck => exact h1

end Codec

/-- C21.  Let the header be left to the engine and `a` be the authenticator.
Whenever the authenticator or its security layer throws
`AuthenticationFailure` in `decode`, `encode` or `canEncode`, the call returns,
and the members after it are those at the throw with the one call
`transport->close()` added: nothing more is passed to or taken from the
engine.  `decode` returns 0 when the authenticator's `decode` throws, 0 when
the security layer's `decode` throws for an authenticated authenticator, and
the authenticator's count `n` when the layer throws after the authenticator
took `n` bytes; `encode` returns 0 when the authenticator's `canEncode` or
`encode` throws, 0 when the layer's `encode` throws and the authenticator wrote
nothing, and the authenticator's count `n` when the layer throws after it;
`canEncode` returns false when the authenticator's or the layer's `canEncode`
throws. -/
theorem authentication_failure_closes_transport (E : Wire) (fuel size : Nat) (c : Codec)
    (a : Nat) (text : String) (hc : Codec.HeaderLeftToEngine c) (hs : c.sasl = some a) :
    (E.authenticated a = false → E.saslDecode a size = .error (.AuthenticationFailure text) →
      Codec.decode E fuel size c
        = (.ret 0, Codec.closed { c with calls := c.calls ++ [.saslDecode size] }))
    ∧ (E.authenticated a = true → E.securityLayer a = true → 0 < size →
      (E.layerDecode a size).2 = .error (.AuthenticationFailure text) →
      ∃ c2, Codec.fed (Codec.decodePlain E fuel) (E.layerDecode a size).1
            { c with calls := c.calls ++ [.layerDecode size] } = (.ret (), c2)
        ∧ Codec.decode E fuel size c = (.ret 0, Codec.closed c2))
    ∧ (∀ n a1, E.authenticated a = false → E.saslDecode a size = .ok (n, a1) →
      E.authenticated a1 = true → E.securityLayer a1 = true → n < size →
      (E.layerDecode a1 (size - n)).2 = .error (.AuthenticationFailure text) →
      ∃ c2, Codec.fed (Codec.decodePlain E fuel) (E.layerDecode a1 (size - n)).1
            { c with
              calls := c.calls ++ [.saslDecode size] ++ [.layerDecode (size - n)],
              sasl := some a1 } = (.ret (), c2)
        ∧ Codec.decode E fuel size c = (.ret n, Codec.closed c2))
    ∧ (E.saslCanEncode a = .error (.AuthenticationFailure text) →
      Codec.encode E fuel size c
        = (.ret 0, Codec.closed { c with calls := c.calls ++ [.saslCanEncode] }))
    ∧ (E.saslCanEncode a = .ok true → E.saslEncode a size = .error (.AuthenticationFailure text) →
      Codec.encode E fuel size c
        = (.ret 0, Codec.closed
            { c with calls := c.calls ++ [.saslCanEncode] ++ [.saslEncode size] }))
    ∧ (E.saslCanEncode a = .ok false → E.securityLayer a = true → 0 < size →
      (E.layerEncode a size).2 = .error (.AuthenticationFailure text) →
      ∃ c2, Codec.fed (Codec.encodePlain E fuel) (E.layerEncode a size).1
            { c with calls := c.calls ++ [.saslCanEncode] ++ [.layerEncode size] } = (.ret (), c2)
        ∧ Codec.encode E fuel size c = (.ret 0, Codec.closed c2))
    ∧ (∀ n a1, E.saslCanEncode a = .ok true → E.saslEncode a size = .ok (n, a1) →
      E.authenticated a1 = true → E.securityLayer a1 = true → n < size →
      (E.layerEncode a1 (size - n)).2 = .error (.AuthenticationFailure text) →
      ∃ c2, Codec.fed (Codec.encodePlain E fuel) (E.layerEncode a1 (size - n)).1
            { c with
              calls := c.calls ++ [.saslCanEncode] ++ [.saslEncode size]
                ++ [.layerEncode (size - n)],
              sasl := some a1 } = (.ret (), c2)
        ∧ Codec.encode E fuel size c = (.ret n, Codec.closed c2))
    ∧ (E.saslCanEncode a = .error (.AuthenticationFailure text) →
      Codec.canEncode E c
        = (.ret false, Codec.closed { c with calls := c.calls ++ [.saslCanEncode] }))
    ∧ (E.saslCanEncode a = .ok false → E.authenticated a = true → E.securityLayer a = true →
      (E.layerCanEncode a).2 = .error (.AuthenticationFailure text) →
      Codec.canEncode E c
        = (.ret false, Codec.closed
            { c with
              calls := c.calls ++ [.saslCanEncode] ++ [.layerCanEncode]
                ++ (if (E.layerCanEncode a).1 then [.pn_transport_tick] else []) })) := by
  refine ⟨?_, ?_, ?_, ?_, ?_, ?_, ?_, ?_, ?_⟩
  · intro ha hd
    simp [hs, Codec.decode, Codec.decodeWith, Codec.decodeSasl, CodecM.tryCatch, ha, hd,
      Codec.isAuthenticationFailure, Codec.transportClose, Codec.call, Codec.closed]
  · intro ha hl hz hd
    obtain ⟨c2, h2⟩ := Codec.fed_decodePlain_returns E fuel (E.layerDecode a size).1
      { c with calls := c.calls ++ [.layerDecode size] }
      (Codec.call_keeps (.layerDecode size) (by intro e; cases e) (by intro e; cases e) c hc)
    refine ⟨c2, h2, ?_⟩
    have hr := Codec.layerDecode_raises E (Codec.decodePlain E fuel) a size c c2 _ hd h2
    simp only [hs, List.append_assoc, List.cons_append, List.nil_append] at hr
    simp [hs, Codec.decode, Codec.decodeWith, Codec.decodeSasl, CodecM.tryCatch, ha, hz,
      Codec.decodeRest, hl, hr, Codec.isAuthenticationFailure, Codec.transportClose, Codec.call,
      Codec.closed]
  · intro n a1 ha hd ha1 hl hn hld
    have hk : Codec.HeaderLeftToEngine
        { c with
          calls := c.calls ++ [.saslDecode size] ++ [.layerDecode (size - n)],
          sasl := some a1 } :=
      Codec.keeps_of_same
        (Codec.call_keeps (.layerDecode (size - n)) (by intro e; cases e) (by intro e; cases e) _
          (Codec.call_keeps (.saslDecode size) (by intro e; cases e) (by intro e; cases e) c hc))
        rfl rfl rfl
    obtain ⟨c2, h2⟩ := Codec.fed_decodePlain_returns E fuel (E.layerDecode a1 (size - n)).1 _ hk
    refine ⟨c2, h2, ?_⟩
    have hr := Codec.layerDecode_raises E (Codec.decodePlain E fuel) a1 (size - n)
      { c with calls := c.calls ++ [.saslDecode size], sasl := some a1 } c2 _ hld h2
    simp only [hs, List.append_assoc, List.cons_append, List.nil_append] at hr
    simp [hs, Codec.decode, Codec.decodeWith, Codec.decodeSasl, CodecM.tryCatch, ha, hd, ha1, hn,
      Codec.decodeRest, hl, hr, Codec.isAuthenticationFailure, Codec.transportClose, Codec.call,
      Codec.closed]
  · intro hd
    simp [hs, Codec.encode, Codec.encodeWith, Codec.encodeSaslCan, CodecM.tryCatch, hd,
      Codec.isAuthenticationFailure, Codec.transportClose, Codec.call, Codec.closed]
  · intro hcan hd
    simp [hs, Codec.encode, Codec.encodeWith, Codec.encodeSaslCan, Codec.encodeSasl, CodecM.tryCatch,
      hcan, hd, Codec.isAuthenticationFailure, Codec.transportClose, Codec.call, Codec.closed]
  · intro hcan hl hz hd
    have hk : Codec.HeaderLeftToEngine
        { c with calls := c.calls ++ [.saslCanEncode] ++ [.layerEncode size] } :=
      Codec.call_keeps (.layerEncode size) (by intro e; cases e) (by intro e; cases e) _
        (Codec.call_keeps .saslCanEncode (by decide) (by decide) c hc)
    obtain ⟨c2, h2⟩ := Codec.fed_encodePlain_returns E fuel (E.layerEncode a size).1 _ hk
    refine ⟨c2, h2, ?_⟩
    have hr := Codec.layerEncode_raises E (Codec.encodePlain E fuel) a size
      { c with calls := c.calls ++ [.saslCanEncode] } c2 _ hd h2
    simp only [hs, List.append_assoc, List.cons_append, List.nil_append] at hr
    simp [hs, Codec.encode, Codec.encodeWith, Codec.encodeSaslCan, CodecM.tryCatch, hcan, hz,
      Codec.encodeRest, hl, hr, Codec.isAuthenticationFailure, Codec.transportClose, Codec.call,
      Codec.closed]
  · intro n a1 hcan hd ha1 hl hn hld
    have hk : Codec.HeaderLeftToEngine
        { c with
          calls := c.calls ++ [.saslCanEncode] ++ [.saslEncode size] ++ [.layerEncode (size - n)],
          sasl := some a1 } :=
      Codec.keeps_of_same
        (Codec.call_keeps (.layerEncode (size - n)) (by intro e; cases e) (by intro e; cases e) _
          (Codec.call_keeps (.saslEncode size) (by intro e; cases e) (by intro e; cases e) _
            (Codec.call_keeps .saslCanEncode (by decide) (by decide) c hc)))
        rfl rfl rfl
    obtain ⟨c2, h2⟩ := Codec.fed_encodePlain_returns E fuel (E.layerEncode a1 (size - n)).1 _ hk
    refine ⟨c2, h2, ?_⟩
    have hr := Codec.layerEncode_raises E (Codec.encodePlain E fuel) a1 (size - n)
      { c with calls := c.calls ++ [.saslCanEncode] ++ [.saslEncode size], sasl := some a1 }
      c2 _ hld h2
    simp only [hs, List.append_assoc, List.cons_append, List.nil_append] at hr
    simp [hs, Codec.encode, Codec.encodeWith, Codec.encodeSaslCan, Codec.encodeSasl, CodecM.tryCatch,
      hcan, hd, ha1, hn, Codec.encodeRest, hl, hr, Codec.isAuthenticationFailure,
      Codec.transportClose, Codec.call, Codec.closed]
  · intro hd
    simp [hs, Codec.canEncode, Codec.canEncodeSasl, CodecM.tryCatch, hd,
      Codec.isAuthenticationFailure, Codec.transportClose, Codec.call, Codec.closed]
  · intro hcan ha hl hd
    by_cases hask : (E.layerCanEncode a).1 = true
    · simp [Codec.canEncode, Codec.canEncodeSasl, Codec.canEncodePlain, CodecM.tryCatch, hs,
        hcan, ha, hl, hd, hask, Codec.isAuthenticationFailure, Codec.transportClose, Codec.call,
        Codec.closed]
    · simp [Codec.canEncode, Codec.canEncodeSasl, Codec.canEncodePlain, CodecM.tryCatch, hs,
        hcan, ha, hl, hd, hask, Codec.isAuthenticationFailure, Codec.transportClose, Codec.call,
        Codec.closed]

/-- C21 at an example: the authenticator takes 5 of 20 bytes and is then
authenticated, its security layer passes 3 bytes to the engine and then fails
the authentication; `decode` returns 5, and after the layer's throw only
`transport->close()` is called. -/
theorem authentication_failure_closes_transport_witness :
    Codec.HeaderLeftToEngine { Codec.constructed with sasl := some 0 }
    ∧ ∃ c2, Codec.fed (Codec.decodePlain Example.failingWire 1) [3]
          { Codec.constructed with
            calls := [.saslDecode 20, .layerDecode 15],
            sasl := some 1 } = (.ret (), c2)
        ∧ Codec.decode Example.failingWire 1 20 { Codec.constructed with sasl := some 0 }
          = (.ret 5, Codec.closed c2) :=
  ⟨by decide,
   (authentication_failure_closes_transport Example.failingWire 1 20
      { Codec.constructed with sasl := some 0 } 0 "bad" (by decide) rfl).2.2.1
      5 1 rfl rfl rfl rfl (by decide) rfl⟩

/-! ## C24, C27: the ids of `IdSequence` -/

/-- C24. For every value of the counter `next()` returns an id that is not 0: so
also after `reset(0)`, and on the call after the one that returned `2^64-1`
and wrapped the counter to 0. -/
theorem IdSequence_next_never_0 (q : IdSequence) :
    q.next.1 ≠ 0 ∧ ((q.reset 0).next.1 ≠ 0) ∧ ((q.reset (2 ^ 64 - 1)).next.2.id = 0
      ∧ (q.reset (2 ^ 64 - 1)).next.2.next.1 ≠ 0) := by
  refine ⟨?_, by simp [IdSequence.reset, IdSequence.next],
    by simp [IdSequence.reset, IdSequence.next], by simp [IdSequence.reset, IdSequence.next]⟩
  unfold IdSequence.next
  by_cases h : q.id = 0
  · simp [h]
  · simp [h]

namespace IdSequence

/-- The terms `v, v+1, ...` modulo `2^64` without the zeros, taken from enough
terms, are the values `next()` returns from the counter `v`. -/
theorem take_filter_range (n : Nat) :
    ∀ (v m : Nat), v < 2 ^ 64 → 2 * n ≤ m →
      (((List.range m).map fun i => (v + i) % 2 ^ 64).filter fun x => x ≠ 0).take n
        = nexts n ⟨v⟩ := by
  induction n with
  | zero => intro v m _ _; simp [nexts]
  | succ n ih =>
    intro v m hv hm
    have shift : ∀ (a k : Nat), (List.range (k + 1)).map (fun i => (a + i) % 2 ^ 64)
        = (a % 2 ^ 64) :: (List.range k).map (fun i => ((a + 1) % 2 ^ 64 + i) % 2 ^ 64) := by
      intro a k
      rw [List.range_succ_eq_map, List.map_cons, List.map_map]
      congr 1
      apply List.map_congr_left
      intro i _
      simp only [Function.comp, Nat.add_zero]
      omega
    by_cases h0 : v = 0
    · subst h0
      obtain ⟨k, rfl⟩ : ∃ k, m = k + 1 + 1 := ⟨m - 2, by omega⟩
      rw [shift 0 (k + 1), shift ((0 + 1) % 2 ^ 64) k]
      have e : nexts (n + 1) ⟨0⟩ = 1 :: nexts n ⟨2⟩ := rfl
      have f : List.filter (fun x => decide (x ≠ 0))
          (0 % 2 ^ 64 :: ((0 + 1) % 2 ^ 64 % 2 ^ 64 ::
            List.map (fun i => (((0 + 1) % 2 ^ 64 + 1) % 2 ^ 64 + i) % 2 ^ 64) (List.range k)))
          = 1 :: List.filter (fun x => decide (x ≠ 0))
            (List.map (fun i => (2 + i) % 2 ^ 64) (List.range k)) := rfl
      rw [e, f, List.take_succ_cons]
      congr 1
      exact ih 2 k (by norm_num) (by omega)
    · obtain ⟨k, rfl⟩ : ∃ k, m = k + 1 := ⟨m - 1, by omega⟩
      rw [shift v k]
      have e : nexts (n + 1) ⟨v⟩ = v :: nexts n ⟨(v + 1) % 2 ^ 64⟩ := by
        simp [nexts, next, h0]
      rw [e, Nat.mod_eq_of_lt hv]
      simp only [List.filter_cons, h0, ne_eq, not_false_eq_true, decide_True, if_true,
        List.take_succ_cons]
      congr 1
      exact ih _ k (Nat.mod_lt _ (by norm_num)) (by omega)

end IdSequence

/-- C27. After `reset(v)` the successive calls of `next()` return the terms of
`v, v+1, v+2, ...` modulo `2^64` with `0` skipped: for `v = 0` the first
result is 1, and the result after `2^64-1` is 1.  A sequence as constructed
returns 1 first.  Two consecutive results are never equal. -/
theorem IdSequence_nexts_count_from_reset (q : IdSequence) (v n : Nat) (hv : v < 2 ^ 64) :
    IdSequence.nexts n (q.reset v) = IdSequence.countingFrom v n
    ∧ IdSequence.nexts 1 (q.reset 0) = [1]
    ∧ IdSequence.nexts 2 (q.reset (2 ^ 64 - 1)) = [2 ^ 64 - 1, 1]
    ∧ IdSequence.new.next.1 = 1
    ∧ (q.reset v).next.1 ≠ (q.reset v).next.2.next.1 := by
  refine ⟨(IdSequence.take_filter_range n v (2 * n) hv (le_refl _)).symm, rfl, ?_, rfl, ?_⟩
  · show IdSequence.nexts 2 ⟨2 ^ 64 - 1⟩ = [2 ^ 64 - 1, 1]
    decide
  simp only [IdSequence.next, IdSequence.reset]
  by_cases h0 : v = 0
  · subst h0; decide
  · by_cases h1 : (v + 1) % 2 ^ 64 = 0
    · simp only [h0, h1, if_false, if_true]
      omega
    · simp only [h0, h1, if_false]
      omega

/-- Witness of C27: five calls after `reset(2^64 - 2)`. -/
theorem IdSequence_nexts_count_from_reset_witness :
    2 ^ 64 - 2 < 2 ^ 64
    ∧ IdSequence.nexts 5 (IdSequence.new.reset (2 ^ 64 - 2)) = [2 ^ 64 - 2, 2 ^ 64 - 1, 1, 2, 3]
    ∧ IdSequence.countingFrom (2 ^ 64 - 2) 5 = [2 ^ 64 - 2, 2 ^ 64 - 1, 1, 2, 3] :=
  ⟨by decide,
    ((IdSequence_nexts_count_from_reset IdSequence.new (2 ^ 64 - 2) 5 (by decide)).1.trans (by decide)),
    by decide⟩

/-! ## C25, C28: the order of publish, header and content in `MessageBuilder` -/

/-- C25. `initialise` throws, with the code `PROTOCOL_ERROR + 504`, exactly when a
message is in progress; `setHeader` and `addContent` throw, with that code,
exactly when no message is in progress; and a call that throws leaves the
builder as it was: the same message, the same staging flag, and no call made
to the store or to the handler. -/
theorem MessageBuilder_enforces_order {Msg Hdr Body : Type} (P : broker.Parts Msg Hdr Body)
    (b : broker.MessageBuilder Msg) (msg : Option Msg) (header : Hdr) (content : Body) :
    (((b.initialise msg).1.map fun e => e.code) = some 504 ↔ b.message.isSome)
    ∧ ((b.initialise msg).1 = none ↔ ¬ b.message.isSome)
    ∧ ((b.initialise msg).1 ≠ none → (b.initialise msg).2 = b)
    ∧ (((b.setHeader P header).1.map fun e => e.code) = some 504 ↔ b.message = none)
    ∧ ((b.setHeader P header).1 = none ↔ ¬ b.message = none)
    ∧ ((b.setHeader P header).1 ≠ none → (b.setHeader P header).2 = b)
    ∧ (((b.addContent P content).1.map fun e => e.code) = some 504 ↔ b.message = none)
    ∧ ((b.addContent P content).1 = none ↔ ¬ b.message = none)
    ∧ ((b.addContent P content).1 ≠ none → (b.addContent P content).2 = b) := by
  unfold broker.MessageBuilder.initialise broker.MessageBuilder.setHeader
    broker.MessageBuilder.addContent
  cases hm : b.message with
  | none => simp
  | some m => simp

namespace broker

namespace MessageBuilder

/-- What `route()` does with a message in progress that is complete once staged:
the store is called if the builder is staging, the handler is called if there
is one, and the builder is as constructed but for the record of the calls. -/
theorem route_complete {Msg Hdr Body : Type} (P : Parts Msg Hdr Body) (b : MessageBuilder Msg)
    (m : Msg) (hm : b.message = some m) (hc : P.isComplete (staged P b.staging b.store m) = true) :
    route P b = { b with
      message := none, staging := false,
      calls := (if b.staging && b.store then b.calls ++ [.stage m] else b.calls)
        ++ (if b.handler then [.complete (staged P b.staging b.store m)] else []) } := by
  unfold route stageIfStaging
  rw [hm]
  unfold staged at hc
  by_cases hs : (b.staging && b.store) = true
  · simp only [hs, if_true] at hc ⊢
    unfold completeIfComplete
    cases hh : b.handler <;> simp [hc, hh, staged, hs]
  · simp only [Bool.not_eq_true] at hs
    simp only [hs, Bool.false_eq_true, if_false] at hc ⊢
    unfold completeIfComplete
    cases hh : b.handler <;> simp [hc, hh, staged, hs]

/-- What `route()` keeps: with a message in progress before it, the builder is
staging after it only if a message is still in progress. -/
theorem route_staging {Msg Hdr Body : Type} (P : Parts Msg Hdr Body) (b : MessageBuilder Msg)
    (m : Msg) (hm : b.message = some m) :
    (route P b).staging = true → (route P b).message.isSome = true := by
  unfold route stageIfStaging
  rw [hm]
  by_cases hs : (b.staging && b.store) = true
  · simp only [hs, if_true]
    unfold completeIfComplete
    by_cases hc : P.isComplete (P.releaseContent (P.stage m)) = true
    · simp [hc]
    · simp [hc]
  · simp only [hs, if_false]
    unfold completeIfComplete
    by_cases hc : P.isComplete m = true
    · simp [hc]
    · simp [hc]

/-- In every builder that can be reached, staging means a message is in
progress. -/
theorem reachable_staging {Msg Hdr Body : Type} (P : Parts Msg Hdr Body) (b : MessageBuilder Msg)
    (h : Reachable P b) : b.staging = true → b.message.isSome = true := by
  induction h with
  | constructed handler store t => intro h; cases h
  | initialise b msg _ ih =>
    unfold MessageBuilder.initialise
    cases hm : b.message with
    | none =>
      intro hs
      have := ih (by simpa [hm] using hs)
      simp [hm] at this
    | some m => simpa [hm] using ih
  | setHeader b header _ ih =>
    unfold MessageBuilder.setHeader
    cases hm : b.message with
    | none => simpa [hm] using ih
    | some m => exact route_staging P _ _ rfl
  | addContent b content _ ih =>
    unfold MessageBuilder.addContent
    cases hm : b.message with
    | none => simpa [hm] using ih
    | some m => exact route_staging P _ _ rfl

end MessageBuilder

end broker

/-- C25 at an example: on a builder as constructed `setHeader` throws with the code
504 and leaves the builder as constructed. -/
theorem MessageBuilder_enforces_order_witness :
    ((broker.MessageBuilder.new true true 10 :
        broker.MessageBuilder (Option Nat × List Nat)).setHeader broker.Parts.sizes 12).1 ≠ none
    ∧ ((broker.MessageBuilder.new true true 10 :
        broker.MessageBuilder (Option Nat × List Nat)).setHeader broker.Parts.sizes 12).2
      = broker.MessageBuilder.new true true 10 :=
  ⟨by decide,
   (MessageBuilder_enforces_order broker.Parts.sizes (broker.MessageBuilder.new true true 10)
      none 12 12).2.2.2.2.2.1 (by decide)⟩

/-- C28. When `setHeader` or `addContent` makes the message in progress complete,
the completion handler, if there is one, is called exactly once, with that
message, and the builder is as constructed (no message in progress, `staging`
false), so that the next `initialise` does not throw and takes its message;
and in every builder that can be reached from one as constructed, `staging`
implies that a message is in progress. -/
theorem MessageBuilder_complete_returns_to_initial {Msg Hdr Body : Type}
    (P : broker.Parts Msg Hdr Body) :
    (∀ (b : broker.MessageBuilder Msg) (m : Msg) (header : Hdr) (msg : Option Msg),
      b.message = some m →
      P.isComplete (broker.MessageBuilder.staged P (b.stagingFor P header) b.store
        (P.setHeader m header)) = true →
      b.setHeader P header = (none, b.completed P (b.stagingFor P header) (P.setHeader m header))
      ∧ (b.setHeader P header).2.message = none ∧ (b.setHeader P header).2.staging = false
      ∧ (b.setHeader P header).2.initialise msg
        = (none, { (b.setHeader P header).2 with message := msg }))
    ∧ (∀ (b : broker.MessageBuilder Msg) (m : Msg) (content : Body) (msg : Option Msg),
      b.message = some m →
      P.isComplete (broker.MessageBuilder.staged P b.staging b.store (P.addContent m content))
        = true →
      b.addContent P content = (none, b.completed P b.staging (P.addContent m content))
      ∧ (b.addContent P content).2.message = none ∧ (b.addContent P content).2.staging = false
      ∧ (b.addContent P content).2.initialise msg
        = (none, { (b.addContent P content).2 with message := msg }))
    ∧ (∀ b : broker.MessageBuilder Msg, broker.MessageBuilder.Reachable P b →
      b.staging = true → b.message.isSome = true) := by
  refine ⟨fun b m header msg hm hc => ?_, fun b m content msg hm hc => ?_,
    fun b hb => broker.MessageBuilder.reachable_staging P b hb⟩
  · have e : b.setHeader P header
        = (none, b.completed P (b.stagingFor P header) (P.setHeader m header)) := by
      unfold broker.MessageBuilder.setHeader
      rw [hm]
      simp only
      rw [broker.MessageBuilder.route_complete P _ (P.setHeader m header) rfl hc]
      rfl
    rw [e]
    exact ⟨rfl, rfl, rfl, rfl⟩
  · have e : b.addContent P content
        = (none, b.completed P b.staging (P.addContent m content)) := by
      unfold broker.MessageBuilder.addContent
      rw [hm]
      simp only
      rw [broker.MessageBuilder.route_complete P { b with message := some (P.addContent m content) }
        (P.addContent m content) rfl hc]
      rfl
    rw [e]
    exact ⟨rfl, rfl, rfl, rfl⟩

/-- Witness of C28: a builder with a handler, a store and the staging threshold 10
takes a message, its header for 12 bytes and a body of 12 bytes. -/
theorem MessageBuilder_complete_returns_to_initial_witness :
    (((broker.MessageBuilder.new true true 10).initialise (some (none, []))).2.setHeader
        broker.Parts.sizes 12).2.message = some (some 12, [])
    ∧ broker.Parts.sizes.isComplete (broker.MessageBuilder.staged broker.Parts.sizes true true
        (broker.Parts.sizes.addContent (some 12, []) 12)) = true
    ∧ ((((broker.MessageBuilder.new true true 10).initialise (some (none, []))).2.setHeader
        broker.Parts.sizes 12).2.addContent broker.Parts.sizes 12).2.calls
      = [.stage (some 12, []), .stage (some 12, [12]), .complete (some 12, [12])]
    ∧ ((((broker.MessageBuilder.new true true 10).initialise (some (none, []))).2.setHeader
        broker.Parts.sizes 12).2.addContent broker.Parts.sizes 12).2.message = none :=
  ⟨by decide, by decide,
    (congrArg (fun r => r.2.calls)
      (((MessageBuilder_complete_returns_to_initial broker.Parts.sizes).2.1
        (((broker.MessageBuilder.new true true 10).initialise (some (none, []))).2.setHeader
          broker.Parts.sizes 12).2 (some 12, []) 12 none (by decide) (by decide)).1)).trans
      (by decide),
    ((MessageBuilder_complete_returns_to_initial broker.Parts.sizes).2.1
        (((broker.MessageBuilder.new true true 10).initialise (some (none, []))).2.setHeader
          broker.Parts.sizes 12).2 (some 12, []) 12 none (by decide) (by decide)).2.1⟩

/-! ## C26: `Packer::decode` after `Packer::encode` -/

/-- C26, the code at a struct that mixes members: a struct with a member of a type
`T` (7), an optional member that is absent and an optional member that is
there (9) is encoded as the flags `101` and the two values; decoded, it has
the first optional member there, with the value 9, and the second absent:
`PackBits` gives the first member the bit 0, and `PackedDecoder` tests the
bit 0 for the first optional member. -/
theorem Packer_decode_encode_mixed_struct :
    amqp_0_10.Packer.encode 1 [.plain 7, .optional none, .optional (some 9)] = [5, 7, 9]
    ∧ amqp_0_10.Packer.decode (amqp_0_10.shape [.plain 7, .optional none, .optional (some 9)])
        (amqp_0_10.Packer.encode 1 [.plain 7, .optional none, .optional (some 9)])
      = some ([.plain 7, .optional (some 9), .optional none], [])
    ∧ amqp_0_10.Packer.decode (amqp_0_10.shape [.plain 7, .optional none, .optional (some 9)])
        (amqp_0_10.Packer.encode 1 [.plain 7, .optional none, .optional (some 9)])
      ≠ some ([.plain 7, .optional none, .optional (some 9)], []) := by
  decide

namespace amqp_0_10

/-- What `PackBits` computes: from the bit `k`, each member takes the next bit. -/
theorem packBits_from : ∀ (data : List Member) (k B : Nat), k + data.length ≤ 32 → B < 2 ^ k →
    (data.foldl PackBits.call ⟨2 ^ k % 2 ^ 32, B⟩).bits = B + 2 ^ k * flags data := by
  intro data
  induction data with
  | nil => intro k B _ _; simp [flags]
  | cons m rest ih =>
    intro k B hk hB
    simp only [List.length_cons] at hk
    have hk32 : k < 32 := by omega
    have hpow : 2 ^ k % 2 ^ 32 = 2 ^ k :=
      Nat.mod_eq_of_lt (Nat.pow_lt_pow_right (by norm_num) hk32)
    have hshift : (2 ^ k <<< 1) % 2 ^ 32 = 2 ^ (k + 1) % 2 ^ 32 := by
      have : 2 ^ k <<< 1 = 2 ^ (k + 1) := by rw [Nat.shiftLeft_eq]; ring
      rw [this]
    have hor : B ||| 2 ^ k = B + 2 ^ k := by
      have := Nat.mul_add_lt_is_or hB 1
      rw [mul_one] at this
      rw [Nat.or_comm B, ← this, Nat.add_comm]
    have hB1 : B + 2 ^ k < 2 ^ (k + 1) := by rw [pow_succ]; omega
    have hB2 : B < 2 ^ (k + 1) := by rw [pow_succ]; omega
    have hset : (List.foldl PackBits.call (PackBits.setBit ⟨2 ^ k % 2 ^ 32, B⟩) rest).bits
        = B + 2 ^ k * (2 * flags rest + 1) := by
      simp only [PackBits.setBit, hpow, hshift, hor]
      rw [ih (k + 1) (B + 2 ^ k) (by omega) hB1, pow_succ]
      ring
    have hskip : (List.foldl PackBits.call (PackBits.skipBit ⟨2 ^ k % 2 ^ 32, B⟩) rest).bits
        = B + 2 ^ k * (2 * flags rest) := by
      simp only [PackBits.skipBit, hpow, hshift]
      rw [ih (k + 1) B (by omega) hB2, pow_succ]
      ring
    cases m with
    | plain v => simpa [List.foldl_cons, PackBits.call, flags] using hset
    | optional o =>
      cases o with
      | none => simpa [List.foldl_cons, PackBits.call, flags] using hskip
      | some v => simpa [List.foldl_cons, PackBits.call, flags] using hset

theorem flags_lt : ∀ data : List Member, flags data < 2 ^ data.length := by
  intro data
  induction data with
  | nil => simp [flags]
  | cons m rest ih =>
    have : 2 ^ (rest.length + 1) = 2 * 2 ^ rest.length := by rw [pow_succ]; ring
    cases m with
    | plain v => simp only [flags, List.length_cons]; omega
    | optional o =>
      cases o with
      | none => simp only [flags, List.length_cons]; omega
      | some v => simp only [flags, List.length_cons]; omega

/-- The flag bits `packBits` gives a struct of at most 32 members. -/
theorem packBits_eq_flags (data : List Member) (h : data.length ≤ 32) :
    packBits data = flags data := by
  have := packBits_from data 0 0 (by omega) (by norm_num)
  simpa [packBits, PackBits.getBits, PackBits.new] using this

/-- What `PackedDecoder` reads back from the flags and the values of a struct
whose members are all optional. -/
theorem serialize_optional : ∀ (data : List Member) (rest : List Nat),
    (∀ m ∈ data, m.isOptional = true) →
    (PackedDecoder.mk (flags data) ((data.map encodeMember).flatten ++ rest)).serialize
        (shape data) = some (data, ⟨0, rest⟩) := by
  intro data
  induction data with
  | nil => intro rest _; rfl
  | cons m tail ih =>
    intro rest hall
    have ht := ih rest (fun x hx => hall x (List.mem_cons_of_mem _ hx))
    cases m with
    | plain v => simpa [Member.isOptional] using hall (.plain v) (List.mem_cons_self _ _)
    | optional o =>
      cases o with
      | none =>
        have e1 : (2 * flags tail) &&& 1 = 0 := by rw [Nat.and_one_is_mod]; omega
        have e2 : (2 * flags tail) >>> 1 = flags tail := by rw [Nat.shiftRight_eq_div_pow]; omega
        simp only [shape, List.map_cons, Member.isOptional, PackedDecoder.serialize,
          PackedDecoder.call, flags, e1, e2, encodeMember, List.flatten_cons, List.nil_append,
          if_true, ne_eq, not_true_eq_false, if_false]
        simp only [shape] at ht
        rw [ht]
      | some v =>
        have e1 : (2 * flags tail + 1) &&& 1 = 1 := by rw [Nat.and_one_is_mod]; omega
        have e2 : (2 * flags tail + 1) >>> 1 = flags tail := by
          rw [Nat.shiftRight_eq_div_pow]; omega
        simp only [shape, List.map_cons, Member.isOptional, PackedDecoder.serialize,
          PackedDecoder.call, flags, e1, e2, encodeMember, List.flatten_cons, List.cons_append,
          List.nil_append, if_true, ne_eq, one_ne_zero, not_false_eq_true]
        simp only [shape] at ht
        rw [ht]

/-- For a struct whose members are all optional and have a flag bit each in
`Bits`, `Packer::decode` reads back what `Packer::encode` wrote: each member
is there or not as it was, with its value. -/
theorem Packer_decode_encode_optional (pack : Nat) (data : List Member) (rest : List Nat)
    (hall : ∀ m ∈ data, m.isOptional = true) (hlen : data.length ≤ 8 * pack)
    (h32 : data.length ≤ 32) :
    Packer.decode (shape data) (Packer.encode pack data ++ rest) = some (data, rest) := by
  have hb : packBits data % 2 ^ (8 * pack) = flags data := by
    rw [packBits_eq_flags data h32]
    exact Nat.mod_eq_of_lt (lt_of_lt_of_le (flags_lt data)
      (Nat.pow_le_pow_right (by norm_num) hlen))
  simp only [Packer.encode, Packer.decode, List.cons_append, hb, serialize_optional data rest hall]

end amqp_0_10

/-! ## What a round of attempts leaves alone -/

namespace ConnectionContext

theorem Quiet.unmoved (s : ConnectionContext) : Quiet s s :=
  ⟨rfl, rfl, rfl, rfl, rfl, rfl, le_refl _, ⟨[], by simp⟩, fun _ => ⟨rfl, rfl⟩⟩

/-- A step that changes neither the options, nor the record of the calls, nor the
retry counter. -/
theorem Quiet.same {s t : ConnectionContext} (h1 : t.reconnect = s.reconnect)
    (h2 : t.timeout = s.timeout) (h3 : t.limit = s.limit) (h4 : t.fullUrl = s.fullUrl)
    (h5 : t.minReconnectInterval = s.minReconnectInterval)
    (h6 : t.maxReconnectInterval = s.maxReconnectInterval) (h7 : t.calls = s.calls)
    (h8 : t.retries = s.retries) : Quiet s t :=
  ⟨h1, h2, h3, h4, h5, h6, by rw [h7], ⟨[], by rw [h7]; simp⟩, fun _ => ⟨h8, by rw [h7]⟩⟩

theorem Quiet.andThen {s t u : ConnectionContext} (h1 : Quiet s t) (h2 : Quiet t u) : Quiet s u := by
  obtain ⟨m1, e1⟩ := h1.sleeps_grow
  obtain ⟨m2, e2⟩ := h2.sleeps_grow
  refine ⟨h2.reconnect.trans h1.reconnect, h2.timeout.trans h1.timeout, h2.limit.trans h1.limit,
    h2.fullUrl.trans h1.fullUrl, h2.minInterval.trans h1.minInterval,
    h2.maxInterval.trans h1.maxInterval, le_trans h1.rounds_le h2.rounds_le,
    ⟨m1 ++ m2, by rw [e2, e1, List.append_assoc]⟩, fun h => ?_⟩
  have ha : rounds t.calls = rounds s.calls := le_antisymm (h ▸ h2.rounds_le) h1.rounds_le
  have hb : rounds u.calls = rounds t.calls := by rw [h, ha]
  exact ⟨(h2.kept hb).1.trans (h1.kept ha).1, (h2.kept hb).2.trans (h1.kept ha).2⟩

theorem quiet_pure {α : Type} (a : α) : Quietly (Pure.pure a : M α) := fun s => Quiet.unmoved s

theorem quiet_raise {α : Type} (e : Exc) : Quietly (M.raise e : M α) := fun s => Quiet.unmoved s

theorem quiet_stuck {α : Type} : Quietly (M.stuck : M α) := fun s => Quiet.unmoved s

theorem quiet_get : Quietly M.get := fun s => Quiet.unmoved s

theorem quiet_test (c : ConnectionContext → Bool) : Quietly (M.test c) := fun s => Quiet.unmoved s

theorem quiet_modify {f : ConnectionContext → ConnectionContext}
    (hf : ∀ s, Quiet s (f s)) : Quietly (M.modify f) := fun s => hf s

theorem quiet_bind {α β : Type} {m : M α} {f : α → M β} (hm : Quietly m)
    (hf : ∀ a, Quietly (f a)) : Quietly (m >>= f) := by
  intro s
  have h1 := hm s
  simp only [M.bind_apply]
  rcases hms : m s with ⟨o, s1⟩
  rw [hms] at h1
  cases o with
  | ret a => exact Quiet.andThen h1 (hf a s1)
  | raise e => exact h1
  | stuck => exact h1

theorem quiet_when (c : Prop) [Decidable c] {body : M Unit} (hb : Quietly body) :
    Quietly (M.when c body) := by
  unfold M.when
  split
  · exact hb
  · exact fun s => Quiet.unmoved s

theorem quiet_ite {α : Type} (c : Prop) [Decidable c] {a b : M α} (ha : Quietly a) (hb : Quietly b) :
    Quietly (if c then a else b) := by
  split
  · exact ha
  · exact hb

theorem quiet_forEach {α : Type} {body : α → M Unit} (hb : ∀ a, Quietly (body a)) :
    ∀ xs : List α, Quietly (M.forEach body xs) := by
  intro xs
  induction xs with
  | nil => exact fun s => Quiet.unmoved s
  | cons a as ih =>
    rw [M.forEach]
    exact quiet_bind (hb a) fun _ => ih

theorem quiet_loop {cond : M Bool} {body : M Unit} (hc : Quietly cond) (hb : Quietly body) :
    ∀ fuel : Nat, Quietly (M.loop cond body fuel) := by
  intro fuel
  induction fuel with
  | zero =>
    rw [M.loop]
    exact quiet_bind hc fun c => quiet_ite _ quiet_stuck (quiet_pure _)
  | succ k ih =>
    rw [M.loop]
    exact quiet_bind hc fun c => quiet_ite _ (quiet_bind hb fun _ => ih) (quiet_pure _)

theorem quiet_tryCatch {α : Type} {m : M α} {catches : Exc → Bool} {handler : Exc → M α}
    (hm : Quietly m) (hh : ∀ e, Quietly (handler e)) : Quietly (M.tryCatch m catches handler) := by
  intro s
  have h1 := hm s
  unfold M.tryCatch
  rcases hms : m s with ⟨o, s1⟩
  rw [hms] at h1
  cases o with
  | ret a => exact h1
  | raise e =>
    simp only
    split
    · exact Quiet.andThen h1 (hh e s1)
    · exact h1
  | stuck => exact h1

theorem quiet_onEngine (f : Engine → Engine) : Quietly (onEngine f) :=
  quiet_modify fun _ => Quiet.same rfl rfl rfl rfl rfl rfl rfl rfl

theorem quiet_lockWait (E : Env) : Quietly (lockWait E) :=
  quiet_modify fun _ => Quiet.same rfl rfl rfl rfl rfl rfl rfl rfl

theorem quiet_now (E : Env) : Quietly (now E) := fun _ => Quiet.same rfl rfl rfl rfl rfl rfl rfl rfl

/-- Recording a call that is neither a sleep nor the start of a round. -/
theorem quiet_call (c : Call) (hs : sleeps [c] = []) (hr : rounds [c] = 0) : Quietly (call c) :=
  quiet_modify fun s =>
    { reconnect := rfl, timeout := rfl, limit := rfl, fullUrl := rfl, minInterval := rfl,
      maxInterval := rfl,
      rounds_le := by simp [hr],
      sleeps_grow := ⟨[], by simp [hs]⟩,
      kept := fun _ => ⟨rfl, by simp [hs]⟩ }

theorem quiet_wakeupDriver : Quietly wakeupDriver := by
  unfold wakeupDriver
  refine quiet_bind quiet_get fun s => ?_
  split
  · exact quiet_bind (quiet_modify fun _ => Quiet.same rfl rfl rfl rfl rfl rfl rfl rfl) fun _ => quiet_call _ rfl rfl
  · exact quiet_pure _
  · exact quiet_pure _

theorem quiet_configureConnection : Quietly configureConnection :=
  quiet_bind quiet_get fun _ => quiet_when _ (quiet_onEngine _)

theorem quiet_senderReset (session p : Nat) : Quietly (SenderContext.reset session p) := by
  unfold SenderContext.reset
  exact quiet_modify fun _ => Quiet.same rfl rfl rfl rfl rfl rfl rfl rfl

theorem quiet_receiverReset (session p : Nat) : Quietly (ReceiverContext.reset session p) := by
  unfold ReceiverContext.reset
  exact quiet_modify fun _ => Quiet.same rfl rfl rfl rfl rfl rfl rfl rfl

theorem quiet_sessionReset (p : Nat) : Quietly (SessionContext.reset p) := by
  unfold SessionContext.reset
  refine quiet_bind (quiet_modify fun _ => Quiet.same rfl rfl rfl rfl rfl rfl rfl rfl) fun _ => ?_
  refine quiet_bind quiet_get fun s => ?_
  refine quiet_bind (quiet_forEach (fun _ => quiet_senderReset _ _) _) fun _ => ?_
  exact quiet_forEach (fun _ => quiet_receiverReset _ _) _

theorem quiet_reset : Quietly reset := by
  unfold reset
  refine quiet_bind (quiet_call _ rfl rfl) fun _ => ?_
  refine quiet_bind (quiet_onEngine _) fun _ => ?_
  refine quiet_bind quiet_configureConnection fun _ => ?_
  exact quiet_bind quiet_get fun s => quiet_forEach (fun _ => quiet_sessionReset _) _

theorem quiet_checkConnectionClosed : Quietly checkConnectionClosed :=
  quiet_bind quiet_get fun _ =>
    quiet_when _ (quiet_bind (quiet_onEngine _) fun _ => quiet_raise _)

theorem quiet_checkDisconnected : Quietly checkDisconnected := by
  unfold checkDisconnected
  refine quiet_bind quiet_get fun s => ?_
  refine quiet_bind (quiet_ite _ quiet_reset quiet_checkConnectionClosed) fun _ => ?_
  exact quiet_bind quiet_get fun _ => quiet_pure _

/-- The member function `check` calls nothing but `autoconnect`. -/
theorem quiet_check (ac : M Unit) (hac : Quietly ac) : Quietly (check ac) := by
  unfold check
  refine quiet_bind quiet_checkDisconnected fun d => ?_
  refine quiet_bind quiet_get fun s => ?_
  exact quiet_ite _ (quiet_ite _ hac (quiet_raise _)) (quiet_pure _)

end ConnectionContext

namespace ConnectionContext

theorem quiet_wait (E : Env) (ac : M Unit) (hac : Quietly ac) : Quietly (wait E ac) :=
  quiet_bind (quiet_check ac hac) fun _ => quiet_bind (quiet_lockWait E) fun _ => quiet_check ac hac

theorem quiet_checkClosedSsn (ac : M Unit) (hac : Quietly ac) (ssn : Nat) : Quietly (checkClosedSsn ac ssn) := by
  unfold checkClosedSsn
  refine quiet_bind (quiet_check ac hac) fun _ => quiet_bind quiet_get fun s => ?_
  refine quiet_ite _ (quiet_bind (quiet_onEngine _) fun _ => quiet_raise _) ?_
  exact quiet_ite _ (quiet_raise _) (quiet_pure _)

theorem quiet_waitSsn (E : Env) (ac : M Unit) (hac : Quietly ac) (ssn : Nat) : Quietly (waitSsn E ac ssn) :=
  quiet_bind (quiet_wait E ac hac) fun _ => quiet_checkClosedSsn ac hac ssn

theorem quiet_verify (E : Env) (lnk : Nat) : Quietly (verify E lnk) := by
  unfold verify
  refine quiet_bind quiet_get fun s => ?_
  split
  · exact quiet_raise _
  · exact quiet_pure _

theorem quiet_attachLink (E : Env) (ac : M Unit) (hac : Quietly ac) (fuel ssn link credit : Nat) :
    Quietly (attachLink E ac fuel ssn link credit) := by
  unfold attachLink
  refine quiet_bind (quiet_onEngine _) fun _ => ?_
  refine quiet_bind (quiet_when _ (quiet_onEngine _)) fun _ => ?_
  refine quiet_bind quiet_wakeupDriver fun _ => ?_
  exact quiet_loop (quiet_test _) (quiet_waitSsn E ac hac ssn) fuel

theorem quiet_resendDelivery (p : Nat) (d : Delivery) : Quietly (resendDelivery p d) := by
  unfold resendDelivery
  exact quiet_when _ (quiet_modify fun _ => Quiet.same rfl rfl rfl rfl rfl rfl rfl rfl)

theorem quiet_resend (p : Nat) : Quietly (SenderContext.resend p) := by
  unfold SenderContext.resend
  refine quiet_bind (quiet_call _ rfl rfl) fun _ => quiet_bind quiet_get fun s => ?_
  exact quiet_forEach (fun d => quiet_resendDelivery p d) _

theorem quiet_reattachSender (E : Env) (ac : M Unit) (hac : Quietly ac) (fuel p snd : Nat) :
    Quietly (reattachSender E ac fuel p snd) := by
  unfold reattachSender
  refine quiet_bind quiet_get fun s => quiet_bind (quiet_attachLink E ac hac fuel p _ _) fun _ => ?_
  exact quiet_bind quiet_get fun s => quiet_bind (quiet_verify E _) fun _ => quiet_resend snd

theorem quiet_reattachReceiver (E : Env) (ac : M Unit) (hac : Quietly ac) (fuel p rcv : Nat) :
    Quietly (reattachReceiver E ac fuel p rcv) := by
  unfold reattachReceiver
  refine quiet_bind quiet_get fun s => ?_
  refine quiet_bind
    (quiet_ite _ (quiet_attachLink E ac hac fuel p _ _) (quiet_attachLink E ac hac fuel p _ _)) fun _ => ?_
  exact quiet_bind quiet_get fun s => quiet_verify E _

theorem quiet_sessionRemoteUninit (p : Nat) : Quietly (sessionRemoteUninit p) := by
  unfold sessionRemoteUninit
  exact quiet_test _

theorem quiet_restartSession (E : Env) (ac : M Unit) (hac : Quietly ac) (fuel p : Nat) :
    Quietly (restartSession E ac fuel p) := by
  unfold restartSession
  refine quiet_bind quiet_get fun s => quiet_bind (quiet_onEngine _) fun _ => ?_
  refine quiet_bind quiet_wakeupDriver fun _ => ?_
  refine quiet_bind (quiet_loop (quiet_sessionRemoteUninit p) (quiet_wait E ac hac) fuel) fun _ => ?_
  refine quiet_bind quiet_get fun s => ?_
  refine quiet_bind (@quiet_forEach (String × Nat) (fun i => reattachSender E ac fuel p i.2)
    (fun i => quiet_reattachSender E ac hac fuel p i.2) _) fun _ => ?_
  refine quiet_bind quiet_get fun s => ?_
  refine quiet_bind (@quiet_forEach (String × Nat) (fun i => reattachReceiver E ac fuel p i.2)
    (fun i => quiet_reattachReceiver E ac hac fuel p i.2) _) fun _ => ?_
  exact quiet_wakeupDriver

theorem quiet_restartSessions (E : Env) (ac : M Unit) (hac : Quietly ac) (fuel : Nat) :
    Quietly (restartSessions E ac fuel) := by
  unfold restartSessions
  refine quiet_tryCatch ?_ fun _ => quiet_pure _
  refine quiet_bind quiet_get fun s => ?_
  exact quiet_bind (@quiet_forEach (String × Nat) (fun i => restartSession E ac fuel i.2)
    (fun i => quiet_restartSession E ac hac fuel i.2) _) fun _ => quiet_pure _

theorem quiet_prepareConnect (a : Address) : Quietly (prepareConnect a) := by
  unfold prepareConnect
  refine quiet_bind (quiet_modify fun _ => Quiet.same rfl rfl rfl rfl rfl rfl rfl rfl) fun _ => ?_
  refine quiet_bind quiet_get fun s => ?_
  refine quiet_bind (quiet_when _ (quiet_modify fun _ => Quiet.same rfl rfl rfl rfl rfl rfl rfl rfl)) fun _ => ?_
  exact quiet_modify fun _ => Quiet.same rfl rfl rfl rfl rfl rfl rfl rfl

theorem quiet_waitConnected (E : Env) : ∀ fuel : Nat, Quietly (waitConnected E fuel) := by
  intro fuel
  induction fuel with
  | zero =>
    rw [waitConnected]
    refine quiet_bind quiet_get fun s => ?_
    split
    · exact quiet_pure _
    · exact quiet_stuck
    · exact quiet_pure _
  | succ k ih =>
    rw [waitConnected]
    refine quiet_bind quiet_get fun s => ?_
    split
    · exact quiet_pure _
    · exact quiet_bind (quiet_lockWait E) fun _ => ih
    · exact quiet_pure _

theorem quiet_connectAndWait (E : Env) (fuel : Nat) (a : Address) :
    Quietly (connectAndWait E fuel a) := by
  unfold connectAndWait
  refine quiet_bind quiet_get fun s => ?_
  refine quiet_bind (quiet_modify fun _ => Quiet.same rfl rfl rfl rfl rfl rfl rfl rfl) fun _ => ?_
  refine quiet_bind (quiet_call _ rfl rfl) fun _ => ?_
  split
  · exact quiet_raise _
  · exact quiet_waitConnected E fuel

theorem quiet_tryConnectAddr (E : Env) (fuel : Nat) (a : Address) :
    Quietly (tryConnectAddr E fuel a) := by
  unfold tryConnectAddr
  refine quiet_bind (quiet_prepareConnect a) fun _ => ?_
  refine quiet_bind (quiet_tryCatch (quiet_connectAndWait E fuel a) fun _ =>
    quiet_bind (quiet_modify fun _ => Quiet.same rfl rfl rfl rfl rfl rfl rfl rfl) fun _ => quiet_pure _) fun c => ?_
  refine quiet_ite _ (quiet_pure _) ?_
  exact quiet_bind (quiet_modify fun _ => Quiet.same rfl rfl rfl rfl rfl rfl rfl rfl) fun _ => quiet_pure _

theorem quiet_waitNoReconnect (E : Env) : Quietly (waitNoReconnect E) := by
  unfold waitNoReconnect
  refine quiet_bind quiet_checkDisconnected fun d => quiet_ite _ (quiet_pure _) ?_
  refine quiet_bind (quiet_lockWait E) fun _ => ?_
  exact quiet_bind quiet_checkDisconnected fun _ => quiet_pure _

theorem quiet_startTicker : Quietly startTicker := by
  unfold startTicker
  refine quiet_bind quiet_get fun s => quiet_when _ ?_
  exact quiet_bind (quiet_modify fun _ => Quiet.same rfl rfl rfl rfl rfl rfl rfl rfl) fun _ => quiet_call _ rfl rfl

theorem quiet_awaitAuthenticated (E : Env) (fuel : Nat) : Quietly (awaitAuthenticated E fuel) := by
  unfold awaitAuthenticated
  refine quiet_bind quiet_get fun s => quiet_when _ ?_
  exact quiet_bind quiet_wakeupDriver fun _ =>
    quiet_loop (quiet_test _) (quiet_waitNoReconnect E) fuel

theorem quiet_openConnection (E : Env) (ac : M Unit) (hac : Quietly ac) (fuel : Nat) :
    Quietly (openConnection E ac fuel) := by
  unfold openConnection
  refine quiet_bind (quiet_onEngine _) fun _ => quiet_bind quiet_wakeupDriver fun _ => ?_
  refine quiet_bind (quiet_loop (quiet_test _) (quiet_waitNoReconnect E) fuel) fun _ => ?_
  refine quiet_bind quiet_get fun s => quiet_ite _ (quiet_pure _) ?_
  refine quiet_ite _ (quiet_raise _) ?_
  exact quiet_bind quiet_startTicker fun _ => quiet_restartSessions E ac hac fuel

theorem quiet_tryOpenAddr (E : Env) (ac : M Unit) (hac : Quietly ac) (fuel : Nat) (a : Address) :
    Quietly (tryOpenAddr E ac fuel a) := by
  unfold tryOpenAddr
  refine quiet_bind (quiet_modify fun _ => Quiet.same rfl rfl rfl rfl rfl rfl rfl rfl) fun _ => ?_
  refine quiet_bind (quiet_awaitAuthenticated E fuel) fun _ => ?_
  exact quiet_bind quiet_get fun s => quiet_ite _ (quiet_pure _) (quiet_openConnection E ac hac fuel)

theorem quiet_tryAddrs (E : Env) (ac : M Unit) (hac : Quietly ac) (fuel : Nat) :
    ∀ addrs : List Address, Quietly (tryAddrs E ac fuel addrs) := by
  intro addrs
  induction addrs with
  | nil => rw [tryAddrs]; exact quiet_pure _
  | cons a rest ih =>
    rw [tryAddrs]
    refine quiet_bind (quiet_tryConnectAddr E fuel a) fun c => quiet_ite _ ?_ ih
    exact quiet_bind (quiet_tryOpenAddr E ac hac fuel a) fun o => quiet_ite _ (quiet_pure _) ih

end ConnectionContext

namespace ConnectionContext

theorem Steady.unchanged (s : ConnectionContext) : Steady s s :=
  ⟨rfl, rfl, rfl, rfl, rfl, rfl, le_refl _, ⟨[], by simp⟩⟩

theorem Steady.followedBy {s t u : ConnectionContext} (h1 : Steady s t) (h2 : Steady t u) :
    Steady s u := by
  obtain ⟨m1, e1⟩ := h1.sleeps_grow
  obtain ⟨m2, e2⟩ := h2.sleeps_grow
  exact ⟨h2.reconnect.trans h1.reconnect, h2.timeout.trans h1.timeout, h2.limit.trans h1.limit,
    h2.fullUrl.trans h1.fullUrl, h2.minInterval.trans h1.minInterval,
    h2.maxInterval.trans h1.maxInterval, le_trans h1.rounds_le h2.rounds_le,
    ⟨m1 ++ m2, by rw [e2, e1, List.append_assoc]⟩⟩

theorem Quiet.steady {s t : ConnectionContext} (h : Quiet s t) : Steady s t :=
  ⟨h.reconnect, h.timeout, h.limit, h.fullUrl, h.minInterval, h.maxInterval, h.rounds_le,
    h.sleeps_grow⟩

/-- A step in which a round of attempts is started leaves the options as they
were. -/
theorem Steady.quiet {s t : ConnectionContext} (h : Steady s t)
    (hlt : rounds s.calls < rounds t.calls) : Quiet s t :=
  ⟨h.reconnect, h.timeout, h.limit, h.fullUrl, h.minInterval, h.maxInterval, h.rounds_le,
    h.sleeps_grow, fun e => absurd e (Nat.ne_of_gt hlt)⟩

theorem steadily_of_quietly {α : Type} {m : M α} (h : Quietly m) : Steadily m :=
  fun s => (h s).steady

theorem steadily_pure {α : Type} (a : α) : Steadily (Pure.pure a : M α) := fun s => Steady.unchanged s

theorem steadily_raise {α : Type} (e : Exc) : Steadily (M.raise e : M α) := fun s => Steady.unchanged s

theorem steadily_stuck {α : Type} : Steadily (M.stuck : M α) := fun s => Steady.unchanged s

theorem steadily_get : Steadily M.get := fun s => Steady.unchanged s

theorem steadily_modify {f : ConnectionContext → ConnectionContext}
    (hf : ∀ s, Steady s (f s)) : Steadily (M.modify f) := fun s => hf s

theorem steadily_bind {α β : Type} {m : M α} {f : α → M β} (hm : Steadily m)
    (hf : ∀ a, Steadily (f a)) : Steadily (m >>= f) := by
  intro s
  have h1 := hm s
  simp only [M.bind_apply]
  rcases hms : m s with ⟨o, s1⟩
  rw [hms] at h1
  cases o with
  | ret a => exact Steady.followedBy h1 (hf a s1)
  | raise e => exact h1
  | stuck => exact h1

theorem steadily_when (c : Prop) [Decidable c] {body : M Unit} (hb : Steadily body) :
    Steadily (M.when c body) := by
  unfold M.when
  split
  · exact hb
  · exact fun s => Steady.unchanged s

theorem steadily_ite {α : Type} (c : Prop) [Decidable c] {a b : M α} (ha : Steadily a)
    (hb : Steadily b) : Steadily (if c then a else b) := by
  split
  · exact ha
  · exact hb

theorem steadily_now (E : Env) : Steadily (now E) := fun s =>
  ⟨rfl, rfl, rfl, rfl, rfl, rfl, le_refl _, ⟨[], by simp [now]⟩⟩

theorem steadily_call (c : Call) : Steadily (call c) :=
  steadily_modify fun s =>
    ⟨rfl, rfl, rfl, rfl, rfl, rfl, by simp, ⟨sleeps [c], by simp⟩⟩

theorem steadily_throwConnectFail {α : Type} (url : Url) (msg : String) :
    Steadily (throwConnectFail url msg : M α) := steadily_raise _

theorem steadily_countRetry : Steadily countRetry := by
  unfold countRetry
  refine steadily_bind steadily_get fun s => steadily_when _ ?_
  refine steadily_bind (steadily_modify fun s =>
    ⟨rfl, rfl, rfl, rfl, rfl, rfl, le_refl _, ⟨[], by simp⟩⟩) fun _ => ?_
  exact steadily_when _ (steadily_throwConnectFail _ _)

theorem steadily_expired (E : Env) (start : Nat) (timeout : ℚ) :
    Steadily (expired E start timeout) := by
  unfold expired
  refine steadily_ite _ (steadily_pure _) (steadily_ite _ (steadily_pure _) ?_)
  exact steadily_bind (steadily_now E) fun _ => steadily_pure _

theorem steadily_autoconnectBody (E : Env) (started : Nat) (i : ℚ) :
    Steadily (autoconnectBody E started i) := by
  unfold autoconnectBody
  refine steadily_bind steadily_get fun s => ?_
  refine steadily_bind (steadily_when _ (steadily_throwConnectFail _ _)) fun _ => ?_
  refine steadily_bind steadily_countRetry fun _ => ?_
  refine steadily_bind (steadily_expired E started _) fun late => ?_
  exact steadily_bind (steadily_when _ (steadily_throwConnectFail _ _)) fun _ => steadily_call _

/-- What follows the round of attempts in the loop of `autoconnect`. -/
theorem steadily_autoconnectLoop (E : Env) (round : M Bool) (hr : Steadily round)
    (started : Nat) : ∀ (fuel : Nat) (i : ℚ), Steadily (autoconnectLoop E round started fuel i) := by
  intro fuel
  induction fuel with
  | zero =>
    intro i
    rw [autoconnectLoop]
    exact steadily_bind hr fun c => steadily_ite _ (steadily_pure _) steadily_stuck
  | succ k ih =>
    intro i
    rw [autoconnectLoop]
    refine steadily_bind hr fun c => steadily_ite _ (steadily_pure _) ?_
    refine steadily_bind (steadily_autoconnectBody E started i) fun _ => ?_
    exact steadily_bind steadily_get fun s => ih _

/-- The loop of `autoconnect` begins with a round of attempts. -/
theorem autoconnectLoop_rounds_lt (E : Env) (round : M Bool) (hr : Steadily round)
    (hlt : ∀ s, rounds s.calls < rounds (round s).2.calls) (started : Nat) (fuel : Nat) (i : ℚ)
    (s : ConnectionContext) :
    rounds s.calls < rounds (autoconnectLoop E round started fuel i s).2.calls := by
  have key : ∀ (k : Bool → M Unit), (∀ c, Steadily (k c)) →
      rounds s.calls < rounds ((round >>= k) s).2.calls := by
    intro k hk
    have h1 := hlt s
    simp only [M.bind_apply]
    rcases hms : round s with ⟨o, s1⟩
    rw [hms] at h1
    cases o with
    | ret a => exact lt_of_lt_of_le h1 (hk a s1).rounds_le
    | raise e => exact h1
    | stuck => exact h1
  cases fuel with
  | zero =>
    rw [autoconnectLoop]
    exact key _ fun c => steadily_ite _ (steadily_pure _) steadily_stuck
  | succ k =>
    rw [autoconnectLoop]
    refine key _ fun c => steadily_ite _ (steadily_pure _) ?_
    refine steadily_bind (steadily_autoconnectBody E started i) fun _ => ?_
    exact steadily_bind steadily_get fun s => steadily_autoconnectLoop E round hr started k _

/-- A round of attempts, after its record as a round, leaves the options as they
were and, unless another round is started in it, the retry counter and the
delays slept. -/
theorem tryConnectUrl_quiet (E : Env) (ac : M Unit) (hac : Quietly ac) (fuel : Nat) (url : Url)
    (s : ConnectionContext) :
    Quiet { s with calls := s.calls ++ [.tryConnectUrl url] } (tryConnectUrl E ac fuel url s).2 := by
  have hk : Quietly (M.when (url.user.length ≠ 0) (M.modify fun s => { s with username := url.user })
      >>= fun _ => M.when (url.pass.length ≠ 0) (M.modify fun s => { s with password := url.pass })
      >>= fun _ => tryAddrs E ac fuel url.addrs) :=
    quiet_bind (quiet_when _ (quiet_modify fun _ => Quiet.same rfl rfl rfl rfl rfl rfl rfl rfl))
      fun _ =>
      quiet_bind (quiet_when _ (quiet_modify fun _ => Quiet.same rfl rfl rfl rfl rfl rfl rfl rfl))
        fun _ => quiet_tryAddrs E ac hac fuel url.addrs
  exact hk { s with calls := s.calls ++ [.tryConnectUrl url] }

/-- A round of attempts is at least one more round. -/
theorem tryConnectUrl_rounds_lt (E : Env) (ac : M Unit) (hac : Quietly ac) (fuel : Nat)
    (url : Url) (s : ConnectionContext) :
    rounds s.calls < rounds (tryConnectUrl E ac fuel url s).2.calls := by
  have h := (tryConnectUrl_quiet E ac hac fuel url s).rounds_le
  simp only [rounds_append, rounds_round] at h
  omega

theorem steadily_tryConnectUrl (E : Env) (ac : M Unit) (hac : Quietly ac) (fuel : Nat)
    (url : Url) : Steadily (tryConnectUrl E ac fuel url) := by
  intro s
  have h := (tryConnectUrl_quiet E ac hac fuel url s).steady
  refine Steady.followedBy ?_ h
  exact ⟨rfl, rfl, rfl, rfl, rfl, rfl, by simp, ⟨[], by simp⟩⟩

/-- The member function `autoconnect`, which a wait in a round of attempts may
call, leaves the options as they were; it starts a round of attempts unless it
is out of fuel. -/
theorem quiet_autoconnect (E : Env) : ∀ fuel : Nat, Quietly (autoconnect E fuel) := by
  intro fuel
  induction fuel with
  | zero =>
    rw [autoconnect]
    exact quiet_stuck
  | succ f ih =>
    intro s
    rw [autoconnect]
    have hsteady : Steadily (do
        let started ← now E
        let s ← M.get
        autoconnectLoop E (tryConnectUrl E (autoconnect E f) (f + 1) s.fullUrl) started
          (f + 1) s.minReconnectInterval
        M.modify fun s => { s with retries := 0 } : M Unit) := by
      refine steadily_bind (steadily_now E) fun started => steadily_bind steadily_get fun u => ?_
      refine steadily_bind (steadily_autoconnectLoop E _
        (steadily_tryConnectUrl E _ ih _ _) started _ _) fun _ => ?_
      exact steadily_modify fun s => ⟨rfl, rfl, rfl, rfl, rfl, rfl, le_refl _, ⟨[], by simp⟩⟩
    refine Steady.quiet (hsteady s) ?_
    simp only [M.bind_apply, now, M.get_apply]
    have hlt := autoconnectLoop_rounds_lt E
      (tryConnectUrl E (autoconnect E f) (f + 1) s.fullUrl)
      (steadily_tryConnectUrl E _ ih _ _) (tryConnectUrl_rounds_lt E _ ih _ _)
      (s.clock + E.elapse s.reads) (f + 1) s.minReconnectInterval
      { s with clock := s.clock + E.elapse s.reads, reads := s.reads + 1 }
    rcases hl : autoconnectLoop E (tryConnectUrl E (autoconnect E f) (f + 1) s.fullUrl)
      (s.clock + E.elapse s.reads) (f + 1) s.minReconnectInterval
      { s with clock := s.clock + E.elapse s.reads, reads := s.reads + 1 } with ⟨o, t⟩
    rw [hl] at hlt
    cases o with
    | ret a => exact hlt
    | raise e => exact hlt
    | stuck => exact hlt

/-- A round of attempts of `autoconnect` in which no other round is started leaves
the options, the retry counter and the delays slept as they were. -/
theorem tryConnectUrl_single (E : Env) (fuel f : Nat) (url : Url) (s : ConnectionContext)
    (h : rounds (tryConnectUrl E (autoconnect E f) fuel url s).2.calls = rounds s.calls + 1) :
    OptionsKept { s with calls := s.calls ++ [.tryConnectUrl url] }
      (tryConnectUrl E (autoconnect E f) fuel url s).2 := by
  have q := tryConnectUrl_quiet E _ (quiet_autoconnect E f) fuel url s
  have hr : rounds (tryConnectUrl E (autoconnect E f) fuel url s).2.calls
      = rounds ({ s with calls := s.calls ++ [.tryConnectUrl url] } : ConnectionContext).calls := by
    rw [h]; simp
  obtain ⟨k1, k2⟩ := q.kept hr
  exact ⟨q.reconnect, q.timeout, q.limit, k1, q.fullUrl, q.minInterval, q.maxInterval, k2, hr⟩

end ConnectionContext

/-! ## C4: the rounds of `open()` when every round fails -/

/-- Below the retry limit and without expiry, the body of the retry loop counts
the retry and sleeps for the interval. -/
theorem autoconnectBody_goes_on (E : Env) (started : Nat) (i : ℚ) (s : ConnectionContext)
    (hr : s.reconnect = true) (hl : 0 ≤ s.limit) (hx : s.retries < s.limit)
    (hto : (ConnectionContext.expired E started s.timeout
      { s with retries := s.retries + 1 }).1 = .ret false) :
    (ConnectionContext.autoconnectBody E started i s).1 = .ret ()
      ∧ ConnectionContext.OptionsKept
          { s with retries := s.retries + 1, calls := s.calls ++ [.usleep i] }
          (ConnectionContext.autoconnectBody E started i s).2 := by
  have hx2 : ¬ s.limit ≤ s.retries := not_le.2 hx
  have ho := hto
  have hk := (expired_kept E started s.timeout { s with retries := s.retries + 1 }).2
  have e1 : M.when (s.reconnect = false)
      (ConnectionContext.throwConnectFail s.fullUrl "Reconnect disabled") s = (.ret (), s) := by
    simp [hr]
  have e2 : ConnectionContext.countRetry s = (.ret (), { s with retries := s.retries + 1 }) := by
    simp [ConnectionContext.countRetry, hl, hx2]
  rcases hexp : ConnectionContext.expired E started s.timeout { s with retries := s.retries + 1 }
    with ⟨o, s2⟩
  rw [hexp] at ho hk
  simp only at ho hk
  subst ho
  simp only [ConnectionContext.autoconnectBody, M.bind_apply, M.get_apply, e1, e2, hexp,
    M.when_apply, Bool.false_eq_true, if_false, ConnectionContext.call, M.modify_apply]
  refine ⟨trivial, ?_⟩
  constructor
  · exact hk.reconnect
  · exact hk.timeout
  · exact hk.limit
  · exact hk.retries
  · exact hk.fullUrl
  · exact hk.minInterval
  · exact hk.maxInterval
  · simp [hk.sleeps]
  · simp [hk.rounds]

/-- The retry loop when the next `m + 1` rounds fail without expiry, reconnection
is enabled, and `m` retries are left before the limit `n`: it throws
`TransportFailure` after `m + 1` more rounds, having slept `m` times. -/
theorem autoconnectLoop_fails (E : Env) (round : M Bool) (url : Url)
    (hkept : ∀ s, ConnectionContext.rounds (round s).2.calls
        = ConnectionContext.rounds s.calls + 1 →
      ConnectionContext.OptionsKept { s with calls := s.calls ++ [.tryConnectUrl url] } (round s).2)
    (started : Nat) (n : Nat) :
    ∀ (m fuel : Nat) (i : ℚ) (s : ConnectionContext), s.reconnect = true → s.limit = n →
      s.retries + m = n → m + 1 ≤ fuel →
      ConnectionContext.RoundsFail E round started m i s →
      (ConnectionContext.autoconnectLoop E round started fuel i s).1
          = .raise (.TransportFailure ("Connect failed to " ++ ConnectionContext.Url.str s.fullUrl
              ++ ": " ++ "Exceeded retries"))
        ∧ ConnectionContext.rounds (ConnectionContext.autoconnectLoop E round started fuel i s).2.calls
            = ConnectionContext.rounds s.calls + (m + 1)
        ∧ ConnectionContext.sleeps (ConnectionContext.autoconnectLoop E round started fuel i s).2.calls
            = ConnectionContext.sleeps s.calls ++ ConnectionContext.delays s.maxReconnectInterval m i
        ∧ (ConnectionContext.autoconnectLoop E round started fuel i s).2.retries = n + 1 := by
  intro m
  induction m with
  | zero =>
    intro fuel i s hr hl hm hf hfail
    obtain ⟨f, rfl⟩ : ∃ f, fuel = f + 1 := ⟨fuel - 1, by omega⟩
    obtain ⟨h1, hone⟩ := hfail
    have k1 := hkept s hone
    have e1 := M.eq_of_fst h1
    have hb := autoconnectBody_exceeded E started i (round s).2 (k1.reconnect.trans hr)
      (by rw [k1.limit]; simp [hl]) (by rw [k1.limit, k1.retries]; simp [hl] ; omega)
    rw [ConnectionContext.autoconnectLoop]
    simp only [M.bind_apply]
    rw [e1]
    simp only [Bool.false_eq_true, if_false, M.bind_apply, hb]
    refine ⟨?_, ?_, ?_, ?_⟩
    · rw [k1.fullUrl]
    · simp [k1.rounds]
    · simp [k1.sleeps, ConnectionContext.delays]
    · simp [k1.retries]; omega
  | succ m ih =>
    intro fuel i s hr hl hm hf hfail
    obtain ⟨f, rfl⟩ : ∃ f, fuel = f + 1 := ⟨fuel - 1, by omega⟩
    obtain ⟨h1, hone, hto, hrest⟩ := hfail
    have k1 := hkept s hone
    have e1 := M.eq_of_fst h1
    obtain ⟨h2, k2⟩ := autoconnectBody_goes_on E started i (round s).2 (k1.reconnect.trans hr)
      (by rw [k1.limit]; simp [hl]) (by rw [k1.limit, k1.retries]; simp [hl]; omega) hto
    have e2 := M.eq_of_fst h2
    have hrec := ih f (min (i * 2)
        (ConnectionContext.autoconnectBody E started i (round s).2).2.maxReconnectInterval)
      (ConnectionContext.autoconnectBody E started i (round s).2).2
      (by rw [k2.reconnect]; exact k1.reconnect.trans hr)
      (by rw [k2.limit]; exact k1.limit.trans hl)
      (by rw [k2.retries]; simp [k1.retries]; omega) (by omega) hrest
    have hstep : ConnectionContext.autoconnectLoop E round started (f + 1) i s
        = ConnectionContext.autoconnectLoop E round started f
            (min (i * 2)
              (ConnectionContext.autoconnectBody E started i (round s).2).2.maxReconnectInterval)
            (ConnectionContext.autoconnectBody E started i (round s).2).2 := by
      rw [ConnectionContext.autoconnectLoop]
      simp only [M.bind_apply]
      rw [e1]
      simp only [Bool.false_eq_true, if_false, M.bind_apply]
      rw [e2]
      simp
    rw [hstep]
    obtain ⟨r1, r2, r3, r4⟩ := hrec
    refine ⟨?_, ?_, ?_, r4⟩
    · rw [r1, k2.fullUrl]; simp [k1.fullUrl]
    · rw [r2, k2.rounds]; simp [k1.rounds]; omega
    · rw [r3, k2.sleeps, k2.maxInterval]
      simp [k1.sleeps, k1.maxInterval, ConnectionContext.delays]

/-- The rounds of `open()` when its first `n + 1` rounds fail without expiry: with
reconnection enabled, the retry limit `n` and the retry counter 0, it throws
after `n + 1` rounds, having slept `n` times. -/
theorem open_fails_after_rounds (E : Env) (s : ConnectionContext) (n fuel : Nat)
    (hstate : s.io.state = .DISCONNECTED) (hr : s.reconnect = true) (hl : s.limit = n)
    (hret : s.retries = 0) (hfail : ConnectionContext.OpenRoundsFail E fuel n s)
    (hf : n + 2 ≤ fuel) :
    (ConnectionContext.open E fuel s).1
        = .raise (.TransportFailure ("Connect failed to " ++ ConnectionContext.Url.str s.fullUrl
            ++ ": " ++ "Exceeded retries"))
      ∧ ConnectionContext.rounds (ConnectionContext.open E fuel s).2.calls
          = ConnectionContext.rounds s.calls + (n + 1)
      ∧ ConnectionContext.sleeps (ConnectionContext.open E fuel s).2.calls
          = ConnectionContext.sleeps s.calls
              ++ ConnectionContext.delays s.maxReconnectInterval n s.minReconnectInterval
      ∧ (ConnectionContext.open E fuel s).2.retries = n + 1 := by
  obtain ⟨f, rfl⟩ : ∃ f, fuel = f + 1 := ⟨fuel - 1, by omega⟩
  unfold ConnectionContext.OpenRoundsFail at hfail
  simp only [Nat.add_sub_cancel] at hfail
  obtain ⟨r1, r2, r3, r4⟩ := autoconnectLoop_fails E
    (ConnectionContext.tryConnectUrl E (ConnectionContext.autoconnect E f) (f + 1) s.fullUrl)
    s.fullUrl (fun u hu => ConnectionContext.tryConnectUrl_single E (f + 1) f s.fullUrl u hu)
    (s.clock + E.elapse s.reads) n n (f + 1)
    s.minReconnectInterval
    { s with driver := true, clock := s.clock + E.elapse s.reads, reads := s.reads + 1 }
    hr hl (by simp [hret]) (by omega) hfail
  rw [open_eq_autoconnect E (f + 1) s hstate, ConnectionContext.autoconnect]
  simp only [M.bind_apply, ConnectionContext.now, M.get_apply]
  rw [M.eq_of_fst r1]
  exact ⟨rfl, r2, r3, r4⟩

/-- When every transport connect throws and the timeout is `FOREVER`, the rounds of
the loop of `autoconnect` fail without expiry. -/
theorem roundsFail_of_refused (E : Env) (hE : ConnectionContext.AllConnectsFail E) (ac : M Unit)
    (fuel : Nat) (url : Url) (started : Nat) :
    ∀ (k : Nat) (i : ℚ) (s : ConnectionContext), s.timeout = ConnectionContext.FOREVER →
      ConnectionContext.RoundsFail E (ConnectionContext.tryConnectUrl E ac fuel url) started k i s := by
  intro k
  induction k with
  | zero =>
    intro i s _
    obtain ⟨h1, k1⟩ := tryConnectUrl_refused E hE ac fuel url s
    exact ⟨h1, by rw [k1.rounds]; simp⟩
  | succ k ih =>
    intro i s hs
    obtain ⟨h1, k1⟩ := tryConnectUrl_refused E hE ac fuel url s
    have ht : (ConnectionContext.tryConnectUrl E ac fuel url s).2.timeout
        = ConnectionContext.FOREVER := by rw [k1.timeout]; exact hs
    refine ⟨h1, by rw [k1.rounds]; simp, ?_, ih _ _ ?_⟩
    · rw [ht]; exact expired_FOREVER E _ _
    · rw [(ConnectionContext.steadily_autoconnectBody E started i _).timeout]
      exact ht

/-- When no transport connect throws and the transport reports every connect as
lost (`closed()`) at the next wait, `tryConnectAddr` returns `false`, without
reading the clock. -/
theorem tryConnectAddr_dropped (E : Env) (hwake : ∀ k w, (E.wake k w).state = .DISCONNECTED)
    (hno : ∀ k a, E.connectThrows k a = none) (fuel : Nat) (a : Address)
    (s : ConnectionContext) :
    (ConnectionContext.tryConnectAddr E (fuel + 1) a s).1 = .ret false
      ∧ ConnectionContext.OptionsKept s (ConnectionContext.tryConnectAddr E (fuel + 1) a s).2
      ∧ (ConnectionContext.tryConnectAddr E (fuel + 1) a s).2.clock = s.clock
      ∧ (ConnectionContext.tryConnectAddr E (fuel + 1) a s).2.reads = s.reads := by
  have hw : ∀ u : ConnectionContext, u.io.state = .DISCONNECTED →
      ConnectionContext.waitConnected E fuel u = (.ret false, u) := by
    intro u hu
    cases fuel <;> simp [ConnectionContext.waitConnected, hu]
  have hrun : ∀ u : ConnectionContext, u.io.state = .CONNECTING →
      ConnectionContext.connectAndWait E (fuel + 1) a u
        = (.ret false,
           { u with
             connects := u.connects + 1, calls := u.calls ++ [.connect a],
             io := E.wake u.waits u.io, waits := u.waits + 1 }) := by
    intro u hu
    simp only [ConnectionContext.connectAndWait, M.bind_apply, M.get_apply, M.modify_apply,
      ConnectionContext.call, hno, ConnectionContext.waitConnected, hu,
      ConnectionContext.lockWait]
    exact hw _ (hwake _ _)
  by_cases hs : ConnectionContext.useSasl
      { s with transport := some a, id := ConnectionContext.Address.str a } = true
  · have e := hrun
      { s with
        transport := some a, id := ConnectionContext.Address.str a, sasl := true,
        io := { s.io with authenticated := false, state := .CONNECTING } } rfl
    have hall : ConnectionContext.tryConnectAddr E (fuel + 1) a s
        = (.ret false,
           { s with
             transport := none, id := ConnectionContext.Address.str a, sasl := true,
             connects := s.connects + 1, calls := s.calls ++ [.connect a],
             io := E.wake s.waits { s.io with authenticated := false, state := .CONNECTING },
             waits := s.waits + 1 }) := by
      simp only [ConnectionContext.tryConnectAddr, ConnectionContext.prepareConnect, M.bind_apply,
        M.modify_apply, M.get_apply, M.when_apply, hs, if_true, M.tryCatch, e]
      rfl
    rw [hall]
    refine ⟨rfl, ?_, rfl, rfl⟩
    constructor <;> simp [ConnectionContext.sleeps, ConnectionContext.rounds]
  · have e := hrun
      { s with
        transport := some a, id := ConnectionContext.Address.str a,
        io := { s.io with state := .CONNECTING } } rfl
    have hall : ConnectionContext.tryConnectAddr E (fuel + 1) a s
        = (.ret false,
           { s with
             transport := none, id := ConnectionContext.Address.str a,
             connects := s.connects + 1, calls := s.calls ++ [.connect a],
             io := E.wake s.waits { s.io with state := .CONNECTING },
             waits := s.waits + 1 }) := by
      simp only [ConnectionContext.tryConnectAddr, ConnectionContext.prepareConnect, M.bind_apply,
        M.modify_apply, M.get_apply, M.when_apply, hs, Bool.false_eq_true, if_false,
        M.tryCatch, e]
      rfl
    rw [hall]
    refine ⟨rfl, ?_, rfl, rfl⟩
    constructor <;> simp [ConnectionContext.sleeps, ConnectionContext.rounds]

/-- When the transport reports every connect as lost, no address of the list
connects. -/
theorem tryAddrs_dropped (E : Env) (hwake : ∀ k w, (E.wake k w).state = .DISCONNECTED)
    (hno : ∀ k a, E.connectThrows k a = none) (ac : M Unit) (fuel : Nat) :
    ∀ (addrs : List Address) (s : ConnectionContext),
    (ConnectionContext.tryAddrs E ac (fuel + 1) addrs s).1 = .ret false
      ∧ ConnectionContext.OptionsKept s (ConnectionContext.tryAddrs E ac (fuel + 1) addrs s).2
      ∧ (ConnectionContext.tryAddrs E ac (fuel + 1) addrs s).2.clock = s.clock
      ∧ (ConnectionContext.tryAddrs E ac (fuel + 1) addrs s).2.reads = s.reads := by
  intro addrs
  induction addrs with
  | nil => intro s; exact ⟨rfl, OptionsKept_refl s, rfl, rfl⟩
  | cons a rest ih =>
    intro s
    obtain ⟨h1, k1, c1, d1⟩ := tryConnectAddr_dropped E hwake hno fuel a s
    have e1 := M.eq_of_fst h1
    obtain ⟨h2, k2, c2, d2⟩ := ih (ConnectionContext.tryConnectAddr E (fuel + 1) a s).2
    have hstep : ConnectionContext.tryAddrs E ac (fuel + 1) (a :: rest) s
        = ConnectionContext.tryAddrs E ac (fuel + 1) rest
            (ConnectionContext.tryConnectAddr E (fuel + 1) a s).2 := by
      rw [ConnectionContext.tryAddrs]
      simp only [M.bind_apply]
      rw [e1]
      simp
    rw [hstep]
    exact ⟨h2, OptionsKept_trans k1 k2, c2.trans c1, d2.trans d1⟩

/-- When the transport reports every connect as lost, a round of attempts returns
`false`; it is one more round, and leaves the options, the retry counter, the
delays slept and the clock as they were. -/
theorem tryConnectUrl_dropped (E : Env) (hwake : ∀ k w, (E.wake k w).state = .DISCONNECTED)
    (hno : ∀ k a, E.connectThrows k a = none) (ac : M Unit) (fuel : Nat) (url : Url)
    (s : ConnectionContext) :
    (ConnectionContext.tryConnectUrl E ac (fuel + 1) url s).1 = .ret false
      ∧ ConnectionContext.OptionsKept { s with calls := s.calls ++ [.tryConnectUrl url] }
          (ConnectionContext.tryConnectUrl E ac (fuel + 1) url s).2
      ∧ (ConnectionContext.tryConnectUrl E ac (fuel + 1) url s).2.clock = s.clock
      ∧ (ConnectionContext.tryConnectUrl E ac (fuel + 1) url s).2.reads = s.reads := by
  rw [ConnectionContext.tryConnectUrl_eq_tryAddrs]
  obtain ⟨h, k, c, d⟩ := tryAddrs_dropped E hwake hno ac fuel url.addrs
    (ConnectionContext.atFirstAddress url s)
  refine ⟨h, OptionsKept_trans ?_ k, c, d⟩
  unfold ConnectionContext.atFirstAddress
  constructor <;> rfl

/-- A timeout that is neither 0 nor `FOREVER` has not expired while the time used
is within it. -/
theorem expired_within (E : Env) (start : Nat) (timeout : ℚ) (s : ConnectionContext)
    (h0 : timeout ≠ 0) (hF : timeout ≠ ConnectionContext.FOREVER)
    (h : ((s.clock + E.elapse s.reads : Nat) : Int) - (start : Int)
      ≤ ConnectionContext.toInt64 (timeout * ConnectionContext.TIME_SEC)) :
    ConnectionContext.expired E start timeout s
      = (.ret false, { s with clock := s.clock + E.elapse s.reads, reads := s.reads + 1 }) := by
  simp only [ConnectionContext.expired, h0, hF, if_false, M.bind_apply, ConnectionContext.now,
    M.pure_apply, Prod.mk.injEq, Outcome.ret.injEq, decide_eq_false_iff_not, not_lt, and_true]
  exact h

/-- When no time passes, the body of the retry loop leaves the clock as it was. -/
theorem autoconnectBody_clock (E : Env) (he : ∀ k, E.elapse k = 0) (started : Nat) (i : ℚ) :
    M.Fixes (fun s => s.clock) (ConnectionContext.autoconnectBody E started i) := by
  have hnow : M.Fixes (fun s => s.clock) (ConnectionContext.now E) := by
    intro s
    simp [ConnectionContext.now, he]
  unfold ConnectionContext.autoconnectBody
  refine M.fixes_bind (M.fixes_get _) fun s => ?_
  refine M.fixes_bind (M.fixes_when _ (M.fixes_raise _ _)) fun _ => ?_
  refine M.fixes_bind ?_ fun _ => ?_
  · unfold ConnectionContext.countRetry
    refine M.fixes_bind (M.fixes_get _) fun s => M.fixes_when _ ?_
    exact M.fixes_bind (M.fixes_modify fun _ => rfl) fun _ => M.fixes_when _ (M.fixes_raise _ _)
  refine M.fixes_bind ?_ fun _ => ?_
  · unfold ConnectionContext.expired
    refine M.fixes_ite _ (M.fixes_pure _ _) (M.fixes_ite _ (M.fixes_pure _ _) ?_)
    exact M.fixes_bind hnow fun _ => M.fixes_pure _ _
  exact M.fixes_bind (M.fixes_when _ (M.fixes_raise _ _)) fun _ => M.fixes_modify fun _ => rfl

/-- When the transport reports every connect as lost and no time passes, the
rounds of the loop of `autoconnect` fail, and a timeout that is neither 0 nor
`FOREVER` does not expire. -/
theorem roundsFail_of_dropped (E : Env) (hwake : ∀ k w, (E.wake k w).state = .DISCONNECTED)
    (hno : ∀ k a, E.connectThrows k a = none) (he : ∀ k, E.elapse k = 0) (ac : M Unit)
    (fuel : Nat) (url : Url) (started : Nat) (timeout : ℚ) (h0 : timeout ≠ 0)
    (hF : timeout ≠ ConnectionContext.FOREVER)
    (hT : 0 ≤ ConnectionContext.toInt64 (timeout * ConnectionContext.TIME_SEC)) :
    ∀ (k : Nat) (i : ℚ) (s : ConnectionContext), s.timeout = timeout → s.clock = started →
      ConnectionContext.RoundsFail E (ConnectionContext.tryConnectUrl E ac (fuel + 1) url)
        started k i s := by
  intro k
  induction k with
  | zero =>
    intro i s _ _
    obtain ⟨h1, k1, _, _⟩ := tryConnectUrl_dropped E hwake hno ac fuel url s
    exact ⟨h1, by rw [k1.rounds]; simp⟩
  | succ k ih =>
    intro i s hs hc
    obtain ⟨h1, k1, c1, _⟩ := tryConnectUrl_dropped E hwake hno ac fuel url s
    have ht : (ConnectionContext.tryConnectUrl E ac (fuel + 1) url s).2.timeout = timeout := by
      rw [k1.timeout]; exact hs
    refine ⟨h1, by rw [k1.rounds]; simp, ?_, ih _ _ ?_ ?_⟩
    · rw [ht, expired_within E started timeout _ h0 hF]
      show ((((ConnectionContext.tryConnectUrl E ac (fuel + 1) url s).2.clock
        + E.elapse _ : Nat) : Int)) - (started : Int) ≤ _
      rw [c1, hc, he]
      simpa using hT
    · rw [(ConnectionContext.steadily_autoconnectBody E started i _).timeout]
      exact ht
    · exact (autoconnectBody_clock E he started i _).trans (c1.trans hc)

/-- C4, as the code has it.  For every retry limit `n ≥ 0`, with reconnection
enabled and the retry counter 0: when each of the first `n + 1` rounds of
`tryConnectUrl` that `open()` makes fails, that is returns `false` (the
transport connect or the handshake of every address fails without an exception,
and no connection is made and lost again inside the round), and the timeout has
not expired where the loop tests it after each of the first `n` of them,
`open()` raises `TransportFailure` ("Exceeded retries") after exactly `n + 1`
rounds of `tryConnectUrl` (the first attempt and `n` retries), with the retry
counter at `n + 1`. -/
theorem open_gives_up_after_limit_plus_one_rounds (E : Env) (s : ConnectionContext)
    (n fuel : Nat) (hstate : s.io.state = .DISCONNECTED) (hr : s.reconnect = true)
    (hl : s.limit = n) (hret : s.retries = 0)
    (hfail : ConnectionContext.OpenRoundsFail E fuel n s) (hf : n + 2 ≤ fuel) :
    (ConnectionContext.open E fuel s).1
        = .raise (.TransportFailure ("Connect failed to " ++ ConnectionContext.Url.str s.fullUrl
            ++ ": " ++ "Exceeded retries"))
      ∧ ConnectionContext.rounds (ConnectionContext.open E fuel s).2.calls
          = ConnectionContext.rounds s.calls + (n + 1)
      ∧ (ConnectionContext.open E fuel s).2.retries = n + 1 := by
  obtain ⟨r1, r2, _, r4⟩ := open_fails_after_rounds E s n fuel hstate hr hl hret hfail hf
  exact ⟨r1, r2, r4⟩

/-- The timeout of 1000 s in ns. -/
theorem toInt64_1000_s :
    ConnectionContext.toInt64 ((1000 : ℚ) * ConnectionContext.TIME_SEC) = 1000000000000 := by
  have e : (1000 : ℚ) * ((ConnectionContext.TIME_SEC : Nat) : ℚ) = ((1000000000000 : Int) : ℚ) := by
    unfold ConnectionContext.TIME_SEC
    norm_num
  unfold ConnectionContext.toInt64
  rw [e, if_pos (by norm_num)]
  exact @Int.floor_intCast ℚ _ _ (1000000000000 : Int)

/-- Witness of the amended C4: the retry limit 3 and a timeout of 1000 s, with a
transport that reports every connect as lost at the next wait (`closed()`) and
a clock that stands still: the 4 rounds fail without expiry, and `open()` gives
up after exactly 4 rounds. -/
theorem open_gives_up_after_limit_plus_one_rounds_witness :
    ConnectionContext.OpenRoundsFail Example.dropping 5 3 Example.patient
    ∧ (ConnectionContext.open Example.dropping 5 Example.patient).1
        = .raise (.TransportFailure ("Connect failed to "
            ++ ConnectionContext.Url.str Example.patient.fullUrl ++ ": " ++ "Exceeded retries"))
    ∧ ConnectionContext.rounds (ConnectionContext.open Example.dropping 5 Example.patient).2.calls
        = ConnectionContext.rounds Example.patient.calls + (3 + 1)
    ∧ (ConnectionContext.open Example.dropping 5 Example.patient).2.retries = ((3 : Nat) : Int) + 1 :=
  have hT : (1000 : ℚ) ≠ ConnectionContext.FOREVER := by
    unfold ConnectionContext.FOREVER; norm_num
  have h : ConnectionContext.OpenRoundsFail Example.dropping 5 3 Example.patient :=
    roundsFail_of_dropped Example.dropping (fun _ _ => rfl) (fun _ _ => rfl) (fun _ => rfl) _ 4
      _ _ 1000 (by norm_num) hT (by rw [toInt64_1000_s]; norm_num) 3 _ _ rfl rfl
  ⟨h, open_gives_up_after_limit_plus_one_rounds Example.dropping Example.patient 3 5
    rfl rfl rfl rfl h (by decide)⟩

/-! ## C5: the delays of the retry loop in every execution -/

/-- The body of the retry loop starts no round of attempts. -/
theorem autoconnectBody_rounds (E : Env) (started : Nat) (i : ℚ) :
    M.Fixes (fun s => ConnectionContext.rounds s.calls)
      (ConnectionContext.autoconnectBody E started i) := by
  unfold ConnectionContext.autoconnectBody
  refine M.fixes_bind (M.fixes_get _) fun s => ?_
  refine M.fixes_bind (M.fixes_when _ (M.fixes_raise _ _)) fun _ => ?_
  refine M.fixes_bind ?_ fun _ => ?_
  · unfold ConnectionContext.countRetry
    refine M.fixes_bind (M.fixes_get _) fun s => M.fixes_when _ ?_
    exact M.fixes_bind (M.fixes_modify fun _ => rfl) fun _ => M.fixes_when _ (M.fixes_raise _ _)
  refine M.fixes_bind ?_ fun _ => ?_
  · unfold ConnectionContext.expired
    refine M.fixes_ite _ (M.fixes_pure _ _) (M.fixes_ite _ (M.fixes_pure _ _) ?_)
    exact M.fixes_bind (fun _ => rfl) fun _ => M.fixes_pure _ _
  refine M.fixes_bind (M.fixes_when _ (M.fixes_raise _ _)) fun _ => M.fixes_modify fun s => ?_
  simp

/-- The loop of `autoconnect` after a round of attempts that returned `false`. -/
theorem autoconnectLoop_after_false (E : Env) (round : M Bool) (started : Nat) (f : Nat) (i : ℚ)
    (s t : ConnectionContext) (h : round s = (.ret false, t)) :
    ConnectionContext.autoconnectLoop E round started (f + 1) i s
      = (match ConnectionContext.autoconnectBody E started i t with
        | (.ret _, s1) => ConnectionContext.autoconnectLoop E round started f
            (min (i * 2) s1.maxReconnectInterval) s1
        | (.raise e, s1) => (.raise e, s1)
        | (.stuck, s1) => (.stuck, s1)) := by
  rw [ConnectionContext.autoconnectLoop]
  simp only [M.bind_apply, h]
  simp only [Bool.false_eq_true, if_false, M.bind_apply, M.get_apply]
  rcases ConnectionContext.autoconnectBody E started i t with ⟨o, s2⟩
  cases o <;> rfl

/-- The loop of `autoconnect` when a round of attempts does not return `false`: it
ends in the state the round left. -/
theorem autoconnectLoop_after_other (E : Env) (round : M Bool) (started : Nat) (fuel : Nat)
    (i : ℚ) (s t : ConnectionContext) (o : Outcome Bool) (h : round s = (o, t))
    (ho : o ≠ .ret false) :
    (ConnectionContext.autoconnectLoop E round started fuel i s).2 = t := by
  cases fuel with
  | zero =>
    rw [ConnectionContext.autoconnectLoop]
    simp only [M.bind_apply, h]
    cases o with
    | ret c => cases c <;> simp at ho ⊢
    | raise e => rfl
    | stuck => rfl
  | succ f =>
    rw [ConnectionContext.autoconnectLoop]
    simp only [M.bind_apply, h]
    cases o with
    | ret c => cases c <;> simp at ho ⊢
    | raise e => rfl
    | stuck => rfl

/-- The delays the loop of `autoconnect` itself sleeps are the first `k` of the
doubling sequence from the interval `i`, for some `k`. -/
theorem loopDelays_delays (E : Env) (round : M Bool)
    (hmax : ∀ s, (round s).2.maxReconnectInterval = s.maxReconnectInterval) (started : Nat) :
    ∀ (fuel : Nat) (i : ℚ) (s : ConnectionContext), ∃ k,
      ConnectionContext.loopDelays E round started fuel i s
        = ConnectionContext.delays s.maxReconnectInterval k i := by
  intro fuel
  induction fuel with
  | zero => intro i s; exact ⟨0, rfl⟩
  | succ f ih =>
    intro i s
    rw [ConnectionContext.loopDelays]
    have hm := hmax s
    rcases hr : round s with ⟨o, t⟩
    rw [hr] at hm
    simp only at hm
    cases o with
    | raise e => exact ⟨0, rfl⟩
    | stuck => exact ⟨0, rfl⟩
    | ret c =>
      cases c with
      | true => exact ⟨0, rfl⟩
      | false =>
        simp only
        have hb := (autoconnectBody_sleeps E started i t).1
        rcases hbody : ConnectionContext.autoconnectBody E started i t with ⟨o2, u⟩
        rw [hbody] at hb
        simp only at hb
        cases o2 with
        | raise e => exact ⟨0, rfl⟩
        | stuck => exact ⟨0, rfl⟩
        | ret x =>
          obtain ⟨k, hk⟩ := ih (min (i * 2) u.maxReconnectInterval) u
          refine ⟨k + 1, ?_⟩
          show i :: ConnectionContext.loopDelays E round started f
              (min (i * 2) u.maxReconnectInterval) u = _
          rw [hk, ConnectionContext.delays, hb, hm]

/-- The record of the delays slept during the loop of `autoconnect`: the delays
the loop itself sleeps are among the delays slept meanwhile, in order; at least
one round is made for each of them, and one more; and when no more rounds are
made than these (no round is started inside a round), the delays slept
meanwhile are exactly those of the loop. -/
theorem autoconnectLoop_record (E : Env) (round : M Bool)
    (hr : ConnectionContext.Steadily round)
    (hlt : ∀ s, ConnectionContext.rounds s.calls < ConnectionContext.rounds (round s).2.calls)
    (hone : ∀ s, ConnectionContext.rounds (round s).2.calls = ConnectionContext.rounds s.calls + 1 →
      ConnectionContext.sleeps (round s).2.calls = ConnectionContext.sleeps s.calls)
    (started : Nat) :
    ∀ (fuel : Nat) (i : ℚ) (s : ConnectionContext), ∃ more,
      ConnectionContext.sleeps (ConnectionContext.autoconnectLoop E round started fuel i s).2.calls
        = ConnectionContext.sleeps s.calls ++ more
      ∧ List.Sublist (ConnectionContext.loopDelays E round started fuel i s) more
      ∧ ConnectionContext.rounds s.calls
          + (ConnectionContext.loopDelays E round started fuel i s).length + 1
        ≤ ConnectionContext.rounds (ConnectionContext.autoconnectLoop E round started fuel i s).2.calls
      ∧ (ConnectionContext.rounds (ConnectionContext.autoconnectLoop E round started fuel i s).2.calls
          = ConnectionContext.rounds s.calls
            + (ConnectionContext.loopDelays E round started fuel i s).length + 1 →
        more = ConnectionContext.loopDelays E round started fuel i s) := by
  have hend : ∀ (fuel : Nat) (i : ℚ) (s t : ConnectionContext) (o : Outcome Bool),
      round s = (o, t) → o ≠ .ret false →
      ∃ more, ConnectionContext.sleeps
          (ConnectionContext.autoconnectLoop E round started fuel i s).2.calls
          = ConnectionContext.sleeps s.calls ++ more
        ∧ ConnectionContext.rounds s.calls + 1
          ≤ ConnectionContext.rounds
              (ConnectionContext.autoconnectLoop E round started fuel i s).2.calls
        ∧ (ConnectionContext.rounds
              (ConnectionContext.autoconnectLoop E round started fuel i s).2.calls
            = ConnectionContext.rounds s.calls + 1 → more = []) := by
    intro fuel i s t o h ho
    rw [autoconnectLoop_after_other E round started fuel i s t o h ho]
    have hs := hr s
    have hl := hlt s
    have h1 := hone s
    rw [h] at hs hl h1
    obtain ⟨more, hmore⟩ := hs.sleeps_grow
    refine ⟨more, hmore, hl, fun e => ?_⟩
    have := h1 e
    rw [hmore] at this
    simpa using this
  intro fuel
  induction fuel with
  | zero =>
    intro i s
    rcases hround : round s with ⟨o, t⟩
    have hs := hr s
    have hl := hlt s
    have h1 := hone s
    rw [hround] at hs hl h1
    simp only at hs hl h1
    obtain ⟨more, hmore⟩ := hs.sleeps_grow
    have hfin : (ConnectionContext.autoconnectLoop E round started 0 i s).2 = t := by
      rw [ConnectionContext.autoconnectLoop]
      simp only [M.bind_apply, hround]
      cases o with
      | ret c => cases c <;> rfl
      | raise e => rfl
      | stuck => rfl
    rw [hfin]
    refine ⟨more, hmore, List.nil_sublist _, by simpa [ConnectionContext.loopDelays] using hl,
      fun e => ?_⟩
    have := h1 (by simpa [ConnectionContext.loopDelays] using e)
    rw [hmore] at this
    simpa [ConnectionContext.loopDelays] using this
  | succ f ih =>
    intro i s
    rcases hround : round s with ⟨o, t⟩
    by_cases ho : o = .ret false
    · subst ho
      have hs := hr s
      have hl := hlt s
      have h1 := hone s
      rw [hround] at hs hl h1
      simp only at hs hl h1
      obtain ⟨more1, hmore1⟩ := hs.sleeps_grow
      have hbr := autoconnectBody_rounds E started i t
      obtain ⟨-, hb⟩ := autoconnectBody_sleeps E started i t
      rw [autoconnectLoop_after_false E round started f i s t hround]
      rw [ConnectionContext.loopDelays, hround]
      simp only
      rcases hbody : ConnectionContext.autoconnectBody E started i t with ⟨o2, u⟩
      rw [hbody] at hb hbr
      simp only at hb hbr
      cases o2 with
      | ret x =>
        simp only
        obtain ⟨more2, h2a, h2b, h2c, h2d⟩ := ih (min (i * 2) u.maxReconnectInterval) u
        have hsu : ConnectionContext.sleeps u.calls = ConnectionContext.sleeps t.calls ++ [i] := by
          rcases hb with ⟨_, hs2⟩ | ⟨hne, _⟩
          · exact hs2
          · exact absurd rfl hne
        refine ⟨more1 ++ i :: more2, ?_, ?_, ?_, ?_⟩
        · rw [h2a, hsu, hmore1]
          simp
        · exact List.Sublist.trans (List.Sublist.cons₂ i h2b) (List.sublist_append_right _ _)
        · simp only [List.length_cons]
          omega
        · intro e
          simp only [List.length_cons] at e
          have ht : ConnectionContext.rounds t.calls = ConnectionContext.rounds s.calls + 1 := by
            omega
          have hm1 : more1 = [] := by
            have := h1 ht
            rw [hmore1] at this
            simpa using this
          have hm2 := h2d (by omega)
          rw [hm1, hm2]
          rfl
      | raise e =>
        simp only
        have hsu : ConnectionContext.sleeps u.calls = ConnectionContext.sleeps t.calls := by
          rcases hb with ⟨he, _⟩ | ⟨_, hs2⟩
          · simp at he
          · exact hs2
        refine ⟨more1, by rw [hsu, hmore1], List.nil_sublist _, by simp; omega, fun e2 => ?_⟩
        have := h1 (by simp at e2; omega)
        rw [hmore1] at this
        simpa using this
      | stuck =>
        simp only
        have hsu : ConnectionContext.sleeps u.calls = ConnectionContext.sleeps t.calls := by
          rcases hb with ⟨he, _⟩ | ⟨_, hs2⟩
          · simp at he
          · exact hs2
        refine ⟨more1, by rw [hsu, hmore1], List.nil_sublist _, by simp; omega, fun e2 => ?_⟩
        have := h1 (by simp at e2; omega)
        rw [hmore1] at this
        simpa using this
    · obtain ⟨more, h1, h2, h3⟩ := hend (f + 1) i s t o hround ho
      have hd : ConnectionContext.loopDelays E round started (f + 1) i s = [] := by
        rw [ConnectionContext.loopDelays, hround]
        cases o with
        | ret c => cases c <;> simp at ho ⊢
        | raise e => rfl
        | stuck => rfl
      rw [hd]
      exact ⟨more, h1, List.nil_sublist _, by simpa using h2, fun e => h3 (by simpa using e)⟩

/-- The delays the loop of `autoconnect` itself sleeps when the next `m + 1` rounds
fail without expiry, reconnection is enabled, and `m` retries are left before
the limit `n`: the first `m` of the doubling sequence. -/
theorem loopDelays_fails (E : Env) (round : M Bool) (url : Url)
    (hkept : ∀ s, ConnectionContext.rounds (round s).2.calls
        = ConnectionContext.rounds s.calls + 1 →
      ConnectionContext.OptionsKept { s with calls := s.calls ++ [.tryConnectUrl url] } (round s).2)
    (started : Nat) (n : Nat) :
    ∀ (m fuel : Nat) (i : ℚ) (s : ConnectionContext), s.reconnect = true → s.limit = n →
      s.retries + m = n → m + 1 ≤ fuel →
      ConnectionContext.RoundsFail E round started m i s →
      ConnectionContext.loopDelays E round started fuel i s
        = ConnectionContext.delays s.maxReconnectInterval m i := by
  intro m
  induction m with
  | zero =>
    intro fuel i s hr hl hm hf hfail
    obtain ⟨f, rfl⟩ : ∃ f, fuel = f + 1 := ⟨fuel - 1, by omega⟩
    obtain ⟨h1, hone⟩ := hfail
    have k1 := hkept s hone
    have e1 := M.eq_of_fst h1
    have hb := autoconnectBody_exceeded E started i (round s).2 (k1.reconnect.trans hr)
      (by rw [k1.limit]; simp [hl]) (by rw [k1.limit, k1.retries]; simp [hl] ; omega)
    rw [ConnectionContext.loopDelays, e1]
    simp only [hb]
    rfl
  | succ m ih =>
    intro fuel i s hr hl hm hf hfail
    obtain ⟨f, rfl⟩ : ∃ f, fuel = f + 1 := ⟨fuel - 1, by omega⟩
    obtain ⟨h1, hone, hto, hrest⟩ := hfail
    have k1 := hkept s hone
    have e1 := M.eq_of_fst h1
    obtain ⟨h2, k2⟩ := autoconnectBody_goes_on E started i (round s).2 (k1.reconnect.trans hr)
      (by rw [k1.limit]; simp [hl]) (by rw [k1.limit, k1.retries]; simp [hl]; omega) hto
    have e2 := M.eq_of_fst h2
    have hrec := ih f (min (i * 2)
        (ConnectionContext.autoconnectBody E started i (round s).2).2.maxReconnectInterval)
      (ConnectionContext.autoconnectBody E started i (round s).2).2
      (by rw [k2.reconnect]; exact k1.reconnect.trans hr)
      (by rw [k2.limit]; exact k1.limit.trans hl)
      (by rw [k2.retries]; simp [k1.retries]; omega) (by omega) hrest
    have hmax : (ConnectionContext.autoconnectBody E started i (round s).2).2.maxReconnectInterval
        = s.maxReconnectInterval := by
      rw [k2.maxInterval]; exact k1.maxInterval
    rw [ConnectionContext.loopDelays, e1]
    simp only
    rw [e2]
    simp only
    rw [hrec, hmax, ConnectionContext.delays]

/-- C5, as the code has it. For every configured minimum and maximum reconnect interval
with `0 ≤ minimum ≤ maximum`, in every execution of `autoconnect` (whatever the
transport and the peer do, and whatever the retry limit, the timeout and the fuel
are), the delays `autoconnect` sleeps between its successive failed rounds are
the first `k` of the sequence that starts at the minimum and doubles, capped at
the maximum; they form a non-decreasing sequence in which every delay is at most
the maximum.  These delays are among the delays recorded as slept during the
call, in order; at least one round is recorded for each, and one more; and when
no more rounds than these are recorded (no reconnection is started inside a
round), they are exactly the delays recorded during the call. -/
theorem autoconnect_delays_nondecreasing_bounded (E : Env) (fuel : Nat) (s : ConnectionContext)
    (hmin : 0 ≤ s.minReconnectInterval)
    (hle : s.minReconnectInterval ≤ s.maxReconnectInterval) :
    (∃ k, ConnectionContext.autoconnectDelays E fuel s
        = ConnectionContext.delays s.maxReconnectInterval k s.minReconnectInterval)
      ∧ List.Sorted (· ≤ ·) (ConnectionContext.autoconnectDelays E fuel s)
      ∧ (∀ d ∈ ConnectionContext.autoconnectDelays E fuel s, d ≤ s.maxReconnectInterval)
      ∧ ∃ more, ConnectionContext.sleeps (ConnectionContext.autoconnect E fuel s).2.calls
          = ConnectionContext.sleeps s.calls ++ more
        ∧ List.Sublist (ConnectionContext.autoconnectDelays E fuel s) more
        ∧ (0 < fuel → ConnectionContext.rounds s.calls
              + (ConnectionContext.autoconnectDelays E fuel s).length + 1
            ≤ ConnectionContext.rounds (ConnectionContext.autoconnect E fuel s).2.calls)
        ∧ (ConnectionContext.rounds (ConnectionContext.autoconnect E fuel s).2.calls
            = ConnectionContext.rounds s.calls
              + (ConnectionContext.autoconnectDelays E fuel s).length + 1 →
          more = ConnectionContext.autoconnectDelays E fuel s) := by
  have hk : ∃ k, ConnectionContext.autoconnectDelays E fuel s
      = ConnectionContext.delays s.maxReconnectInterval k s.minReconnectInterval := by
    cases fuel with
    | zero => exact ⟨0, rfl⟩
    | succ f =>
      exact loopDelays_delays E _
        (fun u => (ConnectionContext.steadily_tryConnectUrl E _
          (ConnectionContext.quiet_autoconnect E f) _ _ u).maxInterval)
        (s.clock + E.elapse s.reads) (f + 1) s.minReconnectInterval
        { s with clock := s.clock + E.elapse s.reads, reads := s.reads + 1 }
  obtain ⟨k, hk⟩ := hk
  refine ⟨⟨k, hk⟩, ?_, ?_, ?_⟩
  · rw [hk]; exact delays_sorted _ k _ hmin hle
  · intro d hd
    rw [hk] at hd
    exact (delays_bounds _ k _ hmin hle d hd).2
  · cases fuel with
    | zero =>
      refine ⟨[], by simp [ConnectionContext.autoconnect], List.nil_sublist _,
        fun h => absurd h (lt_irrefl 0), fun h => ?_⟩
      simp [ConnectionContext.autoconnect, ConnectionContext.autoconnectDelays] at h
    | succ f =>
      obtain ⟨more, h1, h2, h3, h4⟩ := autoconnectLoop_record E
        (ConnectionContext.tryConnectUrl E (ConnectionContext.autoconnect E f) (f + 1) s.fullUrl)
        (ConnectionContext.steadily_tryConnectUrl E _ (ConnectionContext.quiet_autoconnect E f) _ _)
        (ConnectionContext.tryConnectUrl_rounds_lt E _ (ConnectionContext.quiet_autoconnect E f) _ _)
        (fun u hu => by
          rw [(ConnectionContext.tryConnectUrl_single E (f + 1) f s.fullUrl u hu).sleeps]
          simp)
        (s.clock + E.elapse s.reads) (f + 1) s.minReconnectInterval
        { s with clock := s.clock + E.elapse s.reads, reads := s.reads + 1 }
      have hfin : (ConnectionContext.autoconnect E (f + 1) s).2.calls
            = (ConnectionContext.autoconnectLoop E
                (ConnectionContext.tryConnectUrl E (ConnectionContext.autoconnect E f) (f + 1)
                  s.fullUrl)
                (s.clock + E.elapse s.reads) (f + 1) s.minReconnectInterval
                { s with clock := s.clock + E.elapse s.reads, reads := s.reads + 1 }).2.calls := by
        rw [ConnectionContext.autoconnect]
        simp only [M.bind_apply, ConnectionContext.now, M.get_apply]
        rcases ConnectionContext.autoconnectLoop E
          (ConnectionContext.tryConnectUrl E (ConnectionContext.autoconnect E f) (f + 1) s.fullUrl)
          (s.clock + E.elapse s.reads) (f + 1) s.minReconnectInterval
          { s with clock := s.clock + E.elapse s.reads, reads := s.reads + 1 } with ⟨o, s2⟩
        cases o <;> rfl
      rw [hfin]
      exact ⟨more, h1, h2, fun _ => h3, h4⟩

/-- Witness of the amended C5: the default intervals (1 ms to 2 s), with the retry
limit 3 and every transport connect refused: `autoconnect` sleeps 1 ms, 2 ms and
4 ms between its four rounds, and these are the delays recorded. -/
theorem autoconnect_delays_nondecreasing_bounded_witness :
    ConnectionContext.autoconnectDelays Example.refusing 5 Example.retrying
        = [1 / 1000, 2 / 1000, 4 / 1000]
      ∧ ConnectionContext.sleeps
          (ConnectionContext.autoconnect Example.refusing 5 Example.retrying).2.calls
        = [1 / 1000, 2 / 1000, 4 / 1000]
      ∧ List.Sorted (· ≤ ·)
          (ConnectionContext.autoconnectDelays Example.refusing 5 Example.retrying)
      ∧ ∀ d ∈ ConnectionContext.autoconnectDelays Example.refusing 5 Example.retrying,
          d ≤ Example.retrying.maxReconnectInterval := by
  have h := autoconnect_delays_nondecreasing_bounded Example.refusing 5 Example.retrying
    (by norm_num [Example.retrying, Example.disconnected])
    (by norm_num [Example.retrying, Example.disconnected])
  have hd : ConnectionContext.autoconnectDelays Example.refusing 5 Example.retrying
      = [1 / 1000, 2 / 1000, 4 / 1000] := by
    have hl := loopDelays_fails Example.refusing
      (ConnectionContext.tryConnectUrl Example.refusing
        (ConnectionContext.autoconnect Example.refusing 4) 5 Example.retrying.fullUrl)
      Example.retrying.fullUrl
      (fun u hu => ConnectionContext.tryConnectUrl_single Example.refusing 5 4 _ u hu)
      (Example.retrying.clock + Example.refusing.elapse Example.retrying.reads) 3 3 5
      Example.retrying.minReconnectInterval
      { Example.retrying with
        clock := Example.retrying.clock + Example.refusing.elapse Example.retrying.reads,
        reads := Example.retrying.reads + 1 }
      rfl rfl (by simp [Example.retrying, Example.disconnected]) (by decide)
      (roundsFail_of_refused Example.refusing (fun _ _ => rfl) _ _ _ _ 3 _ _ rfl)
    rw [ConnectionContext.autoconnectDelays, hl]
    norm_num [ConnectionContext.delays, Example.retrying, Example.disconnected]
  obtain ⟨_, _, h3, _⟩ := autoconnect_exhausts_retries Example.refusing (fun _ _ => rfl)
    Example.retrying 3 5 rfl rfl rfl (fun start s1 => expired_FOREVER Example.refusing start s1)
    (by decide)
  refine ⟨hd, ?_, h.2.1, h.2.2.1⟩
  rw [h3]
  norm_num [ConnectionContext.delays, ConnectionContext.sleeps, Example.retrying,
    Example.disconnected]

/-! ## C12: the drain request and the release in `detach` of a receiver -/

/-- A change of an element of a table that leaves that element as it is changes
nothing. -/
theorem modifyAt_same {α : Type} (f : α → α) :
    ∀ (l : List α) (i : Nat), (∀ a, l[i]? = some a → f a = a) → modifyAt f i l = l := by
  intro l
  induction l with
  | nil => intro i _; simp [modifyAt]
  | cons a as ih =>
    intro i h
    cases i with
    | zero => simp [modifyAt, h a (by simp)]
    | succ i =>
      simp only [modifyAt, List.cons.injEq, true_and]
      exact ih i fun b hb => h b (by simpa using hb)

/-- Two changes of the same element of a table are one change. -/
theorem modifyAt_twice {α : Type} (f g : α → α) :
    ∀ (l : List α) (i : Nat), modifyAt f i (modifyAt g i l) = modifyAt (fun a => f (g a)) i l := by
  intro l
  induction l with
  | nil => intro i; simp [modifyAt]
  | cons a as ih => intro i; cases i <;> simp [modifyAt, ih]

/-- A change of an element of a table depends on the change of that element
only. -/
theorem modifyAt_agree {α : Type} (f g : α → α) :
    ∀ (l : List α) (i : Nat), (∀ a, l[i]? = some a → f a = g a) →
      modifyAt f i l = modifyAt g i l := by
  intro l
  induction l with
  | nil => intro i _; simp [modifyAt]
  | cons a as ih =>
    intro i h
    cases i with
    | zero => simp [modifyAt, h a (by simp)]
    | succ i =>
      simp only [modifyAt, List.cons.injEq, true_and]
      exact ih i fun b hb => h b (by simpa using hb)

namespace ConnectionContext

/-- The link read from the table is the link at its index, when there is one. -/
theorem link_of_getElem (g : Engine) (r : Nat) (a : PnLink) (h : g.links[r]? = some a) :
    g.link r = a := by
  unfold Engine.link
  rw [List.getD_eq_getElem?_getD, h]
  rfl

/-- The loop that releases the deliveries not yet fetched, run for as many rounds
as deliveries are queued, returns; every delivery that was queued has then been
advanced past, released and settled, in order, and nothing else has changed. -/
theorem releaseUnfetched_releases (r : Nat) :
    ∀ (n : Nat) (u : ConnectionContext), (u.io.engine.link r).incoming.length = n →
      releaseUnfetched r n u
        = (.ret (), { u with io := { u.io with engine := u.io.engine.releaseQueued r } }) := by
  intro n
  induction n with
  | zero =>
    intro u hq
    rw [List.length_eq_zero] at hq
    have hcur : u.io.engine.pn_link_current r = none := by
      unfold Engine.pn_link_current
      rw [hq]
      rfl
    have hsame : u.io.engine.releaseQueued r = u.io.engine := by
      unfold Engine.releaseQueued Engine.modifyLink
      rw [modifyAt_same]
      intro a ha
      have := link_of_getElem _ _ _ ha
      rw [this] at hq
      cases a
      simp only at hq
      subst hq
      simp
    rw [releaseUnfetched, hsame]
    simp only [M.bind_apply, M.get_apply, hcur, M.pure_apply]
  | succ k ih =>
    intro u hq
    obtain ⟨d, rest, hinc⟩ : ∃ d rest, (u.io.engine.link r).incoming = d :: rest := by
      cases hl : (u.io.engine.link r).incoming with
      | nil => rw [hl] at hq; cases hq
      | cons d rest => exact ⟨d, rest, rfl⟩
    have hcur : u.io.engine.pn_link_current r = some d := by
      unfold Engine.pn_link_current
      rw [hinc]
      rfl
    have hr : r < u.io.engine.links.length := by
      by_contra hlt
      have : u.io.engine.link r = default := by
        unfold Engine.link
        exact List.getD_eq_default _ _ (by omega)
      rw [this] at hinc
      cases hinc
    have hlink : ((u.io.engine.pn_link_advance r).releaseAndSettle r d).link r
        = { u.io.engine.link r with
            incoming := rest, credit := (u.io.engine.link r).credit - 1,
            released := (u.io.engine.link r).released ++ [d] } := by
      unfold Engine.releaseAndSettle Engine.pn_link_advance Engine.modifyLink Engine.link
      simp only
      rw [getD_modifyAt_self _ _ _ _ (by rw [length_modifyAt]; exact hr),
        getD_modifyAt_self _ _ _ _ hr]
      unfold Engine.link at hinc
      simp only [hinc]
    have hstep := ih
      { u with io := { u.io with
          engine := (u.io.engine.pn_link_advance r).releaseAndSettle r d } }
      (by
        show (((u.io.engine.pn_link_advance r).releaseAndSettle r d).link r).incoming.length = k
        rw [hlink]
        rw [hinc] at hq
        simpa using hq)
    have heng : ((u.io.engine.pn_link_advance r).releaseAndSettle r d).releaseQueued r
        = u.io.engine.releaseQueued r := by
      unfold Engine.releaseQueued Engine.releaseAndSettle Engine.pn_link_advance Engine.modifyLink
      simp only [modifyAt_twice]
      congr 1
      apply modifyAt_agree
      intro a ha
      have hla := link_of_getElem _ _ _ ha
      rw [hla] at hinc
      cases a
      simp only at hinc
      subst hinc
      simp only [List.length_cons, Nat.cast_add, Nat.cast_one, List.append_assoc,
        List.singleton_append, PnLink.mk.injEq, true_and, and_true]
      ring
    rw [releaseUnfetched]
    simp only [M.bind_apply, M.get_apply, hcur, onEngine, M.modify_apply]
    rw [hstep, heng]

end ConnectionContext

namespace ConnectionContext

/-- What `drain_and_release_messages` has done when it returns: it requested the
drain, woke the driver and read the clock; it waited until the credit was no
greater than the number of queued deliveries or the two seconds were over; and
it released every delivery then queued. -/
theorem drain_and_release_steps (E : Env) (ac : M Unit) (fuel ssn lnk : Nat)
    (s t : ConnectionContext)
    (h : drain_and_release_messages E ac fuel ssn lnk s = (.ret (), t)) :
    ∃ s1 s2 u, wakeupDriver (drainRequested s lnk) = (.ret (), s1)
      ∧ now E s1 = (.ret (s.clock + E.elapse s.reads), s2)
      ∧ M.loop (drainPending E lnk (s.clock + E.elapse s.reads + TIME_SEC * 2))
          (waitUntilRcv E ac ssn lnk) fuel s2 = (.ret (), u)
      ∧ (u.io.engine.pn_link_credit (u.rcv lnk).receiver
            ≤ (u.io.engine.pn_link_queued (u.rcv lnk).receiver : Int)
          ∨ s.clock + E.elapse s.reads + TIME_SEC * 2 ≤ u.clock)
      ∧ t = releasedQueued u lnk := by
  unfold drain_and_release_messages at h
  obtain ⟨a1, s1, h1, hA⟩ := M.bind_eq_ret h
  have e1 : a1 = s ∧ s1 = s := by
    simp only [M.get_apply, Prod.mk.injEq, Outcome.ret.injEq] at h1
    exact ⟨h1.1.symm, h1.2.symm⟩
  rw [e1.1, e1.2] at hA
  clear h1 e1 a1 s1 h
  obtain ⟨_, s2, h2, hB⟩ := M.bind_eq_ret hA
  obtain ⟨_, s3, h3, hC⟩ := M.bind_eq_ret hB
  obtain ⟨c, s4, h4, hD⟩ := M.bind_eq_ret hC
  obtain ⟨_, s5, h5, hF⟩ := M.bind_eq_ret hD
  obtain ⟨a6, s6, h6, hG⟩ := M.bind_eq_ret hF
  have e6 : a6 = s5 ∧ s6 = s5 := by
    simp only [M.get_apply, Prod.mk.injEq, Outcome.ret.injEq] at h6
    exact ⟨h6.1.symm, h6.2.symm⟩
  rw [e6.1, e6.2] at hG
  clear h6 e6 a6 s6 hA hB hC hD hF
  have es2 : s2 = drainRequested s lnk := by
    have := congrArg Prod.snd h2
    simp only [onEngine, M.modify_apply] at this
    rw [← this]
    rfl
  rw [es2] at h3
  have hs3 : s3.clock = s.clock ∧ s3.reads = s.reads := by
    have := wakeupDriver_fixes_clock (drainRequested s lnk)
    rw [h3] at this
    exact ⟨congrArg Prod.fst this, congrArg Prod.snd this⟩
  have hnow : now E s3 = (.ret (s3.clock + E.elapse s3.reads),
      { s3 with clock := s3.clock + E.elapse s3.reads, reads := s3.reads + 1 }) := rfl
  have hc : c = s.clock + E.elapse s.reads := by
    rw [hnow] at h4
    simp only [Prod.mk.injEq, Outcome.ret.injEq] at h4
    rw [← h4.1, hs3.1, hs3.2]
  rw [hc] at h4 h5
  obtain ⟨v, hv⟩ := M.loop_ret_exit fuel s4 s5 h5
  obtain ⟨-, hexit⟩ := drainPending_false E lnk _ v s5 hv
  unfold Engine.pn_link_queued at hG
  rw [releaseUnfetched_releases (s5.rcv lnk).receiver _ s5 rfl] at hG
  refine ⟨s3, s4, s5, h3, h4, h5, hexit, ?_⟩
  simp only [Prod.mk.injEq, true_and] at hG
  rw [← hG]
  rfl

/-- The link of the receiver after the release of what was queued: nothing is
queued, and what was queued has been added to the deliveries released and
settled, in order. -/
theorem releasedQueued_link (u : ConnectionContext) (lnk : Nat) :
    ((releasedQueued u lnk).io.engine.link (u.rcv lnk).receiver).incoming = []
    ∧ ((releasedQueued u lnk).io.engine.link (u.rcv lnk).receiver).released
      = (u.io.engine.link (u.rcv lnk).receiver).released
        ++ (u.io.engine.link (u.rcv lnk).receiver).incoming
    ∧ ((releasedQueued u lnk).io.engine.link (u.rcv lnk).receiver).credit
      = (u.io.engine.link (u.rcv lnk).receiver).credit
        - (u.io.engine.link (u.rcv lnk).receiver).incoming.length
    ∧ (releasedQueued u lnk).rcvObjs = u.rcvObjs ∧ (releasedQueued u lnk).clock = u.clock := by
  have key : ∀ (proj : PnLink → PnLink → Prop),
      (∀ l : PnLink,
        proj
          { l with
            incoming := [], credit := l.credit - l.incoming.length,
            released := l.released ++ l.incoming } l) →
      proj ((releasedQueued u lnk).io.engine.link (u.rcv lnk).receiver)
        (u.io.engine.link (u.rcv lnk).receiver) := by
    intro proj hp
    unfold releasedQueued Engine.releaseQueued Engine.modifyLink Engine.link
    simp only
    by_cases hr : (u.rcv lnk).receiver < u.io.engine.links.length
    · rw [getD_modifyAt_self _ _ _ _ hr]
      exact hp _
    · rw [getD_modifyAt_out _ _ _ _ hr]
      have hd : u.io.engine.links.getD (u.rcv lnk).receiver default = default :=
        List.getD_eq_default _ _ (by omega)
      rw [hd]
      exact hp default
  exact ⟨key (fun a _ => a.incoming = []) fun _ => rfl,
    key (fun a b => a.released = b.released ++ b.incoming) fun _ => rfl,
    key (fun a b => a.credit = b.credit - b.incoming.length) fun _ => rfl, rfl, rfl⟩

/-- The request of a drain puts the link in drain mode. -/
theorem drainRequested_drain (s : ConnectionContext) (lnk : Nat)
    (h : (s.rcv lnk).receiver < s.io.engine.links.length) :
    ((drainRequested s lnk).io.engine.link (s.rcv lnk).receiver).drain = true := by
  unfold drainRequested Engine.pn_link_drain Engine.modifyLink Engine.link
  simp only
  rw [getD_modifyAt_self _ _ _ _ h]

end ConnectionContext

namespace ConnectionContext

/-- One round of the loop of `tryConnectUrl`: it throws at the address `a` when the
attempt on `a` throws, and goes on with the rest of the addresses, from the
state the attempt left, when it fails. -/
theorem tryAddrs_cons_raise (E : Env) (ac : M Unit) (fuel : Nat) (a : Address)
    (rest : List Address) (s s1 : ConnectionContext) (e : Exc) :
    tryAddrs E ac fuel (a :: rest) s = (.raise e, s1)
      ↔ throwsAt E ac fuel a s = some (e, s1)
        ∨ ∃ t, failsAt E ac fuel a s = some t ∧ tryAddrs E ac fuel rest t = (.raise e, s1) := by
  rw [tryAddrs]
  unfold throwsAt failsAt
  simp only [M.bind_apply]
  rcases tryConnectAddr E fuel a s with ⟨o, t⟩
  cases o with
  | raise e2 => simp
  | stuck => simp
  | ret c =>
    cases c with
    | false => simp
    | true =>
      simp only [if_true, M.bind_apply]
      rcases tryOpenAddr E ac fuel a t with ⟨o2, t2⟩
      cases o2 with
      | raise e2 => simp
      | stuck => simp
      | ret c2 =>
        cases c2 with
        | false => simp
        | true => simp

/-- The loop of `tryConnectUrl` throws exactly when the attempts fail on the
addresses before some address of the list and the attempt on that address
throws; the exception and the state are then those of that attempt. -/
theorem tryAddrs_raise_iff (E : Env) (ac : M Unit) (fuel : Nat) :
    ∀ (addrs : List Address) (s s1 : ConnectionContext) (e : Exc),
      tryAddrs E ac fuel addrs s = (.raise e, s1)
        ↔ ∃ pre a post t, addrs = pre ++ a :: post ∧ allFail E ac fuel pre s = some t
            ∧ throwsAt E ac fuel a t = some (e, s1) := by
  intro addrs
  induction addrs with
  | nil =>
    intro s s1 e
    rw [tryAddrs]
    simp
  | cons a rest ih =>
    intro s s1 e
    rw [tryAddrs_cons_raise]
    constructor
    · rintro (h | ⟨t, hf, h⟩)
      · exact ⟨[], a, rest, s, rfl, rfl, h⟩
      · obtain ⟨pre, a2, post, t2, rfl, hpre, hs⟩ := (ih t s1 e).mp h
        refine ⟨a :: pre, a2, post, t2, rfl, ?_, hs⟩
        rw [allFail, hf]
        exact hpre
    · rintro ⟨pre, a2, post, t2, hsplit, hpre, hs⟩
      cases pre with
      | nil =>
        simp only [List.nil_append, List.cons.injEq] at hsplit
        obtain ⟨rfl, rfl⟩ := hsplit
        rw [allFail] at hpre
        cases hpre
        exact Or.inl hs
      | cons a3 pre3 =>
        simp only [List.cons_append, List.cons.injEq] at hsplit
        obtain ⟨rfl, rfl⟩ := hsplit
        rw [allFail] at hpre
        cases hf : failsAt E ac fuel a s with
        | none => rw [hf] at hpre; cases hpre
        | some t =>
          rw [hf] at hpre
          exact Or.inr ⟨t, rfl, (ih t s1 e).mpr ⟨pre3, a2, post, t2, rfl, hpre, hs⟩⟩

end ConnectionContext

/-- C17, as the code has it.  `tryConnectUrl(url)` attempts the addresses of
`url` in list order, each from the state the attempt before left; an attempt is
the transport connect and, only if that returns `true`, the handshake.  It
returns `true` exactly when the attempts on the addresses before some address
of the list fail and the attempt on that address succeeds in both, and then in
the state that attempt left (no later address is attempted).  It returns
`false` exactly when the attempts on all the addresses fail, each by returning
`false`.  It throws exactly when the attempts on the addresses before some
address fail and the handshake of that address throws: the exception is that
of the handshake, in the state of the throw (no later address is attempted),
and `tryConnectUrl` then returns neither `true` nor `false`. -/
theorem tryConnectUrl_first_success_or_throw (E : Env) (ac : M Unit) (fuel : Nat) (url : Url)
    (s s1 : ConnectionContext) (e : Exc) :
    (ConnectionContext.tryConnectUrl E ac fuel url s = (.ret true, s1)
      ↔ ∃ pre a post t, url.addrs = pre ++ a :: post
          ∧ ConnectionContext.allFail E ac fuel pre (ConnectionContext.atFirstAddress url s)
            = some t
          ∧ ConnectionContext.succeedsAt E ac fuel a t = some s1)
    ∧ (ConnectionContext.tryConnectUrl E ac fuel url s = (.ret false, s1)
      ↔ ConnectionContext.allFail E ac fuel url.addrs (ConnectionContext.atFirstAddress url s)
          = some s1)
    ∧ (ConnectionContext.tryConnectUrl E ac fuel url s = (.raise e, s1)
      ↔ ∃ pre a post t, url.addrs = pre ++ a :: post
          ∧ ConnectionContext.allFail E ac fuel pre (ConnectionContext.atFirstAddress url s)
            = some t
          ∧ ConnectionContext.throwsAt E ac fuel a t = some (e, s1)) := by
  rw [ConnectionContext.tryConnectUrl_eq_tryAddrs]
  exact ⟨ConnectionContext.tryAddrs_true_iff E ac fuel _ _ _,
    ConnectionContext.tryAddrs_false_iff E ac fuel _ _ _,
    ConnectionContext.tryAddrs_raise_iff E ac fuel _ _ _ _⟩

set_option maxHeartbeats 4000000 in
/-- Counterexample to C17 as stated: a URL with two addresses and a peer that
accepts the transport connect and then closes the connection.  The connect to
the first address returns `true` and its handshake throws `ConnectionError`;
`tryConnectUrl` throws it, having made one transport connect: no address has
succeeded in both (the first did not, the second was not attempted), and
`tryConnectUrl` has not returned `false`. -/
theorem tryConnectUrl_handshake_throws :
    (ConnectionContext.tryConnectUrl Example.declining (pure ()) 3 Example.url2
        Example.disconnected).1
      = .raise (.ConnectionError
          "Connection closed by peer with amqp:connection:forced: not welcome")
    ∧ (ConnectionContext.tryConnectUrl Example.declining (pure ()) 3 Example.url2
        Example.disconnected).1 ≠ .ret false
    ∧ ConnectionContext.succeedsAt Example.declining (pure ()) 3 Example.addr
        (ConnectionContext.atFirstAddress Example.url2 Example.disconnected) = none
    ∧ ConnectionContext.failsAt Example.declining (pure ()) 3 Example.addr
        (ConnectionContext.atFirstAddress Example.url2 Example.disconnected) = none
    ∧ ConnectionContext.connectCalls
        (ConnectionContext.tryConnectUrl Example.declining (pure ()) 3 Example.url2
          Example.disconnected).2.calls = 1 := by
  refine ⟨by decide, by decide, by decide, by decide, by decide⟩

/-! ## C14: the changes of the connection state in an execution -/

namespace ConnectionContext

/-- A run followed by a run is a run, with the changes of both. -/
theorem Run.append {E : Env} {s t u : ConnectionContext} {h1 h2 : List Change}
    (a : Run E s h1 t) (b : Run E t h2 u) : Run E s (h1 ++ h2) u := by
  induction b with
  | start => simpa using a
  | own _ e1 e2 e3 ih => exact Run.own ih e1 e2 e3
  | connecting _ e1 e2 e3 ih =>
    rw [← List.append_assoc]
    exact Run.connecting ih e1 e2 e3
  | refused _ e0 e1 e2 e3 ih =>
    rw [← List.append_assoc]
    exact Run.refused ih e0 e1 e2 e3
  | wait _ e1 e2 e3 ih =>
    rw [← List.append_assoc]
    exact Run.wait ih e1 e2 e3

/-- An operation that leaves the connection state alone and neither waits nor
connects is tame. -/
theorem tame_of_own {E : Env} {α : Type} {m : M α}
    (h : ∀ s, (m s).2.io.state = s.io.state ∧ (m s).2.waits = s.waits
      ∧ (m s).2.connects = s.connects) : Tame E m :=
  fun s => ⟨[], Run.own (Run.start s) (h s).1 (h s).2.1 (h s).2.2⟩

theorem tame_pure {E : Env} {α : Type} (a : α) : Tame E (Pure.pure a : M α) :=
  tame_of_own fun _ => ⟨rfl, rfl, rfl⟩

theorem tame_raise {E : Env} {α : Type} (e : Exc) : Tame E (M.raise e : M α) :=
  tame_of_own fun _ => ⟨rfl, rfl, rfl⟩

theorem tame_stuck {E : Env} {α : Type} : Tame E (M.stuck : M α) :=
  tame_of_own fun _ => ⟨rfl, rfl, rfl⟩

theorem tame_getState {E : Env} : Tame E M.get := tame_of_own fun _ => ⟨rfl, rfl, rfl⟩

theorem tame_test {E : Env} (c : ConnectionContext → Bool) : Tame E (M.test c) :=
  tame_of_own fun _ => ⟨rfl, rfl, rfl⟩

theorem tame_modify {E : Env} {f : ConnectionContext → ConnectionContext}
    (hf : ∀ s, (f s).io.state = s.io.state ∧ (f s).waits = s.waits
      ∧ (f s).connects = s.connects) : Tame E (M.modify f) :=
  tame_of_own hf

theorem tame_bind {E : Env} {α β : Type} {m : M α} {f : α → M β} (hm : Tame E m)
    (hf : ∀ a, Tame E (f a)) : Tame E (m >>= f) := by
  intro s
  obtain ⟨h1, r1⟩ := hm s
  simp only [M.bind_apply]
  rcases hms : m s with ⟨o, s1⟩
  rw [hms] at r1
  cases o with
  | ret a =>
    obtain ⟨h2, r2⟩ := hf a s1
    exact ⟨h1 ++ h2, Run.append r1 r2⟩
  | raise e => exact ⟨h1, r1⟩
  | stuck => exact ⟨h1, r1⟩

theorem tame_when {E : Env} (c : Prop) [Decidable c] {body : M Unit} (hb : Tame E body) :
    Tame E (M.when c body) := by
  unfold M.when
  split
  · exact hb
  · exact tame_of_own fun _ => ⟨rfl, rfl, rfl⟩

theorem tame_ite {E : Env} {α : Type} (c : Prop) [Decidable c] {a b : M α} (ha : Tame E a)
    (hb : Tame E b) : Tame E (if c then a else b) := by
  split
  · exact ha
  · exact hb

theorem tame_forEach {α : Type} {E : Env} {body : α → M Unit} (hb : ∀ a, Tame E (body a)) :
    ∀ xs : List α, Tame E (M.forEach body xs) := by
  intro xs
  induction xs with
  | nil => exact tame_of_own fun _ => ⟨rfl, rfl, rfl⟩
  | cons a as ih =>
    rw [M.forEach]
    exact tame_bind (hb a) fun _ => ih

theorem tame_loop {E : Env} {cond : M Bool} {body : M Unit} (hc : Tame E cond)
    (hb : Tame E body) : ∀ fuel : Nat, Tame E (M.loop cond body fuel) := by
  intro fuel
  induction fuel with
  | zero =>
    rw [M.loop]
    exact tame_bind hc fun c => tame_ite _ tame_stuck (tame_pure _)
  | succ k ih =>
    rw [M.loop]
    exact tame_bind hc fun c => tame_ite _ (tame_bind hb fun _ => ih) (tame_pure _)

theorem tame_tryCatch {E : Env} {α : Type} {m : M α} {catches : Exc → Bool}
    {handler : Exc → M α} (hm : Tame E m) (hh : ∀ e, Tame E (handler e)) :
    Tame E (M.tryCatch m catches handler) := by
  intro s
  obtain ⟨h1, r1⟩ := hm s
  unfold M.tryCatch
  rcases hms : m s with ⟨o, s1⟩
  rw [hms] at r1
  cases o with
  | ret a => exact ⟨h1, r1⟩
  | raise e =>
    simp only
    split
    · obtain ⟨h2, r2⟩ := hh e s1
      exact ⟨h1 ++ h2, Run.append r1 r2⟩
    · exact ⟨h1, r1⟩
  | stuck => exact ⟨h1, r1⟩

theorem tame_onEngine {E : Env} (f : Engine → Engine) : Tame E (onEngine f) :=
  tame_modify fun _ => ⟨rfl, rfl, rfl⟩

/-- A wait: the I/O thread makes its next change. -/
theorem tame_lockWait (E : Env) : Tame E (lockWait E) :=
  fun s => ⟨_, Run.wait (Run.start s) rfl rfl rfl⟩

theorem tame_now (E : Env) : Tame E (now E) := tame_of_own fun _ => ⟨rfl, rfl, rfl⟩

theorem tame_call {E : Env} (c : Call) : Tame E (call c) := tame_modify fun _ => ⟨rfl, rfl, rfl⟩

theorem tame_wakeupDriver {E : Env} : Tame E wakeupDriver := by
  unfold wakeupDriver
  refine tame_bind (tame_getState) fun s => ?_
  split
  · exact tame_bind (tame_modify fun _ => ⟨rfl, rfl, rfl⟩) fun _ => tame_call _
  · exact tame_pure _
  · exact tame_pure _

theorem tame_configureConnection {E : Env} : Tame E configureConnection :=
  tame_bind (tame_getState) fun _ => tame_when _ (tame_onEngine _)

theorem tame_senderReset {E : Env} (session p : Nat) :
    Tame E (SenderContext.reset session p) := by
  unfold SenderContext.reset
  exact tame_modify fun _ => ⟨rfl, rfl, rfl⟩

theorem tame_receiverReset {E : Env} (session p : Nat) :
    Tame E (ReceiverContext.reset session p) := by
  unfold ReceiverContext.reset
  exact tame_modify fun _ => ⟨rfl, rfl, rfl⟩

theorem tame_sessionReset {E : Env} (p : Nat) : Tame E (SessionContext.reset p) := by
  unfold SessionContext.reset
  refine tame_bind (tame_modify fun _ => ⟨rfl, rfl, rfl⟩) fun _ => ?_
  refine tame_bind (tame_getState) fun s => ?_
  refine tame_bind (tame_forEach (fun _ => tame_senderReset _ _) _) fun _ => ?_
  exact tame_forEach (fun _ => tame_receiverReset _ _) _

theorem tame_reset {E : Env} : Tame E reset := by
  unfold reset
  refine tame_bind (tame_call _) fun _ => ?_
  refine tame_bind (tame_onEngine _) fun _ => ?_
  refine tame_bind tame_configureConnection fun _ => ?_
  exact tame_bind (tame_getState) fun s => tame_forEach (fun _ => tame_sessionReset _) _

theorem tame_checkConnectionClosed {E : Env} : Tame E checkConnectionClosed :=
  tame_bind (tame_getState) fun _ =>
    tame_when _ (tame_bind (tame_onEngine _) fun _ => tame_raise _)

theorem tame_checkDisconnected {E : Env} : Tame E checkDisconnected := by
  unfold checkDisconnected
  refine tame_bind (tame_getState) fun s => ?_
  refine tame_bind (tame_ite _ tame_reset tame_checkConnectionClosed) fun _ => ?_
  exact tame_bind (tame_getState) fun _ => tame_pure _

theorem tame_check {E : Env} (ac : M Unit) (hac : Tame E ac) :
    Tame E (check ac) := by
  unfold check
  refine tame_bind tame_checkDisconnected fun d => ?_
  refine tame_bind (tame_getState) fun s => ?_
  exact tame_ite _ (tame_ite _ hac (tame_raise _)) (tame_pure _)

theorem tame_wait (E : Env) (ac : M Unit) (hac : Tame E ac) :
    Tame E (wait E ac) :=
  tame_bind (tame_check ac hac) fun _ =>
    tame_bind (tame_lockWait E) fun _ => tame_check ac hac

theorem tame_waitUntil (E : Env) (ac : M Unit) (hac : Tame E ac) :
    Tame E (waitUntil E ac) :=
  tame_bind (tame_lockWait E) fun _ => tame_check ac hac

theorem tame_checkClosedSsn {E : Env} (ac : M Unit) (hac : Tame E ac) (ssn : Nat) :
    Tame E (checkClosedSsn ac ssn) := by
  unfold checkClosedSsn
  refine tame_bind (tame_check ac hac) fun _ => tame_bind (tame_getState) fun s => ?_
  refine tame_ite _ (tame_bind (tame_onEngine _) fun _ => tame_raise _) ?_
  exact tame_ite _ (tame_raise _) (tame_pure _)

theorem tame_checkClosedLink {E : Env} (ac : M Unit) (hac : Tame E ac) (ssn lnk : Nat) :
    Tame E (checkClosedLink ac ssn lnk) := by
  unfold checkClosedLink
  refine tame_bind (tame_checkClosedSsn ac hac ssn) fun _ =>
    tame_bind (tame_getState) fun s => ?_
  refine tame_ite _ ?_ (tame_ite _ (tame_raise _) (tame_pure _))
  refine tame_bind (tame_onEngine _) fun _ => ?_
  exact tame_ite _ (tame_raise _) (tame_ite _ (tame_raise _) (tame_raise _))

theorem tame_checkClosedRcv {E : Env} (ac : M Unit) (hac : Tame E ac) (ssn lnk : Nat) :
    Tame E (checkClosedRcv ac ssn lnk) :=
  tame_bind (tame_getState) fun _ => tame_checkClosedLink ac hac ssn _

theorem tame_waitSsn (E : Env) (ac : M Unit) (hac : Tame E ac) (ssn : Nat) :
    Tame E (waitSsn E ac ssn) :=
  tame_bind (tame_wait E ac hac) fun _ => tame_checkClosedSsn ac hac ssn

theorem tame_waitRcv (E : Env) (ac : M Unit) (hac : Tame E ac) (ssn lnk : Nat) :
    Tame E (waitRcv E ac ssn lnk) :=
  tame_bind (tame_wait E ac hac) fun _ => tame_checkClosedRcv ac hac ssn lnk

theorem tame_waitUntilRcv (E : Env) (ac : M Unit) (hac : Tame E ac)
    (ssn lnk : Nat) : Tame E (waitUntilRcv E ac ssn lnk) :=
  tame_bind (tame_waitUntil E ac hac) fun _ => tame_checkClosedRcv ac hac ssn lnk

theorem tame_convert (E : Env) (timeout : Nat) : Tame E (convert E timeout) := by
  unfold convert
  exact tame_ite _ (tame_bind (tame_now E) fun _ => tame_pure _) (tame_pure _)

theorem tame_replenish (E : Env) (lnk : Nat) : Tame E (replenish E lnk) := by
  unfold replenish
  refine tame_bind (tame_getState) fun s => tame_when _ ?_
  refine tame_bind (tame_onEngine _) fun _ => ?_
  exact tame_ite _ tame_wakeupDriver (tame_modify fun _ => ⟨rfl, rfl, rfl⟩)

theorem tame_receive (E : Env) (ssn lnk : Nat) (d : Incoming) :
    Tame E (receive E ssn lnk d) := by
  unfold receive
  refine tame_bind (tame_getState) fun s => ?_
  refine tame_bind (tame_when _ (tame_raise _)) fun _ => ?_
  refine tame_bind (tame_of_own fun _ => ⟨rfl, rfl, rfl⟩) fun _ => ?_
  refine tame_bind (tame_onEngine _) fun _ => ?_
  exact tame_bind (tame_replenish E lnk) fun _ => tame_pure _

theorem tame_getLoop (E : Env) (ac : M Unit) (hac : Tame E ac)
    (ssn lnk deadline : Nat) :
    ∀ fuel : Nat, Tame E (getLoop E ac ssn lnk deadline fuel) := by
  intro fuel
  induction fuel with
  | zero => rw [getLoop]; exact tame_stuck
  | succ k ih =>
    rw [getLoop]
    refine tame_bind (tame_checkClosedRcv ac hac ssn lnk) fun _ => ?_
    refine tame_bind (tame_getState) fun s => ?_
    split
    · exact tame_bind (tame_receive E ssn lnk _) fun _ => tame_pure _
    · refine tame_bind (tame_now E) fun t => tame_ite _ ?_ (tame_pure _)
      exact tame_bind (tame_waitUntilRcv E ac hac ssn lnk) fun _ => ih

theorem tame_get (E : Env) (ac : M Unit) (hac : Tame E ac)
    (fuel ssn lnk timeout : Nat) : Tame E (get E ac fuel ssn lnk timeout) :=
  tame_bind (tame_convert E timeout) fun _ => tame_getLoop E ac hac ssn lnk _ _

theorem tame_fetchCredit {E : Env} (ac : M Unit) (hac : Tame E ac) (ssn lnk : Nat) :
    Tame E (fetchCredit ac ssn lnk) := by
  unfold fetchCredit
  refine tame_bind (tame_checkClosedRcv ac hac ssn lnk) fun _ => ?_
  refine tame_bind (tame_getState) fun s => tame_when _ ?_
  exact tame_bind (tame_onEngine _) fun _ => tame_wakeupDriver

theorem tame_fetchDrain (E : Env) (ac : M Unit) (hac : Tame E ac)
    (fuel ssn lnk : Nat) : Tame E (fetchDrain E ac fuel ssn lnk) := by
  unfold fetchDrain
  refine tame_bind (tame_getState) fun s => ?_
  refine tame_bind (tame_onEngine _) fun _ => ?_
  refine tame_bind tame_wakeupDriver fun _ => ?_
  refine tame_bind (tame_loop (tame_test _) (tame_waitRcv E ac hac ssn lnk) fuel)
    fun _ => ?_
  exact tame_bind (tame_getState) fun s => tame_when _ (tame_onEngine _)

theorem tame_fetchAgain (E : Env) (ac : M Unit) (hac : Tame E ac)
    (fuel ssn lnk : Nat) : Tame E (fetchAgain E ac fuel ssn lnk) := by
  unfold fetchAgain
  refine tame_bind (tame_get E ac hac fuel ssn lnk _) fun r => ?_
  split
  · refine tame_bind (tame_getState) fun s => ?_
    refine tame_bind (tame_when _ ?_) fun _ => tame_pure _
    exact tame_bind (tame_onEngine _) fun _ => tame_wakeupDriver
  · exact tame_pure _

theorem tame_verify (E : Env) (lnk : Nat) : Tame E (verify E lnk) := by
  unfold verify
  refine tame_bind (tame_getState) fun s => ?_
  split
  · exact tame_raise _
  · exact tame_pure _

theorem tame_attachLink (E : Env) (ac : M Unit) (hac : Tame E ac)
    (fuel ssn link credit : Nat) : Tame E (attachLink E ac fuel ssn link credit) := by
  unfold attachLink
  refine tame_bind (tame_onEngine _) fun _ => ?_
  refine tame_bind (tame_when _ (tame_onEngine _)) fun _ => ?_
  refine tame_bind tame_wakeupDriver fun _ => ?_
  exact tame_loop (tame_test _) (tame_waitSsn E ac hac ssn) fuel

theorem tame_resendDelivery {E : Env} (p : Nat) (d : Delivery) :
    Tame E (resendDelivery p d) := by
  unfold resendDelivery
  exact tame_when _ (tame_modify fun _ => ⟨rfl, rfl, rfl⟩)

theorem tame_resend {E : Env} (p : Nat) : Tame E (SenderContext.resend p) := by
  unfold SenderContext.resend
  refine tame_bind (tame_call _) fun _ => tame_bind (tame_getState) fun s => ?_
  exact tame_forEach (fun d => tame_resendDelivery p d) _

theorem tame_reattachSender (E : Env) (ac : M Unit) (hac : Tame E ac)
    (fuel p snd : Nat) : Tame E (reattachSender E ac fuel p snd) := by
  unfold reattachSender
  refine tame_bind (tame_getState) fun s =>
    tame_bind (tame_attachLink E ac hac fuel p _ _) fun _ => ?_
  exact tame_bind (tame_getState) fun s =>
    tame_bind (tame_verify E _) fun _ => tame_resend snd

theorem tame_reattachReceiver (E : Env) (ac : M Unit) (hac : Tame E ac)
    (fuel p rcv : Nat) : Tame E (reattachReceiver E ac fuel p rcv) := by
  unfold reattachReceiver
  refine tame_bind (tame_getState) fun s => ?_
  refine tame_bind
    (tame_ite _ (tame_attachLink E ac hac fuel p _ _) (tame_attachLink E ac hac fuel p _ _))
    fun _ => ?_
  exact tame_bind (tame_getState) fun s => tame_verify E _

theorem tame_restartSession (E : Env) (ac : M Unit) (hac : Tame E ac)
    (fuel p : Nat) : Tame E (restartSession E ac fuel p) := by
  unfold restartSession
  refine tame_bind (tame_getState) fun s => tame_bind (tame_onEngine _) fun _ => ?_
  refine tame_bind tame_wakeupDriver fun _ => ?_
  refine tame_bind (tame_loop (by unfold sessionRemoteUninit; exact tame_test _)
    (tame_wait E ac hac) fuel) fun _ => ?_
  refine tame_bind (tame_getState) fun s => ?_
  refine tame_bind (@tame_forEach (String × Nat) E
    (fun i => reattachSender E ac fuel p i.2)
    (fun i => tame_reattachSender E ac hac fuel p i.2) _) fun _ => ?_
  refine tame_bind (tame_getState) fun s => ?_
  refine tame_bind (@tame_forEach (String × Nat) E
    (fun i => reattachReceiver E ac fuel p i.2)
    (fun i => tame_reattachReceiver E ac hac fuel p i.2) _) fun _ => ?_
  exact tame_wakeupDriver

theorem tame_restartSessions (E : Env) (ac : M Unit) (hac : Tame E ac)
    (fuel : Nat) : Tame E (restartSessions E ac fuel) := by
  unfold restartSessions
  refine tame_tryCatch ?_ fun _ => tame_pure _
  refine tame_bind (tame_getState) fun s => ?_
  exact tame_bind (@tame_forEach (String × Nat) E
    (fun i => restartSession E ac fuel i.2)
    (fun i => tame_restartSession E ac hac fuel i.2) _) fun _ => tame_pure _

theorem tame_waitConnected (E : Env) :
    ∀ fuel : Nat, Tame E (waitConnected E fuel) := by
  intro fuel
  induction fuel with
  | zero =>
    rw [waitConnected]
    refine tame_bind (tame_getState) fun s => ?_
    split
    · exact tame_pure _
    · exact tame_stuck
    · exact tame_pure _
  | succ k ih =>
    rw [waitConnected]
    refine tame_bind (tame_getState) fun s => ?_
    split
    · exact tame_pure _
    · exact tame_bind (tame_lockWait E) fun _ => ih
    · exact tame_pure _

/-- The statements of `tryConnectAddr` before `try` and the transport connect:
whatever the state, it is then `CONNECTING`. -/
theorem tame_connect (E : Env) (fuel : Nat) (a : Address) :
    Tame E (prepareConnect a >>= fun _ => connectAndWait E fuel a) := by
  have hprep : ∀ u : ConnectionContext, prepareConnect a u = (.ret (), (prepareConnect a u).2)
      ∧ (prepareConnect a u).2.io.state = .CONNECTING
      ∧ (prepareConnect a u).2.waits = u.waits
      ∧ (prepareConnect a u).2.connects = u.connects := by
    intro u
    unfold prepareConnect
    simp only [M.bind_apply, M.modify_apply, M.get_apply, M.when_apply]
    by_cases hu : useSasl { u with transport := some a, id := Address.str a } = true
    · rw [if_pos hu]
      exact ⟨rfl, rfl, rfl, rfl⟩
    · rw [if_neg hu]
      exact ⟨rfl, rfl, rfl, rfl⟩
  have hcw : ∀ u : ConnectionContext, connectAndWait E fuel a u
      = (match E.connectThrows u.connects a with
        | some what => (M.raise (Exc.StdException what) : M Bool)
        | none => waitConnected E fuel)
        { u with connects := u.connects + 1, calls := u.calls ++ [Call.connect a] } :=
    fun _ => rfl
  have hrest : ∀ k, Tame E (match E.connectThrows k a with
      | some what => (M.raise (Exc.StdException what) : M Bool)
      | none => waitConnected E fuel) := by
    intro k
    split
    · exact tame_raise _
    · exact tame_waitConnected E fuel
  intro s
  obtain ⟨p1, p2, p3, p4⟩ := hprep s
  simp only [M.bind_apply]
  rw [p1]
  simp only
  generalize (prepareConnect a s).2 = u at p2 p3 p4
  rw [hcw u]
  obtain ⟨h2, r2⟩ := hrest u.connects
    { u with connects := u.connects + 1, calls := u.calls ++ [Call.connect a] }
  have r1 : Run E s ([] ++ [⟨true, s.io.state, .CONNECTING⟩])
      { u with connects := u.connects + 1, calls := u.calls ++ [Call.connect a] } :=
    Run.connecting (Run.start s) p2 p3 (by rw [← p4])
  exact ⟨_, Run.append r1 r2⟩

/-- Every execution of `tryConnectAddr` is a run: the state is set to `CONNECTING`
whatever it was; during the connect and the wait only the I/O thread changes
it; the handler sets it to `DISCONNECTED` from `CONNECTING`, since what is
caught is thrown by the transport connect, before any wait. -/
theorem tame_tryConnectAddr (E : Env) (fuel : Nat) (a : Address) :
    Tame E (tryConnectAddr E fuel a) := by
  have hprep : ∀ u : ConnectionContext, prepareConnect a u = (.ret (), (prepareConnect a u).2)
      ∧ (prepareConnect a u).2.io.state = .CONNECTING := by
    intro u
    unfold prepareConnect
    simp only [M.bind_apply, M.modify_apply, M.get_apply, M.when_apply]
    by_cases hu : useSasl { u with transport := some a, id := Address.str a } = true
    · rw [if_pos hu]
      exact ⟨rfl, rfl⟩
    · rw [if_neg hu]
      exact ⟨rfl, rfl⟩
  intro s
  obtain ⟨p1, p2⟩ := hprep s
  obtain ⟨h1, r1⟩ := tame_connect E fuel a s
  simp only [M.bind_apply] at r1
  rw [p1] at r1
  simp only at r1
  unfold tryConnectAddr
  simp only [M.bind_apply]
  rw [p1]
  simp only [M.tryCatch]
  rcases hc : connectAndWait E fuel a (prepareConnect a s).2 with ⟨o, t⟩
  rw [hc] at r1
  simp only at r1
  cases o with
  | ret c =>
    cases c with
    | true => exact ⟨h1, by simpa using r1⟩
    | false =>
      refine ⟨h1, ?_⟩
      simp only [Bool.false_eq_true, if_false, M.bind_apply, M.modify_apply, M.pure_apply]
      exact Run.own r1 rfl rfl rfl
  | raise e =>
    have hio := connectAndWait_raise E fuel a _ t e hc
    have ht : t.io.state = .CONNECTING := by rw [hio, p2]
    refine ⟨h1 ++ [⟨true, .CONNECTING, .DISCONNECTED⟩], ?_⟩
    simp only [if_true, M.bind_apply, M.modify_apply, M.pure_apply, Bool.false_eq_true, if_false]
    have r2 : Run E s (h1 ++ [⟨true, .CONNECTING, .DISCONNECTED⟩])
        { t with io := { t.io with state := .DISCONNECTED } } :=
      Run.refused r1 ht rfl rfl rfl
    exact Run.own r2 rfl rfl rfl
  | stuck => exact ⟨h1, r1⟩

theorem tame_waitNoReconnect (E : Env) : Tame E (waitNoReconnect E) := by
  unfold waitNoReconnect
  refine tame_bind tame_checkDisconnected fun d => tame_ite _ (tame_pure _) ?_
  refine tame_bind (tame_lockWait E) fun _ => ?_
  exact tame_bind tame_checkDisconnected fun _ => tame_pure _

theorem tame_startTicker {E : Env} : Tame E startTicker := by
  unfold startTicker
  refine tame_bind (tame_getState) fun s => tame_when _ ?_
  exact tame_bind (tame_modify fun _ => ⟨rfl, rfl, rfl⟩) fun _ => tame_call _

theorem tame_awaitAuthenticated (E : Env) (fuel : Nat) :
    Tame E (awaitAuthenticated E fuel) := by
  unfold awaitAuthenticated
  refine tame_bind (tame_getState) fun s => tame_when _ ?_
  exact tame_bind tame_wakeupDriver fun _ =>
    tame_loop (tame_test _) (tame_waitNoReconnect E) fuel

theorem tame_openConnection (E : Env) (ac : M Unit) (hac : Tame E ac)
    (fuel : Nat) : Tame E (openConnection E ac fuel) := by
  unfold openConnection
  refine tame_bind (tame_onEngine _) fun _ => tame_bind tame_wakeupDriver fun _ => ?_
  refine tame_bind (tame_loop (tame_test _) (tame_waitNoReconnect E) fuel)
    fun _ => ?_
  refine tame_bind (tame_getState) fun s => tame_ite _ (tame_pure _) ?_
  refine tame_ite _ (tame_raise _) ?_
  exact tame_bind tame_startTicker fun _ => tame_restartSessions E ac hac fuel

theorem tame_tryOpenAddr (E : Env) (ac : M Unit) (hac : Tame E ac)
    (fuel : Nat) (a : Address) : Tame E (tryOpenAddr E ac fuel a) := by
  unfold tryOpenAddr
  refine tame_bind (tame_modify fun _ => ⟨rfl, rfl, rfl⟩) fun _ => ?_
  refine tame_bind (tame_awaitAuthenticated E fuel) fun _ => ?_
  exact tame_bind (tame_getState) fun s =>
    tame_ite _ (tame_pure _) (tame_openConnection E ac hac fuel)

theorem tame_tryAddrs (E : Env) (ac : M Unit) (hac : Tame E ac) (fuel : Nat) :
    ∀ addrs : List Address, Tame E (tryAddrs E ac fuel addrs) := by
  intro addrs
  induction addrs with
  | nil => rw [tryAddrs]; exact tame_pure _
  | cons a rest ih =>
    rw [tryAddrs]
    refine tame_bind (tame_tryConnectAddr E fuel a) fun c => tame_ite _ ?_ ih
    exact tame_bind (tame_tryOpenAddr E ac hac fuel a) fun o =>
      tame_ite _ (tame_pure _) ih

theorem tame_tryConnectUrl (E : Env) (ac : M Unit) (hac : Tame E ac)
    (fuel : Nat) (url : Url) : Tame E (tryConnectUrl E ac fuel url) := by
  unfold tryConnectUrl
  refine tame_bind (tame_call _) fun _ => ?_
  refine tame_bind (tame_when _ (tame_modify fun _ => ⟨rfl, rfl, rfl⟩)) fun _ => ?_
  refine tame_bind (tame_when _ (tame_modify fun _ => ⟨rfl, rfl, rfl⟩)) fun _ => ?_
  exact tame_tryAddrs E ac hac fuel _

theorem tame_expired (E : Env) (start : Nat) (timeout : ℚ) :
    Tame E (expired E start timeout) := by
  unfold expired
  refine tame_ite _ (tame_pure _) (tame_ite _ (tame_pure _) ?_)
  exact tame_bind (tame_now E) fun _ => tame_pure _

theorem tame_autoconnectBody (E : Env) (started : Nat) (i : ℚ) :
    Tame E (autoconnectBody E started i) := by
  unfold autoconnectBody
  refine tame_bind (tame_getState) fun s => ?_
  refine tame_bind (tame_when _ (tame_raise _)) fun _ => ?_
  refine tame_bind ?_ fun _ => ?_
  · unfold countRetry
    refine tame_bind (tame_getState) fun s => tame_when _ ?_
    exact tame_bind (tame_modify fun _ => ⟨rfl, rfl, rfl⟩) fun _ => tame_when _ (tame_raise _)
  · refine tame_bind (tame_expired E started _) fun late => ?_
    exact tame_bind (tame_when _ (tame_raise _)) fun _ => tame_call _

theorem tame_autoconnectLoop (E : Env) (round : M Bool) (hr : Tame E round)
    (started : Nat) :
    ∀ (fuel : Nat) (i : ℚ), Tame E (autoconnectLoop E round started fuel i) := by
  intro fuel
  induction fuel with
  | zero =>
    intro i
    rw [autoconnectLoop]
    exact tame_bind hr fun c => tame_ite _ (tame_pure _) (tame_stuck)
  | succ k ih =>
    intro i
    rw [autoconnectLoop]
    refine tame_bind hr fun c => tame_ite _ (tame_pure _) ?_
    refine tame_bind (tame_autoconnectBody E started i) fun _ => ?_
    exact tame_bind (tame_getState) fun s => ih _

/-- Every execution of `autoconnect`, with all that it runs (the resets, the
attempts, the restart of the sessions, the nested reconnections), is a run. -/
theorem tame_autoconnect (E : Env) : ∀ fuel : Nat, Tame E (autoconnect E fuel) := by
  intro fuel
  induction fuel with
  | zero => rw [autoconnect]; exact tame_stuck
  | succ k ih =>
    rw [autoconnect]
    refine tame_bind (tame_now E) fun started => tame_bind (tame_getState) fun s => ?_
    refine tame_bind (tame_autoconnectLoop E _ (tame_tryConnectUrl E _ ih _ _) _ _ _)
      fun _ => ?_
    exact tame_modify fun _ => ⟨rfl, rfl, rfl⟩

end ConnectionContext

namespace ConnectionContext

theorem tame_checkClosedSnd {E : Env} (ac : M Unit) (hac : Tame E ac) (ssn lnk : Nat) :
    Tame E (checkClosedSnd ac ssn lnk) :=
  tame_bind tame_getState fun _ => tame_checkClosedLink ac hac ssn _

theorem tame_waitSnd (E : Env) (ac : M Unit) (hac : Tame E ac) (ssn lnk : Nat) :
    Tame E (waitSnd E ac ssn lnk) :=
  tame_bind (tame_wait E ac hac) fun _ => tame_checkClosedSnd ac hac ssn lnk

theorem tame_sessionRemoteUninit {E : Env} (p : Nat) : Tame E (sessionRemoteUninit p) := by
  unfold sessionRemoteUninit
  exact tame_test _

theorem tame_newSessionContext {E : Env} (name : String) : Tame E (newSessionContext name) :=
  tame_of_own fun _ => ⟨rfl, rfl, rfl⟩

theorem tame_sessionName (E : Env) (n : String) : Tame E (sessionName E n) := by
  refine tame_of_own fun s => ?_
  unfold sessionName
  split <;> exact ⟨rfl, rfl, rfl⟩

theorem tame_openEngineSession {E : Env} (p : Nat) : Tame E (openEngineSession p) := by
  unfold openEngineSession
  exact tame_modify fun _ => ⟨rfl, rfl, rfl⟩

theorem tame_newSessionWith (E : Env) (ac : M Unit) (hac : Tame E ac) (fuel : Nat)
    (transactional : Bool) (n : String) : Tame E (newSessionWith E ac fuel transactional n) := by
  unfold newSessionWith
  refine tame_bind (tame_when _ (tame_raise _)) fun _ => ?_
  refine tame_bind (tame_sessionName E n) fun name => tame_bind tame_getState fun s => ?_
  split
  · refine tame_bind (tame_newSessionContext name) fun p => ?_
    refine tame_bind (tame_openEngineSession p) fun _ => tame_bind tame_wakeupDriver fun _ => ?_
    refine tame_bind (tame_loop (tame_sessionRemoteUninit p) (tame_wait E ac hac) fuel) fun _ => ?_
    exact tame_bind (tame_modify fun _ => ⟨rfl, rfl, rfl⟩) fun _ => tame_pure _
  · exact tame_raise _

theorem tame_getSession {E : Env} (name : String) : Tame E (getSession name) := by
  unfold getSession
  refine tame_bind tame_getState fun s => ?_
  split
  · exact tame_raise _
  · exact tame_pure _

theorem tame_releaseUnfetched {E : Env} (lnk : Nat) :
    ∀ fuel : Nat, Tame E (releaseUnfetched lnk fuel) := by
  intro fuel
  induction fuel with
  | zero =>
    rw [releaseUnfetched]
    refine tame_bind tame_getState fun s => ?_
    split
    · exact tame_pure _
    · exact tame_stuck
  | succ k ih =>
    rw [releaseUnfetched]
    refine tame_bind tame_getState fun s => ?_
    split
    · exact tame_pure _
    · exact tame_bind (tame_onEngine _) fun _ => tame_bind (tame_onEngine _) fun _ => ih

theorem tame_drainPending (E : Env) (lnk deadline : Nat) : Tame E (drainPending E lnk deadline) := by
  unfold drainPending
  refine tame_bind tame_getState fun s => tame_ite _ ?_ (tame_pure _)
  exact tame_bind (tame_now E) fun _ => tame_pure _

theorem tame_drain_and_release_messages (E : Env) (ac : M Unit) (hac : Tame E ac)
    (fuel ssn lnk : Nat) : Tame E (drain_and_release_messages E ac fuel ssn lnk) := by
  unfold drain_and_release_messages
  refine tame_bind tame_getState fun s => tame_bind (tame_onEngine _) fun _ => ?_
  refine tame_bind tame_wakeupDriver fun _ => tame_bind (tame_now E) fun t => ?_
  refine tame_bind (tame_loop (tame_drainPending E lnk _) (tame_waitUntilRcv E ac hac ssn lnk) fuel)
    fun _ => ?_
  exact tame_bind tame_getState fun s => tame_releaseUnfetched _ _

theorem tame_waitSettled (E : Env) (ac : M Unit) (hac : Tame E ac) (fuel ssn : Nat) :
    Tame E (waitSettled E ac fuel ssn) := by
  unfold waitSettled
  exact tame_loop (tame_test _)
    (tame_bind (tame_waitSsn E ac hac ssn) fun _ => tame_wakeupDriver) fuel

theorem tame_endSessionDrain (E : Env) (ac : M Unit) (hac : Tame E ac) (fuel ssn : Nat) :
    Tame E (endSessionDrain E ac fuel ssn) := by
  unfold endSessionDrain
  refine tame_bind tame_getState fun s => tame_when _ ?_
  refine tame_bind (@tame_forEach (String × Nat) E
    (fun i => drain_and_release_messages E ac fuel ssn i.2)
    (fun i => tame_drain_and_release_messages E ac hac fuel ssn i.2) _) fun _ => ?_
  exact tame_waitSettled E ac hac fuel ssn

theorem tame_endSessionErase {E : Env} (ssn : Nat) : Tame E (endSessionErase ssn) := by
  unfold endSessionErase
  refine tame_bind tame_getState fun s => tame_bind (tame_when _ (tame_onEngine _)) fun _ => ?_
  exact tame_bind (tame_modify fun _ => ⟨rfl, rfl, rfl⟩) fun _ => tame_wakeupDriver

theorem tame_endSessionWith (E : Env) (ac : M Unit) (hac : Tame E ac) (fuel ssn : Nat) :
    Tame E (endSessionWith E ac fuel ssn) :=
  tame_bind (tame_endSessionDrain E ac hac fuel ssn) fun _ => tame_endSessionErase ssn

theorem tame_syncWith (E : Env) (ac : M Unit) (hac : Tame E ac) (fuel ssn : Nat) :
    Tame E (syncWith E ac fuel ssn) :=
  tame_bind (tame_waitSettled E ac hac fuel ssn) fun _ => tame_checkClosedSsn ac hac ssn

theorem tame_closeSession (E : Env) (ac : M Unit) (hac : Tame E ac) (fuel ssn : Nat) :
    Tame E (closeSession E ac fuel ssn) := by
  unfold closeSession
  refine tame_bind (tame_loop (tame_test _) (tame_waitSsn E ac hac ssn) fuel) fun _ => ?_
  exact tame_bind tame_getState fun s => tame_when _ (tame_onEngine _)

theorem tame_closeConnection (E : Env) (ac : M Unit) (hac : Tame E ac) (fuel : Nat) :
    Tame E (closeConnection E ac fuel) := by
  unfold closeConnection
  refine tame_bind tame_getState fun s => tame_when _ ?_
  refine tame_bind (@tame_forEach (String × Nat) E (fun i => closeSession E ac fuel i.2)
    (fun i => tame_closeSession E ac hac fuel i.2) _) fun _ => ?_
  refine tame_bind (tame_onEngine _) fun _ => tame_bind tame_wakeupDriver fun _ => ?_
  refine tame_bind (tame_loop (tame_test _) (tame_lockWait E) fuel) fun _ => ?_
  exact tame_modify fun _ => ⟨rfl, rfl, rfl⟩

theorem tame_closeTransport (E : Env) (fuel : Nat) : Tame E (closeTransport E fuel) := by
  unfold closeTransport
  refine tame_bind tame_getState fun s => tame_when _ ?_
  exact tame_bind (tame_call _) fun _ => tame_loop (tame_test _) (tame_lockWait E) fuel

theorem tame_cancelTicker {E : Env} : Tame E cancelTicker := by
  unfold cancelTicker
  refine tame_bind tame_getState fun s => tame_when _ ?_
  exact tame_bind (tame_call _) fun _ => tame_modify fun _ => ⟨rfl, rfl, rfl⟩

theorem tame_closeWith (E : Env) (ac : M Unit) (hac : Tame E ac) (fuel : Nat) :
    Tame E (closeWith E ac fuel) := by
  unfold closeWith
  refine tame_bind tame_getState fun s => tame_ite _ (tame_pure _) ?_
  refine tame_bind (tame_closeConnection E ac hac fuel) fun _ => ?_
  exact tame_bind (tame_closeTransport E fuel) fun _ => tame_cancelTicker

/-- The guard that counts a fetch in progress changes a counter of the receiver
before and after the body. -/
theorem tame_scopedIncrement {E : Env} {α : Type} (lnk : Nat) {body : M α} (hb : Tame E body) :
    Tame E (scopedIncrement lnk body) := by
  intro s
  unfold scopedIncrement
  simp only
  generalize hup : ({ s with
    rcvObjs := modifyAt (fun o => { o with fetching := o.fetching + 1 }) lnk s.rcvObjs }
      : ConnectionContext) = u
  have r0 : Run E s [] u := by
    rw [← hup]
    exact Run.own (Run.start s) rfl rfl rfl
  obtain ⟨h, r⟩ := hb u
  have r1 := Run.append r0 r
  rcases hbody : body u with ⟨o, t⟩
  rw [hbody] at r1
  cases o with
  | ret a => exact ⟨_, Run.own r1 rfl rfl rfl⟩
  | raise e => exact ⟨_, Run.own r1 rfl rfl rfl⟩
  | stuck => exact ⟨_, r1⟩

theorem tame_fetchWith (E : Env) (ac : M Unit) (hac : Tame E ac) (fuel ssn lnk timeout : Nat) :
    Tame E (fetchWith E ac fuel ssn lnk timeout) := by
  unfold fetchWith
  refine tame_scopedIncrement lnk ?_
  refine tame_bind (tame_fetchCredit ac hac ssn lnk) fun _ => ?_
  refine tame_bind (tame_get E ac hac fuel ssn lnk timeout) fun r => ?_
  split
  · exact tame_pure _
  · exact tame_bind (tame_fetchDrain E ac hac fuel ssn lnk) fun _ =>
      tame_fetchAgain E ac hac fuel ssn lnk

theorem tame_senderSend {E : Env} (p : Nat) (msg : Message) : Tame E (SenderContext.send p msg) := by
  refine tame_of_own fun s => ?_
  unfold SenderContext.send
  simp only
  split <;> exact ⟨rfl, rfl, rfl⟩

theorem tame_sendLoop (E : Env) (ac : M Unit) (hac : Tame E ac) (ssn snd : Nat) (msg : Message) :
    ∀ fuel : Nat, Tame E (sendLoop E ac ssn snd msg fuel) := by
  intro fuel
  induction fuel with
  | zero =>
    rw [sendLoop]
    exact tame_bind (tame_senderSend snd msg) fun r => tame_ite _ (tame_pure _) tame_stuck
  | succ k ih =>
    rw [sendLoop]
    refine tame_bind (tame_senderSend snd msg) fun r => tame_ite _ (tame_pure _) ?_
    exact tame_bind (tame_waitSnd E ac hac ssn snd) fun _ => ih

theorem tame_awaitOutput (E : Env) (ac : M Unit) (hac : Tame E ac) (ssn snd : Nat) :
    Tame E (awaitOutput E ac ssn snd) := by
  unfold awaitOutput
  refine tame_bind (tame_modify fun _ => ⟨rfl, rfl, rfl⟩) fun _ => ?_
  refine tame_bind tame_wakeupDriver fun _ => tame_bind (tame_waitSnd E ac hac ssn snd) fun _ => ?_
  exact tame_modify fun _ => ⟨rfl, rfl, rfl⟩

theorem tame_sendStart (E : Env) (ac : M Unit) (hac : Tame E ac) (fuel ssn snd : Nat)
    (msg : Message) : Tame E (sendStart E ac fuel ssn snd msg) := by
  unfold sendStart
  refine tame_bind (tame_checkClosedSsn ac hac ssn) fun _ => ?_
  refine tame_bind (tame_loop (tame_test _) (tame_awaitOutput E ac hac ssn snd) fuel) fun _ => ?_
  refine tame_bind (tame_sendLoop E ac hac ssn snd msg fuel) fun d => ?_
  exact tame_bind tame_wakeupDriver fun _ => tame_pure _

theorem tame_sendConfirm (E : Env) (ac : M Unit) (hac : Tame E ac) (fuel ssn snd d : Nat) :
    Tame E (sendConfirm E ac fuel ssn snd d) := by
  unfold sendConfirm
  refine tame_bind (tame_loop (tame_test _) (tame_waitSnd E ac hac ssn snd) fuel) fun _ => ?_
  exact tame_bind tame_getState fun s => tame_when _ (tame_raise _)

theorem tame_sendWith (E : Env) (ac : M Unit) (hac : Tame E ac) (fuel ssn snd : Nat)
    (msg : Message) (sync : Bool) : Tame E (sendWith E ac fuel ssn snd msg sync) := by
  unfold sendWith
  refine tame_bind (tame_sendStart E ac hac fuel ssn snd msg) fun d => ?_
  split
  · exact tame_sendConfirm E ac hac fuel ssn snd _
  · exact tame_pure _

theorem tame_attachSenderWith (E : Env) (ac : M Unit) (hac : Tame E ac) (fuel ssn lnk : Nat) :
    Tame E (attachSenderWith E ac fuel ssn lnk) := by
  unfold attachSenderWith
  refine tame_bind tame_getState fun s =>
    tame_bind (tame_attachLink E ac hac fuel ssn _ _) fun _ => ?_
  refine tame_bind (tame_checkClosedSnd ac hac ssn lnk) fun _ => ?_
  exact tame_bind tame_getState fun s => tame_verify E _

theorem tame_attachReceiverWith (E : Env) (ac : M Unit) (hac : Tame E ac) (fuel ssn lnk : Nat) :
    Tame E (attachReceiverWith E ac fuel ssn lnk) := by
  unfold attachReceiverWith
  refine tame_bind tame_getState fun s =>
    tame_bind (tame_attachLink E ac hac fuel ssn _ _) fun _ => ?_
  refine tame_bind (tame_checkClosedRcv ac hac ssn lnk) fun _ => ?_
  exact tame_bind tame_getState fun s => tame_verify E _

theorem tame_detachLink (E : Env) (ac : M Unit) (hac : Tame E ac) (fuel ssn : Nat)
    (link : M Nat) (hl : Tame E link) : Tame E (detachLink E ac fuel ssn link) := by
  unfold detachLink
  refine tame_bind hl fun l => tame_bind tame_getState fun s => ?_
  refine tame_bind (tame_when _ (tame_onEngine _)) fun _ => tame_bind tame_wakeupDriver fun _ => ?_
  exact tame_loop (tame_bind hl fun l => tame_test _) (tame_waitSsn E ac hac ssn) fuel

theorem tame_detachSenderWith (E : Env) (ac : M Unit) (hac : Tame E ac) (fuel ssn lnk : Nat) :
    Tame E (detachSenderWith E ac fuel ssn lnk) := by
  unfold detachSenderWith
  refine tame_bind (tame_detachLink E ac hac fuel ssn _
    (tame_bind tame_getState fun _ => tame_pure _)) fun _ => ?_
  exact tame_modify fun _ => ⟨rfl, rfl, rfl⟩

theorem tame_detachReceiverWith (E : Env) (ac : M Unit) (hac : Tame E ac) (fuel ssn lnk : Nat) :
    Tame E (detachReceiverWith E ac fuel ssn lnk) := by
  unfold detachReceiverWith
  refine tame_bind (tame_drain_and_release_messages E ac hac fuel ssn lnk) fun _ => ?_
  refine tame_bind (tame_detachLink E ac hac fuel ssn _
    (tame_bind tame_getState fun _ => tame_pure _)) fun _ => ?_
  exact tame_modify fun _ => ⟨rfl, rfl, rfl⟩

theorem tame_requireDisconnected {E : Env} : Tame E requireDisconnected := by
  unfold requireDisconnected
  refine tame_bind tame_getState fun s => tame_bind (tame_when _ (tame_raise _)) fun _ => ?_
  exact tame_when _ (tame_modify fun _ => ⟨rfl, rfl, rfl⟩)

theorem tame_reconnectUrl (E : Env) (fuel : Nat) (url : Url) : Tame E (reconnectUrl E fuel url) := by
  unfold reconnectUrl
  refine tame_bind tame_requireDisconnected fun _ => tame_bind tame_reset fun _ => ?_
  refine tame_bind (tame_tryConnectUrl E _ (tame_autoconnect E fuel) fuel url) fun c => ?_
  exact tame_when _ (by unfold throwConnectFail; exact tame_raise _)

theorem tame_open (E : Env) (fuel : Nat) : Tame E (ConnectionContext.open E fuel) := by
  unfold ConnectionContext.open
  exact tame_bind tame_requireDisconnected fun _ => tame_autoconnect E fuel

end ConnectionContext

namespace ConnectionContext

theorem linked_snoc (d : Bool) (c : ConnectionState) :
    ∀ (h : List Change) (a b : ConnectionState), Linked a h b → Linked a (h ++ [⟨d, b, c⟩]) c := by
  intro h
  induction h with
  | nil =>
    intro a b hl
    simp only [Linked] at hl
    subst hl
    exact ⟨rfl, rfl⟩
  | cons x rest ih =>
    intro a b hl
    exact ⟨hl.1, ih _ _ hl.2⟩

/-- The changes of a run follow one another from the state at its start to the
state at its end. -/
theorem Run.linked {E : Env} {s t : ConnectionContext} {h : List Change} (r : Run E s h t) :
    Linked s.io.state h t.io.state := by
  induction r with
  | start => exact rfl
  | own _ e1 _ _ ih => rw [e1]; exact ih
  | connecting _ e1 _ _ ih => rw [e1]; exact linked_snoc _ _ _ _ _ ih
  | refused _ e0 e1 _ _ ih => rw [e1]; rw [e0] at ih; exact linked_snoc _ _ _ _ _ ih
  | wait _ _ _ _ ih => exact linked_snoc _ _ _ _ _ ih

/-- The changes the calling thread makes in a run are assignments of `CONNECTING`,
or of `DISCONNECTED` in state `CONNECTING`. -/
theorem Run.byDriver {E : Env} {s t : ConnectionContext} {h : List Change} (r : Run E s h t) :
    ∀ c ∈ h, c.byDriver = true →
      c.after = .CONNECTING ∨ (c.before = .CONNECTING ∧ c.after = .DISCONNECTED) := by
  induction r with
  | start => intro c hc; simp at hc
  | own _ _ _ _ ih => exact ih
  | connecting _ _ _ _ ih =>
    intro c hc hd
    rcases List.mem_append.mp hc with hc | hc
    · exact ih c hc hd
    · rw [List.mem_singleton] at hc
      subst hc
      exact Or.inl rfl
  | refused _ _ _ _ _ ih =>
    intro c hc hd
    rcases List.mem_append.mp hc with hc | hc
    · exact ih c hc hd
    · rw [List.mem_singleton] at hc
      subst hc
      exact Or.inr ⟨rfl, rfl⟩
  | wait _ _ _ _ ih =>
    intro c hc hd
    rcases List.mem_append.mp hc with hc | hc
    · exact ih c hc hd
    · rw [List.mem_singleton] at hc
      subst hc
      simp at hd

/-- The other changes of a run are what the I/O thread made of the shared state
in a wait. -/
theorem Run.byTransport {E : Env} {s t : ConnectionContext} {h : List Change}
    (r : Run E s h t) :
    ∀ c ∈ h, c.byDriver = false → ∃ k w, w.state = c.before ∧ (E.wake k w).state = c.after := by
  induction r with
  | start => intro c hc; simp at hc
  | own _ _ _ _ ih => exact ih
  | connecting _ _ _ _ ih =>
    intro c hc hd
    rcases List.mem_append.mp hc with hc | hc
    · exact ih c hc hd
    · rw [List.mem_singleton] at hc
      subst hc
      simp at hd
  | refused _ _ _ _ _ ih =>
    intro c hc hd
    rcases List.mem_append.mp hc with hc | hc
    · exact ih c hc hd
    · rw [List.mem_singleton] at hc
      subst hc
      simp at hd
  | wait _ e1 _ _ ih =>
    intro c hc hd
    rcases List.mem_append.mp hc with hc | hc
    · exact ih c hc hd
    · rw [List.mem_singleton] at hc
      subst hc
      exact ⟨_, _, rfl, (congrArg World.state e1).symm⟩

/-- The changes of a run are as many as the waits and the transport connects made
in it: one change by the I/O thread for each wait, one assignment of
`CONNECTING` for each transport connect. -/
theorem Run.counted {E : Env} {s t : ConnectionContext} {h : List Change} (r : Run E s h t) :
    t.waits = s.waits + (h.filter fun c => !c.byDriver).length
      ∧ t.connects = s.connects
          + (h.filter fun c => c.byDriver && decide (c.after = .CONNECTING)).length := by
  induction r with
  | start => exact ⟨rfl, rfl⟩
  | own _ _ e2 e3 ih => exact ⟨e2.trans ih.1, e3.trans ih.2⟩
  | connecting _ _ e2 e3 ih =>
    refine ⟨?_, ?_⟩
    · rw [e2, ih.1]; simp
    · rw [e3, ih.2]; simp; omega
  | refused _ _ _ e2 e3 ih =>
    refine ⟨?_, ?_⟩
    · rw [e2, ih.1]; simp
    · rw [e3, ih.2]; simp
  | wait _ _ e2 e3 ih =>
    refine ⟨?_, ?_⟩
    · rw [e2, ih.1]; simp; omega
    · rw [e3, ih.2]; simp

/-- With a transport that keeps to its callbacks, each change of a run is along an
edge that the code has. -/
theorem Run.edges {E : Env} (hE : Callbacks E) {s t : ConnectionContext} {h : List Change}
    (r : Run E s h t) : ∀ c ∈ h, c.before ≠ c.after → CodeEdge c.before c.after := by
  intro c hc hne
  cases hd : c.byDriver with
  | true =>
    rcases r.byDriver c hc hd with h1 | ⟨h1, h2⟩
    · rw [h1] at hne ⊢
      cases hb : c.before with
      | DISCONNECTED => exact Or.inl (Or.inl (Or.inl ⟨rfl, rfl⟩))
      | CONNECTING => exact absurd hb hne
      | CONNECTED => exact Or.inr ⟨rfl, rfl⟩
    · rw [h1, h2]
      exact Or.inl (Or.inr ⟨rfl, rfl⟩)
  | false =>
    obtain ⟨k, w, hw1, hw2⟩ := r.byTransport c hc hd
    rcases hE k w with h1 | ⟨h1, h2⟩ | ⟨h1, h2⟩
    · exact absurd (hw1.symm.trans (h1.symm.trans hw2)) hne
    · rw [← hw1, ← hw2, h1, h2]
      exact Or.inl (Or.inl (Or.inr (Or.inl ⟨rfl, rfl⟩)))
    · rw [← hw1, ← hw2, h2]
      cases hs : w.state with
      | DISCONNECTED => exact absurd hs h1
      | CONNECTING => exact Or.inl (Or.inr ⟨rfl, rfl⟩)
      | CONNECTED => exact Or.inl (Or.inl (Or.inr (Or.inr ⟨rfl, rfl⟩)))

/-- Every execution of an operation of the connection, or of a member function
that connects, is a run. -/
theorem tame_operation (E : Env) (fuel : Nat) (s : ConnectionContext) (op : Operation) :
    ∃ h, Run E s h (op.final E fuel s) := by
  cases op with
  | openConn => exact tame_open E fuel s
  | reconnect url => exact tame_reconnectUrl E fuel url s
  | close => exact tame_closeWith E _ (tame_autoconnect E fuel) fuel s
  | newSession transactional name =>
    exact tame_newSessionWith E _ (tame_autoconnect E fuel) fuel transactional name s
  | endSession ssn => exact tame_endSessionWith E _ (tame_autoconnect E fuel) fuel ssn s
  | attachSender ssn lnk =>
    exact tame_attachSenderWith E _ (tame_autoconnect E fuel) fuel ssn lnk s
  | attachReceiver ssn lnk =>
    exact tame_attachReceiverWith E _ (tame_autoconnect E fuel) fuel ssn lnk s
  | detachSender ssn lnk =>
    exact tame_detachSenderWith E _ (tame_autoconnect E fuel) fuel ssn lnk s
  | detachReceiver ssn lnk =>
    exact tame_detachReceiverWith E _ (tame_autoconnect E fuel) fuel ssn lnk s
  | send ssn sender msg synchronous =>
    exact tame_sendWith E _ (tame_autoconnect E fuel) fuel ssn sender msg synchronous s
  | fetch ssn lnk timeout =>
    exact tame_fetchWith E _ (tame_autoconnect E fuel) fuel ssn lnk timeout s
  | sync ssn => exact tame_syncWith E _ (tame_autoconnect E fuel) fuel ssn s
  | get ssn lnk timeout => exact tame_get E _ (tame_autoconnect E fuel) fuel ssn lnk timeout s
  | autoconnect => exact tame_autoconnect E fuel s
  | tryConnectUrl url => exact tame_tryConnectUrl E _ (tame_autoconnect E fuel) fuel url s
  | tryConnectAddr address => exact tame_tryConnectAddr E fuel address s

end ConnectionContext

/-! ## C14: the codec functions leave the connection state alone -/

namespace Codec

theorem call_state {x : ConnectionState} (y : CodecCall) :
    CodecM.Preserves (fun c => c.state = x) (call y) := fun _ h => h

theorem checkTransportError_state {x : ConnectionState} (E : Wire) :
    CodecM.Preserves (fun c => c.state = x) (checkTransportError E) := fun _ h => h

theorem pn_transport_input_state {x : ConnectionState} (E : Wire) (size : Nat) :
    CodecM.Preserves (fun c => c.state = x) (pn_transport_input E size) := fun _ h => h

theorem pn_transport_output_state {x : ConnectionState} (E : Wire) (size : Nat) :
    CodecM.Preserves (fun c => c.state = x) (pn_transport_output E size) := fun _ h => h

theorem readProtocolHeader_state {x : ConnectionState} (E : Wire) (size : Nat) :
    CodecM.Preserves (fun c => c.state = x) (readProtocolHeader E size) := by
  unfold readProtocolHeader
  refine CodecM.preserves_ite _ ?_ (CodecM.preserves_pure _ _)
  exact CodecM.preserves_bind (CodecM.preserves_modify fun _ h => h) fun _ =>
    CodecM.preserves_bind (call_state _) fun _ => CodecM.preserves_pure _ _

theorem writeProtocolHeader_state {x : ConnectionState} (E : Wire) (size : Nat) :
    CodecM.Preserves (fun c => c.state = x) (writeProtocolHeader E size) := by
  unfold writeProtocolHeader
  refine CodecM.preserves_ite _ ?_ (CodecM.preserves_pure _ _)
  exact CodecM.preserves_bind (CodecM.preserves_modify fun _ h => h) fun _ =>
    CodecM.preserves_bind (call_state _) fun _ => CodecM.preserves_pure _ _

theorem decodeEngine_state {x : ConnectionState} (E : Wire) (size : Nat) :
    CodecM.Preserves (fun c => c.state = x) (decodeEngine E size) := by
  unfold decodeEngine
  refine CodecM.preserves_bind (pn_transport_input_state E size) fun n => ?_
  refine CodecM.preserves_ite _ ?_ ?_
  · refine CodecM.preserves_bind
      (CodecM.preserves_ite _ (checkTransportError_state E) (CodecM.preserves_pure _ _))
      fun failed => ?_
    refine CodecM.preserves_ite _ ?_ ?_
    · exact CodecM.preserves_bind (call_state _)
        fun _ => CodecM.preserves_pure _ _
    · exact CodecM.preserves_bind (call_state _) fun _ =>
        CodecM.preserves_bind (call_state _)
          fun _ => CodecM.preserves_pure _ _
  · refine CodecM.preserves_ite _ ?_ (CodecM.preserves_pure _ _)
    exact CodecM.preserves_bind (checkTransportError_state E) fun _ =>
      CodecM.preserves_bind (call_state _)
        fun _ => CodecM.preserves_pure _ _

theorem encodeEngine_state {x : ConnectionState} (E : Wire) (size : Nat) :
    CodecM.Preserves (fun c => c.state = x) (encodeEngine E size) := by
  unfold encodeEngine
  refine CodecM.preserves_bind (pn_transport_output_state E size) fun n => ?_
  refine CodecM.preserves_ite _ ?_ ?_
  · refine CodecM.preserves_bind
      (CodecM.preserves_modify fun c h => h) fun _ => ?_
    refine CodecM.preserves_bind (CodecM.preserves_get _) fun c => ?_
    exact CodecM.preserves_bind
      (CodecM.preserves_ite _ (call_state _) (CodecM.preserves_pure _ _))
      fun _ => CodecM.preserves_pure _ _
  · refine CodecM.preserves_ite _ ?_ ?_
    · exact CodecM.preserves_bind (checkTransportError_state E) fun _ =>
        CodecM.preserves_bind (call_state _)
          fun _ => CodecM.preserves_pure _ _
    · refine CodecM.preserves_ite _ ?_ ?_
      · refine CodecM.preserves_bind
          (CodecM.preserves_modify fun c h => h) fun _ => ?_
        refine CodecM.preserves_bind (checkTransportError_state E) fun failed => ?_
        exact CodecM.preserves_bind
          (CodecM.preserves_ite _ (call_state _)
            (CodecM.preserves_pure _ _))
          fun _ => CodecM.preserves_pure _ _
      · exact CodecM.preserves_bind
          (CodecM.preserves_modify fun c h => h)
          fun _ => CodecM.preserves_pure _ _

theorem transportClose_state {x : ConnectionState} : CodecM.Preserves (fun c => c.state = x) transportClose :=
  call_state _

theorem fed_state {x : ConnectionState} {plain : Nat → CodecM Nat}
    (hp : ∀ size, CodecM.Preserves (fun c => c.state = x) (plain size)) (chunks : List Nat) :
    CodecM.Preserves (fun c => c.state = x)
      (CodecM.forEach (fun chunk => do let _ ← plain chunk; pure ()) chunks) :=
  CodecM.preserves_forEach
    (fun chunk => CodecM.preserves_bind (hp chunk) fun _ => CodecM.preserves_pure _ _) chunks

theorem decodeSasl_state {x : ConnectionState} (E : Wire) (size : Nat) :
    CodecM.Preserves (fun c => c.state = x) (decodeSasl E size) := by
  intro c h
  unfold decodeSasl
  cases hs : c.sasl with
  | none => exact h
  | some a =>
    simp only
    by_cases ha : E.authenticated a = true
    · simp only [ha, if_true]; exact h
    · simp only [ha]
      have hk := call_state (.saslDecode size) c h
      cases E.saslDecode a size with
      | error e => exact hk
      | ok r => exact hk

theorem layerDecode_state {x : ConnectionState} (E : Wire) {plain : Nat → CodecM Nat}
    (hp : ∀ size, CodecM.Preserves (fun c => c.state = x) (plain size)) (a size : Nat) :
    CodecM.Preserves (fun c => c.state = x) (layerDecode E plain a size) := by
  unfold layerDecode
  refine CodecM.preserves_bind (call_state _)
    fun _ => ?_
  refine CodecM.preserves_bind (fed_state hp _) fun _ => ?_
  cases (E.layerDecode a size).2 with
  | error e => exact CodecM.preserves_raise _ _
  | ok r =>
    exact CodecM.preserves_bind (CodecM.preserves_modify fun c h => h)
      fun _ => CodecM.preserves_pure _ _

theorem decodeRest_state {x : ConnectionState} (E : Wire) {plain : Nat → CodecM Nat}
    (hp : ∀ size, CodecM.Preserves (fun c => c.state = x) (plain size)) (size : Nat) :
    CodecM.Preserves (fun c => c.state = x) (decodeRest E plain size) := by
  unfold decodeRest
  refine CodecM.preserves_bind (CodecM.preserves_get _) fun c => ?_
  cases c.sasl with
  | none => exact hp size
  | some a => exact CodecM.preserves_ite _ (layerDecode_state E hp a size) (hp size)

theorem decodeWith_state {x : ConnectionState} (E : Wire) {plain : Nat → CodecM Nat}
    (hp : ∀ size, CodecM.Preserves (fun c => c.state = x) (plain size)) (size : Nat) :
    CodecM.Preserves (fun c => c.state = x) (decodeWith E plain size) := by
  unfold decodeWith
  refine CodecM.preserves_bind
    (CodecM.preserves_tryCatch (decodeSasl_state E size) fun _ =>
      CodecM.preserves_bind transportClose_state fun _ => CodecM.preserves_pure _ _)
    fun first => ?_
  refine CodecM.preserves_ite _ (CodecM.preserves_pure _ _) ?_
  refine CodecM.preserves_ite _ ?_ (CodecM.preserves_pure _ _)
  refine CodecM.preserves_tryCatch ?_ fun _ =>
    CodecM.preserves_bind transportClose_state fun _ => CodecM.preserves_pure _ _
  exact CodecM.preserves_bind (decodeRest_state E hp _) fun _ => CodecM.preserves_pure _ _

theorem encodeSaslCan_state {x : ConnectionState} (E : Wire) : CodecM.Preserves (fun c => c.state = x) (encodeSaslCan E) := by
  intro c h
  unfold encodeSaslCan
  cases hs : c.sasl with
  | none => exact h
  | some a =>
    simp only
    have hk := call_state .saslCanEncode c h
    cases E.saslCanEncode a with
    | error e => exact hk
    | ok r => exact hk

theorem encodeSasl_state {x : ConnectionState} (E : Wire) (size : Nat) :
    CodecM.Preserves (fun c => c.state = x) (encodeSasl E size) := by
  intro c h
  unfold encodeSasl
  cases hs : c.sasl with
  | none => exact h
  | some a =>
    simp only
    have hk := call_state (.saslEncode size) c h
    cases E.saslEncode a size with
    | error e => exact hk
    | ok r => exact hk

theorem layerEncode_state {x : ConnectionState} (E : Wire) {plain : Nat → CodecM Nat}
    (hp : ∀ size, CodecM.Preserves (fun c => c.state = x) (plain size)) (a size : Nat) :
    CodecM.Preserves (fun c => c.state = x) (layerEncode E plain a size) := by
  unfold layerEncode
  refine CodecM.preserves_bind (call_state _)
    fun _ => ?_
  refine CodecM.preserves_bind (fed_state hp _) fun _ => ?_
  cases (E.layerEncode a size).2 with
  | error e => exact CodecM.preserves_raise _ _
  | ok r =>
    exact CodecM.preserves_bind (CodecM.preserves_modify fun c h => h)
      fun _ => CodecM.preserves_pure _ _

theorem encodeRest_state {x : ConnectionState} (E : Wire) {plain : Nat → CodecM Nat}
    (hp : ∀ size, CodecM.Preserves (fun c => c.state = x) (plain size)) (size : Nat) :
    CodecM.Preserves (fun c => c.state = x) (encodeRest E plain size) := by
  unfold encodeRest
  refine CodecM.preserves_bind (CodecM.preserves_get _) fun c => ?_
  cases c.sasl with
  | none => exact hp size
  | some a => exact CodecM.preserves_ite _ (layerEncode_state E hp a size) (hp size)

theorem encodeWith_state {x : ConnectionState} (E : Wire) {plain : Nat → CodecM Nat}
    (hp : ∀ size, CodecM.Preserves (fun c => c.state = x) (plain size)) (size : Nat) :
    CodecM.Preserves (fun c => c.state = x) (encodeWith E plain size) := by
  unfold encodeWith
  refine CodecM.preserves_bind
    (CodecM.preserves_tryCatch
      (CodecM.preserves_bind (encodeSaslCan_state E) fun can => by
        cases can
        · exact CodecM.preserves_pure _ _
        · exact encodeSasl_state E size)
      fun _ => CodecM.preserves_bind transportClose_state fun _ => CodecM.preserves_pure _ _)
    fun first => ?_
  refine CodecM.preserves_ite _ (CodecM.preserves_pure _ _) ?_
  refine CodecM.preserves_ite _ ?_ (CodecM.preserves_pure _ _)
  refine CodecM.preserves_tryCatch ?_ fun _ =>
    CodecM.preserves_bind transportClose_state fun _ => CodecM.preserves_pure _ _
  exact CodecM.preserves_bind (encodeRest_state E hp _) fun _ => CodecM.preserves_pure _ _

theorem canEncodePlain_state {x : ConnectionState} : CodecM.Preserves (fun c => c.state = x) canEncodePlain := by
  unfold canEncodePlain
  exact CodecM.preserves_bind (call_state _) fun _ =>
    CodecM.preserves_bind (CodecM.preserves_get _) fun _ => CodecM.preserves_pure _ _

theorem canEncodeSasl_state {x : ConnectionState} (E : Wire) (a : Nat) :
    CodecM.Preserves (fun c => c.state = x) (canEncodeSasl E a) := by
  unfold canEncodeSasl
  refine CodecM.preserves_bind (call_state _) fun _ => ?_
  cases E.saslCanEncode a with
  | error e => exact CodecM.preserves_raise _ _
  | ok can =>
    cases can with
    | true => exact CodecM.preserves_pure _ _
    | false =>
      simp only
      refine CodecM.preserves_ite _ (CodecM.preserves_pure _ _) ?_
      refine CodecM.preserves_ite _ ?_ (CodecM.preserves_pure _ _)
      refine CodecM.preserves_bind (call_state _) fun _ => ?_
      refine CodecM.preserves_bind
        (CodecM.preserves_ite _
          (CodecM.preserves_bind canEncodePlain_state fun _ => CodecM.preserves_pure _ _)
          (CodecM.preserves_pure _ _)) fun _ => ?_
      cases (E.layerCanEncode a).2 with
      | error e => exact CodecM.preserves_raise _ _
      | ok r => exact CodecM.preserves_pure _ _

theorem canEncode_state {x : ConnectionState} (E : Wire) : CodecM.Preserves (fun c => c.state = x) (canEncode E) := by
  unfold canEncode
  refine CodecM.preserves_bind (CodecM.preserves_get _) fun c => ?_
  refine CodecM.preserves_bind ?_ fun answer => ?_
  · cases c.sasl with
    | none => exact CodecM.preserves_pure _ _
    | some a =>
      exact CodecM.preserves_tryCatch (canEncodeSasl_state E a) fun _ =>
        CodecM.preserves_bind transportClose_state fun _ => CodecM.preserves_pure _ _
  · cases answer with
    | none => exact canEncodePlain_state
    | some r => exact CodecM.preserves_pure _ _

theorem decodePlainWith_state {x : ConnectionState} (E : Wire) {decode : Nat → CodecM Nat}
    (hd : ∀ size, CodecM.Preserves (fun c => c.state = x) (decode size)) (size : Nat) :
    CodecM.Preserves (fun c => c.state = x) (decodePlainWith E decode size) := by
  unfold decodePlainWith
  refine CodecM.preserves_bind (CodecM.preserves_get _) fun c => ?_
  refine CodecM.preserves_ite _ ?_ (decodeEngine_state E size)
  refine CodecM.preserves_bind (readProtocolHeader_state E size) fun decoded => ?_
  exact CodecM.preserves_ite _
    (CodecM.preserves_bind (hd _) fun _ => CodecM.preserves_pure _ _) (CodecM.preserves_pure _ _)

theorem encodePlainWith_state {x : ConnectionState} (E : Wire) {encode : Nat → CodecM Nat}
    (he : ∀ size, CodecM.Preserves (fun c => c.state = x) (encode size)) (size : Nat) :
    CodecM.Preserves (fun c => c.state = x) (encodePlainWith E encode size) := by
  unfold encodePlainWith
  refine CodecM.preserves_bind (CodecM.preserves_get _) fun c => ?_
  refine CodecM.preserves_ite _ ?_ (encodeEngine_state E size)
  refine CodecM.preserves_bind (writeProtocolHeader_state E size) fun encoded => ?_
  exact CodecM.preserves_ite _
    (CodecM.preserves_bind (he _) fun _ => CodecM.preserves_pure _ _) (CodecM.preserves_pure _ _)

theorem decodePlain_state {x : ConnectionState} (E : Wire) :
    ∀ (fuel size : Nat), CodecM.Preserves (fun c => c.state = x) (decodePlain E fuel size) := by
  intro fuel
  induction fuel with
  | zero =>
    intro size
    rw [decodePlain]
    exact decodePlainWith_state E (fun _ => CodecM.preserves_stuck _) size
  | succ k ih =>
    intro size
    rw [decodePlain]
    exact decodePlainWith_state E (fun n => decodeWith_state E ih n) size

theorem encodePlain_state {x : ConnectionState} (E : Wire) :
    ∀ (fuel size : Nat), CodecM.Preserves (fun c => c.state = x) (encodePlain E fuel size) := by
  intro fuel
  induction fuel with
  | zero =>
    intro size
    rw [encodePlain]
    exact encodePlainWith_state E (fun _ => CodecM.preserves_stuck _) size
  | succ k ih =>
    intro size
    rw [encodePlain]
    exact encodePlainWith_state E (fun n => encodeWith_state E ih n) size

/-- The codec functions, which the I/O thread calls for the bytes of the
connection, leave the connection state as it is. -/
theorem codec_leaves_state (E : Wire) (fuel size : Nat) (c : Codec) :
    (decode E fuel size c).2.state = c.state ∧ (encode E fuel size c).2.state = c.state
      ∧ (canEncode E c).2.state = c.state :=
  ⟨decodeWith_state E (decodePlain_state E fuel) size c rfl,
    encodeWith_state E (encodePlain_state E fuel) size c rfl, canEncode_state E c rfl⟩

end Codec

/-- A transport whose waits are those of the peer `obliging` keeps to its
callbacks: it calls `opened()` for a connect in progress, and `closed()` once
the connection is closed on both sides. -/
theorem Example.obliging_callbacks (E : Env) (hw : E.wake = Example.obliging.wake) :
    ConnectionContext.Callbacks E := by
  intro k w
  rw [hw]
  have e : (Example.obliging.wake k w).state
      = (if w.state = .CONNECTING then (ConnectionContext.opened w).state
          else if w.engine.conn.loc = .CLOSED ∧ w.engine.conn.rem = .CLOSED then
            (ConnectionContext.closed w).state
          else w.state) := rfl
  rw [e]
  by_cases h1 : w.state = .CONNECTING
  · rw [if_pos h1]
    exact Or.inr (Or.inl ⟨h1, rfl⟩)
  · rw [if_neg h1]
    by_cases h2 : w.engine.conn.loc = .CLOSED ∧ w.engine.conn.rem = .CLOSED
    · rw [if_pos h2]
      by_cases h3 : w.state = .DISCONNECTED
      · exact Or.inl (by rw [h3]; rfl)
      · exact Or.inr (Or.inr ⟨h3, rfl⟩)
    · rw [if_neg h2]
      exact Or.inl rfl

/-- C14, as the code has it.  In every execution of an operation of the connection
or of a member function that connects (`autoconnect`, `tryConnectUrl`,
`tryConnectAddr`), whatever the transport and the peer do and in whatever state
it is called, the run from the state at the call to the state at the end has a
history of the changes of the connection state, following one another from the
first state to the last, in which: each change made by the calling thread is an
assignment of
`CONNECTING` (by `tryConnectAddr`, in any state), or the assignment of
`DISCONNECTED` in state `CONNECTING` (by the handler of `tryConnectAddr`); each
other change is what the I/O thread made of the shared state during a wait;
there is one change of the I/O thread for each wait and one assignment of
`CONNECTING` for each transport connect.  With a transport that calls
`opened()` only for a connect in progress and `closed()` only for a connection
made or in progress, each change of the state is then one of
`DISCONNECTED → CONNECTING`, `CONNECTING → CONNECTED`, `CONNECTED → DISCONNECTED`,
`CONNECTING → DISCONNECTED` and `CONNECTED → CONNECTING` (these are the edges of
the specification and two more), and so never from `DISCONNECTED` to
`CONNECTED`, which is not among them.  The assignments themselves are
unconditional: `tryConnectAddr` sets `CONNECTING` before it connects, `opened()`
sets `CONNECTED` and `closed()` sets `DISCONNECTED`, whatever the state.  The
codec functions `decode`, `encode` and `canEncode`, which the I/O thread calls
as well, leave the state as it is. -/
theorem state_changes_along_code_edges (E : Env) (fuel : Nat) (s : ConnectionContext)
    (op : ConnectionContext.Operation) :
    (∃ h, ConnectionContext.Run E s h (op.final E fuel s)
      ∧ ConnectionContext.Linked s.io.state h (op.final E fuel s).io.state
      ∧ (∀ c ∈ h, c.byDriver = true →
          c.after = .CONNECTING ∨ (c.before = .CONNECTING ∧ c.after = .DISCONNECTED))
      ∧ (∀ c ∈ h, c.byDriver = false →
          ∃ k w, w.state = c.before ∧ (E.wake k w).state = c.after)
      ∧ (op.final E fuel s).waits = s.waits + (h.filter fun c => !c.byDriver).length
      ∧ (op.final E fuel s).connects = s.connects
          + (h.filter fun c => c.byDriver && decide (c.after = .CONNECTING)).length
      ∧ (ConnectionContext.Callbacks E →
          ∀ c ∈ h, c.before ≠ c.after → ConnectionContext.CodeEdge c.before c.after))
    ∧ (∀ (a : Address) (u : ConnectionContext),
        (ConnectionContext.prepareConnect a u).1 = .ret ()
          ∧ (ConnectionContext.prepareConnect a u).2.io.state = .CONNECTING)
    ∧ (∀ w : World, (ConnectionContext.opened w).state = .CONNECTED
        ∧ (ConnectionContext.closed w).state = .DISCONNECTED)
    ∧ ¬ ConnectionContext.CodeEdge .DISCONNECTED .CONNECTED
    ∧ (∀ a b, ConnectionContext.SpecEdge a b → ConnectionContext.CodeEdge a b)
    ∧ (∀ (W : Wire) (k size : Nat) (c : Codec),
        (Codec.decode W k size c).2.state = c.state
          ∧ (Codec.encode W k size c).2.state = c.state
          ∧ (Codec.canEncode W c).2.state = c.state) := by
  refine ⟨?_, ?_, fun w => ⟨rfl, rfl⟩, by decide, fun a b h => Or.inl (Or.inl h),
    fun W k size c => Codec.codec_leaves_state W k size c⟩
  · obtain ⟨h, r⟩ := ConnectionContext.tame_operation E fuel s op
    exact ⟨h, r, r.linked, r.byDriver, r.byTransport, r.counted.1, r.counted.2,
      fun hE => r.edges hE⟩
  · intro a u
    unfold ConnectionContext.prepareConnect
    simp only [M.bind_apply, M.modify_apply, M.get_apply, M.when_apply]
    by_cases hu : ConnectionContext.useSasl
        { u with transport := some a, id := ConnectionContext.Address.str a } = true
    · rw [if_pos hu]
      exact ⟨rfl, rfl⟩
    · rw [if_neg hu]
      exact ⟨rfl, rfl⟩

/-- Witness of the amended C14: `reconnect(url)` to two addresses on a lost
connection whose peer accepts the connection but whose links are found lost.
The handshake at the first address returns `false` with the state `CONNECTED`;
the attempt at the second address then sets `CONNECTING`: a change along
`CONNECTED → CONNECTING`.  The transport keeps to its callbacks, so each
change of the state during the call is along an edge of the code; two
transport connects are made; the call throws and leaves the state
`CONNECTED`. -/
theorem state_changes_along_code_edges_witness :
    ConnectionContext.Callbacks Example.unverified
    ∧ (∃ h, ConnectionContext.Run Example.unverified Example.lost h
          (ConnectionContext.Operation.final Example.unverified 3 Example.lost
            (.reconnect Example.url2))
        ∧ (∀ c ∈ h, c.before ≠ c.after → ConnectionContext.CodeEdge c.before c.after)
        ∧ (h.filter fun c => c.byDriver && decide (c.after = .CONNECTING)).length = 2)
    ∧ ((ConnectionContext.tryConnectAddr Example.unverified 3 Example.addr >>= fun _ =>
          ConnectionContext.tryOpenAddr Example.unverified (pure ()) 3 Example.addr)
        Example.lost).1 = .ret false
    ∧ ((ConnectionContext.tryConnectAddr Example.unverified 3 Example.addr >>= fun _ =>
          ConnectionContext.tryOpenAddr Example.unverified (pure ()) 3 Example.addr)
        Example.lost).2.io.state = .CONNECTED
    ∧ (ConnectionContext.prepareConnect Example.addr2
        ((ConnectionContext.tryConnectAddr Example.unverified 3 Example.addr >>= fun _ =>
          ConnectionContext.tryOpenAddr Example.unverified (pure ()) 3 Example.addr)
        Example.lost).2).2.io.state = .CONNECTING
    ∧ ¬ ConnectionContext.DriverEdge .CONNECTED .CONNECTING
    ∧ (ConnectionContext.reconnectUrl Example.unverified 3 Example.url2 Example.lost).1
        = .raise (.TransportFailure
            "Connect failed to localhost:5672,backup:5672: Failed to reconnect")
    ∧ (ConnectionContext.reconnectUrl Example.unverified 3 Example.url2
        Example.lost).2.io.state = .CONNECTED := by
  have hcb := Example.obliging_callbacks Example.unverified rfl
  obtain ⟨h, r, _, _, _, _, hc, he⟩ :=
    (state_changes_along_code_edges Example.unverified 3 Example.lost
      (.reconnect Example.url2)).1
  refine ⟨hcb, ⟨h, r, he hcb, ?_⟩, by decide, by decide, by decide, by decide, by decide,
    by decide⟩
  have h2 : (ConnectionContext.Operation.final Example.unverified 3 Example.lost
      (.reconnect Example.url2)).connects = Example.lost.connects + 2 := by decide
  omega

end qpid
